import Mathlib

/-!
# Volumetric_Clouds: the temporal rendering pipeline of `src/Init.cpp`

A shallow embedding of the jitter generator (`HaltonSequenceAt`, `Halton2D`), the uniform
resolver (`GetLocAny`, `Set*Any`), the render-target manager (`destroyTaaTargets`,
`ensureTaaTargets`) and the temporal composite stage (`renderTaaComposite`).

Modelling conventions.

* C++ `int` values are integers (`Int`); `GLuint` handles are naturals (`Nat`), `0` being the
  "no object" handle.
* C++ `float` values are rationals (`ℚ`).  The jitter generator (`F32.HaltonSequenceAt`,
  `F32.Halton2D`) and the key handlers of `processInput` compute in binary32: every conversion
  to `float` and every operation on `float`s is rounded by `f32`, and `float` literals such as
  `0.02f` are the binary32 numbers nearest to the decimals.  `HaltonSequenceAt` and `Halton2D`
  without the prefix are the same functions in the arithmetic of the rationals, the reference
  the binary32 functions are compared with.  Time stamps and camera positions are not rounded.
* The OpenGL server is observed through the list of commands the program issues (`GLCall`);
  what the driver answers (generated names, the completeness status, uniform locations) is an
  input of the operation that asks for it.
-/

namespace VolumetricClouds

/-! ## Single-precision arithmetic -/

/-- Rounds a rational number to the nearest integer; a tie goes to the even neighbour. -/
def roundEven (x : ℚ) : Int :=
  if x - ⌊x⌋ < 1 / 2 then ⌊x⌋
  else if 1 / 2 < x - ⌊x⌋ then ⌊x⌋ + 1
  else if ⌊x⌋ % 2 = 0 then ⌊x⌋ else ⌊x⌋ + 1

/-- The number of binary digits of `n`, by halving at most `fuel` times. -/
def bitLengthAux : Nat → Nat → Nat
  | 0, _ => 0
  | fuel + 1, n => if n = 0 then 0 else bitLengthAux fuel (n / 2) + 1

/-- The number of binary digits of `n` (`0` for `n = 0`). -/
def bitLength (n : Nat) : Nat := bitLengthAux n n

/-- The binary exponent of a rational `x ≠ 0`: the integer `e` with `2^e ≤ |x| < 2^(e+1)`. -/
def ilog2 (x : ℚ) : Int :=
  if (2 : ℚ) ^ ((bitLength x.num.natAbs : Int) - (bitLength x.den : Int)) ≤ |x| then
    (bitLength x.num.natAbs : Int) - (bitLength x.den : Int)
  else (bitLength x.num.natAbs : Int) - (bitLength x.den : Int) - 1

/-- Rounding to IEEE-754 binary32 (`float`), round-to-nearest with ties to even: `x` is scaled
by a power of two so that its magnitude lies in `[2^23, 2^24)`, rounded to an integer, and
scaled back, which keeps 24 significant binary digits.  The exponent range of binary32
(normal magnitudes from `2^-126` up to `2^128`) is not represented; for `int` arguments of the
jitter generator and for the values the key handlers reach, no number computed here leaves
it. -/
@[irreducible]
def f32 (x : ℚ) : ℚ :=
  if x = 0 then 0
  else (roundEven (x / 2 ^ (ilog2 x - 23)) : ℚ) * 2 ^ (ilog2 x - 23)

/-- The rational `x` is a binary32 number (exponent range apart): an integer of magnitude
below `2^24` times a power of two. -/
def isF32 (x : ℚ) : Prop := ∃ m e : Int, |m| < 2 ^ 24 ∧ x = (m : ℚ) * 2 ^ e

/-! ## Jitter generator -/

/-- The `while (index > 0)` loop of `Init::HaltonSequenceAt` in the arithmetic of the
rationals: no conversion and no operation rounds (the loop as the code runs it is
`F32.HaltonLoop`).  The loop variables `f`, `r` and `index` are arguments.  The first argument
bounds the number of iterations: the result is `none` when the loop is still running after
that many iterations, and also when an iteration would evaluate `index % base` with
`base = 0`.  `index % base` is the C++ remainder (`Int.tmod`), and
`int(std::floor(float(index) / float(base)))` is the floor of the quotient. -/
def HaltonLoop (base : Int) : Nat → ℚ → ℚ → Int → Option ℚ
  | 0, _, r, index => if index > 0 then none else some r
  | fuel + 1, f, r, index =>
    if index > 0 then
      if base = 0 then none
      else
        HaltonLoop base fuel (f / (base : ℚ))
          (r + f / (base : ℚ) * ((Int.tmod index base : Int) : ℚ))
          ⌊(index : ℚ) / (base : ℚ)⌋
    else some r

/-- The function `Init::HaltonSequenceAt(index, base)` in the arithmetic of the rationals:
`f = 1`, `r = 0`, then the loop.  The loop is given `index` iterations, which is enough
whenever it terminates (see `HaltonLoop_ofDigits`); `none` stands for a run that does not
return. -/
def HaltonSequenceAt (index base : Int) : Option ℚ :=
  HaltonLoop base index.toNat 1 0 index

/-- The function `Init::Halton2D(frameIndex)` in the arithmetic of the rationals and of the
unbounded integers: both axes at `frameIndex + 1`, shifted by `0.5`. -/
def Halton2D (frameIndex : Int) : Option (ℚ × ℚ) :=
  match HaltonSequenceAt (frameIndex + 1) 2, HaltonSequenceAt (frameIndex + 1) 3 with
  | some hx, some hy => some (hx - 1 / 2, hy - 1 / 2)
  | _, _ => none

/-- The base-`b` radical inverse of a digit list `d_0, d_1, ...` (least significant first), as
the specification words it: the sum over `k` of `d_k * b^-(k+1)`. -/
def radicalInverse (b : Nat) (ds : List Nat) : ℚ :=
  ∑ k in Finset.range ds.length, (ds.getD k 0 : ℚ) * ((b : ℚ) ^ (k + 1))⁻¹

/-- The number of times the body of the `while (index > 0)` loop of `Init::HaltonSequenceAt`
runs in the arithmetic of the rationals, from the value `index` of the loop variable.  As in
`HaltonLoop`, the first argument bounds the number of iterations, and the result is `none`
when the loop is still running after that many iterations or when an iteration would evaluate
`index % base` with `base = 0`. -/
def HaltonIterations (base : Int) : Nat → Int → Option Nat
  | 0, index => if index > 0 then none else some 0
  | fuel + 1, index =>
    if index > 0 then
      if base = 0 then none
      else (HaltonIterations base fuel ⌊(index : ℚ) / (base : ℚ)⌋).map (· + 1)
    else some 0

/-- Conversion to the 32-bit `int`: the value modulo `2^32` in `[-2^31, 2^31)`.  It is
applied where the code adds `int`s; an overflow of signed addition is taken to wrap. -/
@[irreducible]
def wrapInt32 (i : Int) : Int :=
  (i + 2 ^ 31) % 2 ^ 32 - 2 ^ 31

/-- The `while (index > 0)` loop of `Init::HaltonSequenceAt` in binary32 arithmetic, with the
loop variables `f`, `r` and `index` as arguments: `f = f / float(base)`,
`r += f * float(index % base)` and `index = int(std::floor(float(index) / float(base)))`, every
conversion to `float` and every operation on `float`s rounded by `f32`.  The first argument
bounds the number of iterations: the result is `none` when the loop is still running after
that many iterations, and also when an iteration would evaluate `index % base` with
`base = 0`. -/
def F32.HaltonLoop (base : Int) : Nat → ℚ → ℚ → Int → Option ℚ
  | 0, _, r, index => if index > 0 then none else some r
  | fuel + 1, f, r, index =>
    if index > 0 then
      if base = 0 then none
      else
        F32.HaltonLoop base fuel (f32 (f / f32 base))
          (f32 (r + f32 (f32 (f / f32 base) * f32 (Int.tmod index base : Int))))
          ⌊f32 (f32 index / f32 base)⌋
    else some r

/-- The function `Init::HaltonSequenceAt(index, base)` in binary32 arithmetic: `f = 1`,
`r = 0`, then the loop, which is given `index` iterations. -/
def F32.HaltonSequenceAt (index base : Int) : Option ℚ :=
  F32.HaltonLoop base index.toNat 1 0 index

/-- The function `Init::Halton2D(frameIndex)` in binary32 arithmetic: both axes at
`frameIndex + 1`, an `int` addition, and `0.5f` subtracted from each. -/
def F32.Halton2D (frameIndex : Int) : Option (ℚ × ℚ) :=
  match F32.HaltonSequenceAt (wrapInt32 (frameIndex + 1)) 2,
      F32.HaltonSequenceAt (wrapInt32 (frameIndex + 1)) 3 with
  | some hx, some hy => some (f32 (hx - 1 / 2), f32 (hy - 1 / 2))
  | _, _ => none

/-- The number of times the body of the loop of `Init::HaltonSequenceAt` runs in binary32
arithmetic, from the value `index` of the loop variable; `none` as in `F32.HaltonLoop`. -/
def F32.HaltonIterations (base : Int) : Nat → Int → Option Nat
  | 0, index => if index > 0 then none else some 0
  | fuel + 1, index =>
    if index > 0 then
      if base = 0 then none
      else (F32.HaltonIterations base fuel ⌊f32 (f32 index / f32 base)⌋).map (· + 1)
    else some 0

/-! ## The OpenGL interface -/

/-- A `glm::vec3`. -/
structure Vec3 where
  x : ℚ
  y : ℚ
  z : ℚ
deriving DecidableEq

/-- A `glm::mat4`, as the sixteen floats `glm::value_ptr` points at. -/
abbrev Mat4 := List ℚ

/-- Capabilities passed to `glEnable` / `glDisable` in `Init.cpp`. -/
inductive Cap where
  | scissorTest
  | stencilTest
  | cullFace
  | depthTest
  | blend
  | dither
deriving DecidableEq

/-- Texture parameters set by `ensureTaaTargets`. -/
inductive TexParam where
  | minFilter
  | magFilter
  | wrapS
  | wrapT
deriving DecidableEq

/-- Values of the texture parameters set by `ensureTaaTargets`. -/
inductive TexValue where
  | linear
  | clampToEdge
deriving DecidableEq

/-- The OpenGL commands issued by the temporal pipeline, with the arguments that vary.
`renderMesh` is the draw call of `Mesh::RenderMesh`; `useTexture` and `useTexture3D` are the
calls `Texture::UseTexture(loc, unit)` and `Texture::UseTexture3D(loc, unit)` on the texture
with the given handle; `swapBuffers` and `pollEvents` are the two GLFW calls of
`Window::swapBuffersAndPollEvents`. -/
inductive GLCall where
  | useProgram (program : Nat)
  | uniform1f (loc : Int) (v : ℚ)
  | uniform2f (loc : Int) (x y : ℚ)
  | uniform3f (loc : Int) (x y z : ℚ)
  | uniform1i (loc : Int) (v : Int)
  | uniformMatrix4fv (loc : Int) (m : Mat4)
  | genFramebuffers (name : Nat)
  | genTextures (name0 name1 : Nat)
  | deleteFramebuffers (name : Nat)
  | deleteTextures (name : Nat)
  | bindFramebuffer (name : Nat)
  | bindTexture (name : Nat)
  | texImage2D (w h : Int)
  | texParameteri (pname : TexParam) (value : TexValue)
  | framebufferTexture2D (texture : Nat)
  | checkFramebufferStatus
  | activeTexture (unit : Nat)
  | viewport (x y w h : Int)
  | enable (cap : Cap)
  | disable (cap : Cap)
  | depthMask (flag : Bool)
  | blendFunc
  | clearColor (r g b a : ℚ)
  | clear
  | renderMesh
  | useTexture (texture : Nat) (loc : Int) (unit : Int)
  | useTexture3D (texture : Nat) (loc : Int) (unit : Int)
  | swapBuffers
  | pollEvents
deriving DecidableEq

/-- The value of `GL_FRAMEBUFFER_COMPLETE` (`0x8CD5`). -/
def GL_FRAMEBUFFER_COMPLETE : Nat := 36053

/-- What the OpenGL driver answers during one operation: the location table behind
`glGetUniformLocation(program, name)` (`-1` when `name` is not an active uniform of `program`),
the name written by `glGenFramebuffers(1, _)`, the two names written by `glGenTextures(2, _)`
(a name `0` stands for a call that wrote nothing), and the status returned by
`glCheckFramebufferStatus`. -/
structure Driver where
  glGetUniformLocation : Nat → String → Int
  glGenFramebuffers : Nat
  glGenTextures : Nat × Nat
  glCheckFramebufferStatus : Nat

/-- The framebuffer and texture objects that exist on the OpenGL server. -/
structure GLObjects where
  framebuffers : Finset Nat
  textures : Finset Nat
deriving DecidableEq

/-- Adds a generated name to a set of objects; the name `0` is never an object. -/
def insertName (n : Nat) (s : Finset Nat) : Finset Nat :=
  if n = 0 then s else insert n s

/-- The effect of one command on the objects of the server: `glGen*` creates the names it
returns, `glDelete*` removes the name it is given, every other command creates and deletes
nothing. -/
def GLObjects.step (o : GLObjects) : GLCall → GLObjects
  | .genFramebuffers n => { o with framebuffers := insertName n o.framebuffers }
  | .genTextures n0 n1 => { o with textures := insertName n1 (insertName n0 o.textures) }
  | .deleteFramebuffers n => { o with framebuffers := o.framebuffers.erase n }
  | .deleteTextures n => { o with textures := o.textures.erase n }
  | _ => o

/-- The objects of the server after a list of commands. -/
def GLObjects.run (o : GLObjects) (calls : List GLCall) : GLObjects :=
  calls.foldl GLObjects.step o

/-- Number of allocation commands (`glGenFramebuffers`) in a list of commands. -/
def allocationCount (calls : List GLCall) : Nat :=
  (calls.filter fun c => match c with
    | .genFramebuffers _ => true
    | _ => false).length

/-! ## Uniform resolver -/

/-- The function `GetLocAny(program, names)`: the first location other than `-1`. -/
def GetLocAny (gl : Driver) (program : Nat) : List String → Int
  | [] => -1
  | n :: names =>
    let loc := gl.glGetUniformLocation program n
    if loc ≠ -1 then loc else GetLocAny gl program names

/-- The function `Set1fAny`, as the commands it adds to those issued so far. -/
def Set1fAny (gl : Driver) (program : Nat) (v : ℚ) (names : List String)
    (log : List GLCall) : List GLCall :=
  let loc := GetLocAny gl program names
  if loc ≠ -1 then log ++ [GLCall.uniform1f loc v] else log

/-- The function `Set2fAny`. -/
def Set2fAny (gl : Driver) (program : Nat) (x y : ℚ) (names : List String)
    (log : List GLCall) : List GLCall :=
  let loc := GetLocAny gl program names
  if loc ≠ -1 then log ++ [GLCall.uniform2f loc x y] else log

/-- The function `Set3fAny`. -/
def Set3fAny (gl : Driver) (program : Nat) (v : Vec3) (names : List String)
    (log : List GLCall) : List GLCall :=
  let loc := GetLocAny gl program names
  if loc ≠ -1 then log ++ [GLCall.uniform3f loc v.x v.y v.z] else log

/-- The function `SetMat4Any`. -/
def SetMat4Any (gl : Driver) (program : Nat) (m : Mat4) (names : List String)
    (log : List GLCall) : List GLCall :=
  let loc := GetLocAny gl program names
  if loc ≠ -1 then log ++ [GLCall.uniformMatrix4fv loc m] else log

/-- The commands of `ResetFullscreenState(w, h)`. -/
def ResetFullscreenState (w h : Int) : List GLCall :=
  [.bindFramebuffer 0, .viewport 0 0 w h, .disable .scissorTest, .disable .stencilTest,
    .disable .cullFace, .disable .depthTest, .disable .blend, .depthMask false]

/-- The commands of `ClearColorOnly()`. -/
def ClearColorOnly : List GLCall :=
  [.clearColor 0 0 0 1, .clear]

/-! ## Camera -/

/-- A `float` that may be NaN: used where the code tests `std::isnan`. -/
inductive Flt where
  | nan
  | val (q : ℚ)
deriving DecidableEq

/-- The test `std::isnan(x)`. -/
def Flt.isnan : Flt → Bool
  | .nan => true
  | .val _ => false

/-- Float addition: NaN when an operand is NaN. -/
def Flt.add : Flt → Flt → Flt
  | .val a, .val b => .val (a + b)
  | _, _ => .nan

/-- Float multiplication: NaN when an operand is NaN. -/
def Flt.mul : Flt → Flt → Flt
  | .val a, .val b => .val (a * b)
  | _, _ => .nan

/-- Float negation: NaN stays NaN. -/
def Flt.neg : Flt → Flt
  | .val a => .val (-a)
  | .nan => .nan

/-- The comparison `x > c`: false when `x` is NaN. -/
def Flt.gt : Flt → ℚ → Bool
  | .val a, c => decide (a > c)
  | .nan, _ => false

/-- The comparison `x < c`: false when `x` is NaN. -/
def Flt.lt : Flt → ℚ → Bool
  | .val a, c => decide (a < c)
  | .nan, _ => false

/-- Vector addition. -/
def Vec3.add (a b : Vec3) : Vec3 := ⟨a.x + b.x, a.y + b.y, a.z + b.z⟩

/-- Vector subtraction. -/
def Vec3.sub (a b : Vec3) : Vec3 := ⟨a.x - b.x, a.y - b.y, a.z - b.z⟩

/-- Multiplication of a vector by a scalar. -/
def Vec3.scale (a : Vec3) (k : ℚ) : Vec3 := ⟨a.x * k, a.y * k, a.z * k⟩

/-- The function `glm::cross`. -/
def Vec3.cross (a b : Vec3) : Vec3 :=
  ⟨a.y * b.z - b.y * a.z, a.z * b.x - b.z * a.x, a.x * b.y - b.x * a.y⟩

/-- The library functions the camera calls, which exact rational arithmetic cannot compute:
`cos(glm::radians(x))` and `sin(glm::radians(x))` on floats (the result may be NaN) and
`glm::normalize` on vectors. -/
structure CameraMath where
  cosRadians : Flt → Flt
  sinRadians : Flt → Flt
  normalize : Vec3 → Vec3

/-- The fields of `class Camera` read and written by `ProcessMouseMovement`, `invertPitch`,
`getViewMatrix` and `updateCameraVectors`.  The Euler angles are floats that may be NaN; the
vectors have rational components. -/
structure Camera where
  Position : Vec3
  Front : Vec3
  Up : Vec3
  Right : Vec3
  WorldUp : Vec3
  MouseSensitivity : Flt
  Yaw : Flt
  Pitch : Flt
deriving DecidableEq

/-- The function `Camera::updateCameraVectors`.  The second guard, `isnan(front.x) ||
isnan(front.y) || isnan(front.z)`, is the last case of the `match`. -/
def Camera.updateCameraVectors (m : CameraMath) (c : Camera) : Camera :=
  if c.Yaw.isnan || c.Pitch.isnan then c
  else
    match (m.cosRadians c.Yaw).mul (m.cosRadians c.Pitch), m.sinRadians c.Pitch,
        (m.sinRadians c.Yaw).mul (m.cosRadians c.Pitch) with
    | .val x, .val y, .val z =>
      let front := m.normalize ⟨x, y, z⟩
      let right := m.normalize (front.cross c.WorldUp)
      let up := m.normalize (right.cross front)
      { c with Front := front, Right := right, Up := up }
    | _, _, _ => c

/-- The part of `Camera::ProcessMouseMovement` that comes before `updateCameraVectors`: the
offsets are scaled and added to the angles, and the pitch is clamped. -/
def Camera.addMouseOffsets (xoffset yoffset : Flt) (constrainPitch : Bool) (c : Camera) :
    Camera :=
  let xoffset := xoffset.mul c.MouseSensitivity
  let yoffset := yoffset.mul c.MouseSensitivity
  let c := { c with Yaw := c.Yaw.add xoffset, Pitch := c.Pitch.add yoffset }
  if constrainPitch then
    let c := if c.Pitch.gt 89 then { c with Pitch := Flt.val 89 } else c
    if c.Pitch.lt (-89) then { c with Pitch := Flt.val (-89) } else c
  else c

/-- The function `Camera::ProcessMouseMovement(xoffset, yoffset, constrainPitch)`. -/
def Camera.ProcessMouseMovement (m : CameraMath) (xoffset yoffset : Flt) (constrainPitch : Bool)
    (c : Camera) : Camera :=
  (c.addMouseOffsets xoffset yoffset constrainPitch).updateCameraVectors m

/-- The function `Camera::invertPitch`. -/
def Camera.invertPitch (m : CameraMath) (c : Camera) : Camera :=
  { c with Pitch := c.Pitch.neg }.updateCameraVectors m

/-- The effect of `Camera::getViewMatrix` on the camera: it recomputes the basis before it
builds the matrix. -/
def Camera.getViewMatrix (m : CameraMath) (c : Camera) : Camera :=
  c.updateCameraVectors m

/-- The camera built by `Init::Init()`: position `(0, 2000, 0)`, world up `(0, 1, 0)`, yaw
`-90`, pitch `0`, and the basis these angles give in exact arithmetic. -/
def Camera.initial : Camera :=
  { Position := ⟨0, 2000, 0⟩, Front := ⟨0, 0, -1⟩, Up := ⟨0, 1, 0⟩, Right := ⟨1, 0, 0⟩,
    WorldUp := ⟨0, 1, 0⟩, MouseSensitivity := Flt.val (1 / 10), Yaw := Flt.val (-90),
    Pitch := Flt.val 0 }

/-! ## The renderer state -/

/-- Modelled from the spec: a texture of the texture provider, known by its handle.  The class
`Texture` is declared in `Texture.hpp`, which is not among the sources. -/
structure Texture where
  textureID : Nat
deriving DecidableEq

/-- A loaded `Shader`: its program handle. -/
structure Shader where
  ID : Nat
deriving DecidableEq

/-- A `Mesh`: its buffer handles and index count. -/
structure Mesh where
  VAO : Nat
  VBO : Nat
  IBO : Nat
  indexCount : Int
deriving DecidableEq

/-- The fields of `class Init` the temporal pipeline reads and writes, with the default member
initialisers of `Init.hpp`; a `std::unique_ptr` is an `Option`, the array `taaColor[2]` is the
pair `taaColor0`, `taaColor1`.  The camera, which the constructor always allocates, is held by
value.  Three fields are not fields of the class: `glLog` records the OpenGL and GLFW commands
issued so far, oldest first; `prevKeys` is the set of keys whose entry in the `static bool
prev[512]` of `processInput` is true; `shouldClose` is the close flag of the window. -/
structure Init where
  camera : Camera := Camera.initial
  lowfreq3D : Option Texture := none
  highfreq3D : Option Texture := none
  weathermap2D : Option Texture := none
  curlnoise2D : Option Texture := none
  gradient_stratus : Option Texture := none
  gradient_cumulus : Option Texture := none
  gradient_cumulonimbus : Option Texture := none
  deltaTime : ℚ := 0
  lastFrame : ℚ := 0
  prevKeys : Finset Int := ∅
  shouldClose : Bool := false
  shader : Option Shader := none
  fragmentv2 : Option Shader := none
  rmarching : Option Shader := none
  rmarching2 : Option Shader := none
  singlecloudfrag : Option Shader := none
  water : Option Shader := none
  watersky : Option Shader := none
  cloudsOver : Option Shader := none
  quad : Option Mesh := none
  activeShader : Int := 8
  cloudBottom : ℚ := 300
  cloudTop : ℚ := 2500
  moveSpeed : ℚ := 120
  taaEnabled : Bool := false
  taaHistoryWeight : ℚ := f32 (92 / 100)
  taaHistoryValid : Bool := false
  taaShader : Option Shader := none
  taaFbo : Nat := 0
  taaColor0 : Nat := 0
  taaColor1 : Nat := 0
  taaIndex : Int := 0
  taaW : Int := 0
  taaH : Int := 0
  frameCounter : Nat := 0
  glLog : List GLCall := []
deriving DecidableEq

/-- The constructor `Init::Init()`; `0.90f` is the binary32 number nearest to `0.9`. -/
def Init.ctor : Init :=
  { camera := Camera.initial, activeShader := 8, moveSpeed := 1200, cloudBottom := 1500,
    cloudTop := 9000, taaEnabled := false, taaHistoryValid := false,
    taaHistoryWeight := f32 (90 / 100), frameCounter := 0 }

/-- Appends commands to the record of issued commands. -/
def Init.emit (s : Init) (calls : List GLCall) : Init :=
  { s with glLog := s.glLog ++ calls }

/-- The array access `taaColor[i]`; `none` outside the bounds of the array. -/
def Init.taaColor (s : Init) (i : Int) : Option Nat :=
  if i = 0 then some s.taaColor0 else if i = 1 then some s.taaColor1 else none

/-! ## Render-target manager -/

/-- The commands of `Init::destroyTaaTargets` in a given state: one delete per non-zero handle. -/
def destroyCalls (s : Init) : List GLCall :=
  (if s.taaFbo ≠ 0 then [GLCall.deleteFramebuffers s.taaFbo] else [])
    ++ (if s.taaColor0 ≠ 0 then [GLCall.deleteTextures s.taaColor0] else [])
    ++ (if s.taaColor1 ≠ 0 then [GLCall.deleteTextures s.taaColor1] else [])

/-- The function `Init::destroyTaaTargets`. -/
def destroyTaaTargets (s : Init) : Init :=
  { s.emit (destroyCalls s) with
    taaFbo := 0, taaColor0 := 0, taaColor1 := 0, taaW := 0, taaH := 0,
    taaHistoryValid := false, taaIndex := 0 }

/-- How a call that may throw ends. -/
inductive Outcome where
  | returned
  | thrown (what : String)
deriving DecidableEq

/-- The commands `ensureTaaTargets` issues for colour slot `tex` in its `for` loop. -/
def colorSlotCalls (tex : Nat) (w h : Int) : List GLCall :=
  [.bindTexture tex, .texImage2D w h, .texParameteri .minFilter .linear,
    .texParameteri .magFilter .linear, .texParameteri .wrapS .clampToEdge,
    .texParameteri .wrapT .clampToEdge]

/-- The function `Init::ensureTaaTargets(w, h)`.  The state it returns is the state the object
is left in, also when the call throws. -/
def ensureTaaTargets (gl : Driver) (w h : Int) (s : Init) : Outcome × Init :=
  if s.taaW = w ∧ s.taaH = h ∧ s.taaFbo ≠ 0 ∧ s.taaColor0 ≠ 0 ∧ s.taaColor1 ≠ 0 then
    (.returned, s)
  else
    let s1 := destroyTaaTargets s
    let s2 := { s1 with taaW := w, taaH := h }
    let s3 := Init.emit { s2 with taaFbo := gl.glGenFramebuffers }
      [GLCall.genFramebuffers gl.glGenFramebuffers, GLCall.bindFramebuffer gl.glGenFramebuffers]
    let s4 := Init.emit
      { s3 with taaColor0 := gl.glGenTextures.1, taaColor1 := gl.glGenTextures.2 }
      ([GLCall.genTextures gl.glGenTextures.1 gl.glGenTextures.2]
        ++ colorSlotCalls gl.glGenTextures.1 w h ++ colorSlotCalls gl.glGenTextures.2 w h)
    let s5 := s4.emit
      [GLCall.framebufferTexture2D s4.taaColor0, GLCall.checkFramebufferStatus,
        GLCall.bindFramebuffer 0]
    if gl.glCheckFramebufferStatus ≠ GL_FRAMEBUFFER_COMPLETE then
      (.thrown "TAA framebuffer incomplete", destroyTaaTargets s5)
    else
      (.returned, s5)

/-- The commands `ensureTaaTargets` issues between its two calls of `destroyTaaTargets`, in
one list. -/
def createCalls (gl : Driver) (w h : Int) : List GLCall :=
  [GLCall.genFramebuffers gl.glGenFramebuffers, GLCall.bindFramebuffer gl.glGenFramebuffers]
    ++ ([GLCall.genTextures gl.glGenTextures.1 gl.glGenTextures.2]
        ++ colorSlotCalls gl.glGenTextures.1 w h ++ colorSlotCalls gl.glGenTextures.2 w h)
    ++ [GLCall.framebufferTexture2D gl.glGenTextures.1, GLCall.checkFramebufferStatus,
        GLCall.bindFramebuffer 0]

/-! ## Temporal composite stage -/

/-- The commands of `Init::renderTaaComposite(w, h)` once the composite program `prog` is known
to be loaded; `texCur` is `taaColor[cur]` and `texHist` is `taaColor[hist]`. -/
def compositeCalls (gl : Driver) (w h : Int) (s : Init) (prog texCur texHist : Nat) :
    List GLCall :=
  let locRes := gl.glGetUniformLocation prog "uResolution"
  let alpha : ℚ := if s.taaHistoryValid then s.taaHistoryWeight else 0
  let locAlpha := gl.glGetUniformLocation prog "uAlpha"
  let locCur := gl.glGetUniformLocation prog "uCurrent"
  let locHist := gl.glGetUniformLocation prog "uHistory"
  [GLCall.useProgram prog]
    ++ (if locRes ≠ -1 then [GLCall.uniform2f locRes (w : ℚ) (h : ℚ)] else [])
    ++ (if locAlpha ≠ -1 then [GLCall.uniform1f locAlpha alpha] else [])
    ++ (if locCur ≠ -1 then [GLCall.uniform1i locCur 0] else [])
    ++ (if locHist ≠ -1 then [GLCall.uniform1i locHist 1] else [])
    ++ [GLCall.activeTexture 0, GLCall.bindTexture texCur,
        GLCall.activeTexture 1, GLCall.bindTexture texHist]
    ++ ResetFullscreenState w h ++ ClearColorOnly
    ++ (if s.quad.isSome then [GLCall.renderMesh] else [])

/-- The function `Init::renderTaaComposite(w, h)`; `none` when `taaColor` is indexed outside
its bounds. -/
def renderTaaComposite (gl : Driver) (w h : Int) (s : Init) : Option Init :=
  match s.taaShader with
  | none => some s
  | some sh =>
    if sh.ID = 0 then some s
    else
      let cur := s.taaIndex
      let hist := 1 - s.taaIndex
      match s.taaColor cur, s.taaColor hist with
      | some texCur, some texHist =>
        some { s.emit (compositeCalls gl w h s sh.ID texCur texHist) with
               taaHistoryValid := true, taaIndex := hist }
      | _, _ => none

/-! ## Input processing -/

/-- The GLFW key code `GLFW_KEY_SPACE`. -/
def GLFW_KEY_SPACE : Int := 32
/-- The GLFW key code `GLFW_KEY_1`; the keys `2` to `8` follow it. -/
def GLFW_KEY_1 : Int := 49
/-- The GLFW key code `GLFW_KEY_A`. -/
def GLFW_KEY_A : Int := 65
/-- The GLFW key code `GLFW_KEY_D`. -/
def GLFW_KEY_D : Int := 68
/-- The GLFW key code `GLFW_KEY_S`. -/
def GLFW_KEY_S : Int := 83
/-- The GLFW key code `GLFW_KEY_T`. -/
def GLFW_KEY_T : Int := 84
/-- The GLFW key code `GLFW_KEY_W`. -/
def GLFW_KEY_W : Int := 87
/-- The GLFW key code `GLFW_KEY_LEFT_BRACKET`. -/
def GLFW_KEY_LEFT_BRACKET : Int := 91
/-- The GLFW key code `GLFW_KEY_RIGHT_BRACKET`. -/
def GLFW_KEY_RIGHT_BRACKET : Int := 93
/-- The GLFW key code `GLFW_KEY_ESCAPE`. -/
def GLFW_KEY_ESCAPE : Int := 256
/-- The GLFW key code `GLFW_KEY_KP_SUBTRACT`. -/
def GLFW_KEY_KP_SUBTRACT : Int := 333
/-- The GLFW key code `GLFW_KEY_KP_ADD`. -/
def GLFW_KEY_KP_ADD : Int := 334
/-- The GLFW key code `GLFW_KEY_LEFT_SHIFT`. -/
def GLFW_KEY_LEFT_SHIFT : Int := 340
/-- The GLFW key code `GLFW_KEY_LEFT_CONTROL`. -/
def GLFW_KEY_LEFT_CONTROL : Int := 341

/-- What the platform answers during one call of `processInput`: the value of `glfwGetTime()`,
whether `glfwGetKey(window, key)` is `GLFW_PRESS`, and the function `glm::normalize`. -/
structure Input where
  time : ℚ
  keyDown : Int → Bool
  normalize : Vec3 → Vec3

/-- The function `glm::clamp(x, lo, hi)`, which is `min(max(x, lo), hi)`. -/
def clamp (x lo hi : ℚ) : ℚ := min (max x lo) hi

/-- The test of the lambda `edgeKey`: the key is down now and was not at the previous call. -/
def risingEdge (inp : Input) (key : Int) (s : Init) : Bool :=
  inp.keyDown key && decide (key ∉ s.prevKeys)

/-- The lambda `edgeKey(key, onPress)` of `processInput`: inside the bounds of `prev`, it runs
`onPress` on a rising edge and then stores the present state of the key. -/
def edgeKey (inp : Input) (key : Int) (onPress : Init → Init) (s : Init) : Init :=
  if 0 ≤ key ∧ key < 512 then
    let s1 := if risingEdge inp key s then onPress s else s
    { s1 with prevKeys := if inp.keyDown key then insert key s1.prevKeys
                          else s1.prevKeys.erase key }
  else s

/-- The handler of the keys `1` to `8`. -/
def onShaderKey (n : Int) (s : Init) : Init :=
  { s with activeShader := n }

/-- The handler of `GLFW_KEY_T`. -/
def onToggleTaa (s : Init) : Init :=
  { s with taaEnabled := !s.taaEnabled, taaHistoryValid := false, frameCounter := 0 }

/-- The handler of `GLFW_KEY_LEFT_BRACKET`:
`taaHistoryWeight = glm::clamp(taaHistoryWeight - 0.02f, 0.0f, 0.99f)` in binary32. -/
def onLeftBracket (s : Init) : Init :=
  { s with taaHistoryWeight := clamp (f32 (s.taaHistoryWeight - f32 (2 / 100))) 0 (f32 (99 / 100)),
           taaHistoryValid := false }

/-- The handler of `GLFW_KEY_RIGHT_BRACKET`:
`taaHistoryWeight = glm::clamp(taaHistoryWeight + 0.02f, 0.0f, 0.99f)` in binary32. -/
def onRightBracket (s : Init) : Init :=
  { s with taaHistoryWeight := clamp (f32 (s.taaHistoryWeight + f32 (2 / 100))) 0 (f32 (99 / 100)),
           taaHistoryValid := false }

/-- The handler of `GLFW_KEY_KP_ADD`: `cloudBottom += 200.0f; cloudTop += 200.0f` in
binary32. -/
def onKpAdd (s : Init) : Init :=
  { s with cloudBottom := f32 (s.cloudBottom + 200), cloudTop := f32 (s.cloudTop + 200) }

/-- The handler of `GLFW_KEY_KP_SUBTRACT` in binary32: `cloudTop` is computed from the new
`cloudBottom`. -/
def onKpSubtract (s : Init) : Init :=
  { s with cloudBottom := max 0 (f32 (s.cloudBottom - 200)),
           cloudTop := max (f32 (max 0 (f32 (s.cloudBottom - 200)) + 500))
                         (f32 (s.cloudTop - 200)) }

/-- One of the movement lines of `processInput`: when `key` is down, `dir * speed * deltaTime`
is added to `camera->Position` (`plus = true`) or subtracted from it (`plus = false`). -/
def moveCamera (inp : Input) (key : Int) (plus : Bool) (dir : Vec3) (speed : ℚ) (s : Init) :
    Init :=
  if inp.keyDown key then
    let step := (dir.scale speed).scale s.deltaTime
    { s with camera :=
        { s.camera with Position := if plus then s.camera.Position.add step
                                    else s.camera.Position.sub step } }
  else s

/-- The first part of `Init::processInput`: the frame time, the camera movement and the
escape key. -/
def processMovement (inp : Input) (s : Init) : Init :=
  let s := { s with deltaTime := inp.time - s.lastFrame, lastFrame := inp.time }
  let speed := if inp.keyDown GLFW_KEY_LEFT_CONTROL then s.moveSpeed * 3 else s.moveSpeed
  let fwd := inp.normalize s.camera.Front
  let rgt := inp.normalize s.camera.Right
  let up : Vec3 := ⟨0, 1, 0⟩
  let s := moveCamera inp GLFW_KEY_W true fwd speed s
  let s := moveCamera inp GLFW_KEY_S false fwd speed s
  let s := moveCamera inp GLFW_KEY_D true rgt speed s
  let s := moveCamera inp GLFW_KEY_A false rgt speed s
  let s := moveCamera inp GLFW_KEY_SPACE true up speed s
  let s := moveCamera inp GLFW_KEY_LEFT_SHIFT false up speed s
  if inp.keyDown GLFW_KEY_ESCAPE then { s with shouldClose := true } else s

/-- The function `Init::processInput`: the movement part, then the thirteen `edgeKey` calls in
the order of the source. -/
def processInput (inp : Input) (s : Init) : Init :=
  processMovement inp s
    |> edgeKey inp GLFW_KEY_1 (onShaderKey 1)
    |> edgeKey inp (GLFW_KEY_1 + 1) (onShaderKey 2)
    |> edgeKey inp (GLFW_KEY_1 + 2) (onShaderKey 3)
    |> edgeKey inp (GLFW_KEY_1 + 3) (onShaderKey 4)
    |> edgeKey inp (GLFW_KEY_1 + 4) (onShaderKey 5)
    |> edgeKey inp (GLFW_KEY_1 + 5) (onShaderKey 6)
    |> edgeKey inp (GLFW_KEY_1 + 6) (onShaderKey 7)
    |> edgeKey inp (GLFW_KEY_1 + 7) (onShaderKey 8)
    |> edgeKey inp GLFW_KEY_T onToggleTaa
    |> edgeKey inp GLFW_KEY_LEFT_BRACKET onLeftBracket
    |> edgeKey inp GLFW_KEY_RIGHT_BRACKET onRightBracket
    |> edgeKey inp GLFW_KEY_KP_ADD onKpAdd
    |> edgeKey inp GLFW_KEY_KP_SUBTRACT onKpSubtract

/-! ## Pass executor -/

/-- The constant `kEarthRadius`. -/
def kEarthRadius : ℚ := 6378000

/-- The matrix `glm::mat4 I(1.0f)`. -/
def identityMat4 : Mat4 := [1, 0, 0, 0, 0, 1, 0, 0, 0, 0, 1, 0, 0, 0, 0, 1]

/-- The conversion `(int)frameCounter` of the 64-bit counter: the low 32 bits, read as a signed
number. -/
def toInt32 (n : Nat) : Int :=
  if n % 2 ^ 32 < 2 ^ 31 then ((n % 2 ^ 32 : Nat) : Int) else ((n % 2 ^ 32 : Nat) : Int) - 2 ^ 32

/-- The uniform writes of `Init::bindCommonUniforms` that come after `glUseProgram`, for the
jitter value `jitter`, in the order of the source. -/
def commonUniformCalls (gl : Driver) (program : Nat) (w h : Int) (t : ℚ) (jitter : ℚ × ℚ)
    (s : Init) : List GLCall :=
  []
    |> Set1fAny gl program t ["Time", "time", "uTime", "iTime"]
    |> Set1fAny gl program (w : ℚ) ["screenWidth", "ScreenWidth"]
    |> Set1fAny gl program (h : ℚ) ["screenHeight", "ScreenHeight"]
    |> Set2fAny gl program (w : ℚ) (h : ℚ)
        ["resolution", "uResolution", "iResolution", "Resolution"]
    |> Set3fAny gl program s.camera.Position ["cameraPosition", "camPos", "uCamPos"]
    |> Set3fAny gl program s.camera.Front ["cameraFront", "camFront", "uCamFront"]
    |> Set3fAny gl program s.camera.Up ["cameraUp", "camUp", "uCamUp"]
    |> Set3fAny gl program s.camera.Right ["cameraRight", "camRight", "uCamRight"]
    |> Set3fAny gl program ⟨s.camera.Position.x, -kEarthRadius, s.camera.Position.z⟩
        ["EarthCenter", "earthCenter", "uEarthCenter"]
    |> Set1fAny gl program s.cloudBottom ["CloudBottom", "uCloudBottom"]
    |> Set1fAny gl program s.cloudTop ["CloudTop", "uCloudTop"]
    |> Set2fAny gl program jitter.1 jitter.2 ["HaltonSequence", "uJitter", "uHalton", "halton"]
    |> SetMat4Any gl program identityMat4 ["model", "Model"]
    |> SetMat4Any gl program identityMat4 ["view", "View"]
    |> SetMat4Any gl program identityMat4 ["projection", "Projection"]

/-- The value of the local `jitter` of `bindCommonUniforms`: `(0, 0)`, replaced by
`Halton2D((int)frameCounter)` in a temporal pass; `none` when `Halton2D` does not return. -/
def passJitter (taaEnabledPass : Bool) (s : Init) : Option (ℚ × ℚ) :=
  if taaEnabledPass then F32.Halton2D (toInt32 s.frameCounter) else some (0, 0)

/-- The function `Init::bindCommonUniforms(s, w, h, t, taaEnabled)`; `none` when `Halton2D`
does not return. -/
def bindCommonUniforms (gl : Driver) (sh : Shader) (w h : Int) (t : ℚ) (taaEnabledPass : Bool)
    (s : Init) : Option Init :=
  match passJitter taaEnabledPass s with
  | some jitter =>
    some (s.emit (GLCall.useProgram sh.ID :: commonUniformCalls gl sh.ID w h t jitter s))
  | none => none

/-- The function `Bind2D(tex, sh, names, unit)`. -/
def Bind2D (gl : Driver) (tex : Texture) (sh : Shader) (names : List String) (unit : Int)
    (log : List GLCall) : List GLCall :=
  let loc := GetLocAny gl sh.ID names
  if loc ≠ -1 then log ++ [GLCall.useTexture tex.textureID loc unit] else log

/-- The function `Bind3D(tex, sh, names, unit)`. -/
def Bind3D (gl : Driver) (tex : Texture) (sh : Shader) (names : List String) (unit : Int)
    (log : List GLCall) : List GLCall :=
  let loc := GetLocAny gl sh.ID names
  if loc ≠ -1 then log ++ [GLCall.useTexture3D tex.textureID loc unit] else log

/-- One `if (texture) { Bind(*texture, s, names, unit++); }` block of `bindTextures`, acting on
the commands issued so far and the counter `unit`. -/
def bindOptional (bind : Texture → Int → List GLCall → List GLCall) (tex : Option Texture)
    (acc : List GLCall × Int) : List GLCall × Int :=
  match tex with
  | some t => (bind t acc.2 acc.1, acc.2 + 1)
  | none => acc

/-- The texture binds of `Init::bindTextures` that come after `glUseProgram`. -/
def textureCalls (gl : Driver) (sh : Shader) (s : Init) : List GLCall :=
  (([], 0) : List GLCall × Int)
    |> bindOptional (fun t => Bind3D gl t sh ["lowFrequencyTexture", "cloudBaseShapeSampler",
        "cloudBaseShapeTexture", "LowFrequencyTexture"]) s.lowfreq3D
    |> bindOptional (fun t => Bind3D gl t sh ["highFrequencyTexture", "cloudHighFreqSampler",
        "cloudHighFreqTexture", "HighFrequencyTexture"]) s.highfreq3D
    |> bindOptional (fun t => Bind2D gl t sh ["WeatherTexture", "weatherMapSampler",
        "weatherTexture", "WeatherMap"]) s.weathermap2D
    |> bindOptional (fun t => Bind2D gl t sh ["CurlNoiseTexture", "curlNoiseSampler",
        "curlNoiseTexture", "CurlNoise"]) s.curlnoise2D
    |> bindOptional (fun t => Bind2D gl t sh ["GradientStratusTexture",
        "gradientStratusSampler", "gradientStratusTexture"]) s.gradient_stratus
    |> bindOptional (fun t => Bind2D gl t sh ["GradientCumulusTexture",
        "gradientCumulusSampler", "gradientCumulusTexture"]) s.gradient_cumulus
    |> bindOptional (fun t => Bind2D gl t sh ["GradientCumulonimbusTexture",
        "gradientCumulonimbusSampler", "gradientCumulonimbusTexture"]) s.gradient_cumulonimbus
    |> Prod.fst

/-- The function `Init::bindTextures(s)`. -/
def bindTextures (gl : Driver) (sh : Shader) (s : Init) : Init :=
  s.emit (GLCall.useProgram sh.ID :: textureCalls gl sh s)

/-- The six `glDisable` / `glDepthMask` commands that follow `glViewport` in `renderSceneTo`
and in the combined temporal branch of `render`. -/
def disableAllCalls : List GLCall :=
  [.disable .scissorTest, .disable .stencilTest, .disable .cullFace, .disable .depthTest,
    .disable .blend, .depthMask false]

/-- One shaded pass as `render` writes it: `glUseProgram`, `bindCommonUniforms`,
`bindTextures`, then the draw call `quad->RenderMesh()`. -/
def drawPass (gl : Driver) (sh : Shader) (w h : Int) (t : ℚ) (taaEnabledPass : Bool)
    (s : Init) : Option Init :=
  match bindCommonUniforms gl sh w h t taaEnabledPass (s.emit [GLCall.useProgram sh.ID]) with
  | some s1 => some ((bindTextures gl sh s1).emit [GLCall.renderMesh])
  | none => none

/-- The commands of one `drawPass`, in one list, for the jitter value `jitter`. -/
def passCalls (gl : Driver) (sh : Shader) (w h : Int) (t : ℚ) (jitter : ℚ × ℚ) (s : Init) :
    List GLCall :=
  [GLCall.useProgram sh.ID, GLCall.useProgram sh.ID]
    ++ commonUniformCalls gl sh.ID w h t jitter s
    ++ [GLCall.useProgram sh.ID] ++ textureCalls gl sh s ++ [GLCall.renderMesh]

/-- The function `Init::renderSceneTo(fbo, s, w, h, t, taaEnabled)`. -/
def renderSceneTo (gl : Driver) (fbo : Nat) (sh : Shader) (w h : Int) (t : ℚ)
    (taaEnabledPass : Bool) (s : Init) : Option Init :=
  let s1 := s.emit ([GLCall.bindFramebuffer fbo, GLCall.viewport 0 0 w h] ++ disableAllCalls
    ++ ClearColorOnly ++ [GLCall.useProgram sh.ID])
  match bindCommonUniforms gl sh w h t taaEnabledPass s1 with
  | some s2 =>
    some ((bindTextures gl sh s2).emit
      ((if s.quad.isSome then [GLCall.renderMesh] else []) ++ [GLCall.bindFramebuffer 0]))
  | none => none

/-- The commands of `renderSceneTo`, in one list, for the jitter value `jitter`. -/
def sceneCalls (gl : Driver) (fbo : Nat) (sh : Shader) (w h : Int) (t : ℚ) (jitter : ℚ × ℚ)
    (s : Init) : List GLCall :=
  [GLCall.bindFramebuffer fbo, GLCall.viewport 0 0 w h] ++ disableAllCalls ++ ClearColorOnly
    ++ [GLCall.useProgram sh.ID, GLCall.useProgram sh.ID]
    ++ commonUniformCalls gl sh.ID w h t jitter s
    ++ [GLCall.useProgram sh.ID] ++ textureCalls gl sh s
    ++ (if s.quad.isSome then [GLCall.renderMesh] else []) ++ [GLCall.bindFramebuffer 0]

/-! ## Frame orchestrator -/

/-- What the platform answers during one call of `render`: the input read by `processInput`,
the size written by `glfwGetFramebufferSize`, the value of `glfwGetTime()` read after it, and
the answers of the OpenGL driver. -/
structure FrameEnv where
  input : Input
  framebufferSize : Int × Int
  time : ℚ
  gl : Driver

/-- The function `Window::swapBuffersAndPollEvents`.  The callbacks that `glfwPollEvents` may
run are not part of this model. -/
def swapBuffersAndPollEvents (s : Init) : Init :=
  s.emit [GLCall.swapBuffers, GLCall.pollEvents]

/-- The statement `frameCounter++` on the 64-bit counter. -/
def incrementFrameCounter (s : Init) : Init :=
  { s with frameCounter := (s.frameCounter + 1) % 2 ^ 64 }

/-- The `catch (...)` block of `render`. -/
def disableTaa (s : Init) : Init :=
  { s with taaEnabled := false, taaHistoryValid := false }

/-- The commands of `combinedPasses`, in one list, for the jitter value `jitter`. -/
def combinedCalls (gl : Driver) (watersky cloudsOver : Shader) (w h : Int) (t : ℚ)
    (jitter : ℚ × ℚ) (s : Init) : List GLCall :=
  passCalls gl watersky w h t jitter s ++ [GLCall.enable Cap.blend, GLCall.blendFunc]
    ++ passCalls gl cloudsOver w h t jitter s ++ [GLCall.disable Cap.blend]

/-- The two passes of the combined mode, as both of its branches write them: the `watersky`
pass, blending switched on, the `cloudsOver` pass, blending switched off. -/
def combinedPasses (gl : Driver) (watersky cloudsOver : Shader) (w h : Int) (t : ℚ)
    (taaEnabledPass : Bool) (s : Init) : Option Init :=
  match drawPass gl watersky w h t taaEnabledPass s with
  | some s1 =>
    match drawPass gl cloudsOver w h t taaEnabledPass
        (s1.emit [GLCall.enable Cap.blend, GLCall.blendFunc]) with
    | some s2 => some (s2.emit [GLCall.disable Cap.blend])
    | none => none
  | none => none

/-- The branch `activeShader == 8` of `Init::render`, entered after the size test. -/
def renderCombined (gl : Driver) (w h : Int) (t : ℚ) (s : Init) : Option Init :=
  match s.watersky, s.cloudsOver with
  | some watersky, some cloudsOver =>
    if watersky.ID = 0 ∨ cloudsOver.ID = 0 ∨ s.quad.isNone then
      some (swapBuffersAndPollEvents s)
    else
      let s := incrementFrameCounter s
      if ¬ s.taaEnabled then
        match combinedPasses gl watersky cloudsOver w h t false
            (s.emit (ResetFullscreenState w h ++ ClearColorOnly)) with
        | some s1 => some (swapBuffersAndPollEvents s1)
        | none => none
      else
        match ensureTaaTargets gl w h s with
        | (Outcome.thrown _, s1) => some (swapBuffersAndPollEvents (disableTaa s1))
        | (Outcome.returned, s1) =>
          match s1.taaColor s1.taaIndex with
          | some tex =>
            match combinedPasses gl watersky cloudsOver w h t true
                (s1.emit ([GLCall.bindFramebuffer s1.taaFbo, GLCall.framebufferTexture2D tex,
                  GLCall.viewport 0 0 w h] ++ disableAllCalls ++ ClearColorOnly)) with
            | some s2 =>
              match renderTaaComposite gl w h (s2.emit [GLCall.bindFramebuffer 0]) with
              | some s3 => some (swapBuffersAndPollEvents s3)
              | none => none
            | none => none
          | none => none
  | _, _ => some (swapBuffersAndPollEvents s)

/-- The `switch (activeShader)` of `Init::render`. -/
def selectedShader (s : Init) : Option Shader :=
  if s.activeShader = 1 then s.shader
  else if s.activeShader = 2 then s.fragmentv2
  else if s.activeShader = 3 then s.rmarching
  else if s.activeShader = 4 then s.rmarching2
  else if s.activeShader = 5 then s.singlecloudfrag
  else if s.activeShader = 6 then s.water
  else s.watersky

/-- The part of `Init::render` after the branch `activeShader == 8`: one selected program. -/
def renderDirect (gl : Driver) (w h : Int) (t : ℚ) (s : Init) : Option Init :=
  match selectedShader s with
  | some sh =>
    if sh.ID = 0 ∨ s.quad.isNone then some (swapBuffersAndPollEvents s)
    else if ¬ s.taaEnabled then
      match drawPass gl sh w h t false
          ((incrementFrameCounter s).emit (ResetFullscreenState w h ++ ClearColorOnly)) with
      | some s1 => some (swapBuffersAndPollEvents s1)
      | none => none
    else
      match ensureTaaTargets gl w h s with
      | (Outcome.thrown _, s1) => some (swapBuffersAndPollEvents (disableTaa s1))
      | (Outcome.returned, s1) =>
        match s1.taaColor s1.taaIndex with
        | some tex =>
          let s2 := incrementFrameCounter (s1.emit [GLCall.bindFramebuffer s1.taaFbo,
            GLCall.framebufferTexture2D tex, GLCall.bindFramebuffer 0])
          match renderSceneTo gl s2.taaFbo sh w h t true s2 with
          | some s3 =>
            match renderTaaComposite gl w h s3 with
            | some s4 => some (swapBuffersAndPollEvents s4)
            | none => none
          | none => none
        | none => none
  | none => some (swapBuffersAndPollEvents s)

/-- The test `!p || p->ID == 0` on a program pointer. -/
def unusable (p : Option Shader) : Bool :=
  match p with
  | none => true
  | some sh => decide (sh.ID = 0)

/-- The active shading program of a frame is missing or has handle `0`: in combined mode
`watersky` or `cloudsOver`, in direct mode the selected program. -/
def activeProgramMissing (s : Init) : Bool :=
  if s.activeShader = 8 then unusable s.watersky || unusable s.cloudsOver
  else unusable (selectedShader s)

/-- The function `Init::render`; `none` when `taaColor` is indexed outside its bounds or
`Halton2D` does not return. -/
def render (env : FrameEnv) (s : Init) : Option Init :=
  let s := processInput env.input s
  let w := env.framebufferSize.1
  let h := env.framebufferSize.2
  if w ≤ 0 ∨ h ≤ 0 then some (swapBuffersAndPollEvents s)
  else if s.activeShader = 8 then renderCombined env.gl w h env.time s
  else renderDirect env.gl w h env.time s

/-- One iteration of the loop of `main`: `processInput`, `render`, `swapBuffersAndPollEvents`.
The first argument is what the platform answers to the `processInput` call of `main`. -/
def mainLoopIteration (inp : Input) (env : FrameEnv) (s : Init) : Option Init :=
  match render env (processInput inp s) with
  | some s1 => some (swapBuffersAndPollEvents s1)
  | none => none

/-! ## Render destinations -/

/-- The bindings of the OpenGL context that decide where a draw call writes and what it reads:
the program in use, the bound framebuffer (`0` is the default framebuffer, the presentation
surface), the colour attachment of each framebuffer object, the active texture unit and the
2D texture bound on each unit. -/
structure GLBindings where
  program : Nat
  framebuffer : Nat
  attachment : Nat → Nat
  activeUnit : Nat
  boundTexture : Nat → Nat

/-- The commands that write a uniform or bind a scene texture: those issued by the uniform
resolver and by `Bind2D` / `Bind3D`. -/
def GLCall.isUniformWrite : GLCall → Bool
  | .uniform1f _ _ => true
  | .uniform2f _ _ _ => true
  | .uniform3f _ _ _ _ => true
  | .uniform1i _ _ => true
  | .uniformMatrix4fv _ _ => true
  | .useTexture _ _ _ => true
  | .useTexture3D _ _ _ => true
  | _ => false

/-- The bindings of a fresh context. -/
def GLBindings.initial : GLBindings :=
  { program := 0, framebuffer := 0, attachment := fun _ => 0, activeUnit := 0,
    boundTexture := fun _ => 0 }

/-- Modelled from the spec: the effect of `Texture::UseTexture(loc, unit)` and
`Texture::UseTexture3D(loc, unit)` on the bindings.  `Texture.hpp` is not among the sources;
the specification says the texture provider "exposes `bind(slot, unit)`": the texture is bound
on texture unit `unit`, which becomes the active one. -/
def GLBindings.useTexture (b : GLBindings) (texture : Nat) (unit : Int) : GLBindings :=
  { b with activeUnit := unit.toNat,
           boundTexture := Function.update b.boundTexture unit.toNat texture }

/-- The effect of one command on the bindings.  Deleting the bound framebuffer reverts the
binding to `0`. -/
def GLBindings.step (b : GLBindings) : GLCall → GLBindings
  | .useProgram p => { b with program := p }
  | .bindFramebuffer n => { b with framebuffer := n }
  | .deleteFramebuffers n => if b.framebuffer = n then { b with framebuffer := 0 } else b
  | .framebufferTexture2D t =>
    { b with attachment := Function.update b.attachment b.framebuffer t }
  | .activeTexture u => { b with activeUnit := u }
  | .bindTexture t => { b with boundTexture := Function.update b.boundTexture b.activeUnit t }
  | .useTexture t _ unit => b.useTexture t unit
  | .useTexture3D t _ unit => b.useTexture t unit
  | _ => b

/-- What one draw call does: the program that runs, the framebuffer it writes to, the colour
texture behind that framebuffer (`0` for the default framebuffer), and the textures on units
0 and 1. -/
structure Draw where
  program : Nat
  framebuffer : Nat
  colorTexture : Nat
  unit0 : Nat
  unit1 : Nat
deriving DecidableEq

/-- The draw performed under given bindings. -/
def GLBindings.draw (b : GLBindings) : Draw :=
  { program := b.program, framebuffer := b.framebuffer,
    colorTexture := if b.framebuffer = 0 then 0 else b.attachment b.framebuffer,
    unit0 := b.boundTexture 0, unit1 := b.boundTexture 1 }

/-- The bindings after a list of commands. -/
def GLBindings.run (b : GLBindings) : List GLCall → GLBindings
  | [] => b
  | c :: cs => (b.step c).run cs

/-- The draws performed by the draw calls of a list of commands, in order, from given
bindings. -/
def GLBindings.draws (b : GLBindings) : List GLCall → List Draw
  | [] => []
  | c :: cs => (if c = GLCall.renderMesh then [b.draw] else []) ++ (b.step c).draws cs

/-- The draw of the composite stage: the composite program writes to the default framebuffer
and reads `texCur` as the fresh input and `texHist` as the history input. -/
def compositeDraw (prog texCur texHist : Nat) : Draw :=
  { program := prog, framebuffer := 0, colorTexture := 0, unit0 := texCur, unit1 := texHist }

/-- The program of the last draw that wrote into the colour texture `tex`, if any. -/
def lastWriter (draws : List Draw) (tex : Nat) : Option Nat :=
  ((draws.filter fun d => decide (d.colorTexture = tex)).getLast?).map Draw.program

/-- Number of `glfwSwapBuffers` calls in a list of commands. -/
def swapCount (calls : List GLCall) : Nat :=
  calls.count GLCall.swapBuffers

/-- Number of draw calls in a list of commands. -/
def drawCount (calls : List GLCall) : Nat :=
  calls.count GLCall.renderMesh

/-! ## Concrete inputs -/

/-- A driver that knows the uniforms `uAlpha`, `uCurrent` and `uHistory`, hands out the names
7, 8 and 9, and reports a complete framebuffer. -/
def sampleDriver : Driver :=
  { glGetUniformLocation := fun _ name =>
      if name = "uAlpha" then 3 else if name = "uCurrent" then 4
      else if name = "uHistory" then 5 else -1
    glGenFramebuffers := 7
    glGenTextures := (8, 9)
    glCheckFramebufferStatus := GL_FRAMEBUFFER_COMPLETE }

/-- The same driver, reporting `GL_FRAMEBUFFER_UNSUPPORTED` (`0x8CDD`) instead. -/
def sampleDriverIncomplete : Driver :=
  { sampleDriver with glCheckFramebufferStatus := 36061 }

/-- The state after construction, with a composite program (handle 5) and the quad loaded. -/
def sampleState : Init :=
  { Init.ctor with taaShader := some { ID := 5 },
                   quad := some { VAO := 1, VBO := 2, IBO := 3, indexCount := 6 } }

/-- The sample state with render targets 8 and 9 and a valid history. -/
def sampleStateValid : Init :=
  { sampleState with taaFbo := 7, taaColor0 := 8, taaColor1 := 9, taaW := 800, taaH := 600,
                     taaHistoryValid := true }

/-- The sample state whose composite program failed to link (handle 0). -/
def sampleStateUnlinked : Init :=
  { sampleStateValid with taaShader := some { ID := 0 } }

/-- An input with no key down. -/
def idleInput : Input :=
  { time := 1, keyDown := fun _ => false, normalize := fun v => v }

/-- An input with exactly the key `key` down. -/
def keyInput (key : Int) : Input :=
  { time := 1, keyDown := fun k => decide (k = key), normalize := fun v => v }

/-- A frame on an 800 x 600 surface, no key down, with the sample driver. -/
def sampleEnv : FrameEnv :=
  { input := idleInput, framebufferSize := (800, 600), time := 1, gl := sampleDriver }

/-- The same frame with a driver that reports an incomplete framebuffer. -/
def sampleEnvIncomplete : FrameEnv :=
  { sampleEnv with gl := sampleDriverIncomplete }

/-- The same frame on a minimised window: the surface is 0 x 600. -/
def sampleEnvMinimized : FrameEnv :=
  { sampleEnv with framebufferSize := (0, 600) }

/-- The constructed state with `watersky` (handle 11), `cloudsOver` (handle 12), the composite
program (handle 5) and the quad loaded: combined mode, temporal mode off. -/
def sceneState : Init :=
  { Init.ctor with watersky := some { ID := 11 }, cloudsOver := some { ID := 12 },
                   taaShader := some { ID := 5 },
                   quad := some { VAO := 1, VBO := 2, IBO := 3, indexCount := 6 } }

/-- The scene state in direct mode (program 7, `watersky`) with temporal mode on and render
targets 7, 8, 9 of size 800 x 600. -/
def directTaaState : Init :=
  { sceneState with activeShader := 7, taaEnabled := true, taaFbo := 7, taaColor0 := 8,
                    taaColor1 := 9, taaW := 800, taaH := 600 }

/-- Stand-ins for the trigonometric functions and `glm::normalize`: every cosine is `1`, every
sine is `0` unless the argument is NaN, and vectors are left as they are.  With them a
recomputation from angles that are numbers gives the front vector `(1, 0, 0)`. -/
def sampleCameraMath : CameraMath :=
  { cosRadians := fun a => if a.isnan then Flt.nan else Flt.val 1
    sinRadians := fun a => if a.isnan then Flt.nan else Flt.val 0
    normalize := fun v => v }

/-- The camera of the constructor after its yaw has become NaN. -/
def nanYawCamera : Camera :=
  { Camera.initial with Yaw := Flt.nan }

/-- The direct-mode temporal state whose composite program failed to load (null pointer). -/
def directTaaStateNoComposite : Init :=
  { directTaaState with taaShader := none }

/-! ## Object lifetime -/

/-- What `Init::initialize` obtains from outside the object: the value of `glfwGetTime()`, the
programs that `tryLoad` and the composite block managed to build (`none` after a caught
exception), the mesh of `CreateQuad`, and the textures that `loadTex3D` and `loadTex2D` managed
to load. -/
structure Loaded where
  time : ℚ
  shader : Option Shader
  fragmentv2 : Option Shader
  rmarching : Option Shader
  rmarching2 : Option Shader
  singlecloudfrag : Option Shader
  water : Option Shader
  watersky : Option Shader
  cloudsOver : Option Shader
  taaShader : Option Shader
  quad : Mesh
  lowfreq3D : Option Texture
  highfreq3D : Option Texture
  weathermap2D : Option Texture
  curlnoise2D : Option Texture
  gradient_stratus : Option Texture
  gradient_cumulus : Option Texture
  gradient_cumulonimbus : Option Texture

/-- The function `Init::initialize`, on the fields of the model: the seven state commands, the
frame time, the programs, the quad, the textures, then `destroyTaaTargets()`,
`taaHistoryValid = false` and `frameCounter = 0`.  The GLFW set-up calls (swap interval,
callbacks, cursor mode), the mouse bookkeeping and the triangle mesh are not part of the
model. -/
def Init.initialize (l : Loaded) (s : Init) : Init :=
  let s1 := s.emit [.disable .dither, .disable .blend, .disable .cullFace,
    .disable .scissorTest, .disable .stencilTest, .disable .depthTest, .depthMask false]
  let s2 : Init :=
    { s1 with lastFrame := l.time, deltaTime := 0,
              shader := l.shader, fragmentv2 := l.fragmentv2, rmarching := l.rmarching,
              rmarching2 := l.rmarching2, singlecloudfrag := l.singlecloudfrag,
              water := l.water, watersky := l.watersky, cloudsOver := l.cloudsOver,
              taaShader := l.taaShader, quad := some l.quad,
              lowfreq3D := l.lowfreq3D, highfreq3D := l.highfreq3D,
              weathermap2D := l.weathermap2D, curlnoise2D := l.curlnoise2D,
              gradient_stratus := l.gradient_stratus, gradient_cumulus := l.gradient_cumulus,
              gradient_cumulonimbus := l.gradient_cumulonimbus }
  { destroyTaaTargets s2 with taaHistoryValid := false, frameCounter := 0 }

/-- The states an `Init` object can be in between two calls.  It starts as the constructor
leaves it; a state changes by the public member functions `initialize`, `processInput`,
`render` and `swapBuffersAndPollEvents`, by the mouse callbacks, which write nothing of the
model but the camera, and by the destructor, which is `destroyTaaTargets`.  The private
functions `ensureTaaTargets` and `renderTaaComposite` are taken in as steps of their own, with
any arguments: that can only make the set larger. -/
inductive Reachable : Init → Prop
  | ctor : Reachable Init.ctor
  | initialized (l : Loaded) {s : Init} : Reachable s → Reachable ( Init.initialize l s)
  | processInput (inp : Input) {s : Init} : Reachable s → Reachable (processInput inp s)
  | render (env : FrameEnv) {s s2 : Init} : Reachable s → render env s = some s2 → Reachable s2
  | swapBuffersAndPollEvents {s : Init} : Reachable s → Reachable (swapBuffersAndPollEvents s)
  | mouse (c : Camera) {s : Init} : Reachable s → Reachable { s with camera := c }
  | destroyTaaTargets {s : Init} : Reachable s → Reachable (destroyTaaTargets s)
  | ensureTaaTargets (gl : Driver) (w h : Int) {s : Init} :
      Reachable s → Reachable (ensureTaaTargets gl w h s).2
  | renderTaaComposite (gl : Driver) (w h : Int) {s s2 : Init} :
      Reachable s → renderTaaComposite gl w h s = some s2 → Reachable s2

/-! ## Texture units, as the specification states them -/

/-- The seven blocks of `Init::bindTextures` in the order of the source: the texture pointer a
block tests, whether the block calls `Bind3D` (otherwise `Bind2D`), and the sampler names it
passes. -/
def textureSlots (s : Init) : List (Option Texture × Bool × List String) :=
  [(s.lowfreq3D, true, ["lowFrequencyTexture", "cloudBaseShapeSampler",
      "cloudBaseShapeTexture", "LowFrequencyTexture"]),
    (s.highfreq3D, true, ["highFrequencyTexture", "cloudHighFreqSampler",
      "cloudHighFreqTexture", "HighFrequencyTexture"]),
    (s.weathermap2D, false, ["WeatherTexture", "weatherMapSampler", "weatherTexture",
      "WeatherMap"]),
    (s.curlnoise2D, false, ["CurlNoiseTexture", "curlNoiseSampler", "curlNoiseTexture",
      "CurlNoise"]),
    (s.gradient_stratus, false, ["GradientStratusTexture", "gradientStratusSampler",
      "gradientStratusTexture"]),
    (s.gradient_cumulus, false, ["GradientCumulusTexture", "gradientCumulusSampler",
      "gradientCumulusTexture"]),
    (s.gradient_cumulonimbus, false, ["GradientCumulonimbusTexture",
      "gradientCumulonimbusSampler", "gradientCumulonimbusTexture"])]

/-- The number of present textures before position `i` in a list of blocks. -/
def presentBefore (slots : List (Option Texture × Bool × List String)) (i : Nat) : Nat :=
  ((slots.take i).filter fun e => e.1.isSome).length

/-- The texture binds the specification describes, not read off the code: block by block in
the fixed order, an absent texture gives nothing, and a present texture is bound, if the
program resolves one of its sampler names, on the unit that equals the number of present
textures before it. -/
def expectedTextureCalls (gl : Driver) (sh : Shader) (s : Init) : List GLCall :=
  (List.range (textureSlots s).length).flatMap fun i =>
    match (textureSlots s).get? i with
    | some (some t, volumetric, names) =>
      if GetLocAny gl sh.ID names ≠ -1 then
        [if volumetric then
            GLCall.useTexture3D t.textureID (GetLocAny gl sh.ID names)
              (presentBefore (textureSlots s) i)
          else
            GLCall.useTexture t.textureID (GetLocAny gl sh.ID names)
              (presentBefore (textureSlots s) i)]
      else []
    | _ => []

/-- The state after construction with the textures `weathermap2D` (handle 21) and
`gradient_cumulus` (handle 22) loaded and the five others absent. -/
def twoTextureState : Init :=
  { Init.ctor with weathermap2D := some { textureID := 21 },
                   gradient_cumulus := some { textureID := 22 } }

/-- A driver that resolves every sampler name of every program to location 2. -/
def samplerDriver : Driver :=
  { sampleDriver with glGetUniformLocation := fun _ _ => 2 }

/-- A driver whose programs have the sampler `GradientCumulusTexture` (location 4) and no other
uniform. -/
def cumulusDriver : Driver :=
  { sampleDriver with
    glGetUniformLocation := fun _ name => if name = "GradientCumulusTexture" then 4 else -1 }

/-! ## The passes of a frame -/

/-- The programs of the scene passes of a frame, in order: `watersky` then `cloudsOver` in
combined mode (`activeShader == 8`), the selected program alone in direct mode. -/
def scenePrograms (s : Init) : List Shader :=
  if s.activeShader = 8 then s.watersky.toList ++ s.cloudsOver.toList
  else (selectedShader s).toList

/-- The commands of `Init::renderTaaComposite(w, h)`, for the textures `texCur = taaColor[cur]`
and `texHist = taaColor[hist]`: none when the composite program is null or has handle `0`. -/
def compositeStageCalls (gl : Driver) (w h : Int) (s : Init) (texCur texHist : Nat) :
    List GLCall :=
  match s.taaShader with
  | some sh => if sh.ID = 0 then [] else compositeCalls gl w h s sh.ID texCur texHist
  | none => []

/-- The draw of the composite stage, if it draws: none when the composite program is null or
has handle `0`. -/
def compositeDraws (s : Init) (texCur texHist : Nat) : List Draw :=
  match s.taaShader with
  | some sh => if sh.ID = 0 then [] else [compositeDraw sh.ID texCur texHist]
  | none => []

/-- The uniform names `bindCommonUniforms` tries for the jitter, in order. -/
def jitterNames : List String := ["HaltonSequence", "uJitter", "uHalton", "halton"]

/-- A two-float uniform write carries the resolution `(w, h)` or the jitter `j`; every other
command passes. -/
def resolutionOrJitter (w h : Int) (j : ℚ × ℚ) : GLCall → Prop
  | .uniform2f _ x y => (x = (w : ℚ) ∧ y = (h : ℚ)) ∨ (x = j.1 ∧ y = j.2)
  | _ => True

/-- The sample driver with a program interface that has the uniform `uJitter` (location 6) and
no other. -/
def jitterDriver : Driver :=
  { sampleDriver with glGetUniformLocation := fun _ name => if name = "uJitter" then 6 else -1 }

/-- A frame on an 800 x 600 surface, no key down, with the jitter driver. -/
def jitterEnv : FrameEnv :=
  { sampleEnv with gl := jitterDriver }

/-- The direct-mode temporal state after `2^31 - 2` drawn frames without a toggle: the next
frame takes the counter to `INT_MAX`. -/
def intMaxFrameState : Init :=
  { directTaaState with frameCounter := 2 ^ 31 - 2 }

/-- The scene state (combined mode) with temporal mode on and render targets 7, 8, 9 of size
800 x 600. -/
def combinedTaaState : Init :=
  { sceneState with taaEnabled := true, taaFbo := 7, taaColor0 := 8, taaColor1 := 9,
                    taaW := 800, taaH := 600 }

/-- The frame of the jitter driver in which the key `T` goes down. -/
def toggleEnv : FrameEnv :=
  { jitterEnv with input := keyInput GLFW_KEY_T }

/-- The scene state in direct mode (program 7, `watersky`) after 41 drawn frames, temporal
mode off. -/
def directOffState : Init :=
  { sceneState with activeShader := 7, frameCounter := 41 }

/-! ## Key presses -/

/-- Every key released, then the key `key` down: two calls of `processInput`, the second of
which sees a rising edge of `key`. -/
def pressKey (key : Int) (s : Init) : Init :=
  processInput (keyInput key) (processInput idleInput s)

/-- The key `key` pressed `n` times, released in between. -/
def pressKeys (key : Int) : Nat → Init → Init
  | 0, s => s
  | n + 1, s => pressKey key (pressKeys key n s)

/-! # Theorems -/

/-! ### Rounding to the nearest integer -/

theorem roundEven_cases (x : ℚ) : roundEven x = ⌊x⌋ ∨ roundEven x = ⌊x⌋ + 1 := by
  unfold roundEven
  split_ifs <;> simp

theorem abs_roundEven_sub_le (x : ℚ) : |(roundEven x : ℚ) - x| ≤ 1 / 2 := by
  have h1 := Int.floor_le x
  have h2 := Int.lt_floor_add_one x
  unfold roundEven
  split_ifs with ha hb hc
  · rw [abs_le]; constructor <;> linarith
  · rw [abs_le]; push_cast; constructor <;> linarith
  · rw [abs_le]; constructor <;> linarith
  · rw [abs_le]; push_cast; constructor <;> linarith

theorem roundEven_intCast (k : Int) : roundEven (k : ℚ) = k := by
  unfold roundEven
  simp

/-- No integer is nearer to `x` than `roundEven x`. -/
theorem roundEven_nearest (x : ℚ) (k : Int) : |(roundEven x : ℚ) - x| ≤ |(k : ℚ) - x| := by
  by_cases hk : k = roundEven x
  · rw [hk]
  · have h := abs_roundEven_sub_le x
    have hne : (1 : ℚ) ≤ |(k : ℚ) - (roundEven x : ℚ)| := by
      have : (1 : Int) ≤ |k - roundEven x| := Int.one_le_abs (sub_ne_zero.mpr hk)
      exact_mod_cast this
    have htri : |(k : ℚ) - (roundEven x : ℚ)| ≤ |(k : ℚ) - x| + |(roundEven x : ℚ) - x| := by
      have := abs_sub_le (k : ℚ) x (roundEven x : ℚ)
      rwa [abs_sub_comm x (roundEven x : ℚ)] at this
    linarith

theorem le_roundEven (x : ℚ) (a : Int) (h : (a : ℚ) ≤ x) : a ≤ roundEven x := by
  have hf : a ≤ ⌊x⌋ := Int.le_floor.mpr h
  rcases roundEven_cases x with e | e <;> omega

theorem roundEven_le (x : ℚ) (b : Int) (h : x ≤ (b : ℚ)) : roundEven x ≤ b := by
  by_cases hx : x = (b : ℚ)
  · rw [hx, roundEven_intCast]
  · have hlt : x < (b : ℚ) := lt_of_le_of_ne h hx
    have hf : ⌊x⌋ < b := Int.floor_lt.mpr hlt
    rcases roundEven_cases x with e | e <;> omega

/-! ### The binary exponent -/

theorem bitLengthAux_zero (fuel : Nat) : bitLengthAux fuel 0 = 0 := by
  cases fuel <;> simp [bitLengthAux]

theorem bitLengthAux_spec (fuel n : Nat) (h : n ≤ fuel) :
    n < 2 ^ bitLengthAux fuel n ∧ (n ≠ 0 → 2 ^ (bitLengthAux fuel n - 1) ≤ n) := by
  induction fuel generalizing n with
  | zero =>
    have : n = 0 := by omega
    subst this
    simp [bitLengthAux]
  | succ fuel ih =>
    by_cases hn : n = 0
    · subst hn
      simp [bitLengthAux]
    · have hhalf : n / 2 ≤ fuel := by omega
      obtain ⟨hlt, hge⟩ := ih (n / 2) hhalf
      simp only [bitLengthAux, if_neg hn, Nat.add_sub_cancel]
      refine ⟨?_, fun _ => ?_⟩
      · rw [pow_succ]
        omega
      · by_cases h2 : n / 2 = 0
        · rw [h2, bitLengthAux_zero]
          simp
          omega
        · have hge2 := hge h2
          have hpos : bitLengthAux fuel (n / 2) ≠ 0 := by
            intro h0
            rw [h0] at hlt
            simp at hlt
            exact h2 hlt
          obtain ⟨b, hb⟩ := Nat.exists_eq_succ_of_ne_zero hpos
          rw [hb] at hge2 ⊢
          simp only [Nat.succ_sub_one] at hge2
          rw [pow_succ]
          omega

theorem bitLength_spec (n : Nat) (hn : n ≠ 0) :
    1 ≤ bitLength n ∧ 2 ^ (bitLength n - 1) ≤ n ∧ n < 2 ^ bitLength n := by
  obtain ⟨hlt, hge⟩ := bitLengthAux_spec n n le_rfl
  refine ⟨?_, hge hn, hlt⟩
  by_contra h0
  have : bitLength n = 0 := by omega
  unfold bitLength at this
  rw [this] at hlt
  simp at hlt
  exact hn hlt

theorem zpow_two_pos (e : Int) : (0 : ℚ) < 2 ^ e := zpow_pos (by norm_num) e

/-- The exponent `ilog2 x` brackets the magnitude of `x`. -/
theorem ilog2_spec (x : ℚ) (hx : x ≠ 0) :
    (2 : ℚ) ^ ilog2 x ≤ |x| ∧ |x| < 2 ^ (ilog2 x + 1) := by
  have hnum : x.num.natAbs ≠ 0 := by
    simpa using hx
  have hden : x.den ≠ 0 := x.den_nz
  obtain ⟨hp1, hp2, hp3⟩ := bitLength_spec x.num.natAbs hnum
  obtain ⟨hq1, hq2, hq3⟩ := bitLength_spec x.den hden
  have habs : |x| = (x.num.natAbs : ℚ) / (x.den : ℚ) := by
    conv_lhs => rw [← Rat.num_div_den x]
    rw [abs_div, Nat.cast_natAbs, Nat.abs_cast]
    simp
  have hQ : (0 : ℚ) < (x.den : ℚ) := by exact_mod_cast Nat.pos_of_ne_zero hden
  unfold ilog2
  generalize hbp : bitLength x.num.natAbs = bp at *
  generalize hbq : bitLength x.den = bq at *
  generalize hP : x.num.natAbs = p at *
  generalize hQn : x.den = q at *
  have c1 : ((2 : ℚ) ^ (bp - 1 : Nat)) ≤ (p : ℚ) := by exact_mod_cast hp2
  have c2 : (p : ℚ) < (2 : ℚ) ^ bp := by exact_mod_cast hp3
  have c3 : ((2 : ℚ) ^ (bq - 1 : Nat)) ≤ (q : ℚ) := by exact_mod_cast hq2
  have c4 : (q : ℚ) < (2 : ℚ) ^ bq := by exact_mod_cast hq3
  -- upper: |x| < 2^(d+1)
  have hup : |x| < (2 : ℚ) ^ ((bp : Int) - (bq : Int) + 1) := by
    rw [habs, div_lt_iff₀ hQ]
    have e : (2 : ℚ) ^ ((bp : Int) - (bq : Int) + 1) * (2 : ℚ) ^ (bq - 1 : Nat)
        = (2 : ℚ) ^ bp := by
      rw [← zpow_natCast, ← zpow_natCast, ← zpow_add₀ (by norm_num : (2 : ℚ) ≠ 0)]
      congr 1
      omega
    calc (p : ℚ) < (2 : ℚ) ^ bp := c2
      _ = (2 : ℚ) ^ ((bp : Int) - (bq : Int) + 1) * (2 : ℚ) ^ (bq - 1 : Nat) := e.symm
      _ ≤ (2 : ℚ) ^ ((bp : Int) - (bq : Int) + 1) * (q : ℚ) :=
        mul_le_mul_of_nonneg_left c3 (zpow_two_pos _).le
  have hlow : (2 : ℚ) ^ ((bp : Int) - (bq : Int) - 1) ≤ |x| := by
    rw [habs, le_div_iff₀ hQ]
    have e : (2 : ℚ) ^ ((bp : Int) - (bq : Int) - 1) * (2 : ℚ) ^ bq
        = (2 : ℚ) ^ (bp - 1 : Nat) := by
      rw [← zpow_natCast, ← zpow_natCast, ← zpow_add₀ (by norm_num : (2 : ℚ) ≠ 0)]
      congr 1
      omega
    calc (2 : ℚ) ^ ((bp : Int) - (bq : Int) - 1) * (q : ℚ)
        ≤ (2 : ℚ) ^ ((bp : Int) - (bq : Int) - 1) * (2 : ℚ) ^ bq :=
          mul_le_mul_of_nonneg_left c4.le (zpow_two_pos _).le
      _ = (2 : ℚ) ^ (bp - 1 : Nat) := e
      _ ≤ (p : ℚ) := c1
  split_ifs with hc
  · exact ⟨hc, hup⟩
  · refine ⟨hlow, ?_⟩
    rw [sub_add_cancel]
    exact lt_of_not_le hc

/-! ### Properties of the rounding to binary32 -/

theorem f32_zero : f32 0 = 0 := by
  simp [f32]

theorem f32_apply (x : ℚ) (hx : x ≠ 0) :
    f32 x = (roundEven (x / 2 ^ (ilog2 x - 23)) : ℚ) * 2 ^ (ilog2 x - 23) := by
  simp [f32, hx]

/-- The scaled magnitude lies in `[2^23, 2^24)`. -/
theorem scaled_bounds (x : ℚ) (hx : x ≠ 0) :
    (2 : ℚ) ^ 23 ≤ |x / 2 ^ (ilog2 x - 23)| ∧ |x / 2 ^ (ilog2 x - 23)| < 2 ^ 24 := by
  obtain ⟨h1, h2⟩ := ilog2_spec x hx
  have hu := zpow_two_pos (ilog2 x - 23)
  rw [abs_div, abs_of_pos hu]
  have e1 : (2 : ℚ) ^ ilog2 x = 2 ^ 23 * 2 ^ (ilog2 x - 23) := by
    rw [← zpow_natCast (2 : ℚ) 23, ← zpow_add₀ (by norm_num : (2 : ℚ) ≠ 0)]
    congr 1
    push_cast
    ring
  have e2 : (2 : ℚ) ^ (ilog2 x + 1) = 2 ^ 24 * 2 ^ (ilog2 x - 23) := by
    rw [← zpow_natCast (2 : ℚ) 24, ← zpow_add₀ (by norm_num : (2 : ℚ) ≠ 0)]
    congr 1
    push_cast
    ring
  constructor
  · rw [le_div_iff₀ hu, ← e1]
    exact h1
  · rw [div_lt_iff₀ hu, ← e2]
    exact h2

/-- The rounding error is at most half a unit in the last place. -/
theorem abs_f32_sub_le (x : ℚ) (hx : x ≠ 0) :
    |f32 x - x| ≤ 2 ^ (ilog2 x - 23) / 2 := by
  have hu := zpow_two_pos (ilog2 x - 23)
  have h := abs_roundEven_sub_le (x / 2 ^ (ilog2 x - 23))
  rw [f32_apply x hx]
  have e : (roundEven (x / 2 ^ (ilog2 x - 23)) : ℚ) * 2 ^ (ilog2 x - 23) - x
      = ((roundEven (x / 2 ^ (ilog2 x - 23)) : ℚ) - x / 2 ^ (ilog2 x - 23))
        * 2 ^ (ilog2 x - 23) := by
    field_simp
  rw [e, abs_mul, abs_of_pos hu]
  calc |(roundEven (x / 2 ^ (ilog2 x - 23)) : ℚ) - x / 2 ^ (ilog2 x - 23)| * 2 ^ (ilog2 x - 23)
      ≤ 1 / 2 * 2 ^ (ilog2 x - 23) := mul_le_mul_of_nonneg_right h hu.le
    _ = 2 ^ (ilog2 x - 23) / 2 := by ring

theorem zpow_two_sub (a b : Int) : (2 : ℚ) ^ a / 2 ^ b = 2 ^ (a - b) := by
  rw [zpow_sub₀ (by norm_num : (2 : ℚ) ≠ 0)]

theorem zpow_two_le (a b : Int) (h : a ≤ b) : (2 : ℚ) ^ a ≤ 2 ^ b :=
  zpow_le_zpow_right₀ (by norm_num) h

theorem zpow_two_lt (a b : Int) (h : a < b) : (2 : ℚ) ^ a < 2 ^ b :=
  zpow_lt_zpow_right₀ (by norm_num) h

/-- A multiple `m * 2^e` with `e` at least the exponent of the unit is an integer number of
units. -/
theorem scaled_int (m e g : Int) (h : g ≤ e) :
    (m : ℚ) * 2 ^ e / 2 ^ g = ((m * 2 ^ (e - g).toNat : Int) : ℚ) := by
  have hk : ((e - g).toNat : Int) = e - g := Int.toNat_of_nonneg (by omega)
  push_cast
  rw [mul_div_assoc, zpow_two_sub, ← zpow_natCast, hk]

/-- A binary32 number is left as it is. -/
theorem f32_of_isF32 (x : ℚ) (h : isF32 x) : f32 x = x := by
  obtain ⟨m, e, hm, rfl⟩ := h
  by_cases hx : (m : ℚ) * 2 ^ e = 0
  · rw [hx, f32_zero]
  · obtain ⟨h1, _⟩ := ilog2_spec _ hx
    have hu := zpow_two_pos (ilog2 ((m : ℚ) * 2 ^ e) - 23)
    have hge : ilog2 ((m : ℚ) * 2 ^ e) - 23 ≤ e := by
      by_contra hlt
      have hlt2 : e + 24 ≤ ilog2 ((m : ℚ) * 2 ^ e) := by omega
      have hmq : |(m : ℚ)| < 2 ^ 24 := by exact_mod_cast hm
      have : |(m : ℚ) * 2 ^ e| < 2 ^ ilog2 ((m : ℚ) * 2 ^ e) := by
        rw [abs_mul, abs_of_pos (zpow_two_pos e)]
        calc |(m : ℚ)| * 2 ^ e < 2 ^ 24 * 2 ^ e :=
              mul_lt_mul_of_pos_right hmq (zpow_two_pos e)
          _ = 2 ^ (e + 24) := by
              rw [← zpow_natCast (2 : ℚ) 24, ← zpow_add₀ (by norm_num : (2 : ℚ) ≠ 0)]
              congr 1
              push_cast
              ring
          _ ≤ 2 ^ ilog2 ((m : ℚ) * 2 ^ e) := zpow_two_le _ _ hlt2
      linarith
    rw [f32_apply _ hx, scaled_int m e _ hge, roundEven_intCast, ← scaled_int m e _ hge]
    field_simp

theorem zpow_two_succ_eq (g : Int) : (2 : ℚ) ^ (g + 1) = 16777216 * 2 ^ (g - 23) := by
  have e : (16777216 : ℚ) = 2 ^ (24 : Int) := by norm_num
  rw [e, ← zpow_add₀ (by norm_num : (2 : ℚ) ≠ 0)]
  congr 1
  ring

theorem isF32_zero : isF32 0 := ⟨0, 0, by norm_num, by simp⟩

/-- The result of the rounding is a binary32 number. -/
theorem f32_isF32 (x : ℚ) : isF32 (f32 x) := by
  by_cases hx : x = 0
  · rw [hx, f32_zero]
    exact isF32_zero
  · obtain ⟨h1, h2⟩ := scaled_bounds x hx
    rw [f32_apply x hx]
    generalize hy : x / 2 ^ (ilog2 x - 23) = y at h1 h2 ⊢
    have hle : roundEven y ≤ 2 ^ 24 :=
      roundEven_le y (2 ^ 24) (by push_cast; exact ((le_abs_self y).trans h2.le))
    have hge : -(2 ^ 24) ≤ roundEven y :=
      le_roundEven y (-(2 ^ 24)) (by push_cast; linarith [neg_abs_le y])
    by_cases hlt : |roundEven y| < 2 ^ 24
    · exact ⟨roundEven y, ilog2 x - 23, hlt, rfl⟩
    · have hcase : roundEven y = 2 ^ 24 ∨ roundEven y = -(2 ^ 24) := by
        rw [abs_lt] at hlt
        omega
      rcases hcase with e | e
      · refine ⟨1, ilog2 x + 1, by norm_num, ?_⟩
        rw [e, zpow_two_succ_eq]
        push_cast
        ring
      · refine ⟨-1, ilog2 x + 1, by norm_num, ?_⟩
        rw [e, zpow_two_succ_eq]
        push_cast
        ring

theorem f32_idem (x : ℚ) : f32 (f32 x) = f32 x :=
  f32_of_isF32 _ (f32_isF32 x)

/-- No binary32 number is nearer to `x` than `f32 x`. -/
theorem f32_nearest (x r : ℚ) (hr : isF32 r) : |f32 x - x| ≤ |r - x| := by
  by_cases hx : x = 0
  · rw [hx, f32_zero]
    simp
  · obtain ⟨m, e, hm, rfl⟩ := hr
    have hu := zpow_two_pos (ilog2 x - 23)
    by_cases hge : ilog2 x - 23 ≤ e
    · -- `r` is a whole number of units
      have hk := scaled_int m e (ilog2 x - 23) hge
      have hn := roundEven_nearest (x / 2 ^ (ilog2 x - 23)) (m * 2 ^ (e - (ilog2 x - 23)).toNat)
      rw [← hk] at hn
      rw [f32_apply x hx]
      have e1 : (roundEven (x / 2 ^ (ilog2 x - 23)) : ℚ) * 2 ^ (ilog2 x - 23) - x
          = ((roundEven (x / 2 ^ (ilog2 x - 23)) : ℚ) - x / 2 ^ (ilog2 x - 23))
            * 2 ^ (ilog2 x - 23) := by
        field_simp
      have e2 : (m : ℚ) * 2 ^ e - x
          = ((m : ℚ) * 2 ^ e / 2 ^ (ilog2 x - 23) - x / 2 ^ (ilog2 x - 23))
            * 2 ^ (ilog2 x - 23) := by
        field_simp
      rw [e1, e2, abs_mul, abs_mul, abs_of_pos hu]
      exact mul_le_mul_of_nonneg_right hn hu.le
    · -- `r` lies in a lower binade
      have herr := abs_f32_sub_le x hx
      obtain ⟨h1, _⟩ := ilog2_spec x hx
      have hm1 : |m| ≤ 2 ^ 24 - 1 := by omega
      have hmq : |(m : ℚ)| ≤ 2 ^ 24 - 1 := by exact_mod_cast hm1
      have he : e ≤ ilog2 x - 24 := by omega
      have hr : |(m : ℚ) * 2 ^ e| ≤ 2 ^ ilog2 x - 2 ^ (ilog2 x - 23) / 2 := by
        rw [abs_mul, abs_of_pos (zpow_two_pos e)]
        have hpow : (2 : ℚ) ^ e ≤ 2 ^ (ilog2 x - 24) := zpow_two_le _ _ he
        have e3 : (2 : ℚ) ^ ilog2 x = 2 ^ 24 * 2 ^ (ilog2 x - 24) := by
          rw [← zpow_natCast (2 : ℚ) 24, ← zpow_add₀ (by norm_num : (2 : ℚ) ≠ 0)]
          congr 1
          push_cast
          ring
        have e4 : (2 : ℚ) ^ (ilog2 x - 23) = 2 * 2 ^ (ilog2 x - 24) := by
          rw [← zpow_one_add₀ (by norm_num : (2 : ℚ) ≠ 0)]
          congr 1
          ring
        rw [e3, e4]
        calc |(m : ℚ)| * 2 ^ e ≤ (2 ^ 24 - 1) * 2 ^ (ilog2 x - 24) :=
              mul_le_mul hmq hpow (zpow_two_pos e).le (by norm_num)
          _ = 2 ^ 24 * 2 ^ (ilog2 x - 24) - 2 * 2 ^ (ilog2 x - 24) / 2 := by ring
      have htri : |x| - |(m : ℚ) * 2 ^ e| ≤ |(m : ℚ) * 2 ^ e - x| := by
        have := abs_sub_abs_le_abs_sub x ((m : ℚ) * 2 ^ e)
        rwa [abs_sub_comm x] at this
      linarith

/-- The rounding is monotone. -/
theorem f32_mono (x y : ℚ) (h : x ≤ y) : f32 x ≤ f32 y := by
  by_contra hlt
  push_neg at hlt
  have hxy : x < y := by
    rcases eq_or_lt_of_le h with e | e
    · rw [e] at hlt
      exact absurd hlt (lt_irrefl _)
    · exact e
  have h1 := f32_nearest x (f32 y) (f32_isF32 y)
  have h2 := f32_nearest y (f32 x) (f32_isF32 x)
  -- from `h1`: `x` is at least the midpoint; from `h2`: `y` is at most the midpoint
  have hx : (f32 x + f32 y) / 2 ≤ x := by
    by_contra hc
    push_neg at hc
    have hb : |f32 y - x| < |f32 x - x| := by
      rw [abs_lt]
      constructor
      · rcases le_or_lt (f32 x - x) 0 with hneg | hpos
        · linarith
        · rw [abs_of_pos hpos]
          linarith
      · rcases le_or_lt 0 (f32 x - x) with hpos | hneg
        · rw [abs_of_nonneg hpos]
          linarith
        · linarith
    linarith
  have hy : y ≤ (f32 x + f32 y) / 2 := by
    by_contra hc
    push_neg at hc
    have hb : |f32 x - y| < |f32 y - y| := by
      rw [abs_lt]
      constructor
      · rcases le_or_lt 0 (f32 y - y) with hpos | hneg
        · linarith
        · rw [abs_of_neg hneg]
          linarith
      · rcases le_or_lt (f32 y - y) 0 with hneg | hpos
        · rw [abs_of_nonpos hneg]
          linarith
        · linarith
    linarith
  linarith

theorem f32_nonneg (x : ℚ) (h : 0 ≤ x) : 0 ≤ f32 x := by
  have := f32_mono 0 x h
  rwa [f32_zero] at this

theorem f32_nonpos (x : ℚ) (h : x ≤ 0) : f32 x ≤ 0 := by
  have := f32_mono x 0 h
  rwa [f32_zero] at this

theorem f32_le_of_le (x r : ℚ) (hr : isF32 r) (h : x ≤ r) : f32 x ≤ r := by
  have := f32_mono x r h
  rwa [f32_of_isF32 r hr] at this

theorem le_f32_of_le (x r : ℚ) (hr : isF32 r) (h : r ≤ x) : r ≤ f32 x := by
  have := f32_mono r x h
  rwa [f32_of_isF32 r hr] at this

theorem isF32_intCast (n : Int) (h : |n| ≤ 2 ^ 24) : isF32 (n : ℚ) := by
  by_cases hlt : |n| < 2 ^ 24
  · exact ⟨n, 0, hlt, by simp⟩
  · have hcase : n = 2 ^ 24 ∨ n = -(2 ^ 24) := by
      rw [abs_le] at h
      rw [abs_lt] at hlt
      omega
    rcases hcase with e | e
    · exact ⟨1, 24, by norm_num, by rw [e]; norm_num⟩
    · exact ⟨-1, 24, by norm_num, by rw [e]; norm_num⟩

theorem isF32_mul_zpow (x : ℚ) (k : Int) (h : isF32 x) : isF32 (x * 2 ^ k) := by
  obtain ⟨m, e, hm, rfl⟩ := h
  refine ⟨m, e + k, hm, ?_⟩
  rw [mul_assoc, ← zpow_add₀ (by norm_num : (2 : ℚ) ≠ 0)]

theorem isF32_zpow (k : Int) : isF32 ((2 : ℚ) ^ k) :=
  ⟨1, k, by norm_num, by simp⟩

theorem f32_intCast (n : Int) (h : |n| ≤ 2 ^ 24) : f32 (n : ℚ) = n :=
  f32_of_isF32 _ (isF32_intCast n h)

/-- The rounding of an integer is an integer. -/
theorem f32_intCast_isInt (n : Int) : ∃ k : Int, f32 (n : ℚ) = k := by
  by_cases h : |n| ≤ 2 ^ 24
  · exact ⟨n, f32_intCast n h⟩
  · push_neg at h
    have hx : (n : ℚ) ≠ 0 := by
      intro h0
      have : n = 0 := by exact_mod_cast h0
      rw [this] at h
      norm_num at h
    obtain ⟨_, h2⟩ := ilog2_spec (n : ℚ) hx
    have hg : 24 ≤ ilog2 (n : ℚ) := by
      by_contra hc
      have hc2 : ilog2 (n : ℚ) + 1 ≤ 24 := by omega
      have h3 : |(n : ℚ)| < 2 ^ (24 : Int) := lt_of_lt_of_le h2 (zpow_two_le _ _ hc2)
      have h4 : (16777216 : ℚ) < |(n : ℚ)| := by exact_mod_cast h
      norm_num at h3
      linarith
    have hk : ((ilog2 (n : ℚ) - 23).toNat : Int) = ilog2 (n : ℚ) - 23 :=
      Int.toNat_of_nonneg (by omega)
    refine ⟨roundEven ((n : ℚ) / 2 ^ (ilog2 (n : ℚ) - 23)) * 2 ^ (ilog2 (n : ℚ) - 23).toNat, ?_⟩
    rw [f32_apply _ hx]
    push_cast
    rw [← zpow_natCast (2 : ℚ), hk]

/-- The relative rounding error is at most `2^-24`. -/
theorem abs_f32_sub_le_rel (x : ℚ) : |f32 x - x| ≤ |x| / 16777216 := by
  by_cases hx : x = 0
  · rw [hx, f32_zero]
    simp
  · obtain ⟨h1, _⟩ := ilog2_spec x hx
    have h := abs_f32_sub_le x hx
    have e : (2 : ℚ) ^ ilog2 x = 16777216 * (2 ^ (ilog2 x - 23) / 2) := by
      have e1 : (2 : ℚ) ^ ilog2 x = 2 ^ (ilog2 x - 1 + 1) := by
        congr 1
        ring
      have e2 : ilog2 x - 1 - 23 = ilog2 x - 23 - 1 := by ring
      rw [e1, zpow_two_succ_eq, e2, zpow_sub_one₀ (by norm_num : (2 : ℚ) ≠ 0)]
      ring
    rw [e] at h1
    linarith

/-! ### Lemmas on the radical inverse -/

theorem radicalInverse_nil (b : Nat) : radicalInverse b [] = 0 := by
  simp [radicalInverse]

theorem radicalInverse_cons (b d : Nat) (ds : List Nat) :
    radicalInverse b (d :: ds) = ((d : ℚ) + radicalInverse b ds) / (b : ℚ) := by
  unfold radicalInverse
  rw [List.length_cons, Finset.sum_range_succ', add_div, Finset.sum_div, add_comm]
  congr 1
  · simp [div_eq_mul_inv]
  · refine Finset.sum_congr rfl fun k _ => ?_
    simp only [List.getD_cons_succ]
    rw [pow_succ, mul_inv, div_eq_mul_inv]
    ring

theorem radicalInverse_nonneg (b : Nat) (ds : List Nat) : 0 ≤ radicalInverse b ds := by
  unfold radicalInverse
  exact Finset.sum_nonneg fun k _ => by positivity

theorem radicalInverse_lt_one (b : Nat) (hb : 2 ≤ b) (ds : List Nat) (hds : ∀ d ∈ ds, d < b) :
    radicalInverse b ds < 1 := by
  have hbq : (0 : ℚ) < (b : ℚ) := by exact_mod_cast (by omega : 0 < b)
  induction ds with
  | nil => simp [radicalInverse_nil]
  | cons d ds ih =>
    have ih1 := ih fun x hx => hds x (List.mem_cons_of_mem _ hx)
    have hd : d + 1 ≤ b := hds d (List.mem_cons_self _ _)
    have hdq : (d : ℚ) + 1 ≤ (b : ℚ) := by exact_mod_cast hd
    rw [radicalInverse_cons, div_lt_one hbq]
    linarith

theorem HaltonLoop_nonpos (base : Int) (fuel : Nat) (f r : ℚ) (index : Int) (h : index ≤ 0) :
    HaltonLoop base fuel f r index = some r := by
  cases fuel <;> simp [HaltonLoop, not_lt.mpr h]

theorem tmod_digit (b d m : Nat) (hd : d < b) :
    Int.tmod ((d : Int) + (b : Int) * (m : Int)) (b : Int) = (d : Int) := by
  have h0 : (0 : Int) ≤ (d : Int) + (b : Int) * (m : Int) := by positivity
  rw [Int.tmod_eq_emod h0 (by positivity)]
  rw [Int.add_mul_emod_self_left]
  exact Int.emod_eq_of_lt (by positivity) (by exact_mod_cast hd)

theorem floor_digit (b d m : Nat) (hd : d < b) :
    ⌊(((d : Int) + (b : Int) * (m : Int) : Int) : ℚ) / (((b : Nat) : Int) : ℚ)⌋ = (m : Int) := by
  have hb : (0 : ℚ) < (b : ℚ) := by exact_mod_cast (by omega : 0 < b)
  rw [Int.floor_eq_iff]
  push_cast
  constructor
  · rw [le_div_iff₀ hb]
    have : (0 : ℚ) ≤ (d : ℚ) := by positivity
    nlinarith
  · rw [div_lt_iff₀ hb]
    have : (d : ℚ) < (b : ℚ) := by exact_mod_cast hd
    nlinarith

/-- Loop invariant of `HaltonSequenceAt`: started on the number with base-`b` digits `ds`, with
at least that number of iterations allowed, the loop returns `r + f * radicalInverse b ds`. -/
theorem HaltonLoop_ofDigits (b : Nat) (hb : 2 ≤ b) (ds : List Nat) (hds : ∀ d ∈ ds, d < b) :
    ∀ (fuel : Nat) (f r : ℚ), Nat.ofDigits b ds ≤ fuel →
      HaltonLoop (b : Int) fuel f r ((Nat.ofDigits b ds : Nat) : Int)
        = some (r + f * radicalInverse b ds) := by
  induction ds with
  | nil =>
    intro fuel f r _
    rw [HaltonLoop_nonpos _ _ _ _ _ (by simp)]
    simp [radicalInverse_nil]
  | cons d ds ih =>
    intro fuel f r hfuel
    have hd : d < b := hds d (List.mem_cons_self _ _)
    have ih1 := ih fun x hx => hds x (List.mem_cons_of_mem _ hx)
    rw [Nat.ofDigits_cons] at hfuel ⊢
    by_cases hpos : 0 < d + b * Nat.ofDigits b ds
    · obtain ⟨fuel1, rfl⟩ : ∃ k, fuel = k + 1 := ⟨fuel - 1, by omega⟩
      have hposZ : (((d + b * Nat.ofDigits b ds : Nat) : Int)) > 0 := by exact_mod_cast hpos
      have hb0 : ((b : Nat) : Int) ≠ 0 := by exact_mod_cast (by omega : b ≠ 0)
      have hle : Nat.ofDigits b ds ≤ fuel1 := by
        have : 2 * Nat.ofDigits b ds ≤ b * Nat.ofDigits b ds := Nat.mul_le_mul_right _ hb
        omega
      rw [HaltonLoop, if_pos hposZ, if_neg hb0]
      have hcast : (((d + b * Nat.ofDigits b ds : Nat) : Int))
          = (d : Int) + (b : Int) * ((Nat.ofDigits b ds : Nat) : Int) := by push_cast; rfl
      rw [hcast, tmod_digit b d _ hd, floor_digit b d _ hd, ih1 fuel1 _ _ hle,
        radicalInverse_cons]
      congr 1
      push_cast
      ring
    · have hz : d + b * Nat.ofDigits b ds = 0 := by omega
      have hd0 : d = 0 := by omega
      have hm0 : Nat.ofDigits b ds = 0 := by
        rcases Nat.eq_zero_or_pos (Nat.ofDigits b ds) with h | h
        · exact h
        · have : 0 < b * Nat.ofDigits b ds := Nat.mul_pos (by omega) h
          omega
      have h1 := ih1 fuel 1 0 (by omega)
      rw [hm0, HaltonLoop_nonpos _ _ _ _ _ (by simp)] at h1
      have hri : radicalInverse b ds = 0 := by
        have := Option.some.inj h1
        linarith
      rw [hz, HaltonLoop_nonpos _ _ _ _ _ (by simp), radicalInverse_cons, hri, hd0]
      simp

theorem HaltonSequenceAt_ofDigits (b : Nat) (hb : 2 ≤ b) (ds : List Nat)
    (hds : ∀ d ∈ ds, d < b) :
    HaltonSequenceAt ((Nat.ofDigits b ds : Nat) : Int) (b : Int) = some (radicalInverse b ds) := by
  unfold HaltonSequenceAt
  rw [Int.toNat_natCast, HaltonLoop_ofDigits b hb ds hds _ _ _ le_rfl]
  simp

theorem HaltonSequenceAt_nat (b : Nat) (hb : 2 ≤ b) (n : Nat) :
    HaltonSequenceAt (n : Int) (b : Int) = some (radicalInverse b (Nat.digits b n)) := by
  have h := HaltonSequenceAt_ofDigits b hb (Nat.digits b n)
    (fun d hd => Nat.digits_lt_base (by omega) hd)
  rwa [Nat.ofDigits_digits] at h

theorem radicalInverse_digits_step (b : Nat) (hb : 2 ≤ b) (n : Nat) (hn : 0 < n) :
    radicalInverse b (Nat.digits b n)
      = (((n % b : Nat) : ℚ) + radicalInverse b (Nat.digits b (n / b))) / (b : ℚ) := by
  rw [Nat.digits_def' (by omega) hn, radicalInverse_cons]

theorem radicalInverse_digits_lt_one (b : Nat) (hb : 2 ≤ b) (n : Nat) :
    radicalInverse b (Nat.digits b n) < 1 :=
  radicalInverse_lt_one b hb _ fun _ hd => Nat.digits_lt_base (by omega) hd

theorem radicalInverse_digits_pos (b : Nat) (hb : 2 ≤ b) (n : Nat) (hn : 0 < n) :
    0 < radicalInverse b (Nat.digits b n) := by
  have hbq : (0 : ℚ) < (b : ℚ) := by exact_mod_cast (by omega : 0 < b)
  induction n using Nat.strong_induction_on with
  | _ n ih =>
    rw [radicalInverse_digits_step b hb n hn]
    apply div_pos _ hbq
    by_cases hmod : n % b = 0
    · have hdiv : 0 < n / b := by
        have := Nat.div_add_mod n b
        rcases Nat.eq_zero_or_pos (n / b) with h | h
        · rw [h, hmod] at this; omega
        · exact h
      have hlt : n / b < n := Nat.div_lt_self hn (by omega)
      have := ih (n / b) hlt hdiv
      have h0 : (0 : ℚ) ≤ ((n % b : Nat) : ℚ) := by positivity
      linarith
    · have h1 : (0 : ℚ) < ((n % b : Nat) : ℚ) := by exact_mod_cast Nat.pos_of_ne_zero hmod
      have := radicalInverse_nonneg b (Nat.digits b (n / b))
      linarith

theorem natCast_add_frac_inj (a c : Nat) (x y : ℚ) (hx0 : 0 ≤ x) (hx1 : x < 1) (hy0 : 0 ≤ y)
    (hy1 : y < 1) (h : (a : ℚ) + x = (c : ℚ) + y) : a = c := by
  by_contra hne
  rcases Nat.lt_or_gt_of_ne hne with hlt | hgt
  · have : (a : ℚ) + 1 ≤ (c : ℚ) := by exact_mod_cast hlt
    linarith
  · have : (c : ℚ) + 1 ≤ (a : ℚ) := by exact_mod_cast hgt
    linarith

/-- The radical inverse separates indices: equal values come from equal numbers. -/
theorem radicalInverse_digits_inj (b : Nat) (hb : 2 ≤ b) :
    ∀ n m : Nat, radicalInverse b (Nat.digits b n) = radicalInverse b (Nat.digits b m) →
      n = m := by
  have hbq : (b : ℚ) ≠ 0 := by exact_mod_cast (by omega : b ≠ 0)
  intro n
  induction n using Nat.strong_induction_on with
  | _ n ih =>
    intro m h
    rcases Nat.eq_zero_or_pos n with hn | hn
    · subst hn
      rcases Nat.eq_zero_or_pos m with hm | hm
      · exact hm.symm
      · have := radicalInverse_digits_pos b hb m hm
        rw [← h] at this
        simp [radicalInverse_nil] at this
    · rcases Nat.eq_zero_or_pos m with hm | hm
      · subst hm
        have := radicalInverse_digits_pos b hb n hn
        rw [h] at this
        simp [radicalInverse_nil] at this
      · rw [radicalInverse_digits_step b hb n hn, radicalInverse_digits_step b hb m hm,
          div_left_inj' hbq] at h
        have hmod : n % b = m % b :=
          natCast_add_frac_inj _ _ _ _ (radicalInverse_nonneg _ _)
            (radicalInverse_digits_lt_one b hb _) (radicalInverse_nonneg _ _)
            (radicalInverse_digits_lt_one b hb _) h
        have hrest : radicalInverse b (Nat.digits b (n / b))
            = radicalInverse b (Nat.digits b (m / b)) := by
          rw [hmod] at h
          linarith
        have hdiv : n / b = m / b := ih (n / b) (Nat.div_lt_self hn (by omega)) (m / b) hrest
        rw [← Nat.div_add_mod n b, ← Nat.div_add_mod m b, hdiv, hmod]

theorem Halton2D_nat (i : Nat) :
    Halton2D (i : Int)
      = some (radicalInverse 2 (Nat.digits 2 (i + 1)) - 1 / 2,
          radicalInverse 3 (Nat.digits 3 (i + 1)) - 1 / 2) := by
  have h2 := HaltonSequenceAt_nat 2 le_rfl (i + 1)
  have h3 := HaltonSequenceAt_nat 3 (by decide) (i + 1)
  push_cast at h2 h3
  simp only [Halton2D, h2, h3]

theorem Halton2D_inj_nat (i j : Nat) (h : Halton2D (i : Int) = Halton2D (j : Int)) : i = j := by
  rw [Halton2D_nat, Halton2D_nat] at h
  have h1 : radicalInverse 2 (Nat.digits 2 (i + 1)) = radicalInverse 2 (Nat.digits 2 (j + 1)) := by
    have := congrArg Prod.fst (Option.some.inj h)
    simp only at this
    linarith
  have := radicalInverse_digits_inj 2 le_rfl _ _ h1
  omega

theorem digitSum_eq_ofDigits (b : Nat) (ds : List Nat) :
    ∑ k in Finset.range ds.length, ds.getD k 0 * b ^ k = Nat.ofDigits b ds := by
  induction ds with
  | nil => simp
  | cons d ds ih =>
    rw [List.length_cons, Finset.sum_range_succ', Nat.ofDigits_cons, ← ih, Finset.mul_sum,
      add_comm]
    congr 1
    · simp
    · refine Finset.sum_congr rfl fun k _ => ?_
      simp only [List.getD_cons_succ]
      ring

theorem Halton2D_zero : Halton2D 0 = some (0, -1 / 6) := by
  have h2 : Int.tmod 1 2 = 1 := by decide
  have h3 : Int.tmod 1 3 = 1 := by decide
  simp [Halton2D, HaltonSequenceAt, HaltonLoop, h2, h3]
  norm_num

theorem Halton2D_one : Halton2D 1 = some (-1 / 4, 1 / 6) := by
  have h1 : Int.tmod 2 2 = 0 := by decide
  have h2 : Int.tmod 1 2 = 1 := by decide
  have h3 : Int.tmod 2 3 = 2 := by decide
  simp [Halton2D, HaltonSequenceAt, HaltonLoop, h1, h2, h3]
  norm_num

theorem HaltonSequenceAt_nonpos (index base : Int) (h : index ≤ 0) :
    HaltonSequenceAt index base = some 0 :=
  HaltonLoop_nonpos base _ 1 0 index h

theorem floor_natCast_div (n b : Nat) :
    ⌊((n : Int) : ℚ) / ((b : Int) : ℚ)⌋ = ((n / b : Nat) : Int) := by
  have : ((n : Int) : ℚ) / ((b : Int) : ℚ) = ((n : ℚ) / (b : ℚ)) := by push_cast; rfl
  rw [this]
  exact Rat.floor_natCast_div_natCast n b

theorem HaltonIterations_nat (b : Nat) (hb : 2 ≤ b) :
    ∀ (n fuel : Nat), HaltonIterations (b : Int) fuel (n : Int)
      = if (Nat.digits b n).length ≤ fuel then some (Nat.digits b n).length else none := by
  intro n
  induction n using Nat.strong_induction_on with
  | _ n ih =>
    intro fuel
    rcases Nat.eq_zero_or_pos n with hn | hn
    · subst hn
      cases fuel <;> simp [HaltonIterations]
    · have hb0 : (b : Int) ≠ 0 := by omega
      have hpos : ((n : Int) > 0) := by exact_mod_cast hn
      have hdig : Nat.digits b n = (n % b) :: Nat.digits b (n / b) :=
        Nat.digits_def' (by omega) hn
      cases fuel with
      | zero => simp [HaltonIterations, hpos, hdig]
      | succ fuel =>
        have hlt : n / b < n := Nat.div_lt_self hn (by omega)
        simp only [HaltonIterations, hpos, if_true, hb0, if_false, floor_natCast_div,
          ih (n / b) hlt fuel, hdig, List.length_cons, Nat.add_le_add_iff_right]
        split <;> simp

theorem HaltonLoop_nat_isSome (b : Nat) (hb : 2 ≤ b) :
    ∀ (n fuel : Nat) (f r : ℚ), (HaltonLoop (b : Int) fuel f r (n : Int)).isSome
      = decide ((Nat.digits b n).length ≤ fuel) := by
  intro n
  induction n using Nat.strong_induction_on with
  | _ n ih =>
    intro fuel f r
    rcases Nat.eq_zero_or_pos n with hn | hn
    · subst hn
      cases fuel <;> simp [HaltonLoop]
    · have hb0 : (b : Int) ≠ 0 := by omega
      have hpos : ((n : Int) > 0) := by exact_mod_cast hn
      have hdig : Nat.digits b n = (n % b) :: Nat.digits b (n / b) :=
        Nat.digits_def' (by omega) hn
      cases fuel with
      | zero => simp [HaltonLoop, hpos, hdig]
      | succ fuel =>
        have hlt : n / b < n := Nat.div_lt_self hn (by omega)
        simp only [HaltonLoop, hpos, if_true, hb0, if_false, floor_natCast_div,
          ih (n / b) hlt fuel, hdig, List.length_cons, Nat.add_le_add_iff_right]

theorem digits_length_le_self (b : Nat) (hb : 2 ≤ b) :
    ∀ n : Nat, (Nat.digits b n).length ≤ n := by
  intro n
  induction n using Nat.strong_induction_on with
  | _ n ih =>
    rcases Nat.eq_zero_or_pos n with hn | hn
    · subst hn; simp
    · rw [Nat.digits_def' (by omega) hn, List.length_cons]
      have hlt : n / b < n := Nat.div_lt_self hn (by omega)
      have h1 := ih (n / b) hlt
      have h2 : n / b ≤ n / 2 := Nat.div_le_div_left hb (by omega)
      omega

theorem HaltonIterations_nonpos (base : Int) (fuel : Nat) (index : Int) (h : index ≤ 0) :
    HaltonIterations base fuel index = some 0 := by
  have : ¬ index > 0 := by omega
  cases fuel <;> simp [HaltonIterations, this]

theorem radicalInverse_digits_zero (b : Nat) : radicalInverse b (Nat.digits b 0) = 0 := by
  rw [Nat.digits_zero, radicalInverse_nil]

/-- The radical inverse of a number below `b ^ k` is a multiple of `b ^ -k`. -/
theorem radicalInverse_digits_grid (b : Nat) (hb : 2 ≤ b) :
    ∀ (k n : Nat), n < b ^ k →
      ∃ j : Nat, j < b ^ k ∧ radicalInverse b (Nat.digits b n) = (j : ℚ) / ((b : ℚ) ^ k) := by
  intro k
  induction k with
  | zero =>
    intro n hn
    have : n = 0 := by simpa using hn
    subst this
    exact ⟨0, by simp, by rw [radicalInverse_digits_zero]; simp⟩
  | succ k ih =>
    intro n hn
    rcases Nat.eq_zero_or_pos n with h0 | hpos
    · subst h0
      exact ⟨0, by positivity, by rw [radicalInverse_digits_zero]; simp⟩
    · have hb0 : 0 < b := by omega
      have hdiv : n / b < b ^ k := by
        rw [Nat.div_lt_iff_lt_mul hb0]
        calc n < b ^ (k + 1) := hn
          _ = b ^ k * b := by ring
      obtain ⟨j, hj, hrad⟩ := ih (n / b) hdiv
      have hmod : n % b < b := Nat.mod_lt n hb0
      refine ⟨(n % b) * b ^ k + j, ?_, ?_⟩
      · calc (n % b) * b ^ k + j < (n % b) * b ^ k + b ^ k := by omega
          _ = (n % b + 1) * b ^ k := by ring
          _ ≤ b * b ^ k := Nat.mul_le_mul_right _ hmod
          _ = b ^ (k + 1) := by ring
      · rw [radicalInverse_digits_step b hb n hpos, hrad]
        have hbq : (b : ℚ) ≠ 0 := by positivity
        push_cast
        rw [pow_succ]
        field_simp

theorem pow_grid_inj (b k : Nat) (hb : 2 ≤ b) (i j : Nat)
    (h : (i : ℚ) / (b : ℚ) ^ k = (j : ℚ) / (b : ℚ) ^ k) : i = j := by
  have hbq : (b : ℚ) ^ k ≠ 0 := by positivity
  have := (div_left_inj' hbq).mp h
  exact_mod_cast this

/-- The radical inverse maps the numbers below `b ^ k` one-to-one onto the multiples
`j / b ^ k`, `j < b ^ k`. -/
theorem radicalInverse_digits_bijective (b k : Nat) (hb : 2 ≤ b) :
    (∀ n < b ^ k, ∃ j < b ^ k,
        radicalInverse b (Nat.digits b n) = (j : ℚ) / (b : ℚ) ^ k)
      ∧ (∀ j < b ^ k, ∃ n < b ^ k,
        radicalInverse b (Nat.digits b n) = (j : ℚ) / (b : ℚ) ^ k) := by
  refine ⟨fun n hn => radicalInverse_digits_grid b hb k n hn, ?_⟩
  classical
  -- the index `j` of the value at `n`, as a map of `Fin (b ^ k)` to itself
  have hex : ∀ n : Fin (b ^ k), ∃ j : Fin (b ^ k),
      radicalInverse b (Nat.digits b n) = ((j : Nat) : ℚ) / (b : ℚ) ^ k := by
    intro n
    obtain ⟨j, hj, h⟩ := radicalInverse_digits_grid b hb k n n.isLt
    exact ⟨⟨j, hj⟩, h⟩
  choose g hg using hex
  have hinj : Function.Injective g := by
    intro n m hnm
    have : radicalInverse b (Nat.digits b n) = radicalInverse b (Nat.digits b m) := by
      rw [hg n, hg m, hnm]
    exact Fin.ext (radicalInverse_digits_inj b hb _ _ this)
  have hsurj : Function.Surjective g := Finite.injective_iff_surjective.mp hinj
  intro j hj
  obtain ⟨n, hn⟩ := hsurj ⟨j, hj⟩
  refine ⟨n, n.isLt, ?_⟩
  rw [hg n, hn]

/-! ### The loop of `HaltonSequenceAt` in binary32 arithmetic -/

theorem isF32_two : isF32 2 := ⟨2, 0, by norm_num, by norm_num⟩

theorem two_le_f32_base (base : Int) (hb : 2 ≤ base) : (2 : ℚ) ≤ f32 (base : ℚ) :=
  le_f32_of_le _ 2 isF32_two (by exact_mod_cast hb)

theorem isF32_natPow (k : Nat) : isF32 ((2 : ℚ) ^ k) := by
  rw [← zpow_natCast]
  exact isF32_zpow k

/-- One step of the index: a positive `index` is replaced by a smaller, non-negative one. -/
theorem binary32_index_step (index base : Int) (hi : 0 < index) (hb : 2 ≤ base) :
    0 ≤ ⌊f32 (f32 (index : ℚ) / f32 (base : ℚ))⌋
      ∧ ⌊f32 (f32 (index : ℚ) / f32 (base : ℚ))⌋ < index := by
  have hB := two_le_f32_base base hb
  have hx0 : (0 : ℚ) ≤ f32 (index : ℚ) := f32_nonneg _ (by exact_mod_cast hi.le)
  constructor
  · apply Int.floor_nonneg.mpr
    exact f32_nonneg _ (div_nonneg hx0 (by linarith))
  · rw [Int.floor_lt]
    obtain ⟨n, rfl⟩ := Int.eq_ofNat_of_zero_le hi.le
    have hn : 0 < n := by exact_mod_cast hi
    have h1 : 2 ^ Nat.log 2 n ≤ n := Nat.pow_log_le_self 2 (by omega)
    have h2 : n < 2 ^ (Nat.log 2 n + 1) := Nat.lt_pow_succ_log_self (by norm_num) n
    generalize Nat.log 2 n = k at h1 h2
    push_cast
    rcases eq_or_lt_of_le h1 with e | e
    · -- `index` is a power of two
      have hx : f32 (n : ℚ) = (2 : ℚ) ^ k := by
        rw [← e]
        push_cast
        exact f32_of_isF32 _ (isF32_natPow k)
      rw [hx]
      have hq : (2 : ℚ) ^ k / f32 (base : ℚ) ≤ 2 ^ k * 2 ^ (-1 : Int) := by
        rw [div_le_iff₀ (by linarith)]
        have hpos : (0 : ℚ) < 2 ^ k := by positivity
        have e2 : (2 : ℚ) ^ (-1 : Int) = 1 / 2 := by norm_num
        rw [e2]
        nlinarith
      have hr := f32_le_of_le _ _ (isF32_mul_zpow _ (-1) (isF32_natPow k)) hq
      have e2 : (2 : ℚ) ^ (-1 : Int) = 1 / 2 := by norm_num
      rw [e2] at hr
      have hpos : (0 : ℚ) < 2 ^ k := by positivity
      have hn2 : ((n : ℚ)) = 2 ^ k := by rw [← e]; push_cast; rfl
      rw [hn2]
      linarith
    · have hx : f32 (n : ℚ) ≤ (2 : ℚ) ^ (k + 1) :=
        f32_le_of_le _ _ (isF32_natPow (k + 1)) (by exact_mod_cast h2.le)
      have hq : f32 (n : ℚ) / f32 (base : ℚ) ≤ 2 ^ k := by
        rw [div_le_iff₀ (by linarith)]
        have hpos : (0 : ℚ) < 2 ^ k := by positivity
        rw [pow_succ] at hx
        nlinarith
      have hr := f32_le_of_le _ _ (isF32_natPow k) hq
      have : ((2 : ℚ) ^ k) < (n : ℚ) := by exact_mod_cast e
      linarith

/-- Below `2^24` the step is exact: the floor of the quotient. -/
theorem binary32_index_step_exact (index base : Int) (hi : 0 < index) (hlt : index < 2 ^ 24)
    (hb : 2 ≤ base) :
    ⌊f32 (f32 (index : ℚ) / f32 (base : ℚ))⌋ = ⌊(index : ℚ) / (base : ℚ)⌋ := by
  have hidx : f32 (index : ℚ) = index :=
    f32_intCast index (by rw [abs_of_pos hi]; omega)
  rw [hidx]
  have hiq : (0 : ℚ) < (index : ℚ) := by exact_mod_cast hi
  have hiq2 : (index : ℚ) < 16777216 := by exact_mod_cast hlt
  by_cases hbase : base < 2 ^ 24
  · have hbq : f32 (base : ℚ) = base :=
      f32_intCast base (by rw [abs_of_pos (by omega)]; omega)
    rw [hbq]
    have hbpos : (0 : ℚ) < (base : ℚ) := by exact_mod_cast (by omega : 0 < base)
    set q : ℚ := (index : ℚ) / (base : ℚ) with hq
    have hqpos : 0 < q := div_pos hiq hbpos
    have hk1 : ((⌊q⌋ : Int) : ℚ) ≤ q := Int.floor_le q
    have hk2 : q < (⌊q⌋ : ℚ) + 1 := Int.lt_floor_add_one q
    have hk0 : 0 ≤ ⌊q⌋ := Int.floor_nonneg.mpr hqpos.le
    have hkidx : ⌊q⌋ ≤ index := by
      have : q ≤ (index : ℚ) := by
        rw [hq, div_le_iff₀ hbpos]
        have : (1 : ℚ) ≤ (base : ℚ) := by exact_mod_cast (by omega : 1 ≤ base)
        nlinarith
      exact_mod_cast (hk1.trans this)
    rw [Int.floor_eq_iff]
    constructor
    · exact le_f32_of_le _ _ (isF32_intCast _ (by rw [abs_of_nonneg hk0]; omega)) hk1
    · -- the distance to the next integer is at least `1 / base`
      have hgap : 1 / (base : ℚ) ≤ (⌊q⌋ : ℚ) + 1 - q := by
        have h1 : index < (⌊q⌋ + 1) * base := by
          have : (index : ℚ) < ((⌊q⌋ : ℚ) + 1) * (base : ℚ) := by
            rw [hq, div_lt_iff₀ hbpos] at hk2
            exact hk2
          exact_mod_cast this
        have h2 : (index : ℚ) + 1 ≤ ((⌊q⌋ : ℚ) + 1) * (base : ℚ) := by
          exact_mod_cast (by omega : index + 1 ≤ (⌊q⌋ + 1) * base)
        rw [hq, div_le_iff₀ hbpos]
        have : ((⌊q⌋ : ℚ) + 1 - (index : ℚ) / (base : ℚ)) * (base : ℚ)
            = ((⌊q⌋ : ℚ) + 1) * (base : ℚ) - (index : ℚ) := by
          field_simp
        rw [this]
        linarith
      have herr := abs_f32_sub_le_rel q
      rw [abs_of_pos hqpos] at herr
      have herr2 : q / 16777216 < 1 / (base : ℚ) := by
        rw [hq, div_div, div_lt_div_iff₀ (by positivity) hbpos]
        nlinarith
      have := (le_abs_self (f32 q - q)).trans herr
      linarith
  · push_neg at hbase
    have hB : (16777216 : ℚ) ≤ f32 (base : ℚ) :=
      le_f32_of_le _ _ (isF32_intCast (2 ^ 24) (by norm_num)) (by exact_mod_cast hbase)
    have hbpos : (0 : ℚ) < (base : ℚ) := by exact_mod_cast (by omega : 0 < base)
    have hq1 : (index : ℚ) / f32 (base : ℚ) ≤ 16777215 * 2 ^ (-24 : Int) := by
      rw [div_le_iff₀ (by linarith)]
      have hi3 : (index : ℚ) ≤ 16777215 := by exact_mod_cast (by omega : index ≤ 16777215)
      have e2 : (2 : ℚ) ^ (-24 : Int) = 1 / 16777216 := by norm_num
      rw [e2]
      nlinarith
    have hrep : isF32 ((16777215 : ℚ) * 2 ^ (-24 : Int)) :=
      ⟨16777215, -24, by norm_num, by norm_num⟩
    have hr := f32_le_of_le _ _ hrep hq1
    have hr0 : 0 ≤ f32 ((index : ℚ) / f32 (base : ℚ)) :=
      f32_nonneg _ (div_nonneg hiq.le (by linarith))
    have e1 : ⌊f32 ((index : ℚ) / f32 (base : ℚ))⌋ = 0 := by
      rw [Int.floor_eq_iff]
      constructor
      · simpa using hr0
      · have e2 : (16777215 : ℚ) * 2 ^ (-24 : Int) < 1 := by norm_num
        push_cast
        linarith
    have e3 : ⌊(index : ℚ) / (base : ℚ)⌋ = 0 := by
      rw [Int.floor_eq_iff]
      constructor
      · simpa using (div_nonneg hiq.le hbpos.le)
      · push_cast
        rw [zero_add, div_lt_one hbpos]
        exact_mod_cast (by omega : index < base)
    rw [e1, e3]

theorem binary32_HaltonLoop_nonpos (base : Int) (fuel : Nat) (f r : ℚ) (index : Int)
    (h : index ≤ 0) : F32.HaltonLoop base fuel f r index = some r := by
  cases fuel <;> simp [F32.HaltonLoop, not_lt.mpr h]

theorem binary32_HaltonIterations_nonpos (base : Int) (fuel : Nat) (index : Int) (h : index ≤ 0) :
    F32.HaltonIterations base fuel index = some 0 := by
  have : ¬ index > 0 := by omega
  cases fuel <;> simp [F32.HaltonIterations, this]

/-- With `index` iterations allowed the loop returns, for every base `≥ 2`. -/
theorem binary32_HaltonLoop_total (base : Int) (hb : 2 ≤ base) :
    ∀ (fuel : Nat) (f r : ℚ) (index : Int), index.toNat ≤ fuel →
      ∃ v, F32.HaltonLoop base fuel f r index = some v := by
  intro fuel
  induction fuel with
  | zero =>
    intro f r index h
    exact ⟨r, binary32_HaltonLoop_nonpos _ _ _ _ _ (by omega)⟩
  | succ fuel ih =>
    intro f r index h
    by_cases hi : index > 0
    · obtain ⟨h0, h1⟩ := binary32_index_step index base hi hb
      obtain ⟨v, hv⟩ := ih (f32 (f / f32 base))
        (f32 (r + f32 (f32 (f / f32 base) * f32 (Int.tmod index base : Int))))
        ⌊f32 (f32 (index : ℚ) / f32 (base : ℚ))⌋ (by omega)
      refine ⟨v, ?_⟩
      rw [← hv]
      simp only [F32.HaltonLoop, if_pos hi, if_neg (by omega : ¬ base = 0)]
    · exact ⟨r, binary32_HaltonLoop_nonpos _ _ _ _ _ (by omega)⟩

theorem binary32_HaltonIterations_total (base : Int) (hb : 2 ≤ base) :
    ∀ (fuel : Nat) (index : Int), index.toNat ≤ fuel →
      ∃ n, F32.HaltonIterations base fuel index = some n := by
  intro fuel
  induction fuel with
  | zero =>
    intro index h
    exact ⟨0, binary32_HaltonIterations_nonpos _ _ _ (by omega)⟩
  | succ fuel ih =>
    intro index h
    by_cases hi : index > 0
    · obtain ⟨h0, h1⟩ := binary32_index_step index base hi hb
      obtain ⟨n, hn⟩ := ih ⌊f32 (f32 (index : ℚ) / f32 (base : ℚ))⌋ (by omega)
      refine ⟨n + 1, ?_⟩
      simp only [F32.HaltonIterations, if_pos hi, if_neg (by omega : ¬ base = 0), hn,
        Option.map_some']
    · exact ⟨0, binary32_HaltonIterations_nonpos _ _ _ (by omega)⟩

theorem binary32_HaltonSequenceAt_total (index base : Int) (hb : 2 ≤ base) :
    ∃ r, F32.HaltonSequenceAt index base = some r :=
  binary32_HaltonLoop_total base hb _ _ _ _ le_rfl

theorem binary32_HaltonSequenceAt_nonpos (index base : Int) (h : index ≤ 0) :
    F32.HaltonSequenceAt index base = some 0 :=
  binary32_HaltonLoop_nonpos base _ 1 0 index h

/-- `Halton2D` returns for every argument. -/
theorem binary32_Halton2D_total (i : Int) : ∃ j, F32.Halton2D i = some j := by
  obtain ⟨hx, h2⟩ := binary32_HaltonSequenceAt_total (wrapInt32 (i + 1)) 2 (by norm_num)
  obtain ⟨hy, h3⟩ := binary32_HaltonSequenceAt_total (wrapInt32 (i + 1)) 3 (by norm_num)
  exact ⟨(f32 (hx - 1 / 2), f32 (hy - 1 / 2)), by simp only [F32.Halton2D, h2, h3]⟩

/-- Below `2^24` the loop runs as often in binary32 arithmetic as in exact arithmetic. -/
theorem binary32_HaltonIterations_eq (base : Int) (hb : 2 ≤ base) :
    ∀ (fuel : Nat) (index : Int), index < 2 ^ 24 →
      F32.HaltonIterations base fuel index = HaltonIterations base fuel index := by
  intro fuel
  induction fuel with
  | zero =>
    intro index _
    rfl
  | succ fuel ih =>
    intro index hlt
    by_cases hi : index > 0
    · have hstep := binary32_index_step_exact index base hi hlt hb
      obtain ⟨_, h1⟩ := binary32_index_step index base hi hb
      simp only [F32.HaltonIterations, HaltonIterations, if_pos hi,
        if_neg (by omega : ¬ base = 0)]
      rw [ih _ (by omega), hstep]
    · simp only [F32.HaltonIterations, HaltonIterations, if_neg hi]

theorem isF32_natCast_div_pow (m k : Nat) (hm : m < 2 ^ 24) : isF32 ((m : ℚ) / 2 ^ k) := by
  refine ⟨m, -(k : Int), ?_, ?_⟩
  · rw [abs_of_nonneg (by positivity)]
    exact_mod_cast hm
  · rw [zpow_neg, zpow_natCast, div_eq_mul_inv]
    push_cast
    rfl

/-- In base 2 and below `2^24` every operation of the loop is exact: in binary32 arithmetic
the loop computes what it computes in exact arithmetic.  After `k` iterations `f` is `2^-k`,
`r` is a multiple `M / 2^k` below 1 and `index` is below `2^(24-k)`. -/
theorem binary32_HaltonLoop_two_eq :
    ∀ (fuel k M : Nat) (index : Int), k ≤ 24 → M < 2 ^ k → index < 2 ^ (24 - k) →
      F32.HaltonLoop 2 fuel (1 / 2 ^ k) ((M : ℚ) / 2 ^ k) index
        = HaltonLoop 2 fuel (1 / 2 ^ k) ((M : ℚ) / 2 ^ k) index := by
  intro fuel
  induction fuel with
  | zero =>
    intro k M index _ _ _
    rfl
  | succ fuel ih =>
    intro k M index hk hM hidx
    by_cases hi : index > 0
    · have hk24 : k < 24 := by
        by_contra hc
        have : k = 24 := by omega
        rw [this] at hidx
        simp at hidx
        omega
      have hidx24 : index < 2 ^ 24 := by
        have : (2 : Int) ^ (24 - k) ≤ 2 ^ 24 := pow_le_pow_right₀ (by norm_num) (by omega)
        omega
      have h2 : f32 ((2 : Int) : ℚ) = 2 := by
        push_cast
        exact f32_of_isF32 _ isF32_two
      have hstep := binary32_index_step_exact index 2 hi hidx24 (by norm_num)
      -- the digit
      have hd0 : 0 ≤ Int.tmod index 2 := by
        rw [Int.tmod_eq_emod hi.le (by norm_num)]
        omega
      have hd1 : Int.tmod index 2 < 2 := by
        rw [Int.tmod_eq_emod hi.le (by norm_num)]
        omega
      obtain ⟨d, hd⟩ := Int.eq_ofNat_of_zero_le hd0
      have hd2 : d < 2 := by omega
      have hdq : ((Int.tmod index 2 : Int) : ℚ) = (d : ℚ) := by rw [hd]; push_cast; rfl
      have hfd : f32 ((Int.tmod index 2 : Int) : ℚ) = (d : ℚ) := by
        rw [hdq]
        exact f32_of_isF32 _ ⟨d, 0, by rw [abs_of_nonneg (by positivity)]; omega,
          by push_cast; simp⟩
      have hf : f32 (1 / 2 ^ k / (2 : ℚ)) = 1 / 2 ^ (k + 1) := by
        have e : (1 : ℚ) / 2 ^ k / 2 = ((1 : Nat) : ℚ) / 2 ^ (k + 1) := by
          rw [pow_succ]
          push_cast
          field_simp
        rw [e]
        have := f32_of_isF32 _ (isF32_natCast_div_pow 1 (k + 1) (by norm_num))
        rw [this]
        push_cast
        rfl
      have hprod : f32 (1 / 2 ^ (k + 1) * (d : ℚ)) = (d : ℚ) / 2 ^ (k + 1) := by
        have e : (1 : ℚ) / 2 ^ (k + 1) * (d : ℚ) = (d : ℚ) / 2 ^ (k + 1) := by ring
        rw [e]
        exact f32_of_isF32 _ (isF32_natCast_div_pow d (k + 1) (by omega))
      have hpow : (2 : Nat) ^ (k + 1) ≤ 2 ^ 24 := Nat.pow_le_pow_right (by norm_num) (by omega)
      have hM2 : 2 * M + d < 2 ^ (k + 1) := by
        rw [pow_succ]
        omega
      have hsum : f32 ((M : ℚ) / 2 ^ k + (d : ℚ) / 2 ^ (k + 1))
          = ((2 * M + d : Nat) : ℚ) / 2 ^ (k + 1) := by
        have e : (M : ℚ) / 2 ^ k + (d : ℚ) / 2 ^ (k + 1)
            = ((2 * M + d : Nat) : ℚ) / 2 ^ (k + 1) := by
          rw [pow_succ]
          push_cast
          field_simp
          ring
        rw [e]
        exact f32_of_isF32 _ (isF32_natCast_div_pow _ (k + 1) (by omega))
      have hidx2 : ⌊(index : ℚ) / ((2 : Int) : ℚ)⌋ < 2 ^ (24 - (k + 1)) := by
        have h1 : (index : ℚ) < 2 ^ (24 - k) := by exact_mod_cast hidx
        have e : (24 - k) = (24 - (k + 1)) + 1 := by omega
        rw [e, pow_succ] at h1
        generalize 24 - (k + 1) = j at h1 ⊢
        rw [Int.floor_lt]
        push_cast
        linarith
      have hex : HaltonLoop 2 (fuel + 1) (1 / 2 ^ k) ((M : ℚ) / 2 ^ k) index
          = HaltonLoop 2 fuel (1 / 2 ^ (k + 1)) (((2 * M + d : Nat) : ℚ) / 2 ^ (k + 1))
              ⌊(index : ℚ) / ((2 : Int) : ℚ)⌋ := by
        simp only [HaltonLoop, if_pos hi, if_neg (by norm_num : ¬ (2 : Int) = 0)]
        congr 1
        · rw [pow_succ]
          push_cast
          field_simp
        · rw [hdq, pow_succ]
          push_cast
          field_simp
          ring
      have hfl : F32.HaltonLoop 2 (fuel + 1) (1 / 2 ^ k) ((M : ℚ) / 2 ^ k) index
          = F32.HaltonLoop 2 fuel (1 / 2 ^ (k + 1)) (((2 * M + d : Nat) : ℚ) / 2 ^ (k + 1))
              ⌊(index : ℚ) / ((2 : Int) : ℚ)⌋ := by
        simp only [F32.HaltonLoop, if_pos hi, if_neg (by norm_num : ¬ (2 : Int) = 0)]
        rw [h2] at hstep
        rw [h2, hf, hfd, hprod, hsum, hstep]
      rw [hex, hfl]
      exact ih (k + 1) (2 * M + d) _ (by omega) hM2 hidx2
    · simp only [F32.HaltonLoop, HaltonLoop, if_neg hi]

/-- In base 2 and below `2^24` the binary32 result is the radical inverse. -/
theorem binary32_HaltonSequenceAt_two (n : Nat) (hn : n < 2 ^ 24) :
    F32.HaltonSequenceAt (n : Int) 2 = some (radicalInverse 2 (Nat.digits 2 n)) := by
  have h := binary32_HaltonLoop_two_eq (n : Int).toNat 0 0 (n : Int) (by norm_num) (by norm_num)
    (by exact_mod_cast hn)
  have h2 := HaltonSequenceAt_nat 2 le_rfl n
  unfold F32.HaltonSequenceAt
  unfold HaltonSequenceAt at h2
  simp only [pow_zero, Nat.cast_zero, zero_div, div_one] at h
  rw [h]
  exact_mod_cast h2

/-- In base 2 and below `2^24`, `HaltonSequenceAt` returns in binary32 arithmetic what it
returns in exact arithmetic. -/
theorem binary32_HaltonSequenceAt_two_eq (n : Int) (hn : n < 2 ^ 24) :
    F32.HaltonSequenceAt n 2 = HaltonSequenceAt n 2 := by
  have h := binary32_HaltonLoop_two_eq n.toNat 0 0 n (by norm_num) (by norm_num)
    (by simpa using hn)
  simp only [pow_zero, Nat.cast_zero, zero_div, div_one] at h
  exact h

theorem binary32_HaltonLoop_isF32 (base : Int) :
    ∀ (fuel : Nat) (f r : ℚ) (index : Int) (v : ℚ), isF32 r →
      F32.HaltonLoop base fuel f r index = some v → isF32 v := by
  intro fuel
  induction fuel with
  | zero =>
    intro f r index v hr h
    by_cases hi : index > 0
    · simp [F32.HaltonLoop, hi] at h
    · simp only [F32.HaltonLoop, if_neg hi, Option.some.injEq] at h
      rw [← h]
      exact hr
  | succ fuel ih =>
    intro f r index v hr h
    by_cases hi : index > 0
    · by_cases hb : base = 0
      · simp [F32.HaltonLoop, hi, hb] at h
      · simp only [F32.HaltonLoop, if_pos hi, if_neg hb] at h
        exact ih _ _ _ v (f32_isF32 _) h
    · simp only [F32.HaltonLoop, if_neg hi, Option.some.injEq] at h
      rw [← h]
      exact hr

/-- A multiple of `2^-24` in `[0, 1)` stays a binary32 number when `1/2` is subtracted. -/
theorem isF32_grid_sub_half (j : Nat) (hj : j < 2 ^ 24) :
    isF32 ((j : ℚ) / (2 : ℚ) ^ 24 - 1 / 2) := by
  refine ⟨(j : Int) - 2 ^ 23, -24, ?_, ?_⟩
  · rw [abs_lt]
    constructor <;> omega
  · push_cast
    norm_num
    ring

theorem wrapInt32_of_range (i : Int) (h0 : -(2 ^ 31) ≤ i) (h1 : i < 2 ^ 31) :
    wrapInt32 i = i := by
  unfold wrapInt32
  omega

theorem binary32_Halton2D_eq (i : Int) :
    ∃ hx hy, F32.HaltonSequenceAt (wrapInt32 (i + 1)) 2 = some hx
      ∧ F32.HaltonSequenceAt (wrapInt32 (i + 1)) 3 = some hy
      ∧ F32.Halton2D i = some (f32 (hx - 1 / 2), f32 (hy - 1 / 2)) := by
  obtain ⟨hx, h2⟩ := binary32_HaltonSequenceAt_total (wrapInt32 (i + 1)) 2 (by norm_num)
  obtain ⟨hy, h3⟩ := binary32_HaltonSequenceAt_total (wrapInt32 (i + 1)) 3 (by norm_num)
  exact ⟨hx, hy, h2, h3, by simp only [F32.Halton2D, h2, h3]⟩

/-- Below `2^24 - 1` the first coordinate of `Halton2D` is the radical inverse in base 2 of
`i + 1`, less one half, without rounding. -/
theorem binary32_Halton2D_fst (i : Int) (h0 : 0 ≤ i) (hi : i + 1 < 2 ^ 24) :
    ∃ hy, F32.Halton2D i
      = some (radicalInverse 2 (Nat.digits 2 (i + 1).toNat) - 1 / 2, hy) := by
  have hw : wrapInt32 (i + 1) = i + 1 := wrapInt32_of_range (i + 1) (by omega) (by omega)
  obtain ⟨hy, h3⟩ := binary32_HaltonSequenceAt_total (wrapInt32 (i + 1)) 3 (by norm_num)
  have hn : (i + 1).toNat < 2 ^ 24 := by omega
  have h2 : F32.HaltonSequenceAt (wrapInt32 (i + 1)) 2
      = some (radicalInverse 2 (Nat.digits 2 (i + 1).toNat)) := by
    rw [hw]
    have h := binary32_HaltonSequenceAt_two (i + 1).toNat hn
    rwa [Int.toNat_of_nonneg (by omega)] at h
  obtain ⟨j, hj, hgrid⟩ := radicalInverse_digits_grid 2 le_rfl 24 (i + 1).toNat hn
  have e : f32 (radicalInverse 2 (Nat.digits 2 (i + 1).toNat) - 1 / 2)
      = radicalInverse 2 (Nat.digits 2 (i + 1).toNat) - 1 / 2 := by
    rw [hgrid]
    push_cast
    exact f32_of_isF32 _ (isF32_grid_sub_half j hj)
  have hH : F32.Halton2D i
      = some (f32 (radicalInverse 2 (Nat.digits 2 (i + 1).toNat) - 1 / 2),
          f32 (hy - 1 / 2)) := by
    simp only [F32.Halton2D, h2, h3]
  exact ⟨f32 (hy - 1 / 2), by rw [hH, e]⟩

theorem binary32_Halton2D_zero : F32.Halton2D 0 = some (0, -5592405 / 33554432) := by
  decide!

theorem binary32_Halton2D_one : F32.Halton2D 1 = some (-1 / 4, 2796203 / 16777216) := by
  decide!

/-- C26, as the code has it. For every `index` and every `base ≥ 2` the call
`HaltonSequenceAt(index, base)` returns in binary32 arithmetic, so no iteration divides by
zero.  An iteration replaces a positive `index` by `floor(fl(float(index) / float(base)))`,
which is non-negative and strictly smaller.  For `index < 2^24` this is `floor(index / base)`
and the body of the loop runs exactly as many times as `index` has base-`base` digits: with at
least that many iterations allowed the count is returned, with fewer the loop is still
running.  For `index ≤ 0` the body does not run and the result is `0`. -/
theorem HaltonSequenceAt_binary32_terminates (index base : Int) (hb : 2 ≤ base) :
    (∃ r, F32.HaltonSequenceAt index base = some r)
      ∧ (∃ n, F32.HaltonIterations base index.toNat index = some n)
      ∧ (0 < index → 0 ≤ ⌊f32 (f32 (index : ℚ) / f32 (base : ℚ))⌋
          ∧ ⌊f32 (f32 (index : ℚ) / f32 (base : ℚ))⌋ < index)
      ∧ (0 < index → index < 2 ^ 24 →
          ⌊f32 (f32 (index : ℚ) / f32 (base : ℚ))⌋ = ⌊(index : ℚ) / (base : ℚ)⌋)
      ∧ (index < 2 ^ 24 → ∀ fuel, F32.HaltonIterations base fuel index
          = if (Nat.digits base.toNat index.toNat).length ≤ fuel
            then some (Nat.digits base.toNat index.toNat).length else none)
      ∧ (index < 2 ^ 24 → F32.HaltonIterations base index.toNat index
          = some (Nat.digits base.toNat index.toNat).length)
      ∧ (index ≤ 0 → (∀ fuel, F32.HaltonIterations base fuel index = some 0)
          ∧ F32.HaltonSequenceAt index base = some 0) := by
  have hcount : index < 2 ^ 24 → ∀ fuel, F32.HaltonIterations base fuel index
      = if (Nat.digits base.toNat index.toNat).length ≤ fuel
        then some (Nat.digits base.toNat index.toNat).length else none := by
    intro hlt fuel
    rw [binary32_HaltonIterations_eq base hb fuel index hlt]
    rcases le_or_lt index 0 with hneg | hpos
    · have htn : index.toNat = 0 := by omega
      rw [htn, HaltonIterations_nonpos _ fuel index hneg]
      simp
    · have h := HaltonIterations_nat base.toNat (by omega) index.toNat fuel
      rwa [Int.toNat_of_nonneg (by omega), Int.toNat_of_nonneg (by omega)] at h
  refine ⟨binary32_HaltonSequenceAt_total index base hb,
    binary32_HaltonIterations_total base hb _ index le_rfl,
    fun hi => binary32_index_step index base hi hb,
    fun hi hlt => binary32_index_step_exact index base hi hlt hb, hcount, fun hlt => ?_,
    fun h => ⟨fun fuel => binary32_HaltonIterations_nonpos _ fuel index h,
      binary32_HaltonSequenceAt_nonpos index base h⟩⟩
  rw [hcount hlt, if_pos]
  rcases le_or_lt index 0 with hneg | hpos
  · have htn : index.toNat = 0 := by omega
    rw [htn]
    simp
  · exact digits_length_le_self base.toNat (by omega) index.toNat

theorem HaltonSequenceAt_binary32_terminates_witness :
    (∃ r, F32.HaltonSequenceAt 6 2 = some r)
      ∧ (∃ n, F32.HaltonIterations 2 (6 : Int).toNat 6 = some n)
      ∧ ((0 : Int) < 6 → 0 ≤ ⌊f32 (f32 ((6 : Int) : ℚ) / f32 ((2 : Int) : ℚ))⌋
          ∧ ⌊f32 (f32 ((6 : Int) : ℚ) / f32 ((2 : Int) : ℚ))⌋ < 6)
      ∧ ((0 : Int) < 6 → (6 : Int) < 2 ^ 24 →
          ⌊f32 (f32 ((6 : Int) : ℚ) / f32 ((2 : Int) : ℚ))⌋
            = ⌊((6 : Int) : ℚ) / ((2 : Int) : ℚ)⌋)
      ∧ ((6 : Int) < 2 ^ 24 → ∀ fuel, F32.HaltonIterations 2 fuel 6
          = if (Nat.digits (2 : Int).toNat (6 : Int).toNat).length ≤ fuel
            then some (Nat.digits (2 : Int).toNat (6 : Int).toNat).length else none)
      ∧ ((6 : Int) < 2 ^ 24 → F32.HaltonIterations 2 (6 : Int).toNat 6
          = some (Nat.digits (2 : Int).toNat (6 : Int).toNat).length)
      ∧ ((6 : Int) ≤ 0 → (∀ fuel, F32.HaltonIterations 2 fuel 6 = some 0)
          ∧ F32.HaltonSequenceAt 6 2 = some 0) :=
  HaltonSequenceAt_binary32_terminates 6 2 (by decide)

/-- C26, counterexample. The index `2^25 - 1` has 25 binary digits, and `float(2^25 - 1)` is
`2^25`: the first iteration in base 2 replaces the index by `2^24`, not by
`floor((2^25 - 1) / 2) = 2^24 - 1`, and the body of the loop runs 26 times. -/
theorem HaltonIterations_digits_counterexample :
    (Nat.digits 2 (2 ^ 25 - 1)).length = 25
      ∧ f32 (((2 ^ 25 - 1 : Int) : ℚ)) = 2 ^ 25
      ∧ ⌊f32 (f32 (((2 ^ 25 - 1 : Int) : ℚ)) / f32 ((2 : Int) : ℚ))⌋ = 2 ^ 24
      ∧ ⌊(((2 ^ 25 - 1 : Int) : ℚ)) / ((2 : Int) : ℚ)⌋ = 2 ^ 24 - 1
      ∧ F32.HaltonIterations 2 (2 ^ 25 - 1 : Int).toNat (2 ^ 25 - 1) = some 26
      ∧ F32.HaltonIterations 2 25 (2 ^ 25 - 1) = none := by
  refine ⟨?_, by decide!, by decide!, by decide!, by decide!, by decide!⟩
  rw [Nat.digits_len 2 _ (by norm_num) (by norm_num)]
  have : Nat.log 2 (2 ^ 25 - 1) = 24 :=
    Nat.log_eq_of_pow_le_of_lt_pow (by norm_num) (by norm_num)
  rw [this]

/-- Two frame indices below `2^24 - 1` with the same offset are equal. -/
theorem binary32_Halton2D_inj (i j : Int) (hi : 0 ≤ i) (hj : 0 ≤ j) (hi2 : i + 1 < 2 ^ 24)
    (hj2 : j + 1 < 2 ^ 24) (h : F32.Halton2D i = F32.Halton2D j) : i = j := by
  obtain ⟨y1, h1⟩ := binary32_Halton2D_fst i hi hi2
  obtain ⟨y2, h2⟩ := binary32_Halton2D_fst j hj hj2
  rw [h1, h2] at h
  have hf := congrArg Prod.fst (Option.some.inj h)
  simp only at hf
  have hr : radicalInverse 2 (Nat.digits 2 (i + 1).toNat)
      = radicalInverse 2 (Nat.digits 2 (j + 1).toNat) := by linarith
  have := radicalInverse_digits_inj 2 le_rfl _ _ hr
  omega

/-- C3, as the code has it. `Halton2D` is a function of its argument alone and returns for
every argument; it separates the frame indices below `2^24 - 1`: for `0 ≤ i, j < 2^24 - 1`,
`Halton2D(i) = Halton2D(j)` exactly when `i = j`; for instance `Halton2D(0) = Halton2D(0)` and
`Halton2D(0) ≠ Halton2D(1)`. -/
theorem Halton2D_binary32_eq_iff (i j : Int) (hi : 0 ≤ i) (hj : 0 ≤ j)
    (hi2 : i < 2 ^ 24 - 1) (hj2 : j < 2 ^ 24 - 1) :
    (∀ k : Int, (F32.Halton2D k).isSome = true)
      ∧ (F32.Halton2D i = F32.Halton2D j ↔ i = j)
      ∧ F32.Halton2D 0 = F32.Halton2D 0
      ∧ F32.Halton2D 0 ≠ F32.Halton2D 1 := by
  refine ⟨fun k => ?_, ⟨fun h => binary32_Halton2D_inj i j hi hj (by omega) (by omega) h,
    fun h => by rw [h]⟩, rfl, ?_⟩
  · obtain ⟨p, hp⟩ := binary32_Halton2D_total k
    rw [hp]
    rfl
  · rw [binary32_Halton2D_zero, binary32_Halton2D_one]
    intro h
    have := congrArg Prod.fst (Option.some.inj h)
    norm_num at this

theorem Halton2D_binary32_eq_iff_witness :
    (∀ k : Int, (F32.Halton2D k).isSome = true)
      ∧ (F32.Halton2D 2 = F32.Halton2D 7 ↔ (2 : Int) = 7)
      ∧ F32.Halton2D 0 = F32.Halton2D 0
      ∧ F32.Halton2D 0 ≠ F32.Halton2D 1 :=
  Halton2D_binary32_eq_iff 2 7 (by decide) (by decide) (by decide) (by decide)

/-- C3, counterexample. The frame indices `67108868` and `67108874` are different and get the
same offset `(1/16, -5063033 / 2^24)`: `float(i + 1)` is `67108872` for both. -/
theorem Halton2D_collision_counterexample :
    F32.Halton2D 67108868 = some (1 / 16, -5063033 / 16777216)
      ∧ F32.Halton2D 67108874 = some (1 / 16, -5063033 / 16777216)
      ∧ F32.Halton2D 67108868 = F32.Halton2D 67108874
      ∧ (67108868 : Int) ≠ 67108874
      ∧ f32 (((67108868 + 1 : Int) : ℚ)) = 67108872
      ∧ f32 (((67108874 + 1 : Int) : ℚ)) = 67108872 := by
  refine ⟨by decide!, by decide!, by decide!, by decide, by decide!, by decide!⟩

/-- The rounding of a non-negative number lies within the relative distance `2^-24` of it. -/
theorem f32_rel_bounds (x : ℚ) (hx : 0 ≤ x) :
    x * (1 - 1 / 16777216) ≤ f32 x ∧ f32 x ≤ x * (1 + 1 / 16777216) := by
  have h := abs_f32_sub_le_rel x
  rw [abs_of_nonneg hx, abs_le] at h
  constructor
  · linarith [h.1]
  · linarith [h.2]

/-- One iteration of the loop against the exact iteration, from below: with `a = 1 - 2^-24`,
three factors `a` cover the three roundings. -/
theorem binary32_step_lower (a x r d ri f1 t r1 : ℚ) (ha0 : 0 ≤ a) (ha1 : a ≤ 1)
    (hx : 0 ≤ x) (hr : 0 ≤ r) (hd : 0 ≤ d) (hri : 0 ≤ ri)
    (h1 : x * a ≤ f1) (h2 : f1 * d * a ≤ t) (h3 : (r + t) * a ≤ r1) :
    (r + x * (d + ri)) * a ^ 3 ≤ r1 + f1 * ri := by
  have ha2 : a ^ 2 ≤ 1 := pow_le_one₀ ha0 ha1
  have ha3 : a ^ 3 ≤ a := by
    have : a ^ 3 = a * a ^ 2 := by ring
    rw [this]
    exact mul_le_of_le_one_right ha0 ha2
  have e1 : x * a * d * a ≤ t := le_trans (by
    have := mul_le_mul_of_nonneg_right (mul_le_mul_of_nonneg_right h1 hd) ha0
    exact this) h2
  have e2 : (r + x * a * d * a) * a ≤ r1 :=
    le_trans (mul_le_mul_of_nonneg_right (by linarith) ha0) h3
  have e3 : x * a * ri ≤ f1 * ri := mul_le_mul_of_nonneg_right h1 hri
  have e4 : r * a ^ 3 ≤ r * a := mul_le_mul_of_nonneg_left ha3 hr
  have e5 : x * ri * a ^ 3 ≤ x * ri * a := mul_le_mul_of_nonneg_left ha3 (mul_nonneg hx hri)
  nlinarith [e2, e3, e4, e5]

/-- One iteration of the loop against the exact iteration, from above, with
`c = 1 + 2^-24`. -/
theorem binary32_step_upper (c x r d ri f1 t r1 : ℚ) (hc1 : 1 ≤ c)
    (hx : 0 ≤ x) (hr : 0 ≤ r) (hd : 0 ≤ d) (hri : 0 ≤ ri)
    (h1 : f1 ≤ x * c) (h2 : t ≤ f1 * d * c) (h3 : r1 ≤ (r + t) * c) :
    r1 + f1 * ri ≤ (r + x * (d + ri)) * c ^ 3 := by
  have hc0 : 0 ≤ c := by linarith
  have hc2 : 1 ≤ c ^ 2 := one_le_pow₀ hc1
  have hc3 : c ≤ c ^ 3 := by
    have : c ^ 3 = c * c ^ 2 := by ring
    rw [this]
    exact le_mul_of_one_le_right hc0 hc2
  have e1 : t ≤ x * c * d * c := le_trans h2 (by
    have := mul_le_mul_of_nonneg_right (mul_le_mul_of_nonneg_right h1 hd) hc0
    exact this)
  have e2 : r1 ≤ (r + x * c * d * c) * c :=
    le_trans h3 (mul_le_mul_of_nonneg_right (by linarith) hc0)
  have e3 : f1 * ri ≤ x * c * ri := mul_le_mul_of_nonneg_right h1 hri
  have e4 : r * c ≤ r * c ^ 3 := mul_le_mul_of_nonneg_left hc3 hr
  have e5 : x * ri * c ≤ x * ri * c ^ 3 := mul_le_mul_of_nonneg_left hc3 (mul_nonneg hx hri)
  nlinarith [e2, e3, e4, e5]

/-- Loop invariant of `HaltonSequenceAt` in binary32 arithmetic, for a base between `2` and
`2^24` and an index below `2^24`: the loop returns, and what it returns lies within three
relative roundings per digit of the value `r + f * radicalInverse` of the exact loop. -/
theorem binary32_HaltonLoop_approx (b : Nat) (hb : 2 ≤ b) (hb2 : b ≤ 2 ^ 24) :
    ∀ (n fuel : Nat) (f r : ℚ), n ≤ fuel → n < 2 ^ 24 → 0 ≤ f → 0 ≤ r →
      ∃ v, F32.HaltonLoop (b : Int) fuel f r (n : Int) = some v
        ∧ (r + f * radicalInverse b (Nat.digits b n))
            * (1 - 1 / 16777216) ^ (3 * (Nat.digits b n).length) ≤ v
        ∧ v ≤ (r + f * radicalInverse b (Nat.digits b n))
            * (1 + 1 / 16777216) ^ (3 * (Nat.digits b n).length) := by
  intro n
  induction n using Nat.strong_induction_on with
  | _ n ih =>
    intro fuel f r hfuel hn hf hr
    rcases Nat.eq_zero_or_pos n with hz | hpos
    · subst hz
      refine ⟨r, binary32_HaltonLoop_nonpos _ _ _ _ _ (by simp), ?_, ?_⟩ <;>
        simp [radicalInverse_nil]
    · obtain ⟨fuel1, rfl⟩ : ∃ k, fuel = k + 1 := ⟨fuel - 1, by omega⟩
      have hbq : (0 : ℚ) < (b : ℚ) := by exact_mod_cast (by omega : 0 < b)
      have hdiv : n / b < n := Nat.div_lt_self hpos (by omega)
      have hmod : n % b < b := Nat.mod_lt n (by omega)
      -- the three conversions are exact
      have hbase : f32 (((b : Int) : ℚ)) = (b : ℚ) := by
        have := f32_intCast (b : Int) (by rw [abs_of_nonneg (by positivity)]; exact_mod_cast hb2)
        exact_mod_cast this
      have hdig : f32 (((Int.tmod (n : Int) (b : Int) : Int) : ℚ)) = ((n % b : Nat) : ℚ) := by
        have e : Int.tmod (n : Int) (b : Int) = ((n % b : Nat) : Int) := by
          rw [Int.tmod_eq_emod (by positivity) (by positivity)]
          norm_cast
        rw [e]
        have := f32_intCast ((n % b : Nat) : Int) (by
          rw [abs_of_nonneg (by positivity)]
          have : (n % b : Nat) ≤ 2 ^ 24 := by omega
          exact_mod_cast this)
        exact_mod_cast this
      have hidx : ⌊f32 (f32 (((n : Int) : ℚ)) / f32 (((b : Int) : ℚ)))⌋
          = ((n / b : Nat) : Int) := by
        rw [binary32_index_step_exact (n : Int) (b : Int) (by exact_mod_cast hpos)
          (by exact_mod_cast hn) (by exact_mod_cast hb)]
        exact floor_natCast_div n b
      -- one iteration
      have hloop : F32.HaltonLoop (b : Int) (fuel1 + 1) f r (n : Int)
          = F32.HaltonLoop (b : Int) fuel1 (f32 (f / (b : ℚ)))
              (f32 (r + f32 (f32 (f / (b : ℚ)) * ((n % b : Nat) : ℚ))))
              ((n / b : Nat) : Int) := by
        have hp : ((n : Nat) : Int) > 0 := by exact_mod_cast hpos
        have hb0 : ¬ ((b : Nat) : Int) = 0 := by exact_mod_cast (by omega : b ≠ 0)
        simp only [F32.HaltonLoop, if_pos hp, if_neg hb0]
        rw [hidx, hbase, hdig]
      -- the roundings of the iteration
      have hx : 0 ≤ f / (b : ℚ) := div_nonneg hf hbq.le
      have hf1 : 0 ≤ f32 (f / (b : ℚ)) := f32_nonneg _ hx
      have hd0 : (0 : ℚ) ≤ ((n % b : Nat) : ℚ) := by positivity
      have hp0 : 0 ≤ f32 (f / (b : ℚ)) * ((n % b : Nat) : ℚ) := mul_nonneg hf1 hd0
      have ht : 0 ≤ f32 (f32 (f / (b : ℚ)) * ((n % b : Nat) : ℚ)) := f32_nonneg _ hp0
      have hs0 : 0 ≤ r + f32 (f32 (f / (b : ℚ)) * ((n % b : Nat) : ℚ)) := by linarith
      have hr1 : 0 ≤ f32 (r + f32 (f32 (f / (b : ℚ)) * ((n % b : Nat) : ℚ))) :=
        f32_nonneg _ hs0
      obtain ⟨l1, u1⟩ := f32_rel_bounds _ hx
      obtain ⟨l2, u2⟩ := f32_rel_bounds _ hp0
      obtain ⟨l3, u3⟩ := f32_rel_bounds _ hs0
      obtain ⟨v, hv, hlo, hup⟩ := ih (n / b) hdiv fuel1 _ _ (by omega) (by omega) hf1 hr1
      have hri := radicalInverse_nonneg b (Nat.digits b (n / b))
      have hdigits : Nat.digits b n = (n % b) :: Nat.digits b (n / b) :=
        Nat.digits_def' (by omega) hpos
      have hlen : (Nat.digits b n).length = (Nat.digits b (n / b)).length + 1 := by
        rw [hdigits, List.length_cons]
      have hstep := radicalInverse_digits_step b hb n hpos
      have hE : r + f * radicalInverse b (Nat.digits b n)
          = r + f / (b : ℚ) * (((n % b : Nat) : ℚ) + radicalInverse b (Nat.digits b (n / b))) := by
        rw [hstep]
        field_simp
      have hlow := binary32_step_lower (1 - 1 / 16777216) (f / (b : ℚ)) r ((n % b : Nat) : ℚ)
        (radicalInverse b (Nat.digits b (n / b))) _ _ _ (by norm_num) (by norm_num) hx hr hd0
        hri l1 l2 l3
      have hupp := binary32_step_upper (1 + 1 / 16777216) (f / (b : ℚ)) r ((n % b : Nat) : ℚ)
        (radicalInverse b (Nat.digits b (n / b))) _ _ _ (by norm_num) hx hr hd0 hri u1 u2 u3
      refine ⟨v, hloop.trans hv, ?_, ?_⟩
      · have e : (r + f * radicalInverse b (Nat.digits b n))
            * (1 - 1 / 16777216) ^ (3 * (Nat.digits b n).length)
            = (r + f / (b : ℚ) * (((n % b : Nat) : ℚ)
                + radicalInverse b (Nat.digits b (n / b)))) * (1 - 1 / 16777216) ^ 3
              * (1 - 1 / 16777216) ^ (3 * (Nat.digits b (n / b)).length) := by
          rw [hE, hlen, Nat.mul_succ, pow_add]
          ring
        rw [e]
        exact le_trans (mul_le_mul_of_nonneg_right hlow (pow_nonneg (by norm_num) _)) hlo
      · have e : (r + f * radicalInverse b (Nat.digits b n))
            * (1 + 1 / 16777216) ^ (3 * (Nat.digits b n).length)
            = (r + f / (b : ℚ) * (((n % b : Nat) : ℚ)
                + radicalInverse b (Nat.digits b (n / b)))) * (1 + 1 / 16777216) ^ 3
              * (1 + 1 / 16777216) ^ (3 * (Nat.digits b (n / b)).length) := by
          rw [hE, hlen, Nat.mul_succ, pow_add]
          ring
        rw [e]
        exact le_trans hup (mul_le_mul_of_nonneg_right hupp (pow_nonneg (by norm_num) _))

/-- For a base between `2` and `2^24` and an index below `2^24`, `HaltonSequenceAt` returns in
binary32 arithmetic a number within the relative distance `2^-17` of the radical inverse. -/
theorem binary32_HaltonSequenceAt_approx (b n : Nat) (hb : 2 ≤ b) (hb2 : b ≤ 2 ^ 24)
    (hn : n < 2 ^ 24) :
    ∃ v, F32.HaltonSequenceAt (n : Int) (b : Int) = some v
      ∧ |v - radicalInverse b (Nat.digits b n)| ≤ radicalInverse b (Nat.digits b n) / 131072 := by
  obtain ⟨v, hv, hlo, hup⟩ := binary32_HaltonLoop_approx b hb hb2 n n 1 0 le_rfl hn
    (by norm_num) le_rfl
  have hlen : (Nat.digits b n).length ≤ 24 := by
    rcases Nat.eq_zero_or_pos n with h0 | hp
    · simp [h0]
    · by_contra hc
      push_neg at hc
      have h1 := Nat.base_pow_length_digits_le b n (by omega) (by omega)
      have h2 : b ^ 25 ≤ b ^ (Nat.digits b n).length := Nat.pow_le_pow_right (by omega) hc
      have h3 : b * 2 ^ 24 ≤ b * b ^ 24 := Nat.mul_le_mul_left _ (Nat.pow_le_pow_left hb 24)
      have h4 : b ^ 25 = b * b ^ 24 := by ring
      have h5 : b * n < b * 2 ^ 24 := Nat.mul_lt_mul_of_pos_left hn (by omega)
      linarith
  have hri := radicalInverse_nonneg b (Nat.digits b n)
  have hexp : 3 * (Nat.digits b n).length ≤ 72 := by omega
  have c1 : (1 + 1 / 16777216 : ℚ) ^ (3 * (Nat.digits b n).length) ≤ 1 + 1 / 131072 :=
    le_trans (pow_le_pow_right₀ (by norm_num) hexp) (by norm_num)
  have c2 : (1 - 1 / 131072 : ℚ) ≤ (1 - 1 / 16777216 : ℚ) ^ (3 * (Nat.digits b n).length) :=
    le_trans (by norm_num) (pow_le_pow_of_le_one (by norm_num) (by norm_num) hexp)
  simp only [zero_add, one_mul] at hlo hup
  refine ⟨v, ?_, ?_⟩
  · unfold F32.HaltonSequenceAt
    rw [Int.toNat_natCast]
    exact hv
  · rw [abs_le]
    constructor
    · have := mul_le_mul_of_nonneg_left c2 hri
      linarith
    · have := mul_le_mul_of_nonneg_left c1 hri
      linarith

/-- Below `2^24 - 1`, `Halton2D` returns a pair whose first coordinate is the radical inverse
in base 2 of `i + 1` less one half, without rounding, and whose second coordinate lies within
`2^-16` of the radical inverse in base 3 of `i + 1` less one half. -/
theorem binary32_Halton2D_approx (i : Int) (h0 : 0 ≤ i) (hi : i + 1 < 2 ^ 24) :
    ∃ p, F32.Halton2D i = some p
      ∧ p.1 = radicalInverse 2 (Nat.digits 2 (i + 1).toNat) - 1 / 2
      ∧ |p.2 - (radicalInverse 3 (Nat.digits 3 (i + 1).toNat) - 1 / 2)| ≤ 1 / 65536 := by
  have hw : wrapInt32 (i + 1) = i + 1 := wrapInt32_of_range (i + 1) (by omega) (by omega)
  have hn : (i + 1).toNat < 2 ^ 24 := by omega
  have h2 : F32.HaltonSequenceAt (wrapInt32 (i + 1)) 2
      = some (radicalInverse 2 (Nat.digits 2 (i + 1).toNat)) := by
    rw [hw]
    have h := binary32_HaltonSequenceAt_two (i + 1).toNat hn
    rwa [Int.toNat_of_nonneg (by omega)] at h
  obtain ⟨v, hv, herr⟩ := binary32_HaltonSequenceAt_approx 3 (i + 1).toNat (by norm_num)
    (by norm_num) hn
  have h3 : F32.HaltonSequenceAt (wrapInt32 (i + 1)) 3 = some v := by
    rw [hw]
    rw [Int.toNat_of_nonneg (by omega)] at hv
    exact_mod_cast hv
  obtain ⟨j, hj, hgrid⟩ := radicalInverse_digits_grid 2 le_rfl 24 (i + 1).toNat hn
  have e : f32 (radicalInverse 2 (Nat.digits 2 (i + 1).toNat) - 1 / 2)
      = radicalInverse 2 (Nat.digits 2 (i + 1).toNat) - 1 / 2 := by
    rw [hgrid]
    push_cast
    exact f32_of_isF32 _ (isF32_grid_sub_half j hj)
  have hH : F32.Halton2D i
      = some (f32 (radicalInverse 2 (Nat.digits 2 (i + 1).toNat) - 1 / 2),
          f32 (v - 1 / 2)) := by
    simp only [F32.Halton2D, h2, h3]
  have hri0 := radicalInverse_nonneg 3 (Nat.digits 3 (i + 1).toNat)
  have hri1 := radicalInverse_digits_lt_one 3 (by norm_num) (i + 1).toNat
  rw [abs_le] at herr
  have hv0 : |v - 1 / 2| ≤ 1 := by
    rw [abs_le]
    constructor <;> linarith [herr.1, herr.2]
  have hr := abs_f32_sub_le_rel (v - 1 / 2)
  rw [abs_le] at hr hv0
  refine ⟨_, hH, e, ?_⟩
  show |f32 (v - 1 / 2) - (radicalInverse 3 (Nat.digits 3 (i + 1).toNat) - 1 / 2)| ≤ 1 / 65536
  rw [abs_le]
  have hq : |v - 1 / 2| / 16777216 ≤ 1 / 16777216 := by
    have : |v - 1 / 2| ≤ 1 := abs_le.mpr hv0
    linarith
  constructor <;> linarith [herr.1, herr.2, hr.1, hr.2]

/-- C1, as the code has it. For base 2 and every number `n < 2^24` written with binary digits
`d_0, d_1, ...` (`n = Σ d_k 2^k`, every `d_k < 2`), `HaltonSequenceAt(n, 2)` returns, in
binary32 arithmetic, the radical inverse `Σ d_k 2^-(k+1)` without rounding, and
`HaltonSequenceAt(0, b)` returns `0` for every `b`.  For every base `b` from `2` to `2^24`
and every `n < 2^24` the result lies within the relative distance `2^-17` of the radical
inverse of `n` in base `b`.  For every base `≥ 2` and every index the call returns a binary32
number.  For every frame index `i`, `Halton2D(i)` returns
`(fl(HaltonSequenceAt(i+1, 2) - 1/2), fl(HaltonSequenceAt(i+1, 3) - 1/2))`, where `i + 1` is
the 32-bit sum (`i + 1` itself for `0 ≤ i < 2^31 - 1`) and `fl` rounds to binary32; below
`2^24 - 1` the first coordinate is the radical inverse in base 2 less one half and the second
lies within `2^-16` of the radical inverse in base 3 less one half.
`Halton2D(0) = (0, -5592405 / 2^25)`, about `(0, -0.16666666)`, is not the zero offset. -/
theorem HaltonSequenceAt_binary32_radicalInverse (n : Nat) (ds : List Nat)
    (hds : ∀ d ∈ ds, d < 2) (hn : n = ∑ k in Finset.range ds.length, ds.getD k 0 * 2 ^ k)
    (hlt : n < 2 ^ 24) :
    F32.HaltonSequenceAt (n : Int) 2 = some (radicalInverse 2 ds)
      ∧ (∀ b : Int, F32.HaltonSequenceAt 0 b = some 0)
      ∧ (∀ b m : Nat, 2 ≤ b → b ≤ 2 ^ 24 → m < 2 ^ 24 →
          ∃ v, F32.HaltonSequenceAt (m : Int) (b : Int) = some v
            ∧ |v - radicalInverse b (Nat.digits b m)|
                ≤ radicalInverse b (Nat.digits b m) / 131072)
      ∧ (∀ index b : Int, 2 ≤ b → ∃ r, F32.HaltonSequenceAt index b = some r ∧ isF32 r)
      ∧ (∀ i : Int, ∃ hx hy, F32.HaltonSequenceAt (wrapInt32 (i + 1)) 2 = some hx
          ∧ F32.HaltonSequenceAt (wrapInt32 (i + 1)) 3 = some hy
          ∧ F32.Halton2D i = some (f32 (hx - 1 / 2), f32 (hy - 1 / 2)))
      ∧ (∀ i : Int, 0 ≤ i → i < 2 ^ 31 - 1 → wrapInt32 (i + 1) = i + 1)
      ∧ (∀ i : Int, 0 ≤ i → i + 1 < 2 ^ 24 → ∃ p, F32.Halton2D i = some p
          ∧ p.1 = radicalInverse 2 (Nat.digits 2 (i + 1).toNat) - 1 / 2
          ∧ |p.2 - (radicalInverse 3 (Nat.digits 3 (i + 1).toNat) - 1 / 2)| ≤ 1 / 65536)
      ∧ F32.Halton2D 0 = some (0, -5592405 / 33554432)
      ∧ F32.Halton2D 0 ≠ some (0, 0) := by
  refine ⟨?_, fun b => binary32_HaltonSequenceAt_nonpos 0 b le_rfl,
    fun b m hb hb2 hm => binary32_HaltonSequenceAt_approx b m hb hb2 hm, fun index b hb => ?_,
    binary32_Halton2D_eq, fun i h0 h1 => wrapInt32_of_range _ (by omega) (by omega),
    binary32_Halton2D_approx, binary32_Halton2D_zero, ?_⟩
  · rw [binary32_HaltonSequenceAt_two_eq _ (by exact_mod_cast hlt)]
    have h := HaltonSequenceAt_ofDigits 2 le_rfl ds hds
    rw [hn, digitSum_eq_ofDigits]
    exact_mod_cast h
  · obtain ⟨r, hr⟩ := binary32_HaltonSequenceAt_total index b hb
    exact ⟨r, hr, binary32_HaltonLoop_isF32 b _ _ _ _ r isF32_zero hr⟩
  · rw [binary32_Halton2D_zero]
    intro h
    have := congrArg Prod.snd (Option.some.inj h)
    norm_num at this

theorem HaltonSequenceAt_binary32_radicalInverse_witness :
    F32.HaltonSequenceAt ((6 : Nat) : Int) 2 = some (radicalInverse 2 [0, 1, 1])
      ∧ (∀ b : Int, F32.HaltonSequenceAt 0 b = some 0)
      ∧ (∀ b m : Nat, 2 ≤ b → b ≤ 2 ^ 24 → m < 2 ^ 24 →
          ∃ v, F32.HaltonSequenceAt (m : Int) (b : Int) = some v
            ∧ |v - radicalInverse b (Nat.digits b m)|
                ≤ radicalInverse b (Nat.digits b m) / 131072)
      ∧ (∀ index b : Int, 2 ≤ b → ∃ r, F32.HaltonSequenceAt index b = some r ∧ isF32 r)
      ∧ (∀ i : Int, ∃ hx hy, F32.HaltonSequenceAt (wrapInt32 (i + 1)) 2 = some hx
          ∧ F32.HaltonSequenceAt (wrapInt32 (i + 1)) 3 = some hy
          ∧ F32.Halton2D i = some (f32 (hx - 1 / 2), f32 (hy - 1 / 2)))
      ∧ (∀ i : Int, 0 ≤ i → i < 2 ^ 31 - 1 → wrapInt32 (i + 1) = i + 1)
      ∧ (∀ i : Int, 0 ≤ i → i + 1 < 2 ^ 24 → ∃ p, F32.Halton2D i = some p
          ∧ p.1 = radicalInverse 2 (Nat.digits 2 (i + 1).toNat) - 1 / 2
          ∧ |p.2 - (radicalInverse 3 (Nat.digits 3 (i + 1).toNat) - 1 / 2)| ≤ 1 / 65536)
      ∧ F32.Halton2D 0 = some (0, -5592405 / 33554432)
      ∧ F32.Halton2D 0 ≠ some (0, 0) :=
  HaltonSequenceAt_binary32_radicalInverse 6 [0, 1, 1] (by decide) (by decide) (by decide)

/-- C1, counterexample. In base 3 the code returns `6524473 / 2^23`, about `0.777777791`, for
the index 5, whose radical inverse is `7/9`; in base 2 it returns `1/2` for the index
`2^25 - 1`, whose radical inverse is not `1/2`; and `Halton2D(0)` is
`(0, -5592405 / 2^25)`, which is not `(0, -1/6)`. -/
theorem HaltonSequenceAt_radicalInverse_counterexample :
    F32.HaltonSequenceAt 5 3 = some (6524473 / 8388608)
      ∧ radicalInverse 3 (Nat.digits 3 5) = 7 / 9
      ∧ (6524473 / 8388608 : ℚ) ≠ 7 / 9
      ∧ F32.HaltonSequenceAt (2 ^ 25 - 1) 2 = some (1 / 2)
      ∧ radicalInverse 2 (Nat.digits 2 (2 ^ 25 - 1)) ≠ 1 / 2
      ∧ F32.Halton2D 0 = some (0, -5592405 / 33554432)
      ∧ F32.Halton2D 0 ≠ some (0, -1 / 6) := by
  refine ⟨by decide!, ?_, by norm_num, by decide!, ?_, binary32_Halton2D_zero, ?_⟩
  · rw [show Nat.digits 3 5 = [2, 1] by norm_num]
    norm_num [radicalInverse, Finset.sum_range_succ]
  · intro h
    have h1 : radicalInverse 2 (Nat.digits 2 1) = 1 / 2 := by
      rw [show Nat.digits 2 1 = [1] by norm_num]
      norm_num [radicalInverse, Finset.sum_range_succ]
    have := radicalInverse_digits_inj 2 le_rfl _ _ (h.trans h1.symm)
    norm_num at this
  · rw [binary32_Halton2D_zero]
    intro h
    have := congrArg Prod.snd (Option.some.inj h)
    norm_num at this

/-- For a base `b` and a `k` with `b^k ≤ 2^16`, the binary32 values of `HaltonSequenceAt(n, b)`
for `n < b^k` stay apart: the value at `n` lies nearer than half a step `1 / (2 b^k)` to the
fraction `j / b^k` that is the radical inverse of `n`, and two indices with the same value are
equal. -/
theorem binary32_HaltonSequenceAt_separated (b k : Nat) (hb : 2 ≤ b) (hb2 : b ≤ 2 ^ 24)
    (hk : b ^ k ≤ 2 ^ 16) :
    (∀ n : Nat, n < b ^ k → ∃ j : Nat, j < b ^ k ∧ ∃ v,
        F32.HaltonSequenceAt (n : Int) (b : Int) = some v
          ∧ radicalInverse b (Nat.digits b n) = (j : ℚ) / (b : ℚ) ^ k
          ∧ |v - (j : ℚ) / (b : ℚ) ^ k| < 1 / (2 * (b : ℚ) ^ k))
      ∧ (∀ n m : Nat, n < b ^ k → m < b ^ k →
          F32.HaltonSequenceAt (n : Int) (b : Int) = F32.HaltonSequenceAt (m : Int) (b : Int) →
          n = m) := by
  have hbq : (0 : ℚ) < (b : ℚ) ^ k := by positivity
  have hpow : ((b : ℚ) ^ k) ≤ 65536 := by exact_mod_cast hk
  have hstep : (1 : ℚ) / 131072 ≤ 1 / (2 * (b : ℚ) ^ k) := by
    rw [div_le_div_iff₀ (by norm_num) (by positivity)]
    linarith
  have key : ∀ n : Nat, n < b ^ k → ∃ j : Nat, j < b ^ k ∧ ∃ v,
      F32.HaltonSequenceAt (n : Int) (b : Int) = some v
        ∧ radicalInverse b (Nat.digits b n) = (j : ℚ) / (b : ℚ) ^ k
        ∧ |v - (j : ℚ) / (b : ℚ) ^ k| < 1 / (2 * (b : ℚ) ^ k) := by
    intro n hn
    obtain ⟨j, hj, hgrid⟩ := radicalInverse_digits_grid b hb k n hn
    obtain ⟨v, hv, herr⟩ := binary32_HaltonSequenceAt_approx b n hb hb2 (by omega)
    have h1 := radicalInverse_digits_lt_one b hb n
    refine ⟨j, hj, v, hv, hgrid, ?_⟩
    rw [← hgrid]
    have : radicalInverse b (Nat.digits b n) / 131072 < 1 / 131072 := by linarith
    linarith
  refine ⟨key, fun n m hn hm heq => ?_⟩
  obtain ⟨j1, _, v1, hv1, hg1, he1⟩ := key n hn
  obtain ⟨j2, _, v2, hv2, hg2, he2⟩ := key m hm
  rw [hv1, hv2, Option.some.injEq] at heq
  subst heq
  rw [abs_lt] at he1 he2
  have hd : |(j1 : ℚ) / (b : ℚ) ^ k - (j2 : ℚ) / (b : ℚ) ^ k| < 1 / (b : ℚ) ^ k := by
    rw [abs_lt]
    have e : (1 : ℚ) / (b : ℚ) ^ k = 1 / (2 * (b : ℚ) ^ k) + 1 / (2 * (b : ℚ) ^ k) := by
      field_simp
      ring
    constructor <;> linarith [he1.1, he1.2, he2.1, he2.2]
  have hj : (j1 : Int) = j2 := by
    rw [← sub_div, abs_div, abs_of_pos hbq, div_lt_div_iff_of_pos_right hbq] at hd
    have : |((j1 : Int) : ℚ) - ((j2 : Int) : ℚ)| < 1 := by exact_mod_cast hd
    have h2 : |(j1 : Int) - (j2 : Int)| < 1 := by exact_mod_cast this
    rw [abs_lt] at h2
    omega
  have hjn : j1 = j2 := by exact_mod_cast hj
  exact radicalInverse_digits_inj b hb n m (by rw [hg1, hg2, hjn])

/-- C28, as the code has it. In base 2 and for every `k ≤ 24`, the values
`HaltonSequenceAt(n, 2)` for `n = 0, ..., 2^k - 1` are, in binary32 arithmetic, the fractions
`j / 2^k` with `0 ≤ j < 2^k`: each call returns such a fraction, and each fraction is the
value at exactly one `n` of that range.  For every base `b` from `2` to `2^24` and every `m`
with `b^m ≤ 2^16`, the values for `n = 0, ..., b^m - 1` are pairwise different, and the value
at `n` lies nearer than half a step `1 / (2 b^m)` to the fraction `j / b^m` that is the radical
inverse of `n`; these fractions are the `b^m` fractions `j / b^m`, each for exactly one
`n`. -/
theorem HaltonSequenceAt_binary32_stratified (k : Nat) (hk : k ≤ 24) :
    (∀ n : Nat, n < 2 ^ k → ∃ j : Nat, j < 2 ^ k
        ∧ F32.HaltonSequenceAt (n : Int) 2 = some ((j : ℚ) / (2 : ℚ) ^ k))
      ∧ (∀ j : Nat, j < 2 ^ k → ∃! n : Nat, n < 2 ^ k
        ∧ F32.HaltonSequenceAt (n : Int) 2 = some ((j : ℚ) / (2 : ℚ) ^ k))
      ∧ (∀ b m : Nat, 2 ≤ b → b ≤ 2 ^ 24 → b ^ m ≤ 2 ^ 16 →
          (∀ n : Nat, n < b ^ m → ∃ j : Nat, j < b ^ m ∧ ∃ v,
            F32.HaltonSequenceAt (n : Int) (b : Int) = some v
              ∧ radicalInverse b (Nat.digits b n) = (j : ℚ) / (b : ℚ) ^ m
              ∧ |v - (j : ℚ) / (b : ℚ) ^ m| < 1 / (2 * (b : ℚ) ^ m))
          ∧ (∀ n n2 : Nat, n < b ^ m → n2 < b ^ m →
              F32.HaltonSequenceAt (n : Int) (b : Int)
                = F32.HaltonSequenceAt (n2 : Int) (b : Int) → n = n2)
          ∧ (∀ j : Nat, j < b ^ m → ∃ n : Nat, n < b ^ m
              ∧ radicalInverse b (Nat.digits b n) = (j : ℚ) / (b : ℚ) ^ m)) := by
  obtain ⟨hgrid, honto⟩ := radicalInverse_digits_bijective 2 k le_rfl
  have hpow : (2 : Nat) ^ k ≤ 2 ^ 24 := Nat.pow_le_pow_right (by norm_num) hk
  refine ⟨?_, ?_, fun b m hb hb2 hm =>
    ⟨(binary32_HaltonSequenceAt_separated b m hb hb2 hm).1,
      (binary32_HaltonSequenceAt_separated b m hb hb2 hm).2,
      (radicalInverse_digits_bijective b m hb).2⟩⟩
  · intro n hn
    obtain ⟨j, hj, h⟩ := hgrid n hn
    refine ⟨j, hj, ?_⟩
    rw [binary32_HaltonSequenceAt_two n (by omega), h]
    push_cast
    rfl
  · intro j hj
    obtain ⟨n, hn, h⟩ := honto j hj
    refine ⟨n, ⟨hn, ?_⟩, ?_⟩
    · rw [binary32_HaltonSequenceAt_two n (by omega), h]
      push_cast
      rfl
    · rintro m ⟨hm1, hm⟩
      rw [binary32_HaltonSequenceAt_two m (by omega), Option.some.injEq] at hm
      have h2 : radicalInverse 2 (Nat.digits 2 m) = radicalInverse 2 (Nat.digits 2 n) := by
        rw [hm, h]
        push_cast
        rfl
      exact radicalInverse_digits_inj 2 le_rfl _ _ h2

theorem HaltonSequenceAt_binary32_stratified_witness :
    (∀ n : Nat, n < 2 ^ 2 → ∃ j : Nat, j < 2 ^ 2
        ∧ F32.HaltonSequenceAt (n : Int) 2 = some ((j : ℚ) / (2 : ℚ) ^ 2))
      ∧ (∀ j : Nat, j < 2 ^ 2 → ∃! n : Nat, n < 2 ^ 2
        ∧ F32.HaltonSequenceAt (n : Int) 2 = some ((j : ℚ) / (2 : ℚ) ^ 2))
      ∧ (∀ b m : Nat, 2 ≤ b → b ≤ 2 ^ 24 → b ^ m ≤ 2 ^ 16 →
          (∀ n : Nat, n < b ^ m → ∃ j : Nat, j < b ^ m ∧ ∃ v,
            F32.HaltonSequenceAt (n : Int) (b : Int) = some v
              ∧ radicalInverse b (Nat.digits b n) = (j : ℚ) / (b : ℚ) ^ m
              ∧ |v - (j : ℚ) / (b : ℚ) ^ m| < 1 / (2 * (b : ℚ) ^ m))
          ∧ (∀ n n2 : Nat, n < b ^ m → n2 < b ^ m →
              F32.HaltonSequenceAt (n : Int) (b : Int)
                = F32.HaltonSequenceAt (n2 : Int) (b : Int) → n = n2)
          ∧ (∀ j : Nat, j < b ^ m → ∃ n : Nat, n < b ^ m
              ∧ radicalInverse b (Nat.digits b n) = (j : ℚ) / (b : ℚ) ^ m)) :=
  HaltonSequenceAt_binary32_stratified 2 (by decide)

/-- C28, counterexample. For `k = 25` in base 2 the values are not distinct: the indices `1`
and `2^24 + 1`, both below `2^25`, get the value `1/2`.  In base 3 the value at `1` is the
binary32 number next to `1/3`, which is none of the fractions `j / 3^k`: its denominator is a
power of two. -/
theorem HaltonSequenceAt_stratified_counterexample :
    F32.HaltonSequenceAt 1 2 = some (1 / 2)
      ∧ F32.HaltonSequenceAt (2 ^ 24 + 1) 2 = some (1 / 2)
      ∧ (1 : Int) ≠ 2 ^ 24 + 1 ∧ (1 : Int) < 2 ^ 25 ∧ (2 ^ 24 + 1 : Int) < 2 ^ 25
      ∧ F32.HaltonSequenceAt 1 3 = some (11184811 / 33554432)
      ∧ (11184811 / 33554432 : ℚ) ≠ 1 / 3 := by
  refine ⟨by decide!, by decide!, by decide, by decide, by decide, by decide!, by norm_num⟩

/-! ### Uniform resolver -/

/-- `GetLocAny` either stops at the first candidate that resolves, or every candidate fails. -/
theorem GetLocAny_spec (gl : Driver) (program : Nat) (names : List String) :
    (∃ pre n post, names = pre ++ n :: post
        ∧ (∀ p ∈ pre, gl.glGetUniformLocation program p = -1)
        ∧ gl.glGetUniformLocation program n ≠ -1
        ∧ GetLocAny gl program names = gl.glGetUniformLocation program n)
      ∨ ((∀ n ∈ names, gl.glGetUniformLocation program n = -1)
        ∧ GetLocAny gl program names = -1) := by
  induction names with
  | nil => exact Or.inr ⟨by simp, rfl⟩
  | cons a rest ih =>
    by_cases ha : gl.glGetUniformLocation program a = -1
    · have hstep : GetLocAny gl program (a :: rest) = GetLocAny gl program rest := by
        simp [GetLocAny, ha]
      rcases ih with ⟨pre, n, post, hsplit, hpre, hn, hres⟩ | ⟨hall, hres⟩
      · refine Or.inl ⟨a :: pre, n, post, by simp [hsplit], ?_, hn, by rw [hstep, hres]⟩
        intro p hp
        rcases List.mem_cons.mp hp with rfl | hp
        · exact ha
        · exact hpre p hp
      · refine Or.inr ⟨?_, by rw [hstep, hres]⟩
        intro n hn
        rcases List.mem_cons.mp hn with rfl | hn
        · exact ha
        · exact hall n hn
    · exact Or.inl ⟨[], a, rest, rfl, by simp, ha, by simp [GetLocAny, ha]⟩

/-- C4. `GetLocAny` returns the location of the first candidate, in list order, that the
program resolves to a location other than `-1`, and `-1` when no candidate resolves;
`Set1fAny`, `Set2fAny`, `Set3fAny` and `SetMat4Any` then issue exactly one uniform write, to
that location, and issue no command at all when no candidate resolves. -/
theorem uniform_resolver_first_match (gl : Driver) (program : Nat) (names : List String)
    (v x y : ℚ) (vec : Vec3) (m : Mat4) (log : List GLCall) :
    (∃ pre n post, names = pre ++ n :: post
        ∧ (∀ p ∈ pre, gl.glGetUniformLocation program p = -1)
        ∧ gl.glGetUniformLocation program n ≠ -1
        ∧ GetLocAny gl program names = gl.glGetUniformLocation program n
        ∧ Set1fAny gl program v names log
            = log ++ [GLCall.uniform1f (gl.glGetUniformLocation program n) v]
        ∧ Set2fAny gl program x y names log
            = log ++ [GLCall.uniform2f (gl.glGetUniformLocation program n) x y]
        ∧ Set3fAny gl program vec names log
            = log ++ [GLCall.uniform3f (gl.glGetUniformLocation program n) vec.x vec.y vec.z]
        ∧ SetMat4Any gl program m names log
            = log ++ [GLCall.uniformMatrix4fv (gl.glGetUniformLocation program n) m])
      ∨ ((∀ n ∈ names, gl.glGetUniformLocation program n = -1)
        ∧ GetLocAny gl program names = -1
        ∧ Set1fAny gl program v names log = log
        ∧ Set2fAny gl program x y names log = log
        ∧ Set3fAny gl program vec names log = log
        ∧ SetMat4Any gl program m names log = log) := by
  rcases GetLocAny_spec gl program names with ⟨pre, n, post, hsplit, hpre, hn, hres⟩ | ⟨hall, hres⟩
  · refine Or.inl ⟨pre, n, post, hsplit, hpre, hn, hres, ?_, ?_, ?_, ?_⟩ <;>
      simp [Set1fAny, Set2fAny, Set3fAny, SetMat4Any, hres, hn]
  · refine Or.inr ⟨hall, hres, ?_, ?_, ?_, ?_⟩ <;>
      simp [Set1fAny, Set2fAny, Set3fAny, SetMat4Any, hres]

/-! ### Render-target manager -/

theorem GLObjects_run_append (o : GLObjects) (l1 l2 : List GLCall) :
    o.run (l1 ++ l2) = (o.run l1).run l2 := by
  simp [GLObjects.run, List.foldl_append]

theorem destroyTaaTargets_glLog (s : Init) :
    (destroyTaaTargets s).glLog = s.glLog ++ destroyCalls s := rfl

theorem mem_destroyCalls (s : Init) (c : GLCall) :
    c ∈ destroyCalls s ↔
      (c = GLCall.deleteFramebuffers s.taaFbo ∧ s.taaFbo ≠ 0)
        ∨ (c = GLCall.deleteTextures s.taaColor0 ∧ s.taaColor0 ≠ 0)
        ∨ (c = GLCall.deleteTextures s.taaColor1 ∧ s.taaColor1 ≠ 0) := by
  unfold destroyCalls
  by_cases h0 : s.taaFbo = 0 <;> by_cases h1 : s.taaColor0 = 0 <;>
    by_cases h2 : s.taaColor1 = 0 <;> simp [h0, h1, h2]

theorem mem_run_destroyCalls_framebuffers (o : GLObjects) (s : Init) (n : Nat) :
    n ∈ (o.run (destroyCalls s)).framebuffers
      ↔ n ∈ o.framebuffers ∧ ¬ (s.taaFbo ≠ 0 ∧ n = s.taaFbo) := by
  unfold destroyCalls
  by_cases h0 : s.taaFbo = 0 <;> by_cases h1 : s.taaColor0 = 0 <;>
    by_cases h2 : s.taaColor1 = 0 <;>
    simp [h0, h1, h2, GLObjects.run, GLObjects.step, Finset.mem_erase, and_comm]

theorem mem_run_destroyCalls_textures (o : GLObjects) (s : Init) (n : Nat) :
    n ∈ (o.run (destroyCalls s)).textures
      ↔ n ∈ o.textures ∧ ¬ (s.taaColor0 ≠ 0 ∧ n = s.taaColor0)
          ∧ ¬ (s.taaColor1 ≠ 0 ∧ n = s.taaColor1) := by
  unfold destroyCalls
  by_cases h0 : s.taaFbo = 0 <;> by_cases h1 : s.taaColor0 = 0 <;>
    by_cases h2 : s.taaColor1 = 0 <;>
    simp [h0, h1, h2, GLObjects.run, GLObjects.step, Finset.mem_erase] <;> tauto

/-- C7. From any state `destroyTaaTargets` issues one delete for the framebuffer object and one
for each colour slot whose handle is non-zero, and no other command; afterwards the handles,
the recorded dimensions and the index are zero and the history is invalid; a second call issues
no command and changes nothing. -/
theorem destroyTaaTargets_releases_and_resets (s : Init) :
    (∃ calls, (destroyTaaTargets s).glLog = s.glLog ++ calls
        ∧ ∀ c, c ∈ calls ↔
            (c = GLCall.deleteFramebuffers s.taaFbo ∧ s.taaFbo ≠ 0)
              ∨ (c = GLCall.deleteTextures s.taaColor0 ∧ s.taaColor0 ≠ 0)
              ∨ (c = GLCall.deleteTextures s.taaColor1 ∧ s.taaColor1 ≠ 0))
      ∧ (destroyTaaTargets s).taaFbo = 0
      ∧ (destroyTaaTargets s).taaColor0 = 0
      ∧ (destroyTaaTargets s).taaColor1 = 0
      ∧ (destroyTaaTargets s).taaW = 0
      ∧ (destroyTaaTargets s).taaH = 0
      ∧ (destroyTaaTargets s).taaHistoryValid = false
      ∧ (destroyTaaTargets s).taaIndex = 0
      ∧ destroyTaaTargets (destroyTaaTargets s) = destroyTaaTargets s
      ∧ (destroyTaaTargets (destroyTaaTargets s)).glLog = (destroyTaaTargets s).glLog := by
  have hidem : destroyTaaTargets (destroyTaaTargets s) = destroyTaaTargets s := by
    simp [destroyTaaTargets, destroyCalls, Init.emit]
  refine ⟨⟨destroyCalls s, rfl, mem_destroyCalls s⟩, rfl, rfl, rfl, rfl, rfl, rfl, rfl, hidem, ?_⟩
  rw [hidem]

theorem mem_insertName (n a : Nat) (s : Finset Nat) :
    n ∈ insertName a s ↔ (a ≠ 0 ∧ n = a) ∨ n ∈ s := by
  unfold insertName
  by_cases h : a = 0 <;> simp [h]

theorem ensureTaaTargets_noop (gl : Driver) (w h : Int) (s : Init)
    (hpath : s.taaW = w ∧ s.taaH = h ∧ s.taaFbo ≠ 0 ∧ s.taaColor0 ≠ 0 ∧ s.taaColor1 ≠ 0) :
    ensureTaaTargets gl w h s = (Outcome.returned, s) := by
  unfold ensureTaaTargets
  rw [if_pos hpath]

theorem ensureTaaTargets_created (gl : Driver) (w h : Int) (s : Init)
    (hok : gl.glCheckFramebufferStatus = GL_FRAMEBUFFER_COMPLETE)
    (hpath : ¬ (s.taaW = w ∧ s.taaH = h ∧ s.taaFbo ≠ 0 ∧ s.taaColor0 ≠ 0 ∧ s.taaColor1 ≠ 0)) :
    ensureTaaTargets gl w h s
      = (Outcome.returned,
          { s with taaFbo := gl.glGenFramebuffers, taaColor0 := gl.glGenTextures.1,
                   taaColor1 := gl.glGenTextures.2, taaW := w, taaH := h,
                   taaHistoryValid := false, taaIndex := 0,
                   glLog := s.glLog ++ (destroyCalls s ++ createCalls gl w h) }) := by
  unfold ensureTaaTargets
  rw [if_neg hpath, if_neg (not_not.mpr hok)]
  simp only [destroyTaaTargets, Init.emit, createCalls, List.append_assoc]

theorem ensureTaaTargets_thrown (gl : Driver) (w h : Int) (s : Init)
    (hbad : gl.glCheckFramebufferStatus ≠ GL_FRAMEBUFFER_COMPLETE)
    (hpath : ¬ (s.taaW = w ∧ s.taaH = h ∧ s.taaFbo ≠ 0 ∧ s.taaColor0 ≠ 0 ∧ s.taaColor1 ≠ 0)) :
    ensureTaaTargets gl w h s
      = (Outcome.thrown "TAA framebuffer incomplete",
          { s with taaFbo := 0, taaColor0 := 0, taaColor1 := 0, taaW := 0, taaH := 0,
                   taaHistoryValid := false, taaIndex := 0,
                   glLog := s.glLog ++ (destroyCalls s ++ (createCalls gl w h
                      ++ destroyCalls { s with taaFbo := gl.glGenFramebuffers,
                                               taaColor0 := gl.glGenTextures.1,
                                               taaColor1 := gl.glGenTextures.2 })) }) := by
  unfold ensureTaaTargets
  rw [if_neg hpath, if_pos hbad]
  simp only [destroyTaaTargets, Init.emit, createCalls, List.append_assoc, destroyCalls]

theorem run_createCalls (o : GLObjects) (gl : Driver) (w h : Int) :
    o.run (createCalls gl w h)
      = { framebuffers := insertName gl.glGenFramebuffers o.framebuffers,
          textures := insertName gl.glGenTextures.2 (insertName gl.glGenTextures.1 o.textures) } := by
  simp [createCalls, colorSlotCalls, GLObjects.run, GLObjects.step]

/-- C5. When `ensureTaaTargets(w, h)` returns normally and leaves non-zero handles, a call with
the same dimensions that follows immediately returns normally and leaves the whole state as it
is: every field is unchanged and no command is issued, so no object is created or deleted and
the number of allocations does not move. -/
theorem ensureTaaTargets_idempotent (gl gl2 : Driver) (w h : Int) (s s1 : Init)
    (hrun : ensureTaaTargets gl w h s = (Outcome.returned, s1))
    (hnz : s1.taaFbo ≠ 0 ∧ s1.taaColor0 ≠ 0 ∧ s1.taaColor1 ≠ 0) :
    ensureTaaTargets gl2 w h s1 = (Outcome.returned, s1)
      ∧ (ensureTaaTargets gl2 w h s1).2.glLog = s1.glLog
      ∧ allocationCount (ensureTaaTargets gl2 w h s1).2.glLog = allocationCount s1.glLog
      ∧ (∀ o : GLObjects, o.run (ensureTaaTargets gl2 w h s1).2.glLog = o.run s1.glLog) := by
  have hdims : s1.taaW = w ∧ s1.taaH = h := by
    by_cases hpath : s.taaW = w ∧ s.taaH = h ∧ s.taaFbo ≠ 0 ∧ s.taaColor0 ≠ 0 ∧ s.taaColor1 ≠ 0
    · rw [ensureTaaTargets_noop gl w h s hpath] at hrun
      have := (Prod.mk.inj hrun).2
      subst this
      exact ⟨hpath.1, hpath.2.1⟩
    · by_cases hok : gl.glCheckFramebufferStatus = GL_FRAMEBUFFER_COMPLETE
      · rw [ensureTaaTargets_created gl w h s hok hpath] at hrun
        have := (Prod.mk.inj hrun).2
        subst this
        exact ⟨rfl, rfl⟩
      · rw [ensureTaaTargets_thrown gl w h s hok hpath] at hrun
        exact absurd (Prod.mk.inj hrun).1 (by simp)
  have hnoop := ensureTaaTargets_noop gl2 w h s1 ⟨hdims.1, hdims.2, hnz⟩
  refine ⟨hnoop, ?_, ?_, ?_⟩ <;> simp [hnoop]

theorem GLObjects.ext_fields (a b : GLObjects) (hf : a.framebuffers = b.framebuffers)
    (ht : a.textures = b.textures) : a = b := by
  cases a
  cases b
  simp only at hf ht
  rw [hf, ht]

theorem mem_run_recreate_framebuffers (o : GLObjects) (s s2 : Init) (gl : Driver) (w h : Int)
    (hs2 : s2.taaFbo = gl.glGenFramebuffers) (n : Nat) :
    n ∈ (o.run (s.glLog ++ (destroyCalls s ++ (createCalls gl w h
          ++ destroyCalls s2)))).framebuffers
      ↔ n ∈ (o.run s.glLog).framebuffers ∧ ¬ (s.taaFbo ≠ 0 ∧ n = s.taaFbo)
          ∧ ¬ (gl.glGenFramebuffers ≠ 0 ∧ n = gl.glGenFramebuffers) := by
  simp only [GLObjects_run_append, mem_run_destroyCalls_framebuffers, run_createCalls,
    mem_insertName, hs2]
  tauto

theorem mem_run_recreate_textures (o : GLObjects) (s s2 : Init) (gl : Driver) (w h : Int)
    (h0 : s2.taaColor0 = gl.glGenTextures.1) (h1 : s2.taaColor1 = gl.glGenTextures.2)
    (n : Nat) :
    n ∈ (o.run (s.glLog ++ (destroyCalls s ++ (createCalls gl w h
          ++ destroyCalls s2)))).textures
      ↔ n ∈ (o.run s.glLog).textures ∧ ¬ (s.taaColor0 ≠ 0 ∧ n = s.taaColor0)
          ∧ ¬ (s.taaColor1 ≠ 0 ∧ n = s.taaColor1)
          ∧ ¬ (gl.glGenTextures.1 ≠ 0 ∧ n = gl.glGenTextures.1)
          ∧ ¬ (gl.glGenTextures.2 ≠ 0 ∧ n = gl.glGenTextures.2) := by
  simp only [GLObjects_run_append, mem_run_destroyCalls_textures, run_createCalls,
    mem_insertName, h0, h1]
  tauto

/-- C6. When the completeness check fails, `ensureTaaTargets` throws, and it leaves the state
a destroyed one: handles, dimensions and index zero, history invalid, every other field as it
was.  No object created during the call survives it: the objects on the server afterwards are
among those that existed before, and contain neither the names generated during the call nor
the handles held before it; when the server held only the objects the state referred to, none
is left. -/
theorem ensureTaaTargets_failure_releases (gl : Driver) (w h : Int) (s : Init)
    (hbad : gl.glCheckFramebufferStatus ≠ GL_FRAMEBUFFER_COMPLETE)
    (hpath : ¬ (s.taaW = w ∧ s.taaH = h ∧ s.taaFbo ≠ 0 ∧ s.taaColor0 ≠ 0 ∧ s.taaColor1 ≠ 0)) :
    (ensureTaaTargets gl w h s).1 = Outcome.thrown "TAA framebuffer incomplete"
      ∧ (ensureTaaTargets gl w h s).2
          = { s with taaFbo := 0, taaColor0 := 0, taaColor1 := 0, taaW := 0, taaH := 0,
                     taaHistoryValid := false, taaIndex := 0,
                     glLog := (ensureTaaTargets gl w h s).2.glLog }
      ∧ (∀ o : GLObjects,
          (o.run (ensureTaaTargets gl w h s).2.glLog).framebuffers
              ⊆ (o.run s.glLog).framebuffers
            ∧ (o.run (ensureTaaTargets gl w h s).2.glLog).textures ⊆ (o.run s.glLog).textures
            ∧ (∀ n, n ≠ 0 → n = s.taaFbo ∨ n = gl.glGenFramebuffers →
                n ∉ (o.run (ensureTaaTargets gl w h s).2.glLog).framebuffers)
            ∧ (∀ n, n ≠ 0 →
                n = s.taaColor0 ∨ n = s.taaColor1 ∨ n = gl.glGenTextures.1
                  ∨ n = gl.glGenTextures.2 →
                n ∉ (o.run (ensureTaaTargets gl w h s).2.glLog).textures)
            ∧ ((∀ n ∈ (o.run s.glLog).framebuffers, n ≠ 0 ∧ n = s.taaFbo) →
                (∀ n ∈ (o.run s.glLog).textures,
                    n ≠ 0 ∧ (n = s.taaColor0 ∨ n = s.taaColor1)) →
                o.run (ensureTaaTargets gl w h s).2.glLog = ⟨∅, ∅⟩)) := by
  rw [ensureTaaTargets_thrown gl w h s hbad hpath]
  refine ⟨rfl, rfl, ?_⟩
  intro o
  have hfb := mem_run_recreate_framebuffers o s
    { s with taaFbo := gl.glGenFramebuffers, taaColor0 := gl.glGenTextures.1,
             taaColor1 := gl.glGenTextures.2 } gl w h rfl
  have htx := mem_run_recreate_textures o s
    { s with taaFbo := gl.glGenFramebuffers, taaColor0 := gl.glGenTextures.1,
             taaColor1 := gl.glGenTextures.2 } gl w h rfl rfl
  refine ⟨fun n hn => ((hfb n).mp hn).1, fun n hn => ((htx n).mp hn).1, ?_, ?_, ?_⟩
  · intro n hn0 hcase hmem
    have := (hfb n).mp hmem
    rcases hcase with rfl | rfl
    · exact this.2.1 ⟨hn0, rfl⟩
    · exact this.2.2 ⟨hn0, rfl⟩
  · intro n hn0 hcase hmem
    have := (htx n).mp hmem
    rcases hcase with rfl | rfl | rfl | rfl
    · exact this.2.1 ⟨hn0, rfl⟩
    · exact this.2.2.1 ⟨hn0, rfl⟩
    · exact this.2.2.2.1 ⟨hn0, rfl⟩
    · exact this.2.2.2.2 ⟨hn0, rfl⟩
  · intro hownF hownT
    apply GLObjects.ext_fields
    · apply Finset.eq_empty_of_forall_not_mem
      intro n hmem
      have h1 := (hfb n).mp hmem
      have h2 := hownF n h1.1
      exact h1.2.1 ⟨fun hz => h2.1 (h2.2.trans hz), h2.2⟩
    · apply Finset.eq_empty_of_forall_not_mem
      intro n hmem
      have h1 := (htx n).mp hmem
      have h2 := hownT n h1.1
      rcases h2.2 with h3 | h3
      · exact h1.2.1 ⟨fun hz => h2.1 (h3.trans hz), h3⟩
      · exact h1.2.2.1 ⟨fun hz => h2.1 (h3.trans hz), h3⟩

/-! ### Temporal composite stage -/

theorem renderTaaComposite_loaded (gl : Driver) (w h : Int) (s : Init) (sh : Shader)
    (texCur texHist : Nat) (hsh : s.taaShader = some sh) (hid : sh.ID ≠ 0)
    (hcur : s.taaColor s.taaIndex = some texCur)
    (hhist : s.taaColor (1 - s.taaIndex) = some texHist) :
    renderTaaComposite gl w h s
      = some { s with taaHistoryValid := true, taaIndex := 1 - s.taaIndex,
                      glLog := s.glLog ++ compositeCalls gl w h s sh.ID texCur texHist } := by
  unfold renderTaaComposite
  simp only [hsh, if_neg hid, hcur, hhist, Init.emit]

theorem taaColor_of_index (s : Init) (hidx : s.taaIndex = 0 ∨ s.taaIndex = 1) :
    ∃ texCur texHist, s.taaColor s.taaIndex = some texCur
      ∧ s.taaColor (1 - s.taaIndex) = some texHist
      ∧ ((s.taaIndex = 0 ∧ texCur = s.taaColor0 ∧ texHist = s.taaColor1)
        ∨ (s.taaIndex = 1 ∧ texCur = s.taaColor1 ∧ texHist = s.taaColor0)) := by
  rcases hidx with h0 | h1
  · exact ⟨s.taaColor0, s.taaColor1, by simp [Init.taaColor, h0], by simp [Init.taaColor, h0],
      Or.inl ⟨h0, rfl, rfl⟩⟩
  · exact ⟨s.taaColor1, s.taaColor0, by simp [Init.taaColor, h1], by simp [Init.taaColor, h1],
      Or.inr ⟨h1, rfl, rfl⟩⟩

theorem uniform1f_mem_compositeCalls (gl : Driver) (w h : Int) (s : Init)
    (prog texCur texHist : Nat) (loc : Int) (v : ℚ) :
    GLCall.uniform1f loc v ∈ compositeCalls gl w h s prog texCur texHist
      ↔ loc = gl.glGetUniformLocation prog "uAlpha" ∧ loc ≠ -1
          ∧ v = (if s.taaHistoryValid then s.taaHistoryWeight else 0) := by
  unfold compositeCalls ResetFullscreenState ClearColorOnly
  by_cases h1 : gl.glGetUniformLocation prog "uResolution" = -1 <;>
    by_cases h2 : gl.glGetUniformLocation prog "uAlpha" = -1 <;>
    by_cases h3 : gl.glGetUniformLocation prog "uCurrent" = -1 <;>
    by_cases h4 : gl.glGetUniformLocation prog "uHistory" = -1 <;>
    by_cases h5 : s.quad.isSome = true <;>
    simp [h1, h2, h3, h4, h5] <;>
    first
      | (intro h6 h7; exact absurd h6 h7)
      | (intro h6 _; rw [h6]; exact h2)

/-- C8. With the composite program loaded, the only `glUniform1f` that `renderTaaComposite`
issues is the write of the blend factor to the location of `uAlpha`, and the value written is
`taaHistoryWeight` when `taaHistoryValid` is true and `0` when it is false. -/
theorem renderTaaComposite_blend_factor (gl : Driver) (w h : Int) (s : Init) (sh : Shader)
    (hsh : s.taaShader = some sh) (hid : sh.ID ≠ 0)
    (hidx : s.taaIndex = 0 ∨ s.taaIndex = 1) :
    ∃ s2 calls, renderTaaComposite gl w h s = some s2
      ∧ s2.glLog = s.glLog ++ calls
      ∧ (∀ loc v, GLCall.uniform1f loc v ∈ calls ↔
          loc = gl.glGetUniformLocation sh.ID "uAlpha" ∧ loc ≠ -1
            ∧ v = (if s.taaHistoryValid then s.taaHistoryWeight else 0))
      ∧ (s.taaHistoryValid = true → ∀ loc v, GLCall.uniform1f loc v ∈ calls →
          v = s.taaHistoryWeight)
      ∧ (s.taaHistoryValid = false → ∀ loc v, GLCall.uniform1f loc v ∈ calls → v = 0) := by
  obtain ⟨texCur, texHist, hcur, hhist, _⟩ := taaColor_of_index s hidx
  refine ⟨_, compositeCalls gl w h s sh.ID texCur texHist,
    renderTaaComposite_loaded gl w h s sh texCur texHist hsh hid hcur hhist, rfl,
    uniform1f_mem_compositeCalls gl w h s sh.ID texCur texHist, ?_, ?_⟩
  · intro hv loc v hmem
    have := ((uniform1f_mem_compositeCalls gl w h s sh.ID texCur texHist loc v).mp hmem).2.2
    simpa [hv] using this
  · intro hv loc v hmem
    have := ((uniform1f_mem_compositeCalls gl w h s sh.ID texCur texHist loc v).mp hmem).2.2
    simpa [hv] using this

theorem bindTexture_infix_compositeCalls (gl : Driver) (w h : Int) (s : Init)
    (prog texCur texHist : Nat) :
    [GLCall.activeTexture 0, GLCall.bindTexture texCur, GLCall.activeTexture 1,
        GLCall.bindTexture texHist] <:+: compositeCalls gl w h s prog texCur texHist := by
  refine ⟨[GLCall.useProgram prog]
      ++ (if gl.glGetUniformLocation prog "uResolution" ≠ -1
          then [GLCall.uniform2f (gl.glGetUniformLocation prog "uResolution") (w : ℚ) (h : ℚ)]
          else [])
      ++ (if gl.glGetUniformLocation prog "uAlpha" ≠ -1
          then [GLCall.uniform1f (gl.glGetUniformLocation prog "uAlpha")
            (if s.taaHistoryValid then s.taaHistoryWeight else 0)]
          else [])
      ++ (if gl.glGetUniformLocation prog "uCurrent" ≠ -1
          then [GLCall.uniform1i (gl.glGetUniformLocation prog "uCurrent") 0] else [])
      ++ (if gl.glGetUniformLocation prog "uHistory" ≠ -1
          then [GLCall.uniform1i (gl.glGetUniformLocation prog "uHistory") 1] else []),
    ResetFullscreenState w h ++ ClearColorOnly
      ++ (if s.quad.isSome then [GLCall.renderMesh] else []), ?_⟩
  simp only [compositeCalls, List.append_assoc]

theorem bindTexture_mem_compositeCalls (gl : Driver) (w h : Int) (s : Init)
    (prog texCur texHist : Nat) (t : Nat)
    (hmem : GLCall.bindTexture t ∈ compositeCalls gl w h s prog texCur texHist) :
    t = texCur ∨ t = texHist := by
  unfold compositeCalls ResetFullscreenState ClearColorOnly at hmem
  by_cases h1 : gl.glGetUniformLocation prog "uResolution" = -1 <;>
    by_cases h2 : gl.glGetUniformLocation prog "uAlpha" = -1 <;>
    by_cases h3 : gl.glGetUniformLocation prog "uCurrent" = -1 <;>
    by_cases h4 : gl.glGetUniformLocation prog "uHistory" = -1 <;>
    by_cases h5 : s.quad.isSome = true <;>
    simpa [h1, h2, h3, h4, h5] using hmem

theorem uniform1i_mem_compositeCalls (gl : Driver) (w h : Int) (s : Init)
    (prog texCur texHist : Nat) (loc v : Int) :
    GLCall.uniform1i loc v ∈ compositeCalls gl w h s prog texCur texHist
      ↔ loc ≠ -1 ∧ ((loc = gl.glGetUniformLocation prog "uCurrent" ∧ v = 0)
          ∨ (loc = gl.glGetUniformLocation prog "uHistory" ∧ v = 1)) := by
  unfold compositeCalls ResetFullscreenState ClearColorOnly
  by_cases h1 : gl.glGetUniformLocation prog "uResolution" = -1 <;>
    by_cases h2 : gl.glGetUniformLocation prog "uAlpha" = -1 <;>
    by_cases h3 : gl.glGetUniformLocation prog "uCurrent" = -1 <;>
    by_cases h4 : gl.glGetUniformLocation prog "uHistory" = -1 <;>
    by_cases h5 : s.quad.isSome = true <;>
    simp [h1, h2, h3, h4, h5] <;>
    omega

theorem renderTaaComposite_loaded_fields (gl : Driver) (w h : Int) (s : Init) (sh : Shader)
    (texCur texHist : Nat) (hsh : s.taaShader = some sh) (hid : sh.ID ≠ 0)
    (hcur : s.taaColor s.taaIndex = some texCur)
    (hhist : s.taaColor (1 - s.taaIndex) = some texHist) :
    ∃ s2, renderTaaComposite gl w h s = some s2
      ∧ s2.glLog = s.glLog ++ compositeCalls gl w h s sh.ID texCur texHist
      ∧ s2.taaHistoryValid = true
      ∧ s2.taaIndex = 1 - s.taaIndex
      ∧ s2.taaShader = s.taaShader
      ∧ s2.taaColor0 = s.taaColor0
      ∧ s2.taaColor1 = s.taaColor1 :=
  ⟨_, renderTaaComposite_loaded gl w h s sh texCur texHist hsh hid hcur hhist, rfl, rfl, rfl,
    rfl, rfl, rfl⟩

/-- C9. With the composite program loaded and `taaIndex` in `{0, 1}`, `renderTaaComposite`
binds `taaColor[taaIndex]` on texture unit 0, the unit given to the sampler `uCurrent`, and
`taaColor[1 - taaIndex]` on unit 1, the unit given to `uHistory`, and binds no other texture;
it then leaves `taaHistoryValid = true` and `taaIndex` replaced by `1 - taaIndex`, so that a
second call brings the index back to its first value. -/
theorem renderTaaComposite_ping_pong (gl gl2 : Driver) (w h w2 h2 : Int) (s : Init)
    (sh : Shader) (hsh : s.taaShader = some sh) (hid : sh.ID ≠ 0)
    (hidx : s.taaIndex = 0 ∨ s.taaIndex = 1) :
    ∃ s2 calls texCur texHist,
      renderTaaComposite gl w h s = some s2
        ∧ s2.glLog = s.glLog ++ calls
        ∧ s.taaColor s.taaIndex = some texCur
        ∧ s.taaColor (1 - s.taaIndex) = some texHist
        ∧ [GLCall.activeTexture 0, GLCall.bindTexture texCur, GLCall.activeTexture 1,
            GLCall.bindTexture texHist] <:+: calls
        ∧ (∀ t, GLCall.bindTexture t ∈ calls → t = texCur ∨ t = texHist)
        ∧ (∀ loc v, GLCall.uniform1i loc v ∈ calls ↔
            loc ≠ -1 ∧ ((loc = gl.glGetUniformLocation sh.ID "uCurrent" ∧ v = 0)
              ∨ (loc = gl.glGetUniformLocation sh.ID "uHistory" ∧ v = 1)))
        ∧ s2.taaHistoryValid = true
        ∧ s2.taaIndex = 1 - s.taaIndex
        ∧ (s.taaIndex = 0 → s2.taaIndex = 1)
        ∧ ∃ s3, renderTaaComposite gl2 w2 h2 s2 = some s3
            ∧ s3.taaIndex = s.taaIndex ∧ s3.taaHistoryValid = true := by
  obtain ⟨texCur, texHist, hcur, hhist, _⟩ := taaColor_of_index s hidx
  obtain ⟨s2, hfirst, hlog, hvalid, hindex, hshader, hc0, hc1⟩ :=
    renderTaaComposite_loaded_fields gl w h s sh texCur texHist hsh hid hcur hhist
  have hcur2 : s2.taaColor s2.taaIndex = some texHist := by
    rw [hindex, ← hhist]
    simp only [Init.taaColor, hc0, hc1]
  have hhist2 : s2.taaColor (1 - s2.taaIndex) = some texCur := by
    rw [hindex, sub_sub_cancel, ← hcur]
    simp only [Init.taaColor, hc0, hc1]
  obtain ⟨s3, hsecond, _, hvalid3, hindex3, _, _, _⟩ :=
    renderTaaComposite_loaded_fields gl2 w2 h2 s2 sh texHist texCur (hshader.trans hsh) hid
      hcur2 hhist2
  refine ⟨s2, compositeCalls gl w h s sh.ID texCur texHist, texCur, texHist, hfirst, hlog, hcur,
    hhist, bindTexture_infix_compositeCalls gl w h s sh.ID texCur texHist,
    bindTexture_mem_compositeCalls gl w h s sh.ID texCur texHist,
    uniform1i_mem_compositeCalls gl w h s sh.ID texCur texHist, hvalid, hindex, ?_, s3,
    hsecond, ?_, hvalid3⟩
  · intro h0
    rw [hindex, h0]
    rfl
  · rw [hindex3, hindex, sub_sub_cancel]

/-- C10. When the composite program is absent, or present with handle `0`,
`renderTaaComposite` returns the state it was given: no command is issued, so there is no draw
call, and `taaIndex`, `taaHistoryValid` and every other field are unchanged. -/
theorem renderTaaComposite_without_program (gl : Driver) (w h : Int) (s : Init)
    (hprog : s.taaShader = none ∨ ∃ sh, s.taaShader = some sh ∧ sh.ID = 0) :
    renderTaaComposite gl w h s = some s
      ∧ (∀ s2, renderTaaComposite gl w h s = some s2 →
          s2.glLog = s.glLog ∧ s2.taaIndex = s.taaIndex
            ∧ s2.taaHistoryValid = s.taaHistoryValid) := by
  have hnoop : renderTaaComposite gl w h s = some s := by
    unfold renderTaaComposite
    rcases hprog with hnone | ⟨sh, hsome, hzero⟩
    · simp only [hnone]
    · simp only [hsome, if_pos hzero]
  refine ⟨hnoop, ?_⟩
  intro s2 hs2
  rw [hnoop] at hs2
  cases hs2
  exact ⟨rfl, rfl, rfl⟩

theorem ensureTaaTargets_idempotent_witness :
    ensureTaaTargets sampleDriver 800 600 (ensureTaaTargets sampleDriver 800 600 Init.ctor).2
        = (Outcome.returned, (ensureTaaTargets sampleDriver 800 600 Init.ctor).2)
      ∧ allocationCount (ensureTaaTargets sampleDriver 800 600 Init.ctor).2.glLog = 1
      ∧ allocationCount (ensureTaaTargets sampleDriver 800 600
          (ensureTaaTargets sampleDriver 800 600 Init.ctor).2).2.glLog = 1 :=
  ⟨(ensureTaaTargets_idempotent sampleDriver sampleDriver 800 600 Init.ctor
      (ensureTaaTargets sampleDriver 800 600 Init.ctor).2
      (Prod.ext (by decide) rfl) (by decide)).1, by decide, by decide⟩

theorem ensureTaaTargets_failure_releases_witness :
    (ensureTaaTargets sampleDriverIncomplete 800 600 Init.ctor).1
        = Outcome.thrown "TAA framebuffer incomplete"
      ∧ (ensureTaaTargets sampleDriverIncomplete 800 600 Init.ctor).2.taaFbo = 0
      ∧ GLObjects.run ⟨∅, ∅⟩ (ensureTaaTargets sampleDriverIncomplete 800 600 Init.ctor).2.glLog
          = ⟨∅, ∅⟩ :=
  have hthm := ensureTaaTargets_failure_releases sampleDriverIncomplete 800 600 Init.ctor
    (by decide) (by decide)
  ⟨hthm.1, by decide,
    (hthm.2.2 ⟨∅, ∅⟩).2.2.2.2 (fun n hn => absurd hn (by simp [GLObjects.run, Init.ctor]))
      (fun n hn => absurd hn (by simp [GLObjects.run, Init.ctor]))⟩

theorem renderTaaComposite_blend_factor_witness :
    (∃ s2 calls, renderTaaComposite sampleDriver 800 600 sampleStateValid = some s2
        ∧ s2.glLog = sampleStateValid.glLog ++ calls
        ∧ GLCall.uniform1f 3 (f32 (9 / 10)) ∈ calls
        ∧ ∀ loc v, GLCall.uniform1f loc v ∈ calls → v = f32 (9 / 10))
      ∧ (∃ s2 calls, renderTaaComposite sampleDriver 800 600 sampleState = some s2
        ∧ s2.glLog = sampleState.glLog ++ calls
        ∧ GLCall.uniform1f 3 0 ∈ calls
        ∧ ∀ loc v, GLCall.uniform1f loc v ∈ calls → v = 0) := by
  have hw : sampleStateValid.taaHistoryWeight = f32 (9 / 10) := by
    show f32 (90 / 100) = f32 (9 / 10)
    norm_num
  constructor
  · obtain ⟨s2, calls, hrun, hlog, hiff, hvalid, _⟩ :=
      renderTaaComposite_blend_factor sampleDriver 800 600 sampleStateValid { ID := 5 } rfl
        (by decide) (Or.inl rfl)
    refine ⟨s2, calls, hrun, hlog, (hiff 3 (f32 (9 / 10))).mpr ⟨rfl, by decide, ?_⟩, ?_⟩
    · rw [hw]; rfl
    · intro loc v hmem
      rw [← hw]
      exact hvalid rfl loc v hmem
  · obtain ⟨s2, calls, hrun, hlog, hiff, _, hinvalid⟩ :=
      renderTaaComposite_blend_factor sampleDriver 800 600 sampleState { ID := 5 } rfl
        (by decide) (Or.inl rfl)
    exact ⟨s2, calls, hrun, hlog, (hiff 3 0).mpr ⟨rfl, by decide, rfl⟩, hinvalid rfl⟩

theorem renderTaaComposite_ping_pong_witness :
    ∃ s2 s3, renderTaaComposite sampleDriver 800 600 sampleStateValid = some s2
      ∧ s2.taaIndex = 1 ∧ s2.taaHistoryValid = true
      ∧ renderTaaComposite sampleDriver 800 600 s2 = some s3
      ∧ s3.taaIndex = 0
      ∧ [GLCall.activeTexture 0, GLCall.bindTexture 8, GLCall.activeTexture 1,
          GLCall.bindTexture 9] <:+: s2.glLog := by
  obtain ⟨s2, calls, texCur, texHist, hrun, hlog, hcur, hhist, hinfix, _, _, hvalid, _, hone,
      s3, hrun3, hidx3, _⟩ :=
    renderTaaComposite_ping_pong sampleDriver sampleDriver 800 600 800 600 sampleStateValid
      { ID := 5 } rfl (by decide) (Or.inl rfl)
  have h8 : texCur = 8 := (Option.some.inj hcur).symm
  have h9 : texHist = 9 := (Option.some.inj hhist).symm
  refine ⟨s2, s3, hrun, hone rfl, hvalid, hrun3, hidx3, ?_⟩
  rw [hlog, ← h8, ← h9]
  exact hinfix.trans (List.suffix_append _ _).isInfix

theorem renderTaaComposite_without_program_witness :
    renderTaaComposite sampleDriver 800 600 Init.ctor = some Init.ctor
      ∧ renderTaaComposite sampleDriver 800 600 sampleStateUnlinked
          = some sampleStateUnlinked :=
  ⟨(renderTaaComposite_without_program sampleDriver 800 600 Init.ctor (Or.inl rfl)).1,
    (renderTaaComposite_without_program sampleDriver 800 600 sampleStateUnlinked
      (Or.inr ⟨{ ID := 0 }, rfl, rfl⟩)).1⟩

/-! ### Input processing -/

theorem edgeKey_eq (inp : Input) (key : Int) (onPress : Init → Init) (s : Init)
    (hkey : 0 ≤ key ∧ key < 512) :
    edgeKey inp key onPress s
      = { (if risingEdge inp key s then onPress s else s) with
          prevKeys := if inp.keyDown key
            then insert key (if risingEdge inp key s then onPress s else s).prevKeys
            else (if risingEdge inp key s then onPress s else s).prevKeys.erase key } := by
  unfold edgeKey
  rw [if_pos hkey]

/-- A quantity that does not depend on `prevKeys` sees `edgeKey` as a plain conditional. -/
theorem edgeKey_apply {α : Type} (g : Init → α) (hg : ∀ s p, g { s with prevKeys := p } = g s)
    (inp : Input) (key : Int) (onPress : Init → Init) (s : Init)
    (hkey : 0 ≤ key ∧ key < 512) :
    g (edgeKey inp key onPress s) = if risingEdge inp key s then g (onPress s) else g s := by
  rw [edgeKey_eq inp key onPress s hkey, hg]
  split <;> rfl

theorem mem_prevKeys_edgeKey (inp : Input) (key : Int) (onPress : Init → Init) (s : Init)
    (hkey : 0 ≤ key ∧ key < 512) (hp : ∀ s, (onPress s).prevKeys = s.prevKeys) (k : Int) :
    k ∈ (edgeKey inp key onPress s).prevKeys
      ↔ if k = key then inp.keyDown key = true else k ∈ s.prevKeys := by
  rw [edgeKey_eq inp key onPress s hkey]
  have h1 : (if risingEdge inp key s then onPress s else s).prevKeys = s.prevKeys := by
    split
    · exact hp s
    · rfl
  simp only [h1]
  by_cases hk : k = key <;> by_cases hd : inp.keyDown key = true <;>
    simp [hk, hd, Finset.mem_insert, Finset.mem_erase]

theorem risingEdge_edgeKey_ne (inp : Input) (key : Int) (onPress : Init → Init) (s : Init)
    (hkey : 0 ≤ key ∧ key < 512) (hp : ∀ s, (onPress s).prevKeys = s.prevKeys) (k : Int)
    (hne : k ≠ key) :
    risingEdge inp k (edgeKey inp key onPress s) = risingEdge inp k s := by
  unfold risingEdge
  have := mem_prevKeys_edgeKey inp key onPress s hkey hp k
  rw [if_neg hne] at this
  simp only [this]

theorem edgeKey_preserve {α : Type} (g : Init → α) (hg : ∀ s p, g { s with prevKeys := p } = g s)
    (inp : Input) (key : Int) (onPress : Init → Init) (s : Init)
    (hpres : ∀ t, g (onPress t) = g t) :
    g (edgeKey inp key onPress s) = g s := by
  unfold edgeKey
  split
  · rw [hg]
    split
    · exact hpres s
    · rfl
  · rfl

theorem risingEdge_edgeKey_other (inp : Input) (key : Int) (onPress : Init → Init) (s : Init)
    (hp : ∀ s, (onPress s).prevKeys = s.prevKeys) (k : Int) (hne : k ≠ key) :
    risingEdge inp k (edgeKey inp key onPress s) = risingEdge inp k s := by
  by_cases hkey : 0 ≤ key ∧ key < 512
  · exact risingEdge_edgeKey_ne inp key onPress s hkey hp k hne
  · unfold edgeKey
    rw [if_neg hkey]

theorem moveCamera_apply {α : Type} (g : Init → α) (hg : ∀ s c, g { s with camera := c } = g s)
    (inp : Input) (key : Int) (plus : Bool) (dir : Vec3) (speed : ℚ) (s : Init) :
    g (moveCamera inp key plus dir speed s) = g s := by
  unfold moveCamera
  split
  · exact hg _ _
  · rfl

/-- A quantity that does not depend on the frame time, the camera and the close flag is not
changed by the movement part of `processInput`. -/
theorem processMovement_apply {α : Type} (g : Init → α)
    (hcam : ∀ s c, g { s with camera := c } = g s)
    (htime : ∀ s d l, g { s with deltaTime := d, lastFrame := l } = g s)
    (hclose : ∀ s b, g { s with shouldClose := b } = g s)
    (inp : Input) (s : Init) :
    g (processMovement inp s) = g s := by
  unfold processMovement
  simp only
  split
  · rw [hclose]
    simp only [moveCamera_apply g hcam, htime]
  · simp only [moveCamera_apply g hcam, htime]

theorem risingEdge_processMovement (inp : Input) (k : Int) (s : Init) :
    risingEdge inp k (processMovement inp s) = risingEdge inp k s := by
  unfold risingEdge
  rw [processMovement_apply (fun s => s.prevKeys) (fun _ _ => rfl) (fun _ _ _ => rfl)
    (fun _ _ => rfl)]

/-- The state `processInput` reaches before its `edgeKey` call for the key `T`. -/
theorem shaderKeys_apply {α : Type} (g : Init → α)
    (hg : ∀ s p, g { s with prevKeys := p } = g s)
    (hshader : ∀ n s, g (onShaderKey n s) = g s) (inp : Input) (s : Init) :
    g (s |> edgeKey inp GLFW_KEY_1 (onShaderKey 1)
          |> edgeKey inp (GLFW_KEY_1 + 1) (onShaderKey 2)
          |> edgeKey inp (GLFW_KEY_1 + 2) (onShaderKey 3)
          |> edgeKey inp (GLFW_KEY_1 + 3) (onShaderKey 4)
          |> edgeKey inp (GLFW_KEY_1 + 4) (onShaderKey 5)
          |> edgeKey inp (GLFW_KEY_1 + 5) (onShaderKey 6)
          |> edgeKey inp (GLFW_KEY_1 + 6) (onShaderKey 7)
          |> edgeKey inp (GLFW_KEY_1 + 7) (onShaderKey 8)) = g s := by
  simp only [edgeKey_preserve g hg inp _ (onShaderKey _) _ (hshader _)]

theorem risingEdge_shaderKeys (inp : Input) (s : Init) (k : Int)
    (hk : k < GLFW_KEY_1 ∨ GLFW_KEY_1 + 7 < k) :
    risingEdge inp k
        (s |> edgeKey inp GLFW_KEY_1 (onShaderKey 1)
          |> edgeKey inp (GLFW_KEY_1 + 1) (onShaderKey 2)
          |> edgeKey inp (GLFW_KEY_1 + 2) (onShaderKey 3)
          |> edgeKey inp (GLFW_KEY_1 + 3) (onShaderKey 4)
          |> edgeKey inp (GLFW_KEY_1 + 4) (onShaderKey 5)
          |> edgeKey inp (GLFW_KEY_1 + 5) (onShaderKey 6)
          |> edgeKey inp (GLFW_KEY_1 + 6) (onShaderKey 7)
          |> edgeKey inp (GLFW_KEY_1 + 7) (onShaderKey 8))
      = risingEdge inp k s := by
  have hp : ∀ n s, (onShaderKey n s).prevKeys = s.prevKeys := fun _ _ => rfl
  rw [risingEdge_edgeKey_other inp _ _ _ (hp _) k (by omega),
    risingEdge_edgeKey_other inp _ _ _ (hp _) k (by omega),
    risingEdge_edgeKey_other inp _ _ _ (hp _) k (by omega),
    risingEdge_edgeKey_other inp _ _ _ (hp _) k (by omega),
    risingEdge_edgeKey_other inp _ _ _ (hp _) k (by omega),
    risingEdge_edgeKey_other inp _ _ _ (hp _) k (by omega),
    risingEdge_edgeKey_other inp _ _ _ (hp _) k (by omega),
    risingEdge_edgeKey_other inp _ _ _ (hp _) k (by omega)]

theorem processInput_taaEnabled (inp : Input) (s : Init) :
    (processInput inp s).taaEnabled
      = if risingEdge inp GLFW_KEY_T s then !s.taaEnabled else s.taaEnabled := by
  unfold processInput
  rw [edgeKey_preserve (fun s => s.taaEnabled) (fun _ _ => rfl) inp _ onKpSubtract _
      (fun _ => rfl),
    edgeKey_preserve (fun s => s.taaEnabled) (fun _ _ => rfl) inp _ onKpAdd _ (fun _ => rfl),
    edgeKey_preserve (fun s => s.taaEnabled) (fun _ _ => rfl) inp _ onRightBracket _
      (fun _ => rfl),
    edgeKey_preserve (fun s => s.taaEnabled) (fun _ _ => rfl) inp _ onLeftBracket _
      (fun _ => rfl),
    edgeKey_apply (fun s => s.taaEnabled) (fun _ _ => rfl) inp GLFW_KEY_T onToggleTaa _
      (by decide),
    risingEdge_shaderKeys inp _ GLFW_KEY_T (by decide), risingEdge_processMovement]
  simp only [onToggleTaa]
  rw [shaderKeys_apply (fun s => s.taaEnabled) (fun _ _ => rfl) (fun _ _ => rfl),
    processMovement_apply (fun s => s.taaEnabled) (fun _ _ => rfl) (fun _ _ _ => rfl)
      (fun _ _ => rfl)]

theorem processInput_frameCounter (inp : Input) (s : Init) :
    (processInput inp s).frameCounter
      = if risingEdge inp GLFW_KEY_T s then 0 else s.frameCounter := by
  unfold processInput
  rw [edgeKey_preserve (fun s => s.frameCounter) (fun _ _ => rfl) inp _ onKpSubtract _
      (fun _ => rfl),
    edgeKey_preserve (fun s => s.frameCounter) (fun _ _ => rfl) inp _ onKpAdd _ (fun _ => rfl),
    edgeKey_preserve (fun s => s.frameCounter) (fun _ _ => rfl) inp _ onRightBracket _
      (fun _ => rfl),
    edgeKey_preserve (fun s => s.frameCounter) (fun _ _ => rfl) inp _ onLeftBracket _
      (fun _ => rfl),
    edgeKey_apply (fun s => s.frameCounter) (fun _ _ => rfl) inp GLFW_KEY_T onToggleTaa _
      (by decide),
    risingEdge_shaderKeys inp _ GLFW_KEY_T (by decide), risingEdge_processMovement]
  simp only [onToggleTaa]
  rw [shaderKeys_apply (fun s => s.frameCounter) (fun _ _ => rfl) (fun _ _ => rfl),
    processMovement_apply (fun s => s.frameCounter) (fun _ _ => rfl) (fun _ _ _ => rfl)
      (fun _ _ => rfl)]

theorem processInput_taaHistoryValid (inp : Input) (s : Init) :
    (processInput inp s).taaHistoryValid
      = if risingEdge inp GLFW_KEY_RIGHT_BRACKET s then false
        else if risingEdge inp GLFW_KEY_LEFT_BRACKET s then false
        else if risingEdge inp GLFW_KEY_T s then false
        else s.taaHistoryValid := by
  unfold processInput
  rw [edgeKey_preserve (fun s => s.taaHistoryValid) (fun _ _ => rfl) inp _ onKpSubtract _
      (fun _ => rfl),
    edgeKey_preserve (fun s => s.taaHistoryValid) (fun _ _ => rfl) inp _ onKpAdd _
      (fun _ => rfl),
    edgeKey_apply (fun s => s.taaHistoryValid) (fun _ _ => rfl) inp GLFW_KEY_RIGHT_BRACKET
      onRightBracket _ (by decide),
    risingEdge_edgeKey_other inp _ onLeftBracket _ (fun _ => rfl) _ (by decide),
    risingEdge_edgeKey_other inp _ onToggleTaa _ (fun _ => rfl) _ (by decide),
    risingEdge_shaderKeys inp _ GLFW_KEY_RIGHT_BRACKET (by decide), risingEdge_processMovement,
    edgeKey_apply (fun s => s.taaHistoryValid) (fun _ _ => rfl) inp GLFW_KEY_LEFT_BRACKET
      onLeftBracket _ (by decide),
    risingEdge_edgeKey_other inp _ onToggleTaa _ (fun _ => rfl) _ (by decide),
    risingEdge_shaderKeys inp _ GLFW_KEY_LEFT_BRACKET (by decide), risingEdge_processMovement,
    edgeKey_apply (fun s => s.taaHistoryValid) (fun _ _ => rfl) inp GLFW_KEY_T onToggleTaa _
      (by decide),
    risingEdge_shaderKeys inp _ GLFW_KEY_T (by decide), risingEdge_processMovement]
  simp only [onToggleTaa, onLeftBracket, onRightBracket]
  rw [shaderKeys_apply (fun s => s.taaHistoryValid) (fun _ _ => rfl) (fun _ _ => rfl),
    processMovement_apply (fun s => s.taaHistoryValid) (fun _ _ => rfl) (fun _ _ _ => rfl)
      (fun _ _ => rfl)]

theorem mem_prevKeys_processInput_T (inp : Input) (s : Init) :
    GLFW_KEY_T ∈ (processInput inp s).prevKeys ↔ inp.keyDown GLFW_KEY_T = true := by
  unfold processInput
  rw [mem_prevKeys_edgeKey inp _ onKpSubtract _ (by decide) (fun _ => rfl), if_neg (by decide),
    mem_prevKeys_edgeKey inp _ onKpAdd _ (by decide) (fun _ => rfl), if_neg (by decide),
    mem_prevKeys_edgeKey inp _ onRightBracket _ (by decide) (fun _ => rfl), if_neg (by decide),
    mem_prevKeys_edgeKey inp _ onLeftBracket _ (by decide) (fun _ => rfl), if_neg (by decide),
    mem_prevKeys_edgeKey inp _ onToggleTaa _ (by decide) (fun _ => rfl), if_pos rfl]

/-- A quantity that depends neither on the input bookkeeping nor on a field a key handler
writes is not changed by `processInput`. -/
theorem processInput_apply {α : Type} (g : Init → α)
    (hprev : ∀ s p, g { s with prevKeys := p } = g s)
    (hcam : ∀ s c, g { s with camera := c } = g s)
    (htime : ∀ s d l, g { s with deltaTime := d, lastFrame := l } = g s)
    (hclose : ∀ s b, g { s with shouldClose := b } = g s)
    (hshader : ∀ n s, g (onShaderKey n s) = g s)
    (htoggle : ∀ s, g (onToggleTaa s) = g s)
    (hleft : ∀ s, g (onLeftBracket s) = g s)
    (hright : ∀ s, g (onRightBracket s) = g s)
    (hadd : ∀ s, g (onKpAdd s) = g s)
    (hsub : ∀ s, g (onKpSubtract s) = g s)
    (inp : Input) (s : Init) :
    g (processInput inp s) = g s := by
  unfold processInput
  rw [edgeKey_preserve g hprev inp _ onKpSubtract _ hsub,
    edgeKey_preserve g hprev inp _ onKpAdd _ hadd,
    edgeKey_preserve g hprev inp _ onRightBracket _ hright,
    edgeKey_preserve g hprev inp _ onLeftBracket _ hleft,
    edgeKey_preserve g hprev inp _ onToggleTaa _ htoggle,
    shaderKeys_apply g hprev hshader, processMovement_apply g hcam htime hclose]

/-! ### Pass executor -/

/-- `Halton2D` returns for every `int` argument. -/
theorem Halton2D_total (i : Int) : ∃ j, Halton2D i = some j := by
  rcases le_or_lt 0 i with hi | hi
  · obtain ⟨n, rfl⟩ := Int.eq_ofNat_of_zero_le hi
    exact ⟨_, Halton2D_nat n⟩
  · refine ⟨(0 - 1 / 2, 0 - 1 / 2), ?_⟩
    simp only [Halton2D, HaltonSequenceAt_nonpos (i + 1) _ (by omega)]

theorem emit_emit (s : Init) (a b : List GLCall) : (s.emit a).emit b = s.emit (a ++ b) := by
  simp only [Init.emit, List.append_assoc]

theorem emit_nil (s : Init) : s.emit [] = s := by
  simp only [Init.emit, List.append_nil]

theorem emit_glLog (s : Init) (a : List GLCall) : (s.emit a).glLog = s.glLog ++ a := rfl

theorem passJitter_total (taa : Bool) (s : Init) : ∃ j, passJitter taa s = some j := by
  unfold passJitter
  cases taa with
  | false => exact ⟨(0, 0), rfl⟩
  | true => simpa using binary32_Halton2D_total (toInt32 s.frameCounter)

theorem passJitter_emit (taa : Bool) (s : Init) (a : List GLCall) :
    passJitter taa (s.emit a) = passJitter taa s := rfl

/-- The jitter `bindCommonUniforms` binds: `Halton2D((int)frameCounter)` in a temporal pass,
`(0, 0)` otherwise. -/
theorem bindCommonUniforms_eq (gl : Driver) (sh : Shader) (w h : Int) (t : ℚ) (taa : Bool)
    (s : Init) :
    ∃ jitter, passJitter taa s = some jitter
      ∧ bindCommonUniforms gl sh w h t taa s
          = some (s.emit (GLCall.useProgram sh.ID :: commonUniformCalls gl sh.ID w h t jitter s)) := by
  obtain ⟨j, hj⟩ := passJitter_total taa s
  exact ⟨j, hj, by simp only [bindCommonUniforms, hj]⟩

theorem commonUniformCalls_emit (gl : Driver) (p : Nat) (w h : Int) (t : ℚ) (j : ℚ × ℚ)
    (s : Init) (a : List GLCall) :
    commonUniformCalls gl p w h t j (s.emit a) = commonUniformCalls gl p w h t j s := rfl

theorem textureCalls_emit (gl : Driver) (sh : Shader) (s : Init) (a : List GLCall) :
    textureCalls gl sh (s.emit a) = textureCalls gl sh s := rfl

theorem passCalls_emit (gl : Driver) (sh : Shader) (w h : Int) (t : ℚ) (j : ℚ × ℚ) (s : Init)
    (a : List GLCall) : passCalls gl sh w h t j (s.emit a) = passCalls gl sh w h t j s := rfl

theorem drawPass_eq (gl : Driver) (sh : Shader) (w h : Int) (t : ℚ) (taa : Bool) (s : Init) :
    ∃ jitter, passJitter taa s = some jitter
      ∧ drawPass gl sh w h t taa s = some (s.emit (passCalls gl sh w h t jitter s)) := by
  obtain ⟨j, hj, hb⟩ := bindCommonUniforms_eq gl sh w h t taa (s.emit [GLCall.useProgram sh.ID])
  refine ⟨j, hj, ?_⟩
  unfold drawPass
  rw [hb]
  simp only [bindTextures, emit_emit, commonUniformCalls_emit, textureCalls_emit, passCalls,
    List.cons_append, List.nil_append, List.append_assoc, List.singleton_append]

theorem renderSceneTo_eq (gl : Driver) (fbo : Nat) (sh : Shader) (w h : Int) (t : ℚ)
    (taa : Bool) (s : Init) :
    ∃ jitter, passJitter taa s = some jitter
      ∧ renderSceneTo gl fbo sh w h t taa s
          = some (s.emit (sceneCalls gl fbo sh w h t jitter s)) := by
  obtain ⟨j, hj, hb⟩ := bindCommonUniforms_eq gl sh w h t taa
    (s.emit ([GLCall.bindFramebuffer fbo, GLCall.viewport 0 0 w h] ++ disableAllCalls
      ++ ClearColorOnly ++ [GLCall.useProgram sh.ID]))
  refine ⟨j, hj, ?_⟩
  unfold renderSceneTo
  simp only [hb]
  simp only [bindTextures, emit_emit, commonUniformCalls_emit, textureCalls_emit, sceneCalls,
    List.cons_append, List.nil_append, List.append_assoc, List.singleton_append]

theorem combinedPasses_eq (gl : Driver) (watersky cloudsOver : Shader) (w h : Int) (t : ℚ)
    (taa : Bool) (s : Init) :
    ∃ jitter, passJitter taa s = some jitter
      ∧ combinedPasses gl watersky cloudsOver w h t taa s
          = some (s.emit (combinedCalls gl watersky cloudsOver w h t jitter s)) := by
  obtain ⟨j, hj, h1⟩ := drawPass_eq gl watersky w h t taa s
  obtain ⟨j2, hj2, h2⟩ := drawPass_eq gl cloudsOver w h t taa
    ((s.emit (passCalls gl watersky w h t j s)).emit [GLCall.enable Cap.blend, GLCall.blendFunc])
  have hjj : j2 = j := by
    rw [passJitter_emit, passJitter_emit, hj] at hj2
    exact (Option.some.inj hj2).symm
  subst hjj
  refine ⟨j2, hj, ?_⟩
  unfold combinedPasses
  simp only [h1, h2]
  simp only [emit_emit, passCalls_emit, combinedCalls, List.append_assoc]

/-! ### Commands that only write uniforms -/

theorem forall_mem_ite_append (P : GLCall → Prop) (cond : Prop) [Decidable cond]
    (log : List GLCall) (x : GLCall) (hlog : ∀ c ∈ log, P c) (hx : P x) :
    ∀ c ∈ (if cond then log ++ [x] else log), P c := by
  split
  · intro c hc
    rcases List.mem_append.mp hc with h | h
    · exact hlog c h
    · rw [List.mem_singleton.mp h]; exact hx
  · exact hlog

theorem isUniformWrite_Set1fAny (gl : Driver) (p : Nat) (v : ℚ) (names : List String)
    (log : List GLCall) (hlog : ∀ c ∈ log, c.isUniformWrite = true) :
    ∀ c ∈ Set1fAny gl p v names log, c.isUniformWrite = true := by
  exact forall_mem_ite_append _ _ _ _ hlog rfl

theorem isUniformWrite_Set2fAny (gl : Driver) (p : Nat) (x y : ℚ) (names : List String)
    (log : List GLCall) (hlog : ∀ c ∈ log, c.isUniformWrite = true) :
    ∀ c ∈ Set2fAny gl p x y names log, c.isUniformWrite = true := by
  exact forall_mem_ite_append _ _ _ _ hlog rfl

theorem isUniformWrite_Set3fAny (gl : Driver) (p : Nat) (v : Vec3) (names : List String)
    (log : List GLCall) (hlog : ∀ c ∈ log, c.isUniformWrite = true) :
    ∀ c ∈ Set3fAny gl p v names log, c.isUniformWrite = true := by
  exact forall_mem_ite_append _ _ _ _ hlog rfl

theorem isUniformWrite_SetMat4Any (gl : Driver) (p : Nat) (m : Mat4) (names : List String)
    (log : List GLCall) (hlog : ∀ c ∈ log, c.isUniformWrite = true) :
    ∀ c ∈ SetMat4Any gl p m names log, c.isUniformWrite = true := by
  exact forall_mem_ite_append _ _ _ _ hlog rfl

theorem isUniformWrite_commonUniformCalls (gl : Driver) (p : Nat) (w h : Int) (t : ℚ)
    (j : ℚ × ℚ) (s : Init) :
    ∀ c ∈ commonUniformCalls gl p w h t j s, c.isUniformWrite = true := by
  unfold commonUniformCalls
  repeat first
    | apply isUniformWrite_Set1fAny
    | apply isUniformWrite_Set2fAny
    | apply isUniformWrite_Set3fAny
    | apply isUniformWrite_SetMat4Any
  intro c hc
  exact absurd hc (List.not_mem_nil c)

theorem isUniformWrite_Bind2D (gl : Driver) (tex : Texture) (sh : Shader) (names : List String)
    (unit : Int) (log : List GLCall) (hlog : ∀ c ∈ log, c.isUniformWrite = true) :
    ∀ c ∈ Bind2D gl tex sh names unit log, c.isUniformWrite = true := by
  exact forall_mem_ite_append _ _ _ _ hlog rfl

theorem isUniformWrite_Bind3D (gl : Driver) (tex : Texture) (sh : Shader) (names : List String)
    (unit : Int) (log : List GLCall) (hlog : ∀ c ∈ log, c.isUniformWrite = true) :
    ∀ c ∈ Bind3D gl tex sh names unit log, c.isUniformWrite = true := by
  exact forall_mem_ite_append _ _ _ _ hlog rfl

theorem isUniformWrite_bindOptional (bind : Texture → Int → List GLCall → List GLCall)
    (hbind : ∀ t u log, (∀ c ∈ log, c.isUniformWrite = true) →
      ∀ c ∈ bind t u log, c.isUniformWrite = true)
    (tex : Option Texture) (acc : List GLCall × Int)
    (hacc : ∀ c ∈ acc.1, c.isUniformWrite = true) :
    ∀ c ∈ (bindOptional bind tex acc).1, c.isUniformWrite = true := by
  unfold bindOptional
  cases tex with
  | none => exact hacc
  | some t => exact hbind t acc.2 acc.1 hacc

theorem isUniformWrite_textureCalls (gl : Driver) (sh : Shader) (s : Init) :
    ∀ c ∈ textureCalls gl sh s, c.isUniformWrite = true := by
  unfold textureCalls
  repeat first
    | apply isUniformWrite_bindOptional _ (fun t u log => isUniformWrite_Bind2D gl t sh _ u log)
    | apply isUniformWrite_bindOptional _ (fun t u log => isUniformWrite_Bind3D gl t sh _ u log)
  intro c hc
  exact absurd hc (List.not_mem_nil c)

/-! ### Bindings and draws -/

theorem GLBindings.run_append (b : GLBindings) (l1 l2 : List GLCall) :
    b.run (l1 ++ l2) = (b.run l1).run l2 := by
  induction l1 generalizing b with
  | nil => rfl
  | cons c cs ih => exact ih (b.step c)

theorem GLBindings.draws_append (b : GLBindings) (l1 l2 : List GLCall) :
    b.draws (l1 ++ l2) = b.draws l1 ++ (b.run l1).draws l2 := by
  induction l1 generalizing b with
  | nil => rfl
  | cons c cs ih =>
    show (if c = GLCall.renderMesh then [b.draw] else []) ++ (b.step c).draws (cs ++ l2)
      = ((if c = GLCall.renderMesh then [b.draw] else []) ++ (b.step c).draws cs)
          ++ ((b.step c).run cs).draws l2
    rw [ih, List.append_assoc]

theorem GLBindings.step_uniform (b : GLBindings) (c : GLCall) (hc : c.isUniformWrite = true) :
    (b.step c).program = b.program ∧ (b.step c).framebuffer = b.framebuffer
      ∧ (b.step c).attachment = b.attachment ∧ c ≠ GLCall.renderMesh
      ∧ c ≠ GLCall.swapBuffers := by
  cases c <;> simp [GLCall.isUniformWrite] at hc <;>
    simp [GLBindings.step, GLBindings.useTexture]

/-- A list of uniform writes changes neither the program in use nor the render destination,
and draws nothing. -/
theorem GLBindings.run_uniform (l : List GLCall) (hl : ∀ c ∈ l, c.isUniformWrite = true)
    (b : GLBindings) :
    (b.run l).program = b.program ∧ (b.run l).framebuffer = b.framebuffer
      ∧ (b.run l).attachment = b.attachment ∧ b.draws l = [] := by
  induction l generalizing b with
  | nil => exact ⟨rfl, rfl, rfl, rfl⟩
  | cons c cs ih =>
    have hc := GLBindings.step_uniform b c (hl c (List.mem_cons_self _ _))
    have ih1 := ih (fun x hx => hl x (List.mem_cons_of_mem _ hx)) (b.step c)
    refine ⟨by rw [GLBindings.run, ih1.1, hc.1], by rw [GLBindings.run, ih1.2.1, hc.2.1],
      by rw [GLBindings.run, ih1.2.2.1, hc.2.2.1], ?_⟩
    rw [GLBindings.draws, if_neg hc.2.2.2.1, ih1.2.2.2]
    rfl

theorem count_uniform (l : List GLCall) (hl : ∀ c ∈ l, c.isUniformWrite = true) :
    swapCount l = 0 ∧ drawCount l = 0 := by
  unfold swapCount drawCount
  constructor <;> rw [List.count_eq_zero] <;> intro hmem <;> exact absurd (hl _ hmem) (by decide)

theorem swapCount_append (l1 l2 : List GLCall) :
    swapCount (l1 ++ l2) = swapCount l1 + swapCount l2 := List.count_append _ _ _

theorem drawCount_append (l1 l2 : List GLCall) :
    drawCount (l1 ++ l2) = drawCount l1 + drawCount l2 := List.count_append _ _ _

/-- One pass draws once, with its own program, into whatever destination was bound. -/
theorem passCalls_draws (gl : Driver) (sh : Shader) (w h : Int) (t : ℚ) (j : ℚ × ℚ) (s : Init)
    (b : GLBindings) :
    (∃ d, b.draws (passCalls gl sh w h t j s) = [d] ∧ d.program = sh.ID
        ∧ d.framebuffer = b.framebuffer ∧ d.colorTexture = b.draw.colorTexture)
      ∧ (b.run (passCalls gl sh w h t j s)).framebuffer = b.framebuffer
      ∧ (b.run (passCalls gl sh w h t j s)).attachment = b.attachment := by
  have hu := isUniformWrite_commonUniformCalls gl sh.ID w h t j s
  have ht := isUniformWrite_textureCalls gl sh s
  unfold passCalls
  simp only [GLBindings.draws_append, GLBindings.run_append]
  set b1 := b.run [GLCall.useProgram sh.ID, GLCall.useProgram sh.ID] with hb1
  have h1 := GLBindings.run_uniform _ hu b1
  set b2 := b1.run (commonUniformCalls gl sh.ID w h t j s) with hb2
  set b3 := b2.run [GLCall.useProgram sh.ID] with hb3
  have h3 := GLBindings.run_uniform _ ht b3
  set b4 := b3.run (textureCalls gl sh s) with hb4
  have e3p : b3.program = sh.ID := rfl
  have e3f : b3.framebuffer = b2.framebuffer := rfl
  have e3a : b3.attachment = b2.attachment := rfl
  have e1f : b1.framebuffer = b.framebuffer := rfl
  have e1a : b1.attachment = b.attachment := rfl
  have e4f : b4.framebuffer = b.framebuffer := by rw [h3.2.1, e3f, h1.2.1, e1f]
  have e4a : b4.attachment = b.attachment := by rw [h3.2.2.1, e3a, h1.2.2.1, e1a]
  refine ⟨⟨b4.draw, ?_, ?_, ?_, ?_⟩, ?_, ?_⟩
  · rw [h1.2.2.2, h3.2.2.2]
    rfl
  · show b4.program = sh.ID
    rw [h3.1, e3p]
  · exact e4f
  · simp only [GLBindings.draw, e4f, e4a]
  · exact e4f
  · exact e4a

theorem passCalls_counts (gl : Driver) (sh : Shader) (w h : Int) (t : ℚ) (j : ℚ × ℚ)
    (s : Init) :
    swapCount (passCalls gl sh w h t j s) = 0 ∧ drawCount (passCalls gl sh w h t j s) = 1 := by
  have hu := count_uniform _ (isUniformWrite_commonUniformCalls gl sh.ID w h t j s)
  have ht := count_uniform _ (isUniformWrite_textureCalls gl sh s)
  unfold passCalls
  simp only [swapCount_append, drawCount_append, hu.1, hu.2, ht.1, ht.2]
  constructor <;> simp [swapCount, drawCount]

/-! ### Paths of `render` -/

theorem render_eq (env : FrameEnv) (s : Init) :
    render env s
      = if env.framebufferSize.1 ≤ 0 ∨ env.framebufferSize.2 ≤ 0 then
          some (swapBuffersAndPollEvents (processInput env.input s))
        else if (processInput env.input s).activeShader = 8 then
          renderCombined env.gl env.framebufferSize.1 env.framebufferSize.2 env.time
            (processInput env.input s)
        else
          renderDirect env.gl env.framebufferSize.1 env.framebufferSize.2 env.time
            (processInput env.input s) := rfl

/-- The active program of a frame is missing: in combined mode `watersky` or `cloudsOver` is
null or has handle `0`, in direct mode the selected program is. -/
theorem renderCombined_missing (gl : Driver) (w h : Int) (t : ℚ) (s : Init)
    (hmiss : s.watersky = none ∨ (∃ sh, s.watersky = some sh ∧ sh.ID = 0)
      ∨ s.cloudsOver = none ∨ (∃ sh, s.cloudsOver = some sh ∧ sh.ID = 0) ∨ s.quad = none) :
    renderCombined gl w h t s = some (swapBuffersAndPollEvents s) := by
  unfold renderCombined
  cases hw : s.watersky with
  | none => rfl
  | some ws =>
    cases hc : s.cloudsOver with
    | none => rfl
    | some co =>
      simp only
      rw [if_pos]
      rcases hmiss with h | ⟨sh, h, h0⟩ | h | ⟨sh, h, h0⟩ | h
      · rw [hw] at h; cases h
      · rw [hw] at h; cases h; exact Or.inl h0
      · rw [hc] at h; cases h
      · rw [hc] at h; cases h; exact Or.inr (Or.inl h0)
      · exact Or.inr (Or.inr (by rw [h]; rfl))

theorem renderDirect_missing (gl : Driver) (w h : Int) (t : ℚ) (s : Init)
    (hmiss : selectedShader s = none ∨ (∃ sh, selectedShader s = some sh ∧ sh.ID = 0)
      ∨ s.quad = none) :
    renderDirect gl w h t s = some (swapBuffersAndPollEvents s) := by
  unfold renderDirect
  cases hs : selectedShader s with
  | none => rfl
  | some sh =>
    simp only
    rw [if_pos]
    rcases hmiss with h | ⟨sh2, h, h0⟩ | h
    · rw [hs] at h; cases h
    · rw [hs] at h; cases h; exact Or.inl h0
    · exact Or.inr (by rw [h]; rfl)

theorem renderCombined_off (gl : Driver) (w h : Int) (t : ℚ) (s : Init) (ws co : Shader)
    (hws : s.watersky = some ws) (hco : s.cloudsOver = some co) (hw0 : ws.ID ≠ 0)
    (hc0 : co.ID ≠ 0) (hq : s.quad.isSome = true) (htaa : s.taaEnabled = false) :
    renderCombined gl w h t s
      = some (swapBuffersAndPollEvents ((incrementFrameCounter s).emit
          (ResetFullscreenState w h ++ ClearColorOnly
            ++ combinedCalls gl ws co w h t (0, 0) s))) := by
  obtain ⟨j, hj, hp⟩ := combinedPasses_eq gl ws co w h t false
    ((incrementFrameCounter s).emit (ResetFullscreenState w h ++ ClearColorOnly))
  have hj0 : j = (0, 0) := (Option.some.inj hj).symm
  subst hj0
  have hnone : s.quad.isNone = false := by
    cases hqq : s.quad with
    | none => rw [hqq] at hq; cases hq
    | some _ => rfl
  have htaa2 : (incrementFrameCounter s).taaEnabled = false := htaa
  unfold renderCombined
  simp only [hws, hco, hw0, hc0, hnone, htaa2, hp, false_or, Bool.false_eq_true, if_false,
    not_false_eq_true, if_true, emit_emit, List.append_assoc]
  rfl

theorem renderDirect_off (gl : Driver) (w h : Int) (t : ℚ) (s : Init) (sh : Shader)
    (hsh : selectedShader s = some sh) (h0 : sh.ID ≠ 0) (hq : s.quad.isSome = true)
    (htaa : s.taaEnabled = false) :
    renderDirect gl w h t s
      = some (swapBuffersAndPollEvents ((incrementFrameCounter s).emit
          (ResetFullscreenState w h ++ ClearColorOnly ++ passCalls gl sh w h t (0, 0) s))) := by
  obtain ⟨j, hj, hp⟩ := drawPass_eq gl sh w h t false
    ((incrementFrameCounter s).emit (ResetFullscreenState w h ++ ClearColorOnly))
  have hj0 : j = (0, 0) := (Option.some.inj hj).symm
  subst hj0
  have hnone : s.quad.isNone = false := by
    cases hqq : s.quad with
    | none => rw [hqq] at hq; cases hq
    | some _ => rfl
  unfold renderDirect
  simp only [hsh, h0, hnone, htaa, hp, false_or, Bool.false_eq_true, if_false,
    not_false_eq_true, if_true, emit_emit, List.append_assoc]
  rfl

theorem isNone_of_isSome {α : Type} (o : Option α) (h : o.isSome = true) : o.isNone = false := by
  cases o with
  | none => cases h
  | some _ => rfl

theorem renderCombined_thrown (gl : Driver) (w h : Int) (t : ℚ) (s s1 : Init) (ws co : Shader)
    (what : String)
    (hws : s.watersky = some ws) (hco : s.cloudsOver = some co) (hw0 : ws.ID ≠ 0)
    (hc0 : co.ID ≠ 0) (hq : s.quad.isSome = true) (htaa : s.taaEnabled = true)
    (hens : ensureTaaTargets gl w h (incrementFrameCounter s) = (Outcome.thrown what, s1)) :
    renderCombined gl w h t s = some (swapBuffersAndPollEvents (disableTaa s1)) := by
  have hnone := isNone_of_isSome _ hq
  have htaa2 : (incrementFrameCounter s).taaEnabled = true := htaa
  unfold renderCombined
  simp only [hws, hco, hw0, hc0, hnone, htaa2, hens, false_or, Bool.false_eq_true, if_false,
    not_true_eq_false]

theorem renderDirect_thrown (gl : Driver) (w h : Int) (t : ℚ) (s s1 : Init) (sh : Shader)
    (what : String)
    (hsh : selectedShader s = some sh) (h0 : sh.ID ≠ 0) (hq : s.quad.isSome = true)
    (htaa : s.taaEnabled = true)
    (hens : ensureTaaTargets gl w h s = (Outcome.thrown what, s1)) :
    renderDirect gl w h t s = some (swapBuffersAndPollEvents (disableTaa s1)) := by
  have hnone := isNone_of_isSome _ hq
  unfold renderDirect
  simp only [hsh, h0, hnone, htaa, hens, false_or, Bool.false_eq_true, if_false,
    not_true_eq_false]

/-- The temporal branch of the direct mode once `ensureTaaTargets` has returned: the scene is
rendered with the framebuffer object bound, then the composite stage runs. -/
theorem renderDirect_taa (gl : Driver) (w h : Int) (t : ℚ) (s s1 : Init) (sh : Shader)
    (tex : Nat)
    (hsh : selectedShader s = some sh) (h0 : sh.ID ≠ 0) (hq : s.quad.isSome = true)
    (htaa : s.taaEnabled = true)
    (hens : ensureTaaTargets gl w h s = (Outcome.returned, s1))
    (htex : s1.taaColor s1.taaIndex = some tex) :
    ∃ jitter, passJitter true (incrementFrameCounter s1) = some jitter
      ∧ renderDirect gl w h t s
        = match renderTaaComposite gl w h ((incrementFrameCounter s1).emit
            ([GLCall.bindFramebuffer s1.taaFbo, GLCall.framebufferTexture2D tex,
                GLCall.bindFramebuffer 0]
              ++ sceneCalls gl s1.taaFbo sh w h t jitter s1)) with
          | some s4 => some (swapBuffersAndPollEvents s4)
          | none => none := by
  have hnone := isNone_of_isSome _ hq
  obtain ⟨j, hj, hp⟩ := renderSceneTo_eq gl s1.taaFbo sh w h t true
    (incrementFrameCounter (s1.emit [GLCall.bindFramebuffer s1.taaFbo,
      GLCall.framebufferTexture2D tex, GLCall.bindFramebuffer 0]))
  refine ⟨j, hj, ?_⟩
  unfold renderDirect
  simp only [hsh, h0, hnone, htaa, hens, htex, false_or, Bool.false_eq_true, if_false,
    not_true_eq_false]
  have hfbo : (incrementFrameCounter (s1.emit [GLCall.bindFramebuffer s1.taaFbo,
      GLCall.framebufferTexture2D tex, GLCall.bindFramebuffer 0])).taaFbo = s1.taaFbo := rfl
  rw [hfbo, hp]
  have hstate : (incrementFrameCounter (s1.emit [GLCall.bindFramebuffer s1.taaFbo,
        GLCall.framebufferTexture2D tex, GLCall.bindFramebuffer 0])).emit
      (sceneCalls gl s1.taaFbo sh w h t j (incrementFrameCounter (s1.emit
        [GLCall.bindFramebuffer s1.taaFbo, GLCall.framebufferTexture2D tex,
          GLCall.bindFramebuffer 0])))
      = (incrementFrameCounter s1).emit
          ([GLCall.bindFramebuffer s1.taaFbo, GLCall.framebufferTexture2D tex,
              GLCall.bindFramebuffer 0] ++ sceneCalls gl s1.taaFbo sh w h t j s1) := by
    have e1 : incrementFrameCounter (s1.emit [GLCall.bindFramebuffer s1.taaFbo,
        GLCall.framebufferTexture2D tex, GLCall.bindFramebuffer 0])
        = (incrementFrameCounter s1).emit [GLCall.bindFramebuffer s1.taaFbo,
            GLCall.framebufferTexture2D tex, GLCall.bindFramebuffer 0] := rfl
    have e2 : sceneCalls gl s1.taaFbo sh w h t j (incrementFrameCounter (s1.emit
        [GLCall.bindFramebuffer s1.taaFbo, GLCall.framebufferTexture2D tex,
          GLCall.bindFramebuffer 0])) = sceneCalls gl s1.taaFbo sh w h t j s1 := rfl
    rw [e2, e1, emit_emit]
  rw [hstate]

/-! ### Where the passes draw -/

theorem isUniformWrite_of_mem_ite (cond : Prop) [Decidable cond] (x c : GLCall)
    (hc : c ∈ (if cond then [x] else [])) (hx : x.isUniformWrite = true) :
    c.isUniformWrite = true := by
  split at hc
  · rw [List.mem_singleton.mp hc]; exact hx
  · exact absurd hc (List.not_mem_nil c)

/-- The uniform writes of `renderTaaComposite`, which come between its `glUseProgram` and its
texture binds. -/
theorem compositeCalls_split (gl : Driver) (w h : Int) (s : Init) (prog texCur texHist : Nat) :
    ∃ us, (∀ c ∈ us, c.isUniformWrite = true)
      ∧ compositeCalls gl w h s prog texCur texHist
          = [GLCall.useProgram prog] ++ us
            ++ ([GLCall.activeTexture 0, GLCall.bindTexture texCur, GLCall.activeTexture 1,
                GLCall.bindTexture texHist] ++ ResetFullscreenState w h ++ ClearColorOnly
              ++ (if s.quad.isSome then [GLCall.renderMesh] else [])) := by
  refine ⟨(if gl.glGetUniformLocation prog "uResolution" ≠ -1
          then [GLCall.uniform2f (gl.glGetUniformLocation prog "uResolution") (w : ℚ) (h : ℚ)]
          else [])
      ++ (if gl.glGetUniformLocation prog "uAlpha" ≠ -1
          then [GLCall.uniform1f (gl.glGetUniformLocation prog "uAlpha")
            (if s.taaHistoryValid then s.taaHistoryWeight else 0)]
          else [])
      ++ (if gl.glGetUniformLocation prog "uCurrent" ≠ -1
          then [GLCall.uniform1i (gl.glGetUniformLocation prog "uCurrent") 0] else [])
      ++ (if gl.glGetUniformLocation prog "uHistory" ≠ -1
          then [GLCall.uniform1i (gl.glGetUniformLocation prog "uHistory") 1] else []), ?_, ?_⟩
  · intro c hc
    simp only [List.mem_append] at hc
    rcases hc with ((hc | hc) | hc) | hc
    · exact isUniformWrite_of_mem_ite _ _ c hc rfl
    · exact isUniformWrite_of_mem_ite _ _ c hc rfl
    · exact isUniformWrite_of_mem_ite _ _ c hc rfl
    · exact isUniformWrite_of_mem_ite _ _ c hc rfl
  · simp only [compositeCalls, List.append_assoc]

/-- The composite stage draws, with the composite program, into the default framebuffer: it
reads `texCur` on unit 0 and `texHist` on unit 1, and it attaches nothing. -/
theorem compositeCalls_draws (gl : Driver) (w h : Int) (s : Init) (prog texCur texHist : Nat)
    (b : GLBindings) :
    b.draws (compositeCalls gl w h s prog texCur texHist)
        = (if s.quad.isSome then
            [{ program := prog, framebuffer := 0, colorTexture := 0, unit0 := texCur,
               unit1 := texHist }]
          else [])
      ∧ (b.run (compositeCalls gl w h s prog texCur texHist)).framebuffer = 0
      ∧ (b.run (compositeCalls gl w h s prog texCur texHist)).attachment = b.attachment := by
  obtain ⟨us, hus, hsplit⟩ := compositeCalls_split gl w h s prog texCur texHist
  rw [hsplit]
  simp only [GLBindings.draws_append, GLBindings.run_append]
  set b1 := b.run [GLCall.useProgram prog] with hb1
  have h1 := GLBindings.run_uniform us hus b1
  set b2 := b1.run us with hb2
  have e1p : b1.program = prog := rfl
  have e1a : b1.attachment = b.attachment := rfl
  have e2p : b2.program = prog := by rw [h1.1, e1p]
  have e2a : b2.attachment = b.attachment := by rw [h1.2.2.1, e1a]
  have hd1 : b.draws [GLCall.useProgram prog] = [] := by
    simp [GLBindings.draws]
  rw [hd1, h1.2.2.2]
  cases hq : s.quad.isSome <;>
    simp [GLBindings.draws, GLBindings.run, GLBindings.step, GLBindings.draw,
      ResetFullscreenState, ClearColorOnly, e2p, e2a, Function.update]

/-- The scene pass of `renderSceneTo` draws, with the scene program, into the framebuffer
`fbo`, and leaves the default framebuffer bound. -/
theorem sceneCalls_draws (gl : Driver) (fbo : Nat) (sh : Shader) (w h : Int) (t : ℚ)
    (j : ℚ × ℚ) (s : Init) (b : GLBindings) :
    (∃ d, b.draws (sceneCalls gl fbo sh w h t j s) = (if s.quad.isSome then [d] else [])
        ∧ d.program = sh.ID ∧ d.framebuffer = fbo
        ∧ d.colorTexture = (if fbo = 0 then 0 else b.attachment fbo))
      ∧ (b.run (sceneCalls gl fbo sh w h t j s)).framebuffer = 0
      ∧ (b.run (sceneCalls gl fbo sh w h t j s)).attachment = b.attachment := by
  have hu := isUniformWrite_commonUniformCalls gl sh.ID w h t j s
  have ht := isUniformWrite_textureCalls gl sh s
  unfold sceneCalls
  simp only [GLBindings.draws_append, GLBindings.run_append]
  set b0 := ((b.run [GLCall.bindFramebuffer fbo, GLCall.viewport 0 0 w h]).run
    disableAllCalls).run ClearColorOnly with hb0
  have e0f : b0.framebuffer = fbo := rfl
  have e0a : b0.attachment = b.attachment := rfl
  set b1 := b0.run [GLCall.useProgram sh.ID, GLCall.useProgram sh.ID] with hb1
  have h1 := GLBindings.run_uniform _ hu b1
  set b2 := b1.run (commonUniformCalls gl sh.ID w h t j s) with hb2
  set b3 := b2.run [GLCall.useProgram sh.ID] with hb3
  have h3 := GLBindings.run_uniform _ ht b3
  set b4 := b3.run (textureCalls gl sh s) with hb4
  have e1f : b1.framebuffer = b0.framebuffer := rfl
  have e1a : b1.attachment = b0.attachment := rfl
  have e3p : b3.program = sh.ID := rfl
  have e3f : b3.framebuffer = b2.framebuffer := rfl
  have e3a : b3.attachment = b2.attachment := rfl
  have e4p : b4.program = sh.ID := by rw [h3.1, e3p]
  have e4f : b4.framebuffer = fbo := by rw [h3.2.1, e3f, h1.2.1, e1f, e0f]
  have e4a : b4.attachment = b.attachment := by rw [h3.2.2.1, e3a, h1.2.2.1, e1a, e0a]
  have hd0 : b.draws [GLCall.bindFramebuffer fbo, GLCall.viewport 0 0 w h] = [] := by
    simp [GLBindings.draws]
  have hd0b : (b.run [GLCall.bindFramebuffer fbo, GLCall.viewport 0 0 w h]).draws
      disableAllCalls = [] := by
    simp [GLBindings.draws, disableAllCalls]
  have hd0c : ((b.run [GLCall.bindFramebuffer fbo, GLCall.viewport 0 0 w h]).run
      disableAllCalls).draws ClearColorOnly = [] := by
    simp [GLBindings.draws, ClearColorOnly]
  have hd1 : b0.draws [GLCall.useProgram sh.ID, GLCall.useProgram sh.ID] = [] := by
    simp [GLBindings.draws]
  have hd3 : b2.draws [GLCall.useProgram sh.ID] = [] := by
    simp [GLBindings.draws]
  rw [hd0, hd0b, hd0c, hd1, h1.2.2.2, hd3, h3.2.2.2]
  refine ⟨⟨b4.draw, ?_, e4p, e4f, ?_⟩, ?_, ?_⟩
  · cases hq : s.quad.isSome <;> simp [GLBindings.draws]
  · simp only [GLBindings.draw, e4f, e4a]
  · cases hq : s.quad.isSome <;> simp [GLBindings.run, GLBindings.step]
  · cases hq : s.quad.isSome <;> simp [GLBindings.run, GLBindings.step, e4a]

theorem sceneFrameCalls_draws (gl : Driver) (fbo tex : Nat) (sh : Shader) (w h : Int) (t : ℚ)
    (j : ℚ × ℚ) (s : Init) (hq : s.quad.isSome = true) (hfbo : fbo ≠ 0) (b : GLBindings) :
    ∃ d, b.draws ([GLCall.bindFramebuffer fbo, GLCall.framebufferTexture2D tex,
          GLCall.bindFramebuffer 0] ++ sceneCalls gl fbo sh w h t j s) = [d]
      ∧ d.program = sh.ID ∧ d.framebuffer = fbo ∧ d.colorTexture = tex := by
  obtain ⟨⟨d, hd, hp, hf, hc⟩, _, _⟩ := sceneCalls_draws gl fbo sh w h t j s
    (b.run [GLCall.bindFramebuffer fbo, GLCall.framebufferTexture2D tex,
      GLCall.bindFramebuffer 0])
  refine ⟨d, ?_, hp, hf, ?_⟩
  · rw [GLBindings.draws_append, hd, hq]
    simp [GLBindings.draws]
  · rw [hc, if_neg hfbo]
    simp [GLBindings.run, GLBindings.step]

theorem sceneCalls_swapCount (gl : Driver) (fbo : Nat) (sh : Shader) (w h : Int) (t : ℚ)
    (j : ℚ × ℚ) (s : Init) :
    swapCount (sceneCalls gl fbo sh w h t j s) = 0 := by
  have hu := count_uniform _ (isUniformWrite_commonUniformCalls gl sh.ID w h t j s)
  have ht := count_uniform _ (isUniformWrite_textureCalls gl sh s)
  unfold sceneCalls
  simp only [swapCount_append, hu.1, ht.1]
  cases hq : s.quad.isSome <;> simp [swapCount, disableAllCalls, ClearColorOnly]

theorem compositeCalls_incr_emit (gl : Driver) (w h : Int) (s : Init) (a : List GLCall)
    (prog texCur texHist : Nat) :
    compositeCalls gl w h ((incrementFrameCounter s).emit a) prog texCur texHist
      = compositeCalls gl w h s prog texCur texHist := rfl

/-- One temporal frame of the direct mode, with the render targets already of the right size:
the scene program draws into the slot `taaColor[taaIndex]`; the composite program, when it is
loaded, then draws into the default framebuffer and the index is swapped; when it is not
loaded nothing more is drawn. -/
theorem renderDirect_taa_frame (gl : Driver) (w h : Int) (t : ℚ) (s : Init) (sh : Shader)
    (hsh : selectedShader s = some sh) (hid : sh.ID ≠ 0) (hq : s.quad.isSome = true)
    (htaa : s.taaEnabled = true)
    (hnoop : s.taaW = w ∧ s.taaH = h ∧ s.taaFbo ≠ 0 ∧ s.taaColor0 ≠ 0 ∧ s.taaColor1 ≠ 0)
    (hidx : s.taaIndex = 0 ∨ s.taaIndex = 1) :
    ∃ texCur texHist sceneCmds,
      s.taaColor s.taaIndex = some texCur
      ∧ s.taaColor (1 - s.taaIndex) = some texHist
      ∧ (∀ b : GLBindings, ∃ d, b.draws sceneCmds = [d] ∧ d.program = sh.ID
          ∧ d.framebuffer = s.taaFbo ∧ d.colorTexture = texCur)
      ∧ swapCount sceneCmds = 0
      ∧ (∀ tsh, s.taaShader = some tsh → tsh.ID ≠ 0 →
          ∃ s2 compCmds, renderDirect gl w h t s = some s2
            ∧ s2.glLog = s.glLog
                ++ (sceneCmds ++ compCmds ++ [GLCall.swapBuffers, GLCall.pollEvents])
            ∧ (∀ b : GLBindings, b.draws compCmds = [compositeDraw tsh.ID texCur texHist])
            ∧ s2.taaIndex = 1 - s.taaIndex
            ∧ s2.taaHistoryValid = true
            ∧ s2.taaColor (1 - s2.taaIndex) = some texCur
            ∧ s2.taaColor s2.taaIndex = some texHist)
      ∧ (s.taaShader = none ∨ (∃ tsh, s.taaShader = some tsh ∧ tsh.ID = 0) →
          ∃ s2, renderDirect gl w h t s = some s2
            ∧ s2.glLog = s.glLog ++ (sceneCmds ++ [GLCall.swapBuffers, GLCall.pollEvents])
            ∧ s2.taaIndex = s.taaIndex
            ∧ s2.taaHistoryValid = s.taaHistoryValid
            ∧ s2.taaEnabled = s.taaEnabled) := by
  obtain ⟨texCur, texHist, hcur, hhist, _⟩ := taaColor_of_index s hidx
  have hens := ensureTaaTargets_noop gl w h s hnoop
  obtain ⟨j, _, hrd⟩ := renderDirect_taa gl w h t s s sh texCur hsh hid hq htaa hens hcur
  refine ⟨texCur, texHist, [GLCall.bindFramebuffer s.taaFbo, GLCall.framebufferTexture2D texCur,
    GLCall.bindFramebuffer 0] ++ sceneCalls gl s.taaFbo sh w h t j s, hcur, hhist,
    sceneFrameCalls_draws gl s.taaFbo texCur sh w h t j s hq hnoop.2.2.1, ?_, ?_, ?_⟩
  · rw [swapCount_append, sceneCalls_swapCount]
    simp [swapCount]
  · intro tsh hts htid
    obtain ⟨s4, hcomp, hlog, hvalid, hindex, _, hc0, hc1⟩ :=
      renderTaaComposite_loaded_fields gl w h ((incrementFrameCounter s).emit
        ([GLCall.bindFramebuffer s.taaFbo, GLCall.framebufferTexture2D texCur,
          GLCall.bindFramebuffer 0] ++ sceneCalls gl s.taaFbo sh w h t j s))
        tsh texCur texHist hts htid hcur hhist
    rw [hcomp] at hrd
    have hidx4 : s4.taaIndex = 1 - s.taaIndex := hindex
    have hc0' : s4.taaColor0 = s.taaColor0 := hc0
    have hc1' : s4.taaColor1 = s.taaColor1 := hc1
    rw [compositeCalls_incr_emit] at hlog
    refine ⟨swapBuffersAndPollEvents s4, compositeCalls gl w h s tsh.ID texCur texHist, hrd, ?_,
      fun b => ?_, hidx4, hvalid, ?_, ?_⟩
    · show s4.glLog ++ [GLCall.swapBuffers, GLCall.pollEvents] = _
      rw [hlog]
      simp only [emit_glLog, List.append_assoc]
      rfl
    · rw [(compositeCalls_draws gl w h s tsh.ID texCur texHist b).1, hq]
      rfl
    · show (swapBuffersAndPollEvents s4).taaColor (1 - (swapBuffersAndPollEvents s4).taaIndex)
        = some texCur
      have e : (swapBuffersAndPollEvents s4).taaIndex = 1 - s.taaIndex := hidx4
      rw [e, sub_sub_cancel, ← hcur]
      simp only [Init.taaColor]
      rw [show (swapBuffersAndPollEvents s4).taaColor0 = s.taaColor0 from hc0',
        show (swapBuffersAndPollEvents s4).taaColor1 = s.taaColor1 from hc1']
    · show (swapBuffersAndPollEvents s4).taaColor (swapBuffersAndPollEvents s4).taaIndex
        = some texHist
      have e : (swapBuffersAndPollEvents s4).taaIndex = 1 - s.taaIndex := hidx4
      rw [e, ← hhist]
      simp only [Init.taaColor]
      rw [show (swapBuffersAndPollEvents s4).taaColor0 = s.taaColor0 from hc0',
        show (swapBuffersAndPollEvents s4).taaColor1 = s.taaColor1 from hc1']
  · intro hnone
    have hcomp : renderTaaComposite gl w h ((incrementFrameCounter s).emit
        ([GLCall.bindFramebuffer s.taaFbo, GLCall.framebufferTexture2D texCur,
          GLCall.bindFramebuffer 0] ++ sceneCalls gl s.taaFbo sh w h t j s))
        = some ((incrementFrameCounter s).emit
        ([GLCall.bindFramebuffer s.taaFbo, GLCall.framebufferTexture2D texCur,
          GLCall.bindFramebuffer 0] ++ sceneCalls gl s.taaFbo sh w h t j s)) := by
      unfold renderTaaComposite
      rcases hnone with hn | ⟨tsh, hsome, hzero⟩
      · have : ((incrementFrameCounter s).emit
          ([GLCall.bindFramebuffer s.taaFbo, GLCall.framebufferTexture2D texCur,
            GLCall.bindFramebuffer 0] ++ sceneCalls gl s.taaFbo sh w h t j s)).taaShader
            = none := hn
        simp only [this]
      · have : ((incrementFrameCounter s).emit
          ([GLCall.bindFramebuffer s.taaFbo, GLCall.framebufferTexture2D texCur,
            GLCall.bindFramebuffer 0] ++ sceneCalls gl s.taaFbo sh w h t j s)).taaShader
            = some tsh := hsome
        simp only [this, if_pos hzero]
    rw [hcomp] at hrd
    refine ⟨_, hrd, ?_, rfl, rfl, rfl⟩
    show (s.glLog ++ _) ++ [GLCall.swapBuffers, GLCall.pollEvents] = _
    simp only [List.append_assoc]

/-! ### Temporal toggle -/

theorem risingEdge_of_pressed (inp : Input) (key : Int) (s : Init)
    (hdown : inp.keyDown key = true) (hprev : key ∉ s.prevKeys) :
    risingEdge inp key s = true := by
  simp [risingEdge, hdown, hprev]

theorem risingEdge_of_released (inp : Input) (key : Int) (s : Init)
    (hup : inp.keyDown key = false) : risingEdge inp key s = false := by
  simp [risingEdge, hup]

/-- Whatever the composite stage writes as blend factor from a state with an invalid history
is `0`. -/
theorem renderTaaComposite_alpha_of_invalid (gl : Driver) (w h : Int) (s s2 : Init)
    (calls : List GLCall) (hinvalid : s.taaHistoryValid = false)
    (hrun : renderTaaComposite gl w h s = some s2) (hlog : s2.glLog = s.glLog ++ calls)
    (loc : Int) (v : ℚ) (hmem : GLCall.uniform1f loc v ∈ calls) : v = 0 := by
  unfold renderTaaComposite at hrun
  cases hsh : s.taaShader with
  | none =>
    simp only [hsh] at hrun
    cases hrun
    have : calls = [] := by simpa using hlog
    rw [this] at hmem
    exact absurd hmem (List.not_mem_nil _)
  | some sh =>
    simp only [hsh] at hrun
    by_cases hid : sh.ID = 0
    · rw [if_pos hid] at hrun
      cases hrun
      have : calls = [] := by simpa using hlog
      rw [this] at hmem
      exact absurd hmem (List.not_mem_nil _)
    · rw [if_neg hid] at hrun
      cases hc : s.taaColor s.taaIndex with
      | none => simp [hc] at hrun
      | some texCur =>
        cases hh : s.taaColor (1 - s.taaIndex) with
        | none => simp [hc, hh] at hrun
        | some texHist =>
          simp only [hc, hh, Option.some.injEq] at hrun
          subst hrun
          have hcalls : calls = compositeCalls gl w h s sh.ID texCur texHist :=
            (List.append_cancel_left hlog).symm
          rw [hcalls] at hmem
          have := ((uniform1f_mem_compositeCalls gl w h s sh.ID texCur texHist loc v).mp hmem).2.2
          simpa [hinvalid] using this

/-- C11. A press (rising edge) of the key `T` flips `taaEnabled`, sets `taaHistoryValid` to
false and `frameCounter` to `0`, whatever the other keys do.  Hence pressing, releasing and
pressing `T` again leaves `taaEnabled` as it was, `taaHistoryValid = false` and
`frameCounter = 0`, and a call of `renderTaaComposite` in the state so reached writes the blend
factor `0`, whatever the configured weight. -/
theorem processInput_toggle_invalidates_history (inp1 inp2 inp3 : Input) (s : Init)
    (gl : Driver) (w h : Int)
    (hreleased : GLFW_KEY_T ∉ s.prevKeys)
    (hpress1 : inp1.keyDown GLFW_KEY_T = true)
    (hrelease : inp2.keyDown GLFW_KEY_T = false)
    (hpress2 : inp3.keyDown GLFW_KEY_T = true) :
    ((processInput inp1 s).taaEnabled = !s.taaEnabled
        ∧ (processInput inp1 s).taaHistoryValid = false
        ∧ (processInput inp1 s).frameCounter = 0)
      ∧ ((processInput inp3 (processInput inp2 (processInput inp1 s))).taaEnabled = s.taaEnabled
        ∧ (processInput inp3 (processInput inp2 (processInput inp1 s))).taaHistoryValid = false
        ∧ (processInput inp3 (processInput inp2 (processInput inp1 s))).frameCounter = 0)
      ∧ (∀ s4 calls,
          renderTaaComposite gl w h (processInput inp3 (processInput inp2 (processInput inp1 s)))
            = some s4 →
          s4.glLog = (processInput inp3 (processInput inp2 (processInput inp1 s))).glLog
            ++ calls →
          ∀ loc v, GLCall.uniform1f loc v ∈ calls → v = 0) := by
  have e1 := risingEdge_of_pressed inp1 GLFW_KEY_T s hpress1 hreleased
  have e2 := risingEdge_of_released inp2 GLFW_KEY_T (processInput inp1 s) hrelease
  have hprev2 : GLFW_KEY_T ∉ (processInput inp2 (processInput inp1 s)).prevKeys := by
    rw [mem_prevKeys_processInput_T, hrelease]
    simp
  have e3 := risingEdge_of_pressed inp3 GLFW_KEY_T _ hpress2 hprev2
  have hvalid3 : (processInput inp3 (processInput inp2 (processInput inp1 s))).taaHistoryValid
      = false := by
    rw [processInput_taaHistoryValid, e3]
    simp
  refine ⟨⟨?_, ?_, ?_⟩, ⟨?_, hvalid3, ?_⟩, ?_⟩
  · rw [processInput_taaEnabled, e1, if_pos rfl]
  · rw [processInput_taaHistoryValid, e1]
    simp
  · rw [processInput_frameCounter, e1, if_pos rfl]
  · rw [processInput_taaEnabled, e3, if_pos rfl, processInput_taaEnabled, e2,
      processInput_taaEnabled, e1, if_pos rfl]
    simp
  · rw [processInput_frameCounter, e3, if_pos rfl]
  · intro s4 calls hrun hlog loc v hmem
    exact renderTaaComposite_alpha_of_invalid gl w h _ s4 calls hvalid3 hrun hlog loc v hmem

theorem processInput_toggle_invalidates_history_witness :
    ((processInput (keyInput GLFW_KEY_T) sampleStateValid).taaEnabled
          = !sampleStateValid.taaEnabled
        ∧ (processInput (keyInput GLFW_KEY_T) sampleStateValid).taaHistoryValid = false
        ∧ (processInput (keyInput GLFW_KEY_T) sampleStateValid).frameCounter = 0)
      ∧ ((processInput (keyInput GLFW_KEY_T) (processInput idleInput
            (processInput (keyInput GLFW_KEY_T) sampleStateValid))).taaEnabled
          = sampleStateValid.taaEnabled
        ∧ (processInput (keyInput GLFW_KEY_T) (processInput idleInput
            (processInput (keyInput GLFW_KEY_T) sampleStateValid))).taaHistoryValid = false
        ∧ (processInput (keyInput GLFW_KEY_T) (processInput idleInput
            (processInput (keyInput GLFW_KEY_T) sampleStateValid))).frameCounter = 0)
      ∧ (∀ s4 calls,
          renderTaaComposite sampleDriver 800 600 (processInput (keyInput GLFW_KEY_T)
            (processInput idleInput (processInput (keyInput GLFW_KEY_T) sampleStateValid)))
            = some s4 →
          s4.glLog = (processInput (keyInput GLFW_KEY_T) (processInput idleInput
            (processInput (keyInput GLFW_KEY_T) sampleStateValid))).glLog ++ calls →
          ∀ loc v, GLCall.uniform1f loc v ∈ calls → v = 0) :=
  processInput_toggle_invalidates_history (keyInput GLFW_KEY_T) idleInput
    (keyInput GLFW_KEY_T) sampleStateValid sampleDriver 800 600 (by decide) rfl rfl rfl

/-! ### Skipped frames -/

theorem processInput_glLog (inp : Input) (s : Init) : (processInput inp s).glLog = s.glLog :=
  processInput_apply (fun s => s.glLog) (fun _ _ => rfl) (fun _ _ => rfl) (fun _ _ _ => rfl)
    (fun _ _ => rfl) (fun _ _ => rfl) (fun _ => rfl) (fun _ => rfl) (fun _ => rfl)
    (fun _ => rfl) (fun _ => rfl) inp s

theorem unusable_iff (p : Option Shader) :
    unusable p = true ↔ p = none ∨ ∃ sh, p = some sh ∧ sh.ID = 0 := by
  cases p with
  | none => simp [unusable]
  | some sh => simp [unusable]

/-- With the active program missing, `render` goes straight to `swapBuffersAndPollEvents`. -/
theorem render_of_missing_program (env : FrameEnv) (s : Init)
    (hsize : 0 < env.framebufferSize.1 ∧ 0 < env.framebufferSize.2)
    (hmiss : activeProgramMissing (processInput env.input s) = true) :
    render env s = some (swapBuffersAndPollEvents (processInput env.input s)) := by
  rw [render_eq, if_neg (by omega)]
  unfold activeProgramMissing at hmiss
  by_cases hmode : (processInput env.input s).activeShader = 8
  · rw [if_pos hmode] at hmiss ⊢
    rw [Bool.or_eq_true, unusable_iff, unusable_iff] at hmiss
    apply renderCombined_missing
    rcases hmiss with (h | h) | (h | h)
    · exact Or.inl h
    · exact Or.inr (Or.inl h)
    · exact Or.inr (Or.inr (Or.inl h))
    · exact Or.inr (Or.inr (Or.inr (Or.inl h)))
  · rw [if_neg hmode] at hmiss ⊢
    rw [unusable_iff] at hmiss
    apply renderDirect_missing
    rcases hmiss with h | h
    · exact Or.inl h
    · exact Or.inr (Or.inl h)

/-- C12, as the code has it. When the active shading program is missing or has handle `0`,
`render` issues exactly the two commands of `swapBuffersAndPollEvents`: no draw call, one
swap; and `frameCounter` keeps the value input processing left it with, it does not advance. -/
theorem render_missing_program_skips_frame (env : FrameEnv) (s : Init)
    (hsize : 0 < env.framebufferSize.1 ∧ 0 < env.framebufferSize.2)
    (hmiss : activeProgramMissing (processInput env.input s) = true) :
    ∃ s2 calls, render env s = some s2
      ∧ s2.glLog = s.glLog ++ calls
      ∧ calls = [GLCall.swapBuffers, GLCall.pollEvents]
      ∧ drawCount calls = 0
      ∧ swapCount calls = 1
      ∧ s2.frameCounter = (processInput env.input s).frameCounter
      ∧ (risingEdge env.input GLFW_KEY_T s = false → s2.frameCounter = s.frameCounter) := by
  refine ⟨_, [GLCall.swapBuffers, GLCall.pollEvents], render_of_missing_program env s hsize hmiss,
    ?_, rfl, by decide, by decide, rfl, ?_⟩
  · show (processInput env.input s).glLog ++ _ = _
    rw [processInput_glLog]
  · intro hedge
    show (processInput env.input s).frameCounter = _
    rw [processInput_frameCounter, hedge]
    simp

theorem render_missing_program_skips_frame_witness :
    ∃ s2 calls, render sampleEnv Init.ctor = some s2
      ∧ s2.glLog = Init.ctor.glLog ++ calls
      ∧ calls = [GLCall.swapBuffers, GLCall.pollEvents]
      ∧ drawCount calls = 0
      ∧ swapCount calls = 1
      ∧ s2.frameCounter = (processInput sampleEnv.input Init.ctor).frameCounter
      ∧ (risingEdge sampleEnv.input GLFW_KEY_T Init.ctor = false →
          s2.frameCounter = Init.ctor.frameCounter) :=
  render_missing_program_skips_frame sampleEnv Init.ctor (by decide) rfl

/-- C12, counterexample. After construction no program is loaded; a frame rendered on an
800 x 600 surface with no key down issues no draw call and leaves `frameCounter` at `0`: the
counter has not advanced by `1`. -/
theorem render_missing_program_counter_counterexample :
    activeProgramMissing (processInput sampleEnv.input Init.ctor) = true
      ∧ ∃ s2, render sampleEnv Init.ctor = some s2
        ∧ drawCount s2.glLog = 0
        ∧ Init.ctor.frameCounter = 0
        ∧ s2.frameCounter = 0
        ∧ s2.frameCounter ≠ Init.ctor.frameCounter + 1 :=
  ⟨rfl, _, render_of_missing_program sampleEnv Init.ctor (by decide) rfl, by decide, rfl, rfl,
    by decide⟩

/-- C14. When the drawable width or height is `≤ 0`, `render` issues, after input processing,
exactly the two commands of `swapBuffersAndPollEvents`: no draw call, no object created or
deleted; `frameCounter`, `taaIndex`, `taaHistoryValid` and `taaEnabled`, like every other
field, keep the values input processing left them with. -/
theorem render_skips_empty_surface (env : FrameEnv) (s : Init)
    (hsize : env.framebufferSize.1 ≤ 0 ∨ env.framebufferSize.2 ≤ 0) :
    render env s = some (swapBuffersAndPollEvents (processInput env.input s))
      ∧ ∃ s2, render env s = some s2
        ∧ s2.glLog = s.glLog ++ [GLCall.swapBuffers, GLCall.pollEvents]
        ∧ drawCount [GLCall.swapBuffers, GLCall.pollEvents] = 0
        ∧ (∀ o : GLObjects, o.run s2.glLog = o.run s.glLog)
        ∧ s2.frameCounter = (processInput env.input s).frameCounter
        ∧ s2.taaIndex = (processInput env.input s).taaIndex
        ∧ s2.taaHistoryValid = (processInput env.input s).taaHistoryValid
        ∧ s2.taaEnabled = (processInput env.input s).taaEnabled := by
  have hrun : render env s = some (swapBuffersAndPollEvents (processInput env.input s)) := by
    rw [render_eq, if_pos hsize]
  have hlog : (swapBuffersAndPollEvents (processInput env.input s)).glLog
      = s.glLog ++ [GLCall.swapBuffers, GLCall.pollEvents] := by
    show (processInput env.input s).glLog ++ _ = _
    rw [processInput_glLog]
  refine ⟨hrun, _, hrun, hlog, by decide, ?_, rfl, rfl, rfl, rfl⟩
  intro o
  rw [hlog, GLObjects_run_append]
  rfl

theorem render_skips_empty_surface_witness :
    render sampleEnvMinimized sceneState
        = some (swapBuffersAndPollEvents (processInput sampleEnvMinimized.input sceneState))
      ∧ ∃ s2, render sampleEnvMinimized sceneState = some s2
        ∧ s2.glLog = sceneState.glLog ++ [GLCall.swapBuffers, GLCall.pollEvents]
        ∧ drawCount [GLCall.swapBuffers, GLCall.pollEvents] = 0
        ∧ (∀ o : GLObjects, o.run s2.glLog = o.run sceneState.glLog)
        ∧ s2.frameCounter = (processInput sampleEnvMinimized.input sceneState).frameCounter
        ∧ s2.taaIndex = (processInput sampleEnvMinimized.input sceneState).taaIndex
        ∧ s2.taaHistoryValid = (processInput sampleEnvMinimized.input sceneState).taaHistoryValid
        ∧ s2.taaEnabled = (processInput sampleEnvMinimized.input sceneState).taaEnabled :=
  render_skips_empty_surface sampleEnvMinimized sceneState (Or.inl (by decide))

/-! ### Render-target failure inside `render` -/

theorem destroyCalls_counts (s : Init) :
    swapCount (destroyCalls s) = 0 ∧ drawCount (destroyCalls s) = 0 := by
  unfold destroyCalls swapCount drawCount
  by_cases h0 : s.taaFbo = 0 <;> by_cases h1 : s.taaColor0 = 0 <;>
    by_cases h2 : s.taaColor1 = 0 <;> simp [h0, h1, h2]

theorem createCalls_counts (gl : Driver) (w h : Int) :
    swapCount (createCalls gl w h) = 0 ∧ drawCount (createCalls gl w h) = 0 := by
  constructor <;> simp [createCalls, colorSlotCalls, swapCount, drawCount]

/-- The two passes of the combined mode draw twice, `watersky` first and `cloudsOver` second,
into whatever destination was bound, and leave that destination bound. -/
theorem combinedCalls_draws (gl : Driver) (ws co : Shader) (w h : Int) (t : ℚ) (j : ℚ × ℚ)
    (s : Init) (b : GLBindings) :
    (∃ d1 d2, b.draws (combinedCalls gl ws co w h t j s) = [d1, d2]
        ∧ d1.program = ws.ID ∧ d2.program = co.ID
        ∧ d1.framebuffer = b.framebuffer ∧ d2.framebuffer = b.framebuffer
        ∧ d1.colorTexture = b.draw.colorTexture ∧ d2.colorTexture = b.draw.colorTexture)
      ∧ (b.run (combinedCalls gl ws co w h t j s)).framebuffer = b.framebuffer
      ∧ (b.run (combinedCalls gl ws co w h t j s)).attachment = b.attachment := by
  obtain ⟨⟨d1, hd1, hp1, hf1, hc1⟩, hrf1, hra1⟩ := passCalls_draws gl ws w h t j s b
  obtain ⟨⟨d2, hd2, hp2, hf2, hc2⟩, hrf2, hra2⟩ := passCalls_draws gl co w h t j s
    ((b.run (passCalls gl ws w h t j s)).run [GLCall.enable Cap.blend, GLCall.blendFunc])
  have ef : ((b.run (passCalls gl ws w h t j s)).run
      [GLCall.enable Cap.blend, GLCall.blendFunc]).framebuffer = b.framebuffer := hrf1
  have ea : ((b.run (passCalls gl ws w h t j s)).run
      [GLCall.enable Cap.blend, GLCall.blendFunc]).attachment = b.attachment := hra1
  unfold combinedCalls
  simp only [GLBindings.draws_append, GLBindings.run_append]
  refine ⟨⟨d1, d2, ?_, hp1, hp2, hf1, hf2.trans ef, hc1, ?_⟩, ?_, ?_⟩
  · rw [hd1, hd2]
    simp [GLBindings.draws]
  · rw [hc2]
    simp only [GLBindings.draw, ef, ea]
  · show (((b.run (passCalls gl ws w h t j s)).run
      [GLCall.enable Cap.blend, GLCall.blendFunc]).run (passCalls gl co w h t j s)).framebuffer
        = b.framebuffer
    rw [hrf2, ef]
  · show (((b.run (passCalls gl ws w h t j s)).run
      [GLCall.enable Cap.blend, GLCall.blendFunc]).run (passCalls gl co w h t j s)).attachment
        = b.attachment
    rw [hra2, ea]

theorem combinedCalls_counts (gl : Driver) (ws co : Shader) (w h : Int) (t : ℚ) (j : ℚ × ℚ)
    (s : Init) :
    swapCount (combinedCalls gl ws co w h t j s) = 0
      ∧ drawCount (combinedCalls gl ws co w h t j s) = 2 := by
  have h1 := passCalls_counts gl ws w h t j s
  have h2 := passCalls_counts gl co w h t j s
  unfold combinedCalls
  simp only [swapCount_append, drawCount_append, h1.1, h1.2, h2.1, h2.2]
  constructor <;> simp [swapCount, drawCount]

theorem allocationCount_append (l1 l2 : List GLCall) :
    allocationCount (l1 ++ l2) = allocationCount l1 + allocationCount l2 := by
  simp [allocationCount, List.filter_append]

theorem allocationCount_uniform (l : List GLCall) (hl : ∀ c ∈ l, c.isUniformWrite = true) :
    allocationCount l = 0 := by
  unfold allocationCount
  rw [List.length_eq_zero, List.filter_eq_nil_iff]
  intro c hc
  have := hl c hc
  cases c <;> simp [GLCall.isUniformWrite] at this <;> simp

theorem passCalls_allocationCount (gl : Driver) (sh : Shader) (w h : Int) (t : ℚ) (j : ℚ × ℚ)
    (s : Init) : allocationCount (passCalls gl sh w h t j s) = 0 := by
  have hu := allocationCount_uniform _ (isUniformWrite_commonUniformCalls gl sh.ID w h t j s)
  have ht := allocationCount_uniform _ (isUniformWrite_textureCalls gl sh s)
  unfold passCalls
  simp only [allocationCount_append, hu, ht]
  simp [allocationCount]

theorem combinedCalls_allocationCount (gl : Driver) (ws co : Shader) (w h : Int) (t : ℚ)
    (j : ℚ × ℚ) (s : Init) : allocationCount (combinedCalls gl ws co w h t j s) = 0 := by
  unfold combinedCalls
  simp only [allocationCount_append, passCalls_allocationCount]
  simp [allocationCount]

/-- The temporal-off branches of `render`: `ResetFullscreenState`, `ClearColorOnly`, the
passes, the swap.  Passes that draw into the bound destination draw into the default
framebuffer. -/
theorem offCalls_summary (w h : Int) (body : List GLCall)
    (hdraw : ∀ b : GLBindings, ∀ d ∈ b.draws body, d.framebuffer = b.framebuffer)
    (hswap : swapCount body = 0) (halloc : allocationCount body = 0) :
    swapCount (ResetFullscreenState w h ++ ClearColorOnly ++ body
        ++ [GLCall.swapBuffers, GLCall.pollEvents]) = 1
      ∧ allocationCount (ResetFullscreenState w h ++ ClearColorOnly ++ body
        ++ [GLCall.swapBuffers, GLCall.pollEvents]) = 0
      ∧ ∀ b : GLBindings, ∀ d ∈ b.draws (ResetFullscreenState w h ++ ClearColorOnly ++ body
        ++ [GLCall.swapBuffers, GLCall.pollEvents]), d.framebuffer = 0 := by
  refine ⟨?_, ?_, ?_⟩
  · simp only [swapCount_append, hswap]
    simp [swapCount, ResetFullscreenState, ClearColorOnly]
  · simp only [allocationCount_append, halloc]
    simp [allocationCount, ResetFullscreenState, ClearColorOnly]
  · intro b d hd
    simp only [GLBindings.draws_append, GLBindings.run_append] at hd
    have e1 : b.draws (ResetFullscreenState w h) = [] := by
      simp [GLBindings.draws, ResetFullscreenState]
    have e2 : (b.run (ResetFullscreenState w h)).draws ClearColorOnly = [] := by
      simp [GLBindings.draws, ClearColorOnly]
    have e3 : (((b.run (ResetFullscreenState w h)).run ClearColorOnly).run body).draws
        [GLCall.swapBuffers, GLCall.pollEvents] = [] := by
      simp [GLBindings.draws]
    rw [e1, e2, e3, List.nil_append, List.nil_append, List.append_nil] at hd
    rw [hdraw _ d hd]
    simp [GLBindings.run, GLBindings.step, ResetFullscreenState, ClearColorOnly]

theorem skipCalls_summary :
    swapCount [GLCall.swapBuffers, GLCall.pollEvents] = 1
      ∧ allocationCount [GLCall.swapBuffers, GLCall.pollEvents] = 0
      ∧ ∀ b : GLBindings, ∀ d ∈ b.draws [GLCall.swapBuffers, GLCall.pollEvents],
          d.framebuffer = 0 := by
  refine ⟨by decide, by decide, ?_⟩
  intro b d hd
  simp [GLBindings.draws] at hd

/-- A frame that starts, after input processing, with temporal mode off: `render` returns,
every draw call writes to the default framebuffer, there is exactly one swap, no render target
is allocated, and temporal mode stays off. -/
theorem render_temporal_off (env : FrameEnv) (s : Init)
    (htaa : (processInput env.input s).taaEnabled = false) :
    ∃ s2 calls, render env s = some s2
      ∧ s2.taaEnabled = false
      ∧ s2.glLog = (processInput env.input s).glLog ++ calls
      ∧ swapCount calls = 1
      ∧ allocationCount calls = 0
      ∧ ∀ b : GLBindings, ∀ d ∈ b.draws calls, d.framebuffer = 0 := by
  rw [render_eq]
  generalize processInput env.input s = s0 at htaa
  have hskip : ∃ s2 calls, some (swapBuffersAndPollEvents s0) = some s2
      ∧ s2.taaEnabled = false
      ∧ s2.glLog = s0.glLog ++ calls ∧ swapCount calls = 1
      ∧ allocationCount calls = 0
      ∧ ∀ b : GLBindings, ∀ d ∈ b.draws calls, d.framebuffer = 0 :=
    ⟨_, _, rfl, htaa, rfl, skipCalls_summary⟩
  by_cases hsize : env.framebufferSize.1 ≤ 0 ∨ env.framebufferSize.2 ≤ 0
  · rw [if_pos hsize]
    exact hskip
  · rw [if_neg hsize]
    by_cases hmode : s0.activeShader = 8
    · rw [if_pos hmode]
      by_cases hm : s0.watersky = none ∨ (∃ sh, s0.watersky = some sh ∧ sh.ID = 0)
          ∨ s0.cloudsOver = none ∨ (∃ sh, s0.cloudsOver = some sh ∧ sh.ID = 0)
          ∨ s0.quad = none
      · rw [renderCombined_missing _ _ _ _ s0 hm]
        exact hskip
      · simp only [not_or, not_exists, not_and] at hm
        obtain ⟨hw, hw0, hc, hc0, hq⟩ := hm
        obtain ⟨ws, hws⟩ := Option.ne_none_iff_exists'.mp hw
        obtain ⟨co, hco⟩ := Option.ne_none_iff_exists'.mp hc
        have hqs : s0.quad.isSome = true := Option.isSome_iff_ne_none.mpr hq
        rw [renderCombined_off _ _ _ _ s0 ws co hws hco (hw0 ws hws) (hc0 co hco) hqs htaa]
        refine ⟨_, _, rfl, htaa, ?_, offCalls_summary env.framebufferSize.1
          env.framebufferSize.2
          (combinedCalls env.gl ws co env.framebufferSize.1 env.framebufferSize.2 env.time
            (0, 0) s0) ?_ (combinedCalls_counts _ _ _ _ _ _ _ _).1
          (combinedCalls_allocationCount _ _ _ _ _ _ _ _)⟩
        · show s0.glLog ++ _ ++ _ = _
          simp only [List.append_assoc]
        · intro b d hd
          obtain ⟨⟨d1, d2, hds, _, _, hf1, hf2, _, _⟩, _, _⟩ := combinedCalls_draws env.gl ws co
            env.framebufferSize.1 env.framebufferSize.2 env.time (0, 0) s0 b
          rw [hds] at hd
          simp only [List.mem_cons, List.mem_singleton, List.not_mem_nil, or_false] at hd
          rcases hd with rfl | rfl
          · exact hf1
          · exact hf2
    · rw [if_neg hmode]
      by_cases hm : selectedShader s0 = none ∨ (∃ sh, selectedShader s0 = some sh ∧ sh.ID = 0)
          ∨ s0.quad = none
      · rw [renderDirect_missing _ _ _ _ s0 hm]
        exact hskip
      · simp only [not_or, not_exists, not_and] at hm
        obtain ⟨hsel, hsel0, hq⟩ := hm
        obtain ⟨sh, hsh⟩ := Option.ne_none_iff_exists'.mp hsel
        have hqs : s0.quad.isSome = true := Option.isSome_iff_ne_none.mpr hq
        rw [renderDirect_off _ _ _ _ s0 sh hsh (hsel0 sh hsh) hqs htaa]
        refine ⟨_, _, rfl, htaa, ?_, offCalls_summary env.framebufferSize.1
          env.framebufferSize.2
          (passCalls env.gl sh env.framebufferSize.1 env.framebufferSize.2 env.time (0, 0) s0)
          ?_ (passCalls_counts _ _ _ _ _ _ _).1 (passCalls_allocationCount _ _ _ _ _ _ _)⟩
        · show s0.glLog ++ _ ++ _ = _
          simp only [List.append_assoc]
        · intro b d hd
          obtain ⟨⟨d1, hds, _, hf1, _⟩, _, _⟩ := passCalls_draws env.gl sh
            env.framebufferSize.1 env.framebufferSize.2 env.time (0, 0) s0 b
          rw [hds] at hd
          rw [List.mem_singleton.mp hd]
          exact hf1

/-- The temporal branch of `render` when `ensureTaaTargets` throws: the error is caught,
temporal mode is switched off and the frame is presented without a draw call. -/
theorem render_of_target_failure (env : FrameEnv) (s : Init)
    (hsize : 0 < env.framebufferSize.1 ∧ 0 < env.framebufferSize.2)
    (hprog : activeProgramMissing (processInput env.input s) = false)
    (hquad : (processInput env.input s).quad.isSome = true)
    (htaa : (processInput env.input s).taaEnabled = true)
    (hbad : env.gl.glCheckFramebufferStatus ≠ GL_FRAMEBUFFER_COMPLETE)
    (hpath : ¬ ((processInput env.input s).taaW = env.framebufferSize.1
      ∧ (processInput env.input s).taaH = env.framebufferSize.2
      ∧ (processInput env.input s).taaFbo ≠ 0 ∧ (processInput env.input s).taaColor0 ≠ 0
      ∧ (processInput env.input s).taaColor1 ≠ 0)) :
    ∃ s2 calls, render env s = some s2
      ∧ s2.glLog = (processInput env.input s).glLog ++ calls
      ∧ drawCount calls = 0 ∧ swapCount calls = 1
      ∧ s2.taaEnabled = false ∧ s2.taaHistoryValid = false := by
  rw [render_eq, if_neg (by omega)]
  generalize processInput env.input s = s0 at hprog hquad htaa hpath
  have hcounts : ∀ sE : Init,
      drawCount (destroyCalls sE ++ (createCalls env.gl env.framebufferSize.1
          env.framebufferSize.2 ++ destroyCalls { sE with
            taaFbo := env.gl.glGenFramebuffers, taaColor0 := env.gl.glGenTextures.1,
            taaColor1 := env.gl.glGenTextures.2 }) ++ [GLCall.swapBuffers, GLCall.pollEvents])
        = 0
      ∧ swapCount (destroyCalls sE ++ (createCalls env.gl env.framebufferSize.1
          env.framebufferSize.2 ++ destroyCalls { sE with
            taaFbo := env.gl.glGenFramebuffers, taaColor0 := env.gl.glGenTextures.1,
            taaColor1 := env.gl.glGenTextures.2 }) ++ [GLCall.swapBuffers, GLCall.pollEvents])
        = 1 := by
    intro sE
    simp only [drawCount_append, swapCount_append, (destroyCalls_counts _).1,
      (destroyCalls_counts _).2, (createCalls_counts _ _ _).1, (createCalls_counts _ _ _).2]
    constructor <;> decide
  unfold activeProgramMissing at hprog
  by_cases hmode : s0.activeShader = 8
  · rw [if_pos hmode] at hprog ⊢
    rw [Bool.or_eq_false_iff] at hprog
    obtain ⟨hw, hc⟩ := hprog
    cases hws : s0.watersky with
    | none => rw [hws] at hw; simp [unusable] at hw
    | some ws =>
      cases hco : s0.cloudsOver with
      | none => rw [hco] at hc; simp [unusable] at hc
      | some co =>
        rw [hws] at hw
        rw [hco] at hc
        have hw0 : ws.ID ≠ 0 := by simpa [unusable] using hw
        have hc0 : co.ID ≠ 0 := by simpa [unusable] using hc
        have hens := ensureTaaTargets_thrown env.gl env.framebufferSize.1
          env.framebufferSize.2 (incrementFrameCounter s0) hbad hpath
        rw [renderCombined_thrown env.gl _ _ env.time s0 _ ws co _ hws hco hw0 hc0 hquad htaa
          hens]
        refine ⟨_, _, rfl, ?_, (hcounts (incrementFrameCounter s0)).1,
          (hcounts (incrementFrameCounter s0)).2, rfl, rfl⟩
        show (s0.glLog ++ _) ++ _ = _
        simp only [List.append_assoc]
  · rw [if_neg hmode] at hprog ⊢
    cases hsel : selectedShader s0 with
    | none => rw [hsel] at hprog; simp [unusable] at hprog
    | some sh =>
      rw [hsel] at hprog
      have h0 : sh.ID ≠ 0 := by simpa [unusable] using hprog
      have hens := ensureTaaTargets_thrown env.gl env.framebufferSize.1
        env.framebufferSize.2 s0 hbad hpath
      rw [renderDirect_thrown env.gl _ _ env.time s0 _ sh _ hsel h0 hquad htaa hens]
      refine ⟨_, _, rfl, ?_, (hcounts s0).1, (hcounts s0).2, rfl, rfl⟩
      show (s0.glLog ++ _) ++ _ = _
      simp only [List.append_assoc]

/-- C13. When `ensureTaaTargets` throws during `render`, in direct or combined mode, `render`
returns normally: it issues no draw call, swaps once, and leaves `taaEnabled = false` and
`taaHistoryValid = false`.  A following `render` call without a press of `T` returns with
temporal mode still off, allocates no render target and sends every draw call to the default
framebuffer. -/
theorem render_absorbs_target_failure (env env2 : FrameEnv) (s : Init)
    (hsize : 0 < env.framebufferSize.1 ∧ 0 < env.framebufferSize.2)
    (hprog : activeProgramMissing (processInput env.input s) = false)
    (hquad : (processInput env.input s).quad.isSome = true)
    (htaa : (processInput env.input s).taaEnabled = true)
    (hbad : env.gl.glCheckFramebufferStatus ≠ GL_FRAMEBUFFER_COMPLETE)
    (hpath : ¬ ((processInput env.input s).taaW = env.framebufferSize.1
      ∧ (processInput env.input s).taaH = env.framebufferSize.2
      ∧ (processInput env.input s).taaFbo ≠ 0 ∧ (processInput env.input s).taaColor0 ≠ 0
      ∧ (processInput env.input s).taaColor1 ≠ 0)) :
    ∃ s2 calls, render env s = some s2
      ∧ s2.glLog = s.glLog ++ calls
      ∧ drawCount calls = 0 ∧ swapCount calls = 1
      ∧ s2.taaEnabled = false ∧ s2.taaHistoryValid = false
      ∧ (risingEdge env2.input GLFW_KEY_T s2 = false →
          ∃ s3 calls2, render env2 s2 = some s3
            ∧ s3.taaEnabled = false
            ∧ s3.glLog = s2.glLog ++ calls2
            ∧ swapCount calls2 = 1
            ∧ allocationCount calls2 = 0
            ∧ ∀ b : GLBindings, ∀ d ∈ b.draws calls2, d.framebuffer = 0) := by
  obtain ⟨s2, calls, hrun, hlog, hdraw, hswap, hoff, hinvalid⟩ :=
    render_of_target_failure env s hsize hprog hquad htaa hbad hpath
  rw [processInput_glLog] at hlog
  refine ⟨s2, calls, hrun, hlog, hdraw, hswap, hoff, hinvalid, ?_⟩
  intro hedge
  have hstill : (processInput env2.input s2).taaEnabled = false := by
    rw [processInput_taaEnabled, hedge]
    simpa using hoff
  obtain ⟨s3, calls2, hrun3, hoff3, hlog3, hrest⟩ := render_temporal_off env2 s2 hstill
  rw [processInput_glLog] at hlog3
  exact ⟨s3, calls2, hrun3, hoff3, hlog3, hrest⟩

theorem render_absorbs_target_failure_witness :
    ∃ s2 calls, render sampleEnvIncomplete { sceneState with taaEnabled := true } = some s2
      ∧ s2.glLog = ({ sceneState with taaEnabled := true } : Init).glLog ++ calls
      ∧ drawCount calls = 0 ∧ swapCount calls = 1
      ∧ s2.taaEnabled = false ∧ s2.taaHistoryValid = false
      ∧ (risingEdge sampleEnv.input GLFW_KEY_T s2 = false →
          ∃ s3 calls2, render sampleEnv s2 = some s3
            ∧ s3.taaEnabled = false
            ∧ s3.glLog = s2.glLog ++ calls2
            ∧ swapCount calls2 = 1
            ∧ allocationCount calls2 = 0
            ∧ ∀ b : GLBindings, ∀ d ∈ b.draws calls2, d.framebuffer = 0) :=
  render_absorbs_target_failure sampleEnvIncomplete sampleEnv
    { sceneState with taaEnabled := true } (by decide) rfl rfl rfl (by decide) (by decide)

/-! ### The main loop -/

/-- C15, the code at a concrete frame. One iteration of the loop of `main`, from the scene
state with no key down on an 800 x 600 surface, draws the two passes of the combined mode and
calls `glfwSwapBuffers` twice: once at the end of `render` and once more in `main`. -/
theorem mainLoopIteration_swaps_twice :
    ∃ s2, mainLoopIteration idleInput sampleEnv sceneState = some s2
      ∧ drawCount s2.glLog = 2
      ∧ swapCount s2.glLog = 2
      ∧ (∃ s1, render sampleEnv (processInput idleInput sceneState) = some s1
          ∧ swapCount s1.glLog = 1) :=
  ⟨_, rfl, by decide, by decide, _, rfl, by decide⟩

/-- The loop of `main` when no frame is drawn: an iteration on a minimised window issues no
draw call and still calls `glfwSwapBuffers` twice. -/
theorem mainLoopIteration_minimized_presents_twice :
    ∃ s2, mainLoopIteration idleInput sampleEnvMinimized sceneState = some s2
      ∧ drawCount s2.glLog = 0
      ∧ swapCount s2.glLog = 2 :=
  ⟨_, rfl, by decide, by decide⟩

/-! ### Resolution change -/

/-- C16, as the code has it. When `ensureTaaTargets(w, h)` is called with dimensions other than
the recorded ones and the new framebuffer is complete, it returns normally with the new
dimensions recorded, `taaIndex = 0` and `taaHistoryValid = false`; `frameCounter` is left as it
was. -/
theorem ensureTaaTargets_resize_invalidates_history (gl : Driver) (w h : Int) (s : Init)
    (hdiff : s.taaW ≠ w ∨ s.taaH ≠ h)
    (hok : gl.glCheckFramebufferStatus = GL_FRAMEBUFFER_COMPLETE) :
    (ensureTaaTargets gl w h s).1 = Outcome.returned
      ∧ (ensureTaaTargets gl w h s).2.taaW = w
      ∧ (ensureTaaTargets gl w h s).2.taaH = h
      ∧ (ensureTaaTargets gl w h s).2.taaHistoryValid = false
      ∧ (ensureTaaTargets gl w h s).2.taaIndex = 0
      ∧ (ensureTaaTargets gl w h s).2.frameCounter = s.frameCounter := by
  have hpath : ¬ (s.taaW = w ∧ s.taaH = h ∧ s.taaFbo ≠ 0 ∧ s.taaColor0 ≠ 0
      ∧ s.taaColor1 ≠ 0) := by
    rintro ⟨h1, h2, _⟩
    rcases hdiff with hd | hd
    · exact hd h1
    · exact hd h2
  rw [ensureTaaTargets_created gl w h s hok hpath]
  exact ⟨rfl, rfl, rfl, rfl, rfl, rfl⟩

theorem ensureTaaTargets_resize_invalidates_history_witness :
    (ensureTaaTargets sampleDriver 1024 768 { sampleStateValid with frameCounter := 5 }).1
        = Outcome.returned
      ∧ (ensureTaaTargets sampleDriver 1024 768 { sampleStateValid with frameCounter := 5 }).2.taaW
        = 1024
      ∧ (ensureTaaTargets sampleDriver 1024 768 { sampleStateValid with frameCounter := 5 }).2.taaH
        = 768
      ∧ (ensureTaaTargets sampleDriver 1024 768
          { sampleStateValid with frameCounter := 5 }).2.taaHistoryValid = false
      ∧ (ensureTaaTargets sampleDriver 1024 768
          { sampleStateValid with frameCounter := 5 }).2.taaIndex = 0
      ∧ (ensureTaaTargets sampleDriver 1024 768
          { sampleStateValid with frameCounter := 5 }).2.frameCounter
        = ({ sampleStateValid with frameCounter := 5 } : Init).frameCounter :=
  ensureTaaTargets_resize_invalidates_history sampleDriver 1024 768
    { sampleStateValid with frameCounter := 5 } (Or.inl (by decide)) rfl

/-- C16, counterexample. With targets of size 800 x 600 and `frameCounter = 5`, the call
`ensureTaaTargets(1024, 768)` succeeds, records the new size and invalidates the history, and
`frameCounter` is still `5`, not `0`. -/
theorem ensureTaaTargets_resize_counter_counterexample :
    ({ sampleStateValid with frameCounter := 5 } : Init).taaW = 800
      ∧ ({ sampleStateValid with frameCounter := 5 } : Init).taaH = 600
      ∧ (ensureTaaTargets sampleDriver 1024 768 { sampleStateValid with frameCounter := 5 }).1
          = Outcome.returned
      ∧ (ensureTaaTargets sampleDriver 1024 768 { sampleStateValid with frameCounter := 5 }).2.taaW
          = 1024
      ∧ (ensureTaaTargets sampleDriver 1024 768
          { sampleStateValid with frameCounter := 5 }).2.taaHistoryValid = false
      ∧ (ensureTaaTargets sampleDriver 1024 768
          { sampleStateValid with frameCounter := 5 }).2.frameCounter = 5
      ∧ (ensureTaaTargets sampleDriver 1024 768
          { sampleStateValid with frameCounter := 5 }).2.frameCounter ≠ 0 := by
  refine ⟨rfl, rfl, by decide, by decide, by decide, by decide, by decide⟩

/-! ### Cloud-layer height keys -/

theorem processInput_clouds (inp : Input) (s : Init) :
    ((processInput inp s).cloudBottom, (processInput inp s).cloudTop)
      = (if risingEdge inp GLFW_KEY_KP_SUBTRACT s then
          fun p : ℚ × ℚ =>
            (max 0 (f32 (p.1 - 200)),
              max (f32 (max 0 (f32 (p.1 - 200)) + 500)) (f32 (p.2 - 200)))
        else id)
        ((if risingEdge inp GLFW_KEY_KP_ADD s then
          fun p : ℚ × ℚ => (f32 (p.1 + 200), f32 (p.2 + 200))
        else id) (s.cloudBottom, s.cloudTop)) := by
  unfold processInput
  rw [edgeKey_apply (fun s => (s.cloudBottom, s.cloudTop)) (fun _ _ => rfl) inp
      GLFW_KEY_KP_SUBTRACT onKpSubtract _ (by decide),
    risingEdge_edgeKey_other inp _ onKpAdd _ (fun _ => rfl) _ (by decide),
    risingEdge_edgeKey_other inp _ onRightBracket _ (fun _ => rfl) _ (by decide),
    risingEdge_edgeKey_other inp _ onLeftBracket _ (fun _ => rfl) _ (by decide),
    risingEdge_edgeKey_other inp _ onToggleTaa _ (fun _ => rfl) _ (by decide),
    risingEdge_shaderKeys inp _ GLFW_KEY_KP_SUBTRACT (by decide), risingEdge_processMovement]
  simp only [onKpSubtract]
  rw [edgeKey_apply (fun s => s.cloudBottom) (fun _ _ => rfl) inp GLFW_KEY_KP_ADD onKpAdd _
      (by decide),
    edgeKey_apply (fun s => s.cloudTop) (fun _ _ => rfl) inp GLFW_KEY_KP_ADD onKpAdd _
      (by decide),
    risingEdge_edgeKey_other inp _ onRightBracket _ (fun _ => rfl) _ (by decide),
    risingEdge_edgeKey_other inp _ onLeftBracket _ (fun _ => rfl) _ (by decide),
    risingEdge_edgeKey_other inp _ onToggleTaa _ (fun _ => rfl) _ (by decide),
    risingEdge_shaderKeys inp _ GLFW_KEY_KP_ADD (by decide), risingEdge_processMovement]
  simp only [onKpAdd]
  rw [edgeKey_preserve (fun s => s.cloudBottom) (fun _ _ => rfl) inp _ onRightBracket _
      (fun _ => rfl),
    edgeKey_preserve (fun s => s.cloudBottom) (fun _ _ => rfl) inp _ onLeftBracket _
      (fun _ => rfl),
    edgeKey_preserve (fun s => s.cloudBottom) (fun _ _ => rfl) inp _ onToggleTaa _
      (fun _ => rfl),
    shaderKeys_apply (fun s => s.cloudBottom) (fun _ _ => rfl) (fun _ _ => rfl),
    processMovement_apply (fun s => s.cloudBottom) (fun _ _ => rfl) (fun _ _ _ => rfl)
      (fun _ _ => rfl),
    edgeKey_preserve (fun s => s.cloudTop) (fun _ _ => rfl) inp _ onRightBracket _
      (fun _ => rfl),
    edgeKey_preserve (fun s => s.cloudTop) (fun _ _ => rfl) inp _ onLeftBracket _
      (fun _ => rfl),
    edgeKey_preserve (fun s => s.cloudTop) (fun _ _ => rfl) inp _ onToggleTaa _
      (fun _ => rfl),
    shaderKeys_apply (fun s => s.cloudTop) (fun _ _ => rfl) (fun _ _ => rfl),
    processMovement_apply (fun s => s.cloudTop) (fun _ _ => rfl) (fun _ _ _ => rfl)
      (fun _ _ => rfl)]
  by_cases h1 : risingEdge inp GLFW_KEY_KP_SUBTRACT s = true <;>
    by_cases h2 : risingEdge inp GLFW_KEY_KP_ADD s = true <;> simp [h1, h2]

theorem processInput_taaHistoryWeight_of_no_bracket (inp : Input) (s : Init)
    (hleft : risingEdge inp GLFW_KEY_LEFT_BRACKET s = false)
    (hright : risingEdge inp GLFW_KEY_RIGHT_BRACKET s = false) :
    (processInput inp s).taaHistoryWeight = s.taaHistoryWeight := by
  unfold processInput
  rw [edgeKey_preserve (fun s => s.taaHistoryWeight) (fun _ _ => rfl) inp _ onKpSubtract _
      (fun _ => rfl),
    edgeKey_preserve (fun s => s.taaHistoryWeight) (fun _ _ => rfl) inp _ onKpAdd _
      (fun _ => rfl),
    edgeKey_apply (fun s => s.taaHistoryWeight) (fun _ _ => rfl) inp GLFW_KEY_RIGHT_BRACKET
      onRightBracket _ (by decide),
    risingEdge_edgeKey_other inp _ onLeftBracket _ (fun _ => rfl) _ (by decide),
    risingEdge_edgeKey_other inp _ onToggleTaa _ (fun _ => rfl) _ (by decide),
    risingEdge_shaderKeys inp _ GLFW_KEY_RIGHT_BRACKET (by decide), risingEdge_processMovement,
    hright, if_neg (by decide),
    edgeKey_apply (fun s => s.taaHistoryWeight) (fun _ _ => rfl) inp GLFW_KEY_LEFT_BRACKET
      onLeftBracket _ (by decide),
    risingEdge_edgeKey_other inp _ onToggleTaa _ (fun _ => rfl) _ (by decide),
    risingEdge_shaderKeys inp _ GLFW_KEY_LEFT_BRACKET (by decide), risingEdge_processMovement,
    hleft, if_neg (by decide),
    edgeKey_preserve (fun s => s.taaHistoryWeight) (fun _ _ => rfl) inp _ onToggleTaa _
      (fun _ => rfl),
    shaderKeys_apply (fun s => s.taaHistoryWeight) (fun _ _ => rfl) (fun _ _ => rfl),
    processMovement_apply (fun s => s.taaHistoryWeight) (fun _ _ => rfl) (fun _ _ _ => rfl)
      (fun _ _ => rfl)]

/-- The blend factor the composite stage writes is `taaHistoryWeight` from a state with a valid
history. -/
theorem renderTaaComposite_alpha_of_valid (gl : Driver) (w h : Int) (s s2 : Init)
    (calls : List GLCall) (hvalid : s.taaHistoryValid = true)
    (hrun : renderTaaComposite gl w h s = some s2) (hlog : s2.glLog = s.glLog ++ calls)
    (loc : Int) (v : ℚ) (hmem : GLCall.uniform1f loc v ∈ calls) : v = s.taaHistoryWeight := by
  unfold renderTaaComposite at hrun
  cases hsh : s.taaShader with
  | none =>
    simp only [hsh] at hrun
    cases hrun
    have : calls = [] := by simpa using hlog
    rw [this] at hmem
    exact absurd hmem (List.not_mem_nil _)
  | some sh =>
    simp only [hsh] at hrun
    by_cases hid : sh.ID = 0
    · rw [if_pos hid] at hrun
      cases hrun
      have : calls = [] := by simpa using hlog
      rw [this] at hmem
      exact absurd hmem (List.not_mem_nil _)
    · rw [if_neg hid] at hrun
      cases hc : s.taaColor s.taaIndex with
      | none => simp [hc] at hrun
      | some texCur =>
        cases hh : s.taaColor (1 - s.taaIndex) with
        | none => simp [hc, hh] at hrun
        | some texHist =>
          simp only [hc, hh, Option.some.injEq] at hrun
          subst hrun
          have hcalls : calls = compositeCalls gl w h s sh.ID texCur texHist :=
            (List.append_cancel_left hlog).symm
          rw [hcalls] at hmem
          have := ((uniform1f_mem_compositeCalls gl w h s sh.ID texCur texHist loc v).mp hmem).2.2
          simpa [hvalid] using this

theorem Flt.add_nan_left (b : Flt) : Flt.add Flt.nan b = Flt.nan := by
  cases b <;> rfl

theorem updateCameraVectors_of_nan (m : CameraMath) (c : Camera)
    (h : c.Yaw = Flt.nan ∨ c.Pitch = Flt.nan) : c.updateCameraVectors m = c := by
  unfold Camera.updateCameraVectors
  rw [if_pos]
  rcases h with h | h <;> simp [h, Flt.isnan]

theorem addMouseOffsets_basis (x y : Flt) (constrain : Bool) (c : Camera) :
    (c.addMouseOffsets x y constrain).Front = c.Front
      ∧ (c.addMouseOffsets x y constrain).Right = c.Right
      ∧ (c.addMouseOffsets x y constrain).Up = c.Up
      ∧ (c.addMouseOffsets x y constrain).Yaw = c.Yaw.add (x.mul c.MouseSensitivity) := by
  unfold Camera.addMouseOffsets
  cases constrain
  · exact ⟨rfl, rfl, rfl, rfl⟩
  · simp only [if_true]
    split_ifs <;> exact ⟨rfl, rfl, rfl, rfl⟩

theorem addMouseOffsets_nan (x y : Flt) (constrain : Bool) (c : Camera)
    (h : c.Yaw = Flt.nan ∨ c.Pitch = Flt.nan) :
    (c.addMouseOffsets x y constrain).Yaw = Flt.nan
      ∨ (c.addMouseOffsets x y constrain).Pitch = Flt.nan := by
  rcases h with h | h
  · left
    rw [(addMouseOffsets_basis x y constrain c).2.2.2, h, Flt.add_nan_left]
  · right
    unfold Camera.addMouseOffsets
    cases constrain
    · simp only [Bool.false_eq_true, if_false, h, Flt.add_nan_left]
    · simp only [if_true, h, Flt.add_nan_left, Flt.gt, Flt.lt, Bool.false_eq_true, if_false]

/-- C18. When `Yaw` or `Pitch` is NaN, `updateCameraVectors` returns the camera as it was; and
`ProcessMouseMovement` (whatever the offsets and the pitch constraint), `invertPitch` and
`getViewMatrix`, which all end in that recomputation, return a camera whose `Front`, `Right`
and `Up` are exactly the previous ones.  Each of the four is a total function: the call
returns. -/
theorem updateCameraVectors_nan_guard (m : CameraMath) (c : Camera) (x y : Flt)
    (constrain : Bool) (h : c.Yaw = Flt.nan ∨ c.Pitch = Flt.nan) :
    c.updateCameraVectors m = c
      ∧ ((c.ProcessMouseMovement m x y constrain).Front = c.Front
        ∧ (c.ProcessMouseMovement m x y constrain).Right = c.Right
        ∧ (c.ProcessMouseMovement m x y constrain).Up = c.Up)
      ∧ ((c.invertPitch m).Front = c.Front ∧ (c.invertPitch m).Right = c.Right
        ∧ (c.invertPitch m).Up = c.Up)
      ∧ c.getViewMatrix m = c := by
  have hupd := updateCameraVectors_of_nan m c h
  have hmouse : c.ProcessMouseMovement m x y constrain = c.addMouseOffsets x y constrain := by
    unfold Camera.ProcessMouseMovement
    exact updateCameraVectors_of_nan m _ (addMouseOffsets_nan x y constrain c h)
  have hinv : c.invertPitch m = { c with Pitch := c.Pitch.neg } := by
    unfold Camera.invertPitch
    apply updateCameraVectors_of_nan
    rcases h with h | h
    · exact Or.inl h
    · right
      show c.Pitch.neg = Flt.nan
      rw [h]
      rfl
  have hb := addMouseOffsets_basis x y constrain c
  refine ⟨hupd, ?_, ?_, hupd⟩
  · rw [hmouse]
    exact ⟨hb.1, hb.2.1, hb.2.2.1⟩
  · rw [hinv]
    exact ⟨rfl, rfl, rfl⟩

theorem updateCameraVectors_nan_guard_witness :
    (nanYawCamera.Yaw = Flt.nan ∨ nanYawCamera.Pitch = Flt.nan)
      ∧ nanYawCamera.updateCameraVectors sampleCameraMath = nanYawCamera
      ∧ ((nanYawCamera.ProcessMouseMovement sampleCameraMath (Flt.val 10) (Flt.val 5)
            true).Front = nanYawCamera.Front
        ∧ (nanYawCamera.ProcessMouseMovement sampleCameraMath (Flt.val 10) (Flt.val 5)
            true).Right = nanYawCamera.Right
        ∧ (nanYawCamera.ProcessMouseMovement sampleCameraMath (Flt.val 10) (Flt.val 5)
            true).Up = nanYawCamera.Up)
      ∧ ((nanYawCamera.invertPitch sampleCameraMath).Front = nanYawCamera.Front
        ∧ (nanYawCamera.invertPitch sampleCameraMath).Right = nanYawCamera.Right
        ∧ (nanYawCamera.invertPitch sampleCameraMath).Up = nanYawCamera.Up)
      ∧ nanYawCamera.getViewMatrix sampleCameraMath = nanYawCamera :=
  ⟨Or.inl rfl,
    updateCameraVectors_nan_guard sampleCameraMath nanYawCamera (Flt.val 10) (Flt.val 5) true
      (Or.inl rfl)⟩

/-- The guard is what keeps the basis: with the same stand-in functions and angles that are
numbers, the recomputation replaces `Front`. -/
theorem updateCameraVectors_recomputes :
    (Camera.initial.updateCameraVectors sampleCameraMath).Front = ⟨1, 0, 0⟩
      ∧ Camera.initial.Front = ⟨0, 0, -1⟩ := by
  refine ⟨?_, rfl⟩
  simp [Camera.updateCameraVectors, Camera.initial, sampleCameraMath, Flt.isnan, Flt.mul]

/-! ### Consecutive temporal frames -/

/-- A key that is not down runs no handler. -/
theorem edgeKey_released {α : Type} (g : Init → α)
    (hg : ∀ s p, g { s with prevKeys := p } = g s)
    (inp : Input) (key : Int) (onPress : Init → Init) (s : Init)
    (hup : inp.keyDown key = false) :
    g (edgeKey inp key onPress s) = g s := by
  unfold edgeKey
  split
  · rw [hg, risingEdge_of_released inp key s hup]
    rfl
  · rfl

theorem processInput_activeShader_of_released (inp : Input) (s : Init)
    (hkeys : ∀ k, GLFW_KEY_1 ≤ k → k ≤ GLFW_KEY_1 + 7 → inp.keyDown k = false) :
    (processInput inp s).activeShader = s.activeShader := by
  unfold processInput
  rw [edgeKey_preserve (fun s => s.activeShader) (fun _ _ => rfl) inp _ onKpSubtract _
      (fun _ => rfl),
    edgeKey_preserve (fun s => s.activeShader) (fun _ _ => rfl) inp _ onKpAdd _ (fun _ => rfl),
    edgeKey_preserve (fun s => s.activeShader) (fun _ _ => rfl) inp _ onRightBracket _
      (fun _ => rfl),
    edgeKey_preserve (fun s => s.activeShader) (fun _ _ => rfl) inp _ onLeftBracket _
      (fun _ => rfl),
    edgeKey_preserve (fun s => s.activeShader) (fun _ _ => rfl) inp _ onToggleTaa _
      (fun _ => rfl),
    edgeKey_released (fun s => s.activeShader) (fun _ _ => rfl) inp _ _ _
      (hkeys _ (by decide) (by decide)),
    edgeKey_released (fun s => s.activeShader) (fun _ _ => rfl) inp _ _ _
      (hkeys _ (by decide) (by decide)),
    edgeKey_released (fun s => s.activeShader) (fun _ _ => rfl) inp _ _ _
      (hkeys _ (by decide) (by decide)),
    edgeKey_released (fun s => s.activeShader) (fun _ _ => rfl) inp _ _ _
      (hkeys _ (by decide) (by decide)),
    edgeKey_released (fun s => s.activeShader) (fun _ _ => rfl) inp _ _ _
      (hkeys _ (by decide) (by decide)),
    edgeKey_released (fun s => s.activeShader) (fun _ _ => rfl) inp _ _ _
      (hkeys _ (by decide) (by decide)),
    edgeKey_released (fun s => s.activeShader) (fun _ _ => rfl) inp _ _ _
      (hkeys _ (by decide) (by decide)),
    edgeKey_released (fun s => s.activeShader) (fun _ _ => rfl) inp _ _ _
      (hkeys _ (by decide) (by decide)),
    processMovement_apply (fun s => s.activeShader) (fun _ _ => rfl) (fun _ _ _ => rfl)
      (fun _ _ => rfl)]

theorem selectedShader_congr (a b : Init) (hact : a.activeShader = b.activeShader)
    (hptr : (a.shader, a.fragmentv2, a.rmarching, a.rmarching2, a.singlecloudfrag, a.water,
        a.watersky)
      = (b.shader, b.fragmentv2, b.rmarching, b.rmarching2, b.singlecloudfrag, b.water,
        b.watersky)) :
    selectedShader a = selectedShader b := by
  simp only [Prod.mk.injEq] at hptr
  obtain ⟨h1, h2, h3, h4, h5, h6, h7⟩ := hptr
  unfold selectedShader
  rw [hact, h1, h2, h3, h4, h5, h6, h7]

theorem processInput_selectedShader_of_released (inp : Input) (s : Init)
    (hkeys : ∀ k, GLFW_KEY_1 ≤ k → k ≤ GLFW_KEY_1 + 7 → inp.keyDown k = false) :
    selectedShader (processInput inp s) = selectedShader s :=
  selectedShader_congr _ _ (processInput_activeShader_of_released inp s hkeys)
    (processInput_apply (fun s => (s.shader, s.fragmentv2, s.rmarching, s.rmarching2,
        s.singlecloudfrag, s.water, s.watersky))
      (fun _ _ => rfl) (fun _ _ => rfl) (fun _ _ _ => rfl) (fun _ _ => rfl) (fun _ _ => rfl)
      (fun _ => rfl) (fun _ => rfl) (fun _ => rfl) (fun _ => rfl) (fun _ => rfl) inp s)

/-- The fields a direct-mode temporal frame with a loaded composite program writes: the frame
counter, the history flag, the index and the command log. -/
theorem renderDirect_taa_fields (gl : Driver) (w h : Int) (t : ℚ) (s s2 : Init)
    (sh tsh : Shader)
    (hsh : selectedShader s = some sh) (hid : sh.ID ≠ 0) (hq : s.quad.isSome = true)
    (htaa : s.taaEnabled = true)
    (hnoop : s.taaW = w ∧ s.taaH = h ∧ s.taaFbo ≠ 0 ∧ s.taaColor0 ≠ 0 ∧ s.taaColor1 ≠ 0)
    (hidx : s.taaIndex = 0 ∨ s.taaIndex = 1)
    (hts : s.taaShader = some tsh) (htid : tsh.ID ≠ 0)
    (hrun : renderDirect gl w h t s = some s2) :
    s2 = { s with frameCounter := (s.frameCounter + 1) % 2 ^ 64, taaHistoryValid := true,
                  taaIndex := 1 - s.taaIndex, glLog := s2.glLog } := by
  obtain ⟨texCur, texHist, hcur, hhist, _⟩ := taaColor_of_index s hidx
  have hens := ensureTaaTargets_noop gl w h s hnoop
  obtain ⟨j, _, hrd⟩ := renderDirect_taa gl w h t s s sh texCur hsh hid hq htaa hens hcur
  rw [renderTaaComposite_loaded gl w h ((incrementFrameCounter s).emit
    ([GLCall.bindFramebuffer s.taaFbo, GLCall.framebufferTexture2D texCur,
      GLCall.bindFramebuffer 0] ++ sceneCalls gl s.taaFbo sh w h t j s))
    tsh texCur texHist hts htid hcur hhist] at hrd
  rw [hrd] at hrun
  simp only [Option.some.injEq] at hrun
  subst hrun
  rfl

theorem draws_present (b : GLBindings) :
    b.draws [GLCall.swapBuffers, GLCall.pollEvents] = [] := by
  simp [GLBindings.draws]

/-- The draws of one temporal frame: the scene draw, then the composite draw. -/
theorem frame_draws (b : GLBindings) (sceneCmds compCmds : List GLCall) (d c : Draw)
    (hscene : b.draws sceneCmds = [d]) (hcomp : (b.run sceneCmds).draws compCmds = [c]) :
    b.draws (sceneCmds ++ compCmds ++ [GLCall.swapBuffers, GLCall.pollEvents]) = [d, c] := by
  rw [GLBindings.draws_append, GLBindings.draws_append, hscene, hcomp, draws_present]
  rfl

theorem lastWriter_scene (d1 d2 c : Draw) (tex : Nat) (h1 : d1.colorTexture = tex)
    (hc : c.colorTexture ≠ tex) (h2 : d2.colorTexture ≠ tex) :
    lastWriter [d1, c, d2] tex = some d1.program := by
  simp [lastWriter, List.filter, h1, hc, h2]

/-- Two consecutive direct-mode temporal frames on a surface of unchanged size, with the render
targets in place and the composite program loaded, the second frame without the key `T` and
without a program key.  Four draws are issued.  The scene draw of the first frame writes the
texture `tex`; the composite draw of the first frame goes to the default framebuffer; the
scene draw of the second frame writes the other texture `hist`; the composite draw of the
second frame reads `tex` as its history input. -/
theorem render_two_temporal_frames (env env2 : FrameEnv) (s : Init) (sh tsh : Shader)
    (hsize : 0 < env.framebufferSize.1 ∧ 0 < env.framebufferSize.2)
    (hmode : (processInput env.input s).activeShader ≠ 8)
    (hsh : selectedShader (processInput env.input s) = some sh) (hid : sh.ID ≠ 0)
    (hq : (processInput env.input s).quad.isSome = true)
    (htaa : (processInput env.input s).taaEnabled = true)
    (hnoop : (processInput env.input s).taaW = env.framebufferSize.1
      ∧ (processInput env.input s).taaH = env.framebufferSize.2
      ∧ (processInput env.input s).taaFbo ≠ 0 ∧ (processInput env.input s).taaColor0 ≠ 0
      ∧ (processInput env.input s).taaColor1 ≠ 0)
    (hdistinct : (processInput env.input s).taaColor0 ≠ (processInput env.input s).taaColor1)
    (hidx : (processInput env.input s).taaIndex = 0 ∨ (processInput env.input s).taaIndex = 1)
    (hcomp : (processInput env.input s).taaShader = some tsh) (htid : tsh.ID ≠ 0)
    (h2size : env2.framebufferSize = env.framebufferSize)
    (h2T : env2.input.keyDown GLFW_KEY_T = false)
    (h2keys : ∀ k, GLFW_KEY_1 ≤ k → k ≤ GLFW_KEY_1 + 7 → env2.input.keyDown k = false) :
    ∃ s2 s3 cmds cmds2 tex hist,
      render env s = some s2 ∧ s2.glLog = s.glLog ++ cmds
      ∧ render env2 s2 = some s3 ∧ s3.glLog = s2.glLog ++ cmds2
      ∧ (processInput env.input s).taaColor (processInput env.input s).taaIndex = some tex
      ∧ (processInput env.input s).taaColor (1 - (processInput env.input s).taaIndex)
          = some hist
      ∧ ∀ b : GLBindings, ∃ d1 d2,
          b.draws (cmds ++ cmds2)
            = [d1, compositeDraw tsh.ID tex hist, d2, compositeDraw tsh.ID hist tex]
          ∧ d1.program = sh.ID ∧ d1.framebuffer = (processInput env.input s).taaFbo
          ∧ d1.colorTexture = tex
          ∧ d2.program = sh.ID ∧ d2.framebuffer = (processInput env.input s).taaFbo
          ∧ d2.colorTexture = hist
          ∧ lastWriter [d1, compositeDraw tsh.ID tex hist, d2] tex = some sh.ID := by
  have hr1 : render env s = renderDirect env.gl env.framebufferSize.1 env.framebufferSize.2
      env.time (processInput env.input s) := by
    rw [render_eq, if_neg (by omega), if_neg hmode]
  have hlog0 := processInput_glLog env.input s
  generalize processInput env.input s = p at *
  obtain ⟨texCur, texHist, sceneCmds, hcur, hhist, hscene, _, hloaded, _⟩ :=
    renderDirect_taa_frame env.gl _ _ env.time p sh hsh hid hq htaa hnoop hidx
  obtain ⟨s2, compCmds, hrun, hlog, hcompdraws, hidx2, _, hc_hist, hc_cur⟩ :=
    hloaded tsh hcomp htid
  have hs2 := renderDirect_taa_fields env.gl _ _ env.time p s2 sh tsh hsh hid hq htaa hnoop
    hidx hcomp htid hrun
  -- the textures are distinct and not the default one
  have htex : texCur ≠ 0 ∧ texHist ≠ 0 ∧ texCur ≠ texHist := by
    obtain ⟨a, c, ha, hc, hcase⟩ := taaColor_of_index p hidx
    rw [hcur] at ha
    rw [hhist] at hc
    cases ha
    cases hc
    rcases hcase with ⟨_, e1, e2⟩ | ⟨_, e1, e2⟩
    · rw [e1, e2]
      exact ⟨hnoop.2.2.2.1, hnoop.2.2.2.2, hdistinct⟩
    · rw [e1, e2]
      exact ⟨hnoop.2.2.2.2, hnoop.2.2.2.1, fun e => hdistinct e.symm⟩
  -- the second frame starts from the state the first one left
  have hkeep : ∀ {α : Type} (g : Init → α),
      (∀ s p, g { s with prevKeys := p } = g s) → (∀ s c, g { s with camera := c } = g s) →
      (∀ s d l, g { s with deltaTime := d, lastFrame := l } = g s) →
      (∀ s b, g { s with shouldClose := b } = g s) → (∀ n s, g (onShaderKey n s) = g s) →
      (∀ s, g (onToggleTaa s) = g s) → (∀ s, g (onLeftBracket s) = g s) →
      (∀ s, g (onRightBracket s) = g s) → (∀ s, g (onKpAdd s) = g s) →
      (∀ s, g (onKpSubtract s) = g s) →
      g (processInput env2.input s2) = g s2 :=
    fun g h1 h2 h3 h4 h5 h6 h7 h8 h9 h10 =>
      processInput_apply g h1 h2 h3 h4 h5 h6 h7 h8 h9 h10 env2.input s2
  have kW : (processInput env2.input s2).taaW = p.taaW :=
    (hkeep (fun s => s.taaW) (fun _ _ => rfl) (fun _ _ => rfl) (fun _ _ _ => rfl)
      (fun _ _ => rfl) (fun _ _ => rfl) (fun _ => rfl) (fun _ => rfl) (fun _ => rfl)
      (fun _ => rfl) (fun _ => rfl)).trans (by rw [hs2] : s2.taaW = p.taaW)
  have kH : (processInput env2.input s2).taaH = p.taaH :=
    (hkeep (fun s => s.taaH) (fun _ _ => rfl) (fun _ _ => rfl) (fun _ _ _ => rfl)
      (fun _ _ => rfl) (fun _ _ => rfl) (fun _ => rfl) (fun _ => rfl) (fun _ => rfl)
      (fun _ => rfl) (fun _ => rfl)).trans (by rw [hs2] : s2.taaH = p.taaH)
  have kF : (processInput env2.input s2).taaFbo = p.taaFbo :=
    (hkeep (fun s => s.taaFbo) (fun _ _ => rfl) (fun _ _ => rfl) (fun _ _ _ => rfl)
      (fun _ _ => rfl) (fun _ _ => rfl) (fun _ => rfl) (fun _ => rfl) (fun _ => rfl)
      (fun _ => rfl) (fun _ => rfl)).trans (by rw [hs2] : s2.taaFbo = p.taaFbo)
  have k0 : (processInput env2.input s2).taaColor0 = p.taaColor0 :=
    (hkeep (fun s => s.taaColor0) (fun _ _ => rfl) (fun _ _ => rfl) (fun _ _ _ => rfl)
      (fun _ _ => rfl) (fun _ _ => rfl) (fun _ => rfl) (fun _ => rfl) (fun _ => rfl)
      (fun _ => rfl) (fun _ => rfl)).trans (by rw [hs2] : s2.taaColor0 = p.taaColor0)
  have k1 : (processInput env2.input s2).taaColor1 = p.taaColor1 :=
    (hkeep (fun s => s.taaColor1) (fun _ _ => rfl) (fun _ _ => rfl) (fun _ _ _ => rfl)
      (fun _ _ => rfl) (fun _ _ => rfl) (fun _ => rfl) (fun _ => rfl) (fun _ => rfl)
      (fun _ => rfl) (fun _ => rfl)).trans (by rw [hs2] : s2.taaColor1 = p.taaColor1)
  have kI : (processInput env2.input s2).taaIndex = s2.taaIndex :=
    hkeep (fun s => s.taaIndex) (fun _ _ => rfl) (fun _ _ => rfl) (fun _ _ _ => rfl)
      (fun _ _ => rfl) (fun _ _ => rfl) (fun _ => rfl) (fun _ => rfl) (fun _ => rfl)
      (fun _ => rfl) (fun _ => rfl)
  have kS : (processInput env2.input s2).taaShader = p.taaShader :=
    (hkeep (fun s => s.taaShader) (fun _ _ => rfl) (fun _ _ => rfl) (fun _ _ _ => rfl)
      (fun _ _ => rfl) (fun _ _ => rfl) (fun _ => rfl) (fun _ => rfl) (fun _ => rfl)
      (fun _ => rfl) (fun _ => rfl)).trans (by rw [hs2] : s2.taaShader = p.taaShader)
  have kQ : (processInput env2.input s2).quad = p.quad :=
    (hkeep (fun s => s.quad) (fun _ _ => rfl) (fun _ _ => rfl) (fun _ _ _ => rfl)
      (fun _ _ => rfl) (fun _ _ => rfl) (fun _ => rfl) (fun _ => rfl) (fun _ => rfl)
      (fun _ => rfl) (fun _ => rfl)).trans (by rw [hs2] : s2.quad = p.quad)
  have kC : ∀ i, (processInput env2.input s2).taaColor i = s2.taaColor i := fun i =>
    hkeep (fun s => s.taaColor i) (fun _ _ => rfl) (fun _ _ => rfl) (fun _ _ _ => rfl)
      (fun _ _ => rfl) (fun _ _ => rfl) (fun _ => rfl) (fun _ => rfl) (fun _ => rfl)
      (fun _ => rfl) (fun _ => rfl)
  have kE : (processInput env2.input s2).taaEnabled = true := by
    rw [processInput_taaEnabled, risingEdge_of_released _ _ _ h2T]
    exact (by rw [hs2] : s2.taaEnabled = p.taaEnabled).trans htaa
  have kA : (processInput env2.input s2).activeShader ≠ 8 := by
    rw [processInput_activeShader_of_released _ _ h2keys]
    exact fun e => hmode ((by rw [hs2] : s2.activeShader = p.activeShader).symm.trans e)
  have kSel : selectedShader (processInput env2.input s2) = some sh := by
    rw [processInput_selectedShader_of_released _ _ h2keys]
    exact (by rw [hs2]; rfl : selectedShader s2 = selectedShader p).trans hsh
  have hr2 : render env2 s2 = renderDirect env2.gl env.framebufferSize.1
      env.framebufferSize.2 env2.time (processInput env2.input s2) := by
    rw [render_eq, h2size, if_neg (by omega), if_neg kA]
  have hlog2 := processInput_glLog env2.input s2
  have hidxq : (processInput env2.input s2).taaIndex = 0
      ∨ (processInput env2.input s2).taaIndex = 1 := by
    rw [kI, hidx2]
    omega
  obtain ⟨texCur2, texHist2, sceneCmds2, hcur2, hhist2, hscene2, _, hloaded2, _⟩ :=
    renderDirect_taa_frame env2.gl env.framebufferSize.1 env.framebufferSize.2 env2.time
      (processInput env2.input s2) sh kSel hid (by rw [kQ]; exact hq) kE
      ⟨kW.trans hnoop.1, kH.trans hnoop.2.1, by rw [kF]; exact hnoop.2.2.1,
        by rw [k0]; exact hnoop.2.2.2.1, by rw [k1]; exact hnoop.2.2.2.2⟩ hidxq
  obtain ⟨s3, compCmds2, hrun2, hlog3, hcompdraws2, _⟩ :=
    hloaded2 tsh (kS.trans hcomp) htid
  rw [kC, kI, hc_cur] at hcur2
  rw [kC, kI, hc_hist] at hhist2
  cases hcur2
  cases hhist2
  rw [hlog0] at hlog
  rw [hlog2] at hlog3
  refine ⟨s2, s3, _, _, texCur, texHist, hr1.trans hrun, hlog, hr2.trans hrun2, hlog3, hcur,
    hhist, fun b => ?_⟩
  obtain ⟨d1, hd1, hp1, hf1, hc1⟩ := hscene b
  obtain ⟨d2, hd2, hp2, hf2, hc2⟩ := hscene2
    (b.run (sceneCmds ++ compCmds ++ [GLCall.swapBuffers, GLCall.pollEvents]))
  refine ⟨d1, d2, ?_, hp1, hf1, hc1, hp2, hf2.trans kF, hc2, ?_⟩
  · rw [GLBindings.draws_append,
      frame_draws b sceneCmds compCmds d1 _ hd1 (hcompdraws _),
      frame_draws _ sceneCmds2 compCmds2 d2 _ hd2 (hcompdraws2 _)]
    rfl
  · rw [lastWriter_scene d1 d2 _ texCur hc1 (fun e => htex.1 e.symm)
      (by rw [hc2]; exact fun e => htex.2.2 e.symm), hp1]

/-- Every draw call is one draw under the bindings of its moment. -/
theorem GLBindings.draws_length (l : List GLCall) (b : GLBindings) :
    (b.draws l).length = drawCount l := by
  induction l generalizing b with
  | nil => rfl
  | cons c cs ih =>
    show ((if c = GLCall.renderMesh then [b.draw] else []) ++ (b.step c).draws cs).length
      = List.count GLCall.renderMesh (c :: cs)
    rw [List.length_append, ih, List.count_cons, drawCount]
    by_cases hc : c = GLCall.renderMesh
    · simp [hc]
      omega
    · simp [hc]

/-- C19, the code at the failing input. Direct mode, temporal mode on, the render targets in
place, the composite program a null pointer.  `render` returns; the only draw of the frame is
the scene draw of program 11, with framebuffer object 7 bound and texture 8 attached; no draw
goes to the default framebuffer, and the buffers are swapped once.  Temporal mode stays on, so
the next frame does the same. -/
theorem render_without_composite_draws_offscreen :
    directTaaStateNoComposite.taaEnabled = true
      ∧ directTaaStateNoComposite.taaShader = none
      ∧ ∃ s2 cmds, render sampleEnv directTaaStateNoComposite = some s2
          ∧ s2.glLog = directTaaStateNoComposite.glLog ++ cmds
          ∧ (∀ b : GLBindings, ∃ d, b.draws cmds = [d] ∧ d.program = 11 ∧ d.framebuffer = 7
              ∧ d.colorTexture = 8)
          ∧ (∀ b : GLBindings, ∀ d ∈ b.draws cmds, d.framebuffer ≠ 0)
          ∧ drawCount cmds = 1
          ∧ swapCount cmds = 1
          ∧ s2.taaEnabled = true := by
  refine ⟨rfl, rfl, ?_⟩
  have hr : render sampleEnv directTaaStateNoComposite
      = renderDirect sampleDriver 800 600 1
          (processInput idleInput directTaaStateNoComposite) := by
    rw [render_eq, if_neg (by decide), if_neg (by decide)]
    rfl
  obtain ⟨texCur, texHist, sceneCmds, hcur, _, hscene, hswap, _, hmissing⟩ :=
    renderDirect_taa_frame sampleDriver 800 600 1
      (processInput idleInput directTaaStateNoComposite) { ID := 11 } rfl (by decide) rfl rfl
      ⟨rfl, rfl, by decide, by decide, by decide⟩ (Or.inl rfl)
  obtain ⟨s2, hrun, hlog, _, _, hon⟩ := hmissing (Or.inl rfl)
  have h8 : texCur = 8 := by
    have e : (processInput idleInput directTaaStateNoComposite).taaColor
        (processInput idleInput directTaaStateNoComposite).taaIndex = some 8 := rfl
    rw [hcur] at e
    exact Option.some.inj e
  have hdraws : ∀ b : GLBindings, ∃ d,
      b.draws (sceneCmds ++ [GLCall.swapBuffers, GLCall.pollEvents]) = [d]
        ∧ d.program = 11 ∧ d.framebuffer = 7 ∧ d.colorTexture = 8 := by
    intro b
    obtain ⟨d, hd, hp, hf, hc⟩ := hscene b
    refine ⟨d, ?_, hp, hf, hc.trans h8⟩
    rw [GLBindings.draws_append, hd, draws_present]
    rfl
  rw [processInput_glLog] at hlog
  refine ⟨s2, _, hr.trans hrun, hlog, hdraws, ?_, ?_, ?_, hon⟩
  · intro b d hd
    obtain ⟨d0, hd0, _, hf, _⟩ := hdraws b
    rw [hd0] at hd
    rw [List.mem_singleton.mp hd, hf]
    decide
  · obtain ⟨d0, hd0, _⟩ := hdraws GLBindings.initial
    rw [← GLBindings.draws_length _ GLBindings.initial, hd0]
    rfl
  · rw [swapCount_append, hswap]
    rfl

/-! ### Every path of a frame -/

/-- The temporal branch of the combined mode once `ensureTaaTargets` has returned: both passes
are drawn with the framebuffer object bound, then the composite stage runs. -/
theorem renderCombined_taa (gl : Driver) (w h : Int) (t : ℚ) (s s1 : Init) (ws co : Shader)
    (tex : Nat)
    (hws : s.watersky = some ws) (hco : s.cloudsOver = some co) (hw0 : ws.ID ≠ 0)
    (hc0 : co.ID ≠ 0) (hq : s.quad.isSome = true) (htaa : s.taaEnabled = true)
    (hens : ensureTaaTargets gl w h (incrementFrameCounter s) = (Outcome.returned, s1))
    (htex : s1.taaColor s1.taaIndex = some tex) :
    ∃ jitter, passJitter true s1 = some jitter
      ∧ renderCombined gl w h t s
        = match renderTaaComposite gl w h (s1.emit
            ([GLCall.bindFramebuffer s1.taaFbo, GLCall.framebufferTexture2D tex,
                GLCall.viewport 0 0 w h] ++ disableAllCalls ++ ClearColorOnly
              ++ combinedCalls gl ws co w h t jitter s1 ++ [GLCall.bindFramebuffer 0])) with
          | some s3 => some (swapBuffersAndPollEvents s3)
          | none => none := by
  have hnone := isNone_of_isSome _ hq
  have htaa2 : (incrementFrameCounter s).taaEnabled = true := htaa
  obtain ⟨j, hj, hp⟩ := combinedPasses_eq gl ws co w h t true
    (s1.emit ([GLCall.bindFramebuffer s1.taaFbo, GLCall.framebufferTexture2D tex,
      GLCall.viewport 0 0 w h] ++ disableAllCalls ++ ClearColorOnly))
  refine ⟨j, hj, ?_⟩
  unfold renderCombined
  simp only [hws, hco, hw0, hc0, hnone, htaa2, hens, htex, hp, false_or, Bool.false_eq_true,
    if_false, not_true_eq_false]
  have hstate : ((s1.emit ([GLCall.bindFramebuffer s1.taaFbo, GLCall.framebufferTexture2D tex,
        GLCall.viewport 0 0 w h] ++ disableAllCalls ++ ClearColorOnly)).emit
      (combinedCalls gl ws co w h t j (s1.emit ([GLCall.bindFramebuffer s1.taaFbo,
        GLCall.framebufferTexture2D tex, GLCall.viewport 0 0 w h] ++ disableAllCalls
        ++ ClearColorOnly)))).emit [GLCall.bindFramebuffer 0]
      = s1.emit ([GLCall.bindFramebuffer s1.taaFbo, GLCall.framebufferTexture2D tex,
          GLCall.viewport 0 0 w h] ++ disableAllCalls ++ ClearColorOnly
          ++ combinedCalls gl ws co w h t j s1 ++ [GLCall.bindFramebuffer 0]) := by
    have e2 : combinedCalls gl ws co w h t j (s1.emit ([GLCall.bindFramebuffer s1.taaFbo,
        GLCall.framebufferTexture2D tex, GLCall.viewport 0 0 w h] ++ disableAllCalls
        ++ ClearColorOnly)) = combinedCalls gl ws co w h t j s1 := rfl
    rw [e2]
    simp only [emit_emit, List.append_assoc]
  rw [hstate]

theorem renderTaaComposite_total (gl : Driver) (w h : Int) (s : Init)
    (hidx : s.taaIndex = 0 ∨ s.taaIndex = 1) :
    ∃ s2, renderTaaComposite gl w h s = some s2 := by
  obtain ⟨texCur, texHist, hcur, hhist, _⟩ := taaColor_of_index s hidx
  cases hsh : s.taaShader with
  | none => exact ⟨s, by unfold renderTaaComposite; simp only [hsh]⟩
  | some sh =>
    by_cases hid : sh.ID = 0
    · exact ⟨s, by unfold renderTaaComposite; simp only [hsh, if_pos hid]⟩
    · exact ⟨_, renderTaaComposite_loaded gl w h s sh texCur texHist hsh hid hcur hhist⟩

theorem ensureTaaTargets_cases (gl : Driver) (w h : Int) (s : Init) :
    (ensureTaaTargets gl w h s = (Outcome.returned, (ensureTaaTargets gl w h s).2))
      ∨ ∃ what, ensureTaaTargets gl w h s = (Outcome.thrown what, (ensureTaaTargets gl w h s).2) := by
  rcases hx : ensureTaaTargets gl w h s with ⟨o, s1⟩
  cases o with
  | returned => exact Or.inl rfl
  | thrown what => exact Or.inr ⟨what, rfl⟩

/-- A property that the building blocks of a frame keep is kept by the direct mode, which
returns from every state with `taaIndex` in `{0, 1}`. -/
theorem renderDirect_invariant (P : Init → Prop)
    (hidx : ∀ s, P s → s.taaIndex = 0 ∨ s.taaIndex = 1)
    (hemit : ∀ s l, P s → P (s.emit l))
    (hincr : ∀ s, P s → P (incrementFrameCounter s))
    (hdis : ∀ s, P s → P (disableTaa s))
    (hens : ∀ gl w h s, P s → P (ensureTaaTargets gl w h s).2)
    (hcomp : ∀ gl w h s s2, P s → renderTaaComposite gl w h s = some s2 → P s2)
    (gl : Driver) (w h : Int) (t : ℚ) (s : Init) (hP : P s) :
    ∃ s2, renderDirect gl w h t s = some s2 ∧ P s2 := by
  cases hsh : selectedShader s with
  | none => exact ⟨_, renderDirect_missing gl w h t s (Or.inl hsh), hemit _ _ hP⟩
  | some sh =>
    by_cases hid : sh.ID = 0
    · exact ⟨_, renderDirect_missing gl w h t s (Or.inr (Or.inl ⟨sh, hsh, hid⟩)), hemit _ _ hP⟩
    cases hq : s.quad with
    | none => exact ⟨_, renderDirect_missing gl w h t s (Or.inr (Or.inr hq)), hemit _ _ hP⟩
    | some q =>
      have hqs : s.quad.isSome = true := by rw [hq]; rfl
      cases htaa : s.taaEnabled with
      | false =>
        exact ⟨_, renderDirect_off gl w h t s sh hsh hid hqs htaa,
          hemit _ _ (hemit _ _ (hincr _ hP))⟩
      | true =>
        have hP1 := hens gl w h s hP
        rcases ensureTaaTargets_cases gl w h s with hret | ⟨what, hthr⟩
        · obtain ⟨tex, _, htex, _⟩ := taaColor_of_index _ (hidx _ hP1)
          obtain ⟨j, _, hrd⟩ := renderDirect_taa gl w h t s _ sh tex hsh hid hqs htaa hret htex
          have hPx := hemit _ ([GLCall.bindFramebuffer (ensureTaaTargets gl w h s).2.taaFbo,
            GLCall.framebufferTexture2D tex, GLCall.bindFramebuffer 0]
            ++ sceneCalls gl (ensureTaaTargets gl w h s).2.taaFbo sh w h t j
              (ensureTaaTargets gl w h s).2) (hincr _ hP1)
          obtain ⟨s4, h4⟩ := renderTaaComposite_total gl w h _ (hidx _ hPx)
          rw [h4] at hrd
          exact ⟨_, hrd, hemit _ _ (hcomp gl w h _ s4 hPx h4)⟩
        · exact ⟨_, renderDirect_thrown gl w h t s _ sh what hsh hid hqs htaa hthr,
            hemit _ _ (hdis _ hP1)⟩

/-- The same for the combined mode. -/
theorem renderCombined_invariant (P : Init → Prop)
    (hidx : ∀ s, P s → s.taaIndex = 0 ∨ s.taaIndex = 1)
    (hemit : ∀ s l, P s → P (s.emit l))
    (hincr : ∀ s, P s → P (incrementFrameCounter s))
    (hdis : ∀ s, P s → P (disableTaa s))
    (hens : ∀ gl w h s, P s → P (ensureTaaTargets gl w h s).2)
    (hcomp : ∀ gl w h s s2, P s → renderTaaComposite gl w h s = some s2 → P s2)
    (gl : Driver) (w h : Int) (t : ℚ) (s : Init) (hP : P s) :
    ∃ s2, renderCombined gl w h t s = some s2 ∧ P s2 := by
  cases hws : s.watersky with
  | none => exact ⟨_, renderCombined_missing gl w h t s (Or.inl hws), hemit _ _ hP⟩
  | some ws =>
    by_cases hw0 : ws.ID = 0
    · exact ⟨_, renderCombined_missing gl w h t s (Or.inr (Or.inl ⟨ws, hws, hw0⟩)),
        hemit _ _ hP⟩
    cases hco : s.cloudsOver with
    | none =>
      exact ⟨_, renderCombined_missing gl w h t s (Or.inr (Or.inr (Or.inl hco))), hemit _ _ hP⟩
    | some co =>
      by_cases hc0 : co.ID = 0
      · exact ⟨_, renderCombined_missing gl w h t s
          (Or.inr (Or.inr (Or.inr (Or.inl ⟨co, hco, hc0⟩)))), hemit _ _ hP⟩
      cases hq : s.quad with
      | none =>
        exact ⟨_, renderCombined_missing gl w h t s (Or.inr (Or.inr (Or.inr (Or.inr hq)))),
          hemit _ _ hP⟩
      | some q =>
        have hqs : s.quad.isSome = true := by rw [hq]; rfl
        cases htaa : s.taaEnabled with
        | false =>
          exact ⟨_, renderCombined_off gl w h t s ws co hws hco hw0 hc0 hqs htaa,
            hemit _ _ (hemit _ _ (hincr _ hP))⟩
        | true =>
          have hP1 := hens gl w h _ (hincr _ hP)
          rcases ensureTaaTargets_cases gl w h (incrementFrameCounter s) with
            hret | ⟨what, hthr⟩
          · obtain ⟨tex, _, htex, _⟩ := taaColor_of_index _ (hidx _ hP1)
            obtain ⟨j, _, hrd⟩ := renderCombined_taa gl w h t s _ ws co tex hws hco hw0 hc0
              hqs htaa hret htex
            have hPx := hemit _ ([GLCall.bindFramebuffer
                (ensureTaaTargets gl w h (incrementFrameCounter s)).2.taaFbo,
              GLCall.framebufferTexture2D tex, GLCall.viewport 0 0 w h] ++ disableAllCalls
              ++ ClearColorOnly ++ combinedCalls gl ws co w h t j
                (ensureTaaTargets gl w h (incrementFrameCounter s)).2
              ++ [GLCall.bindFramebuffer 0]) hP1
            obtain ⟨s4, h4⟩ := renderTaaComposite_total gl w h _ (hidx _ hPx)
            rw [h4] at hrd
            exact ⟨_, hrd, hemit _ _ (hcomp gl w h _ s4 hPx h4)⟩
          · exact ⟨_, renderCombined_thrown gl w h t s _ ws co what hws hco hw0 hc0 hqs htaa
              hthr, hemit _ _ (hdis _ hP1)⟩

/-- The same for `render`: it returns from every state with `taaIndex` in `{0, 1}`. -/
theorem render_invariant (P : Init → Prop)
    (hidx : ∀ s, P s → s.taaIndex = 0 ∨ s.taaIndex = 1)
    (hemit : ∀ s l, P s → P (s.emit l))
    (hincr : ∀ s, P s → P (incrementFrameCounter s))
    (hdis : ∀ s, P s → P (disableTaa s))
    (hens : ∀ gl w h s, P s → P (ensureTaaTargets gl w h s).2)
    (hcomp : ∀ gl w h s s2, P s → renderTaaComposite gl w h s = some s2 → P s2)
    (hinput : ∀ inp s, P s → P (processInput inp s))
    (env : FrameEnv) (s : Init) (hP : P s) :
    ∃ s2, render env s = some s2 ∧ P s2 := by
  rw [render_eq]
  have hPp := hinput env.input s hP
  by_cases hsize : env.framebufferSize.1 ≤ 0 ∨ env.framebufferSize.2 ≤ 0
  · rw [if_pos hsize]
    exact ⟨_, rfl, hemit _ _ hPp⟩
  · rw [if_neg hsize]
    by_cases hmode : (processInput env.input s).activeShader = 8
    · rw [if_pos hmode]
      exact renderCombined_invariant P hidx hemit hincr hdis hens hcomp _ _ _ _ _ hPp
    · rw [if_neg hmode]
      exact renderDirect_invariant P hidx hemit hincr hdis hens hcomp _ _ _ _ _ hPp

/-! ### Invariants of the reachable states -/

theorem edgeKey_invariant (P : Init → Prop) (hprev : ∀ s p, P s → P { s with prevKeys := p })
    (inp : Input) (key : Int) (onPress : Init → Init) (hpress : ∀ s, P s → P (onPress s))
    (s : Init) (hP : P s) : P (edgeKey inp key onPress s) := by
  unfold edgeKey
  split
  · apply hprev
    split
    · exact hpress s hP
    · exact hP
  · exact hP

theorem moveCamera_invariant (P : Init → Prop) (hcam : ∀ s c, P s → P { s with camera := c })
    (inp : Input) (key : Int) (plus : Bool) (dir : Vec3) (speed : ℚ) (s : Init) (hP : P s) :
    P (moveCamera inp key plus dir speed s) := by
  unfold moveCamera
  split
  · exact hcam _ _ hP
  · exact hP

theorem processMovement_invariant (P : Init → Prop)
    (hcam : ∀ s c, P s → P { s with camera := c })
    (htime : ∀ s d l, P s → P { s with deltaTime := d, lastFrame := l })
    (hclose : ∀ s b, P s → P { s with shouldClose := b })
    (inp : Input) (s : Init) (hP : P s) : P (processMovement inp s) := by
  unfold processMovement
  simp only
  split
  · apply hclose
    repeat apply moveCamera_invariant P hcam
    exact htime _ _ _ hP
  · repeat apply moveCamera_invariant P hcam
    exact htime _ _ _ hP

/-- A property kept by the bookkeeping of `processInput` and by each key handler is kept by
`processInput`. -/
theorem processInput_invariant (P : Init → Prop)
    (hprev : ∀ s p, P s → P { s with prevKeys := p })
    (hcam : ∀ s c, P s → P { s with camera := c })
    (htime : ∀ s d l, P s → P { s with deltaTime := d, lastFrame := l })
    (hclose : ∀ s b, P s → P { s with shouldClose := b })
    (hshader : ∀ n s, P s → P (onShaderKey n s))
    (htoggle : ∀ s, P s → P (onToggleTaa s))
    (hleft : ∀ s, P s → P (onLeftBracket s))
    (hright : ∀ s, P s → P (onRightBracket s))
    (hadd : ∀ s, P s → P (onKpAdd s))
    (hsub : ∀ s, P s → P (onKpSubtract s))
    (inp : Input) (s : Init) (hP : P s) : P (processInput inp s) := by
  unfold processInput
  exact edgeKey_invariant P hprev inp _ _ hsub _
    (edgeKey_invariant P hprev inp _ _ hadd _
    (edgeKey_invariant P hprev inp _ _ hright _
    (edgeKey_invariant P hprev inp _ _ hleft _
    (edgeKey_invariant P hprev inp _ _ htoggle _
    (edgeKey_invariant P hprev inp _ _ (hshader 8) _
    (edgeKey_invariant P hprev inp _ _ (hshader 7) _
    (edgeKey_invariant P hprev inp _ _ (hshader 6) _
    (edgeKey_invariant P hprev inp _ _ (hshader 5) _
    (edgeKey_invariant P hprev inp _ _ (hshader 4) _
    (edgeKey_invariant P hprev inp _ _ (hshader 3) _
    (edgeKey_invariant P hprev inp _ _ (hshader 2) _
    (edgeKey_invariant P hprev inp _ _ (hshader 1) _
    (processMovement_invariant P hcam htime hclose inp s hP)))))))))))))

/-- What `ensureTaaTargets` leaves: the state as it was, or a state with `taaIndex = 0` that
differs from it in the render-target fields, the history flag and the command record only. -/
theorem ensureTaaTargets_state (gl : Driver) (w h : Int) (s : Init) :
    (ensureTaaTargets gl w h s).2 = s
      ∨ ∃ fbo c0 c1 tw th log, (ensureTaaTargets gl w h s).2
          = { s with taaFbo := fbo, taaColor0 := c0, taaColor1 := c1, taaW := tw, taaH := th,
                     taaHistoryValid := false, taaIndex := 0, glLog := log } := by
  by_cases hpath : s.taaW = w ∧ s.taaH = h ∧ s.taaFbo ≠ 0 ∧ s.taaColor0 ≠ 0 ∧ s.taaColor1 ≠ 0
  · left
    rw [ensureTaaTargets_noop gl w h s hpath]
  · right
    by_cases hok : gl.glCheckFramebufferStatus = GL_FRAMEBUFFER_COMPLETE
    · rw [ensureTaaTargets_created gl w h s hok hpath]
      exact ⟨_, _, _, _, _, _, rfl⟩
    · rw [ensureTaaTargets_thrown gl w h s hok hpath]
      exact ⟨_, _, _, _, _, _, rfl⟩

/-- What `renderTaaComposite` leaves when it returns: the state as it was, or the state with
a valid history, the index `1 - taaIndex` and a longer command record. -/
theorem renderTaaComposite_state (gl : Driver) (w h : Int) (s s2 : Init)
    (hrun : renderTaaComposite gl w h s = some s2) :
    s2 = s ∨ ∃ log, s2 = { s with taaHistoryValid := true, taaIndex := 1 - s.taaIndex,
                                  glLog := log } := by
  rcases Option.eq_none_or_eq_some s.taaShader with hsh | ⟨sh, hsh⟩
  · unfold renderTaaComposite at hrun
    simp only [hsh] at hrun
    exact Or.inl (Option.some.inj hrun).symm
  · by_cases hid : sh.ID = 0
    · unfold renderTaaComposite at hrun
      simp only [hsh, if_pos hid] at hrun
      exact Or.inl (Option.some.inj hrun).symm
    · rcases Option.eq_none_or_eq_some (s.taaColor s.taaIndex) with hc | ⟨texCur, hc⟩
      · unfold renderTaaComposite at hrun
        simp [hsh, hid, hc] at hrun
      · rcases Option.eq_none_or_eq_some (s.taaColor (1 - s.taaIndex)) with hh | ⟨texHist, hh⟩
        · unfold renderTaaComposite at hrun
          simp [hsh, hid, hc, hh] at hrun
        · rw [renderTaaComposite_loaded gl w h s sh texCur texHist hsh hid hc hh] at hrun
          exact Or.inr ⟨_, (Option.some.inj hrun).symm⟩

/-- A property of the fields that the render-target manager, the composite stage and the frame
bookkeeping do not write, other than through `taaIndex ∈ {0, 1}`, holds in every reachable
state once the constructor establishes it and `processInput` keeps it. -/
theorem reachable_induction_fields (P : Init → Prop)
    (hctor : P Init.ctor)
    (hidx : ∀ s, P s → s.taaIndex = 0 ∨ s.taaIndex = 1)
    (hemit : ∀ s l, P s → P (s.emit l))
    (hincr : ∀ s, P s → P (incrementFrameCounter s))
    (hdis : ∀ s, P s → P (disableTaa s))
    (hinit : ∀ l s, P s → P ( Init.initialize l s))
    (hmouse : ∀ s c, P s → P { s with camera := c })
    (hdestroy : ∀ s, P s → P (destroyTaaTargets s))
    (hens : ∀ gl w h s, P s → P (ensureTaaTargets gl w h s).2)
    (hcomp : ∀ gl w h s s2, P s → renderTaaComposite gl w h s = some s2 → P s2)
    (hinput : ∀ inp s, P s → P (processInput inp s))
    (s : Init) (hs : Reachable s) : P s := by
  induction hs with
  | ctor => exact hctor
  | initialized l _ ih => exact hinit l _ ih
  | processInput inp _ ih => exact hinput inp _ ih
  | render env _ hrun ih =>
    obtain ⟨s3, h3, hP3⟩ := render_invariant P hidx hemit hincr hdis hens hcomp hinput env _ ih
    rw [hrun] at h3
    cases h3
    exact hP3
  | swapBuffersAndPollEvents _ ih => exact hemit _ _ ih
  | mouse c _ ih => exact hmouse _ c ih
  | destroyTaaTargets _ ih => exact hdestroy _ ih
  | ensureTaaTargets gl w h _ ih => exact hens gl w h _ ih
  | renderTaaComposite gl w h _ hrun ih => exact hcomp gl w h _ _ ih hrun

/-- An integer between `0` and `2^24` is a binary32 number. -/
theorem f32_of_int_range (x : ℚ) (hx : ∃ k : Int, x = k) (h0 : 0 ≤ x) (h1 : x ≤ 16777216) :
    f32 x = x := by
  obtain ⟨k, rfl⟩ := hx
  have h0k : (0 : Int) ≤ k := by exact_mod_cast h0
  have h1k : k ≤ 16777216 := by exact_mod_cast h1
  exact f32_intCast k (by rw [abs_of_nonneg h0k]; norm_num; exact h1k)

/-- A number that rounds to less than `2^24` is less than `2^24`. -/
theorem lt_of_f32_lt (x : ℚ) (h : f32 x < 16777216) : x < 16777216 := by
  by_contra hge
  push_neg at hge
  have := le_f32_of_le x 16777216 ⟨1, 24, by norm_num, by norm_num⟩ hge
  linarith

theorem f32_isInt (x : ℚ) (hx : ∃ k : Int, x = k) : ∃ k : Int, f32 x = k := by
  obtain ⟨k, rfl⟩ := hx
  exact f32_intCast_isInt k

theorem max_isInt (x y : ℚ) (hx : ∃ k : Int, x = k) (hy : ∃ k : Int, y = k) :
    ∃ k : Int, max x y = k := by
  rcases max_choice x y with e | e <;> rw [e]
  · exact hx
  · exact hy

/-- The keypad `+` handler keeps: both heights are integers, `0 ≤ cloudBottom ≤ cloudTop`, and
`cloudBottom + 500 ≤ cloudTop` when `cloudTop < 2^24`. -/
theorem onKpAdd_clouds (cb ct : ℚ)
    (h : 0 ≤ cb ∧ cb ≤ ct ∧ (∃ k : Int, cb = k) ∧ (∃ k : Int, ct = k)
      ∧ (ct < 16777216 → cb + 500 ≤ ct)) :
    0 ≤ f32 (cb + 200) ∧ f32 (cb + 200) ≤ f32 (ct + 200)
      ∧ (∃ k : Int, f32 (cb + 200) = k) ∧ (∃ k : Int, f32 (ct + 200) = k)
      ∧ (f32 (ct + 200) < 16777216 → f32 (cb + 200) + 500 ≤ f32 (ct + 200)) := by
  obtain ⟨h0, hle, ⟨kb, hb⟩, ⟨kt, ht⟩, hgap⟩ := h
  have ib : ∃ k : Int, cb + 200 = k := ⟨kb + 200, by rw [hb]; push_cast; rfl⟩
  have it : ∃ k : Int, ct + 200 = k := ⟨kt + 200, by rw [ht]; push_cast; rfl⟩
  refine ⟨f32_nonneg _ (by linarith), f32_mono _ _ (by linarith), f32_isInt _ ib,
    f32_isInt _ it, fun hlt => ?_⟩
  have hct := lt_of_f32_lt _ hlt
  have hg := hgap (by linarith)
  rw [f32_of_int_range _ it (by linarith) (by linarith),
    f32_of_int_range _ ib (by linarith) (by linarith)]
  linarith

/-- The keypad `-` handler establishes the same from integer heights. -/
theorem onKpSubtract_clouds (cb ct : ℚ) (hb : ∃ k : Int, cb = k) (ht : ∃ k : Int, ct = k) :
    0 ≤ max 0 (f32 (cb - 200))
      ∧ max 0 (f32 (cb - 200)) ≤ max (f32 (max 0 (f32 (cb - 200)) + 500)) (f32 (ct - 200))
      ∧ (∃ k : Int, max 0 (f32 (cb - 200)) = k)
      ∧ (∃ k : Int, max (f32 (max 0 (f32 (cb - 200)) + 500)) (f32 (ct - 200)) = k)
      ∧ (max (f32 (max 0 (f32 (cb - 200)) + 500)) (f32 (ct - 200)) < 16777216 →
          max 0 (f32 (cb - 200)) + 500
            ≤ max (f32 (max 0 (f32 (cb - 200)) + 500)) (f32 (ct - 200))) := by
  obtain ⟨kb, hkb⟩ := hb
  obtain ⟨kt, hkt⟩ := ht
  have i1 : ∃ k : Int, max 0 (f32 (cb - 200)) = k :=
    max_isInt _ _ ⟨0, by norm_num⟩ (f32_isInt _ ⟨kb - 200, by rw [hkb]; push_cast; rfl⟩)
  have i2 : ∃ k : Int, max 0 (f32 (cb - 200)) + 500 = k := by
    obtain ⟨k, hk⟩ := i1
    exact ⟨k + 500, by rw [hk]; push_cast; rfl⟩
  have i3 : ∃ k : Int, f32 (ct - 200) = k :=
    f32_isInt _ ⟨kt - 200, by rw [hkt]; push_cast; rfl⟩
  have hrep : f32 (max 0 (f32 (cb - 200))) = max 0 (f32 (cb - 200)) := by
    rcases max_choice 0 (f32 (cb - 200)) with e | e <;> rw [e]
    · exact f32_zero
    · exact f32_idem _
  have h0 : 0 ≤ max 0 (f32 (cb - 200)) := le_max_left _ _
  refine ⟨h0, ?_, i1, max_isInt _ _ (f32_isInt _ i2) i3, fun hlt => ?_⟩
  · refine le_trans ?_ (le_max_left _ _)
    calc max 0 (f32 (cb - 200)) = f32 (max 0 (f32 (cb - 200))) := hrep.symm
      _ ≤ f32 (max 0 (f32 (cb - 200)) + 500) := f32_mono _ _ (by linarith)
  · have h1 : f32 (max 0 (f32 (cb - 200)) + 500) < 16777216 :=
      lt_of_le_of_lt (le_max_left _ _) hlt
    have h2 := lt_of_f32_lt _ h1
    calc max 0 (f32 (cb - 200)) + 500
        = f32 (max 0 (f32 (cb - 200)) + 500) :=
          (f32_of_int_range _ i2 (by linarith) (by linarith)).symm
      _ ≤ _ := le_max_left _ _

/-- The three invariants of the frame state, together: `taaIndex` is `0` or `1`; the history
weight lies between `0` and `0.99f`; the cloud heights are integers with
`0 ≤ cloudBottom ≤ cloudTop`, and `cloudBottom + 500 ≤ cloudTop` when `cloudTop < 2^24`. -/
theorem reachable_invariants (s : Init) (hs : Reachable s) :
    (s.taaIndex = 0 ∨ s.taaIndex = 1)
      ∧ (0 ≤ s.taaHistoryWeight ∧ s.taaHistoryWeight ≤ f32 (99 / 100))
      ∧ (0 ≤ s.cloudBottom ∧ s.cloudBottom ≤ s.cloudTop
        ∧ (∃ k : Int, s.cloudBottom = k) ∧ (∃ k : Int, s.cloudTop = k)
        ∧ (s.cloudTop < 16777216 → s.cloudBottom + 500 ≤ s.cloudTop)) := by
  have h99 : (0 : ℚ) ≤ f32 (99 / 100) := f32_nonneg _ (by norm_num)
  refine reachable_induction_fields
    (fun s => (s.taaIndex = 0 ∨ s.taaIndex = 1)
      ∧ (0 ≤ s.taaHistoryWeight ∧ s.taaHistoryWeight ≤ f32 (99 / 100))
      ∧ (0 ≤ s.cloudBottom ∧ s.cloudBottom ≤ s.cloudTop
        ∧ (∃ k : Int, s.cloudBottom = k) ∧ (∃ k : Int, s.cloudTop = k)
        ∧ (s.cloudTop < 16777216 → s.cloudBottom + 500 ≤ s.cloudTop)))
    ?_ (fun _ h => h.1) (fun _ _ h => h) (fun _ h => h) (fun _ h => h) ?_ (fun _ _ h => h) ?_
    ?_ ?_ ?_ s hs
  · refine ⟨Or.inl rfl, ⟨f32_nonneg _ (by norm_num), f32_mono _ _ (by norm_num)⟩, ?_⟩
    show (0 : ℚ) ≤ 1500 ∧ (1500 : ℚ) ≤ 9000 ∧ (∃ k : Int, (1500 : ℚ) = k)
      ∧ (∃ k : Int, (9000 : ℚ) = k) ∧ ((9000 : ℚ) < 16777216 → (1500 : ℚ) + 500 ≤ 9000)
    exact ⟨by norm_num, by norm_num, ⟨1500, by norm_num⟩, ⟨9000, by norm_num⟩,
      fun _ => by norm_num⟩
  · intro l s h
    exact ⟨Or.inl rfl, h.2.1, h.2.2⟩
  · intro s h
    exact ⟨Or.inl rfl, h.2.1, h.2.2⟩
  · intro gl w h s hP
    rcases ensureTaaTargets_state gl w h s with e | ⟨_, _, _, _, _, _, e⟩
    · rw [e]; exact hP
    · rw [e]; exact ⟨Or.inl rfl, hP.2.1, hP.2.2⟩
  · intro gl w h s s2 hP hrun
    rcases renderTaaComposite_state gl w h s s2 hrun with e | ⟨_, e⟩
    · rw [e]; exact hP
    · rw [e]
      refine ⟨?_, hP.2.1, hP.2.2⟩
      show (1 - s.taaIndex = 0 ∨ 1 - s.taaIndex = 1)
      rcases hP.1 with h0 | h1
      · right; omega
      · left; omega
  · intro inp s hP
    refine processInput_invariant
      (fun s => (s.taaIndex = 0 ∨ s.taaIndex = 1)
        ∧ (0 ≤ s.taaHistoryWeight ∧ s.taaHistoryWeight ≤ f32 (99 / 100))
        ∧ (0 ≤ s.cloudBottom ∧ s.cloudBottom ≤ s.cloudTop
          ∧ (∃ k : Int, s.cloudBottom = k) ∧ (∃ k : Int, s.cloudTop = k)
          ∧ (s.cloudTop < 16777216 → s.cloudBottom + 500 ≤ s.cloudTop)))
      (fun _ _ h => h) (fun _ _ h => h) (fun _ _ _ h => h)
      (fun _ _ h => h) (fun _ _ h => h) (fun _ h => h) ?_ ?_ ?_ ?_ inp s hP
    · intro s h
      refine ⟨h.1, ⟨?_, ?_⟩, h.2.2⟩
      · show 0 ≤ clamp (f32 (s.taaHistoryWeight - f32 (2 / 100))) 0 (f32 (99 / 100))
        unfold clamp
        exact le_min (le_max_right _ _) h99
      · show clamp (f32 (s.taaHistoryWeight - f32 (2 / 100))) 0 (f32 (99 / 100))
          ≤ f32 (99 / 100)
        exact min_le_right _ _
    · intro s h
      refine ⟨h.1, ⟨?_, ?_⟩, h.2.2⟩
      · show 0 ≤ clamp (f32 (s.taaHistoryWeight + f32 (2 / 100))) 0 (f32 (99 / 100))
        unfold clamp
        exact le_min (le_max_right _ _) h99
      · show clamp (f32 (s.taaHistoryWeight + f32 (2 / 100))) 0 (f32 (99 / 100))
          ≤ f32 (99 / 100)
        exact min_le_right _ _
    · intro s h
      exact ⟨h.1, h.2.1, onKpAdd_clouds s.cloudBottom s.cloudTop h.2.2⟩
    · intro s h
      exact ⟨h.1, h.2.1, onKpSubtract_clouds s.cloudBottom s.cloudTop h.2.2.2.2.1
        h.2.2.2.2.2.1⟩

theorem processInput_taaHistoryWeight (inp : Input) (s : Init) :
    (processInput inp s).taaHistoryWeight
      = (if risingEdge inp GLFW_KEY_RIGHT_BRACKET s then
          fun x : ℚ => clamp (f32 (x + f32 (2 / 100))) 0 (f32 (99 / 100))
        else id)
        ((if risingEdge inp GLFW_KEY_LEFT_BRACKET s then
          fun x : ℚ => clamp (f32 (x - f32 (2 / 100))) 0 (f32 (99 / 100))
        else id) s.taaHistoryWeight) := by
  unfold processInput
  rw [edgeKey_preserve (fun s => s.taaHistoryWeight) (fun _ _ => rfl) inp _ onKpSubtract _
      (fun _ => rfl),
    edgeKey_preserve (fun s => s.taaHistoryWeight) (fun _ _ => rfl) inp _ onKpAdd _
      (fun _ => rfl),
    edgeKey_apply (fun s => s.taaHistoryWeight) (fun _ _ => rfl) inp GLFW_KEY_RIGHT_BRACKET
      onRightBracket _ (by decide),
    risingEdge_edgeKey_other inp _ onLeftBracket _ (fun _ => rfl) _ (by decide),
    risingEdge_edgeKey_other inp _ onToggleTaa _ (fun _ => rfl) _ (by decide),
    risingEdge_shaderKeys inp _ GLFW_KEY_RIGHT_BRACKET (by decide), risingEdge_processMovement]
  simp only [onRightBracket]
  rw [edgeKey_apply (fun s => s.taaHistoryWeight) (fun _ _ => rfl) inp GLFW_KEY_LEFT_BRACKET
      onLeftBracket _ (by decide),
    risingEdge_edgeKey_other inp _ onToggleTaa _ (fun _ => rfl) _ (by decide),
    risingEdge_shaderKeys inp _ GLFW_KEY_LEFT_BRACKET (by decide), risingEdge_processMovement]
  simp only [onLeftBracket]
  rw [edgeKey_preserve (fun s => s.taaHistoryWeight) (fun _ _ => rfl) inp _ onToggleTaa _
      (fun _ => rfl),
    shaderKeys_apply (fun s => s.taaHistoryWeight) (fun _ _ => rfl) (fun _ _ => rfl),
    processMovement_apply (fun s => s.taaHistoryWeight) (fun _ _ => rfl) (fun _ _ _ => rfl)
      (fun _ _ => rfl)]
  by_cases h1 : risingEdge inp GLFW_KEY_RIGHT_BRACKET s = true <;>
    by_cases h2 : risingEdge inp GLFW_KEY_LEFT_BRACKET s = true <;> simp [h1, h2]

theorem processInput_taaIndex (inp : Input) (s : Init) :
    (processInput inp s).taaIndex = s.taaIndex :=
  processInput_apply (fun s => s.taaIndex) (fun _ _ => rfl) (fun _ _ => rfl)
    (fun _ _ _ => rfl) (fun _ _ => rfl) (fun _ _ => rfl) (fun _ => rfl) (fun _ => rfl)
    (fun _ => rfl) (fun _ => rfl) (fun _ => rfl) inp s

theorem ensureTaaTargets_taaIndex (gl : Driver) (w h : Int) (s : Init) :
    (ensureTaaTargets gl w h s).2.taaIndex = s.taaIndex
      ∨ (ensureTaaTargets gl w h s).2.taaIndex = 0 := by
  rcases ensureTaaTargets_state gl w h s with e | ⟨_, _, _, _, _, _, e⟩
  · exact Or.inl (by rw [e])
  · exact Or.inr (by rw [e])

/-- A quantity that the building blocks of a frame leave alone has, after `render`, the value
input processing gave it; `render` returns from every state with `taaIndex` in `{0, 1}`. -/
theorem render_fields {α : Type} (g : Init → α)
    (hemit : ∀ s l, g (s.emit l) = g s)
    (hincr : ∀ s, g (incrementFrameCounter s) = g s)
    (hdis : ∀ s, g (disableTaa s) = g s)
    (hens : ∀ gl w h s, g (ensureTaaTargets gl w h s).2 = g s)
    (hcomp : ∀ gl w h s s2, renderTaaComposite gl w h s = some s2 → g s2 = g s)
    (env : FrameEnv) (s : Init) (hidx : s.taaIndex = 0 ∨ s.taaIndex = 1) :
    ∃ s2, render env s = some s2 ∧ g s2 = g (processInput env.input s) := by
  have hP : ((processInput env.input s).taaIndex = 0 ∨ (processInput env.input s).taaIndex = 1)
      ∧ g (processInput env.input s) = g (processInput env.input s) :=
    ⟨by rw [processInput_taaIndex]; exact hidx, rfl⟩
  have key : ∀ x : Init, ((x.taaIndex = 0 ∨ x.taaIndex = 1)
        ∧ g x = g (processInput env.input s)) →
      (∀ gl w h, (((ensureTaaTargets gl w h x).2.taaIndex = 0
          ∨ (ensureTaaTargets gl w h x).2.taaIndex = 1)
          ∧ g (ensureTaaTargets gl w h x).2 = g (processInput env.input s)))
        ∧ ∀ gl w h x2, renderTaaComposite gl w h x = some x2 →
          ((x2.taaIndex = 0 ∨ x2.taaIndex = 1) ∧ g x2 = g (processInput env.input s)) := by
    intro x hx
    constructor
    · intro gl w h
      refine ⟨?_, (hens gl w h x).trans hx.2⟩
      rcases ensureTaaTargets_taaIndex gl w h x with e | e
      · rw [e]; exact hx.1
      · exact Or.inl e
    · intro gl w h x2 hrun
      refine ⟨?_, (hcomp gl w h x x2 hrun).trans hx.2⟩
      rcases renderTaaComposite_state gl w h x x2 hrun with e | ⟨_, e⟩
      · rw [e]; exact hx.1
      · rw [e]
        show (1 - x.taaIndex = 0 ∨ 1 - x.taaIndex = 1)
        rcases hx.1 with h0 | h1
        · right; omega
        · left; omega
  rw [render_eq]
  by_cases hsize : env.framebufferSize.1 ≤ 0 ∨ env.framebufferSize.2 ≤ 0
  · rw [if_pos hsize]
    exact ⟨_, rfl, hemit _ _⟩
  · rw [if_neg hsize]
    by_cases hmode : (processInput env.input s).activeShader = 8
    · rw [if_pos hmode]
      obtain ⟨s2, h2, hP2⟩ := renderCombined_invariant
        (fun x => (x.taaIndex = 0 ∨ x.taaIndex = 1) ∧ g x = g (processInput env.input s))
        (fun _ h => h.1) (fun x l h => ⟨h.1, (hemit x l).trans h.2⟩)
        (fun x h => ⟨h.1, (hincr x).trans h.2⟩) (fun x h => ⟨h.1, (hdis x).trans h.2⟩)
        (fun gl w h x hx => (key x hx).1 gl w h)
        (fun gl w h x x2 hx hrun => (key x hx).2 gl w h x2 hrun)
        env.gl env.framebufferSize.1 env.framebufferSize.2 env.time _ hP
      exact ⟨s2, h2, hP2.2⟩
    · rw [if_neg hmode]
      obtain ⟨s2, h2, hP2⟩ := renderDirect_invariant
        (fun x => (x.taaIndex = 0 ∨ x.taaIndex = 1) ∧ g x = g (processInput env.input s))
        (fun _ h => h.1) (fun x l h => ⟨h.1, (hemit x l).trans h.2⟩)
        (fun x h => ⟨h.1, (hincr x).trans h.2⟩) (fun x h => ⟨h.1, (hdis x).trans h.2⟩)
        (fun gl w h x hx => (key x hx).1 gl w h)
        (fun gl w h x x2 hx hrun => (key x hx).2 gl w h x2 hrun)
        env.gl env.framebufferSize.1 env.framebufferSize.2 env.time _ hP
      exact ⟨s2, h2, hP2.2⟩

theorem ensureTaaTargets_keeps {α : Type} (g : Init → α)
    (hg : ∀ s fbo c0 c1 tw th log,
      g { s with taaFbo := fbo, taaColor0 := c0, taaColor1 := c1, taaW := tw, taaH := th,
                 taaHistoryValid := false, taaIndex := 0, glLog := log } = g s)
    (gl : Driver) (w h : Int) (s : Init) : g (ensureTaaTargets gl w h s).2 = g s := by
  rcases ensureTaaTargets_state gl w h s with e | ⟨_, _, _, _, _, _, e⟩
  · rw [e]
  · rw [e, hg]

theorem renderTaaComposite_keeps {α : Type} (g : Init → α)
    (hg : ∀ s i log, g { s with taaHistoryValid := true, taaIndex := i, glLog := log } = g s)
    (gl : Driver) (w h : Int) (s s2 : Init) (hrun : renderTaaComposite gl w h s = some s2) :
    g s2 = g s := by
  rcases renderTaaComposite_state gl w h s s2 hrun with e | ⟨_, e⟩
  · rw [e]
  · rw [e, hg]

/-! ### Key presses -/

theorem reachable_pressKeys (key : Int) (n : Nat) (s : Init) (hs : Reachable s) :
    Reachable (pressKeys key n s) := by
  induction n with
  | zero => exact hs
  | succ n ih => exact Reachable.processInput _ (Reachable.processInput _ ih)

theorem mem_prevKeys_processInput_KP_SUBTRACT (inp : Input) (s : Init) :
    GLFW_KEY_KP_SUBTRACT ∈ (processInput inp s).prevKeys
      ↔ inp.keyDown GLFW_KEY_KP_SUBTRACT = true := by
  unfold processInput
  rw [mem_prevKeys_edgeKey inp _ onKpSubtract _ (by decide) (fun _ => rfl), if_pos rfl]

theorem mem_prevKeys_processInput_KP_ADD (inp : Input) (s : Init) :
    GLFW_KEY_KP_ADD ∈ (processInput inp s).prevKeys ↔ inp.keyDown GLFW_KEY_KP_ADD = true := by
  unfold processInput
  rw [mem_prevKeys_edgeKey inp _ onKpSubtract _ (by decide) (fun _ => rfl), if_neg (by decide),
    mem_prevKeys_edgeKey inp _ onKpAdd _ (by decide) (fun _ => rfl), if_pos rfl]

theorem mem_prevKeys_processInput_RIGHT_BRACKET (inp : Input) (s : Init) :
    GLFW_KEY_RIGHT_BRACKET ∈ (processInput inp s).prevKeys
      ↔ inp.keyDown GLFW_KEY_RIGHT_BRACKET = true := by
  unfold processInput
  rw [mem_prevKeys_edgeKey inp _ onKpSubtract _ (by decide) (fun _ => rfl), if_neg (by decide),
    mem_prevKeys_edgeKey inp _ onKpAdd _ (by decide) (fun _ => rfl), if_neg (by decide),
    mem_prevKeys_edgeKey inp _ onRightBracket _ (by decide) (fun _ => rfl), if_pos rfl]

/-- A press of `]` after a release: the weight goes through the handler once. -/
theorem pressKey_right_bracket (s : Init) :
    (pressKey GLFW_KEY_RIGHT_BRACKET s).taaHistoryWeight
      = clamp (f32 (s.taaHistoryWeight + f32 (2 / 100))) 0 (f32 (99 / 100)) := by
  unfold pressKey
  have hidle : (processInput idleInput s).taaHistoryWeight = s.taaHistoryWeight :=
    processInput_taaHistoryWeight_of_no_bracket idleInput s
      (risingEdge_of_released _ _ _ rfl) (risingEdge_of_released _ _ _ rfl)
  have h1 : risingEdge (keyInput GLFW_KEY_RIGHT_BRACKET) GLFW_KEY_RIGHT_BRACKET
      (processInput idleInput s) = true :=
    risingEdge_of_pressed _ _ _ (by decide)
      (by rw [mem_prevKeys_processInput_RIGHT_BRACKET]; decide)
  have h2 : risingEdge (keyInput GLFW_KEY_RIGHT_BRACKET) GLFW_KEY_LEFT_BRACKET
      (processInput idleInput s) = false := risingEdge_of_released _ _ _ (by decide)
  rw [processInput_taaHistoryWeight, h1, h2, hidle]
  simp

theorem pressKeys_right_bracket (n : Nat) (s : Init) :
    (pressKeys GLFW_KEY_RIGHT_BRACKET n s).taaHistoryWeight
      = (fun x : ℚ => clamp (f32 (x + f32 (2 / 100))) 0 (f32 (99 / 100)))^[n]
          s.taaHistoryWeight := by
  induction n with
  | zero => rfl
  | succ n ih =>
    rw [Function.iterate_succ_apply']
    show (pressKey GLFW_KEY_RIGHT_BRACKET (pressKeys GLFW_KEY_RIGHT_BRACKET n s)).taaHistoryWeight
      = _
    rw [pressKey_right_bracket, ih]

/-- A press of keypad `+` after a release: both heights go through the handler once. -/
theorem pressKey_kp_add (s : Init) :
    (pressKey GLFW_KEY_KP_ADD s).cloudBottom = f32 (s.cloudBottom + 200)
      ∧ (pressKey GLFW_KEY_KP_ADD s).cloudTop = f32 (s.cloudTop + 200) := by
  rw [← Prod.mk.injEq]
  unfold pressKey
  have hidle := processInput_clouds idleInput s
  rw [risingEdge_of_released idleInput GLFW_KEY_KP_SUBTRACT s rfl,
    risingEdge_of_released idleInput GLFW_KEY_KP_ADD s rfl] at hidle
  simp only [Bool.false_eq_true, if_false, id] at hidle
  have h1 : risingEdge (keyInput GLFW_KEY_KP_ADD) GLFW_KEY_KP_ADD (processInput idleInput s)
      = true :=
    risingEdge_of_pressed _ _ _ (by decide) (by rw [mem_prevKeys_processInput_KP_ADD]; decide)
  have h2 : risingEdge (keyInput GLFW_KEY_KP_ADD) GLFW_KEY_KP_SUBTRACT
      (processInput idleInput s) = false := risingEdge_of_released _ _ _ (by decide)
  rw [processInput_clouds, h1, h2]
  simp only [Bool.false_eq_true, if_false, if_true, id]
  have hb := congrArg Prod.fst hidle
  have ht := congrArg Prod.snd hidle
  simp only at hb ht
  rw [hb, ht]

/-- A press of keypad `-` after a release: both heights go through the handler once. -/
theorem pressKey_kp_subtract (s : Init) :
    (pressKey GLFW_KEY_KP_SUBTRACT s).cloudBottom = max 0 (f32 (s.cloudBottom - 200))
      ∧ (pressKey GLFW_KEY_KP_SUBTRACT s).cloudTop
        = max (f32 (max 0 (f32 (s.cloudBottom - 200)) + 500)) (f32 (s.cloudTop - 200)) := by
  rw [← Prod.mk.injEq]
  unfold pressKey
  have hidle := processInput_clouds idleInput s
  rw [risingEdge_of_released idleInput GLFW_KEY_KP_SUBTRACT s rfl,
    risingEdge_of_released idleInput GLFW_KEY_KP_ADD s rfl] at hidle
  simp only [Bool.false_eq_true, if_false, id] at hidle
  have h1 : risingEdge (keyInput GLFW_KEY_KP_SUBTRACT) GLFW_KEY_KP_SUBTRACT
      (processInput idleInput s) = true :=
    risingEdge_of_pressed _ _ _ (by decide)
      (by rw [mem_prevKeys_processInput_KP_SUBTRACT]; decide)
  have h2 : risingEdge (keyInput GLFW_KEY_KP_SUBTRACT) GLFW_KEY_KP_ADD
      (processInput idleInput s) = false := risingEdge_of_released _ _ _ (by decide)
  rw [processInput_clouds, h1, h2]
  simp only [Bool.false_eq_true, if_false, if_true, id]
  have hb := congrArg Prod.fst hidle
  have ht := congrArg Prod.snd hidle
  simp only at hb ht
  rw [hb, ht]

/-- One more press of keypad `-`. -/
theorem pressKeys_kp_subtract_succ (n : Nat) (s : Init) :
    (pressKeys GLFW_KEY_KP_SUBTRACT (n + 1) s).cloudBottom
        = max 0 (f32 ((pressKeys GLFW_KEY_KP_SUBTRACT n s).cloudBottom - 200))
      ∧ (pressKeys GLFW_KEY_KP_SUBTRACT (n + 1) s).cloudTop
        = max (f32 (max 0 (f32 ((pressKeys GLFW_KEY_KP_SUBTRACT n s).cloudBottom - 200)) + 500))
            (f32 ((pressKeys GLFW_KEY_KP_SUBTRACT n s).cloudTop - 200)) :=
  pressKey_kp_subtract (pressKeys GLFW_KEY_KP_SUBTRACT n s)

/-- One more press of keypad `+`. -/
theorem pressKeys_kp_add_succ (n : Nat) (s : Init) :
    (pressKeys GLFW_KEY_KP_ADD (n + 1) s).cloudBottom
        = f32 ((pressKeys GLFW_KEY_KP_ADD n s).cloudBottom + 200)
      ∧ (pressKeys GLFW_KEY_KP_ADD (n + 1) s).cloudTop
        = f32 ((pressKeys GLFW_KEY_KP_ADD n s).cloudTop + 200) :=
  pressKey_kp_add (pressKeys GLFW_KEY_KP_ADD n s)

/-- The heights after `n` presses of keypad `-`. -/
theorem pressKeys_kp_subtract (n : Nat) (s : Init) :
    (pressKeys GLFW_KEY_KP_SUBTRACT n s).cloudBottom
        = ((fun p : ℚ × ℚ => (max 0 (f32 (p.1 - 200)),
          max (f32 (max 0 (f32 (p.1 - 200)) + 500)) (f32 (p.2 - 200))))^[n]
          (s.cloudBottom, s.cloudTop)).1
      ∧ (pressKeys GLFW_KEY_KP_SUBTRACT n s).cloudTop
        = ((fun p : ℚ × ℚ => (max 0 (f32 (p.1 - 200)),
          max (f32 (max 0 (f32 (p.1 - 200)) + 500)) (f32 (p.2 - 200))))^[n]
          (s.cloudBottom, s.cloudTop)).2 := by
  induction n with
  | zero => exact ⟨rfl, rfl⟩
  | succ n ih =>
    obtain ⟨h1, h2⟩ := pressKeys_kp_subtract_succ n s
    rw [Function.iterate_succ_apply', h1, h2, ih.1, ih.2]
    exact ⟨rfl, rfl⟩

/-- Keypad `+` pressed `n ≤ 335541` times from the heights `(0, 500)`: no addition rounds. -/
theorem pressKeys_kp_add_exact (s : Init) (hb : s.cloudBottom = 0) (ht : s.cloudTop = 500)
    (n : Nat) (hn : n ≤ 335541) :
    (pressKeys GLFW_KEY_KP_ADD n s).cloudBottom = 200 * (n : ℚ)
      ∧ (pressKeys GLFW_KEY_KP_ADD n s).cloudTop = 500 + 200 * (n : ℚ) := by
  induction n with
  | zero => simp [pressKeys, hb, ht]
  | succ n ih =>
    obtain ⟨ib, it⟩ := ih (by omega)
    obtain ⟨hb2, ht2⟩ := pressKeys_kp_add_succ n s
    rw [ib] at hb2
    rw [it] at ht2
    have hn1 : (n : Int) ≤ 335540 := by omega
    have hn0 : (0 : Int) ≤ (n : Int) := Int.natCast_nonneg n
    have e1 : f32 (200 * (n : ℚ) + 200) = 200 * ((n + 1 : Nat) : ℚ) := by
      have hrep : isF32 (((25 * ((n : Int) + 1) : Int) : ℚ) * 2 ^ (3 : Int)) :=
        isF32_mul_zpow _ 3 (isF32_intCast _ (by
          rw [abs_of_nonneg (by omega)]
          norm_num
          omega))
      have e : 200 * (n : ℚ) + 200 = ((25 * ((n : Int) + 1) : Int) : ℚ) * 2 ^ (3 : Int) := by
        push_cast
        norm_num
        ring
      rw [e, f32_of_isF32 _ hrep]
      push_cast
      norm_num
      ring
    have e2 : f32 (500 + 200 * (n : ℚ) + 200) = 500 + 200 * ((n + 1 : Nat) : ℚ) := by
      have hrep : isF32 (((50 * ((n : Int) + 1) + 125 : Int) : ℚ) * 2 ^ (2 : Int)) :=
        isF32_mul_zpow _ 2 (isF32_intCast _ (by
          rw [abs_of_nonneg (by omega)]
          norm_num
          omega))
      have e : 500 + 200 * (n : ℚ) + 200
          = ((50 * ((n : Int) + 1) + 125 : Int) : ℚ) * 2 ^ (2 : Int) := by
        push_cast
        norm_num
        ring
      rw [e, f32_of_isF32 _ hrep]
      push_cast
      norm_num
      ring
    rw [e1] at hb2
    rw [e2] at ht2
    exact ⟨hb2, ht2⟩

/-- The binary32 constants of the weight handlers and of the constructor. -/
theorem weight_constants :
    f32 (90 / 100) = 7549747 / 8388608 ∧ f32 (2 / 100) = 5368709 / 268435456
      ∧ f32 (99 / 100) = 4152361 / 4194304 ∧ f32 (92 / 100) = 15435039 / 16777216 := by
  refine ⟨by decide!, by decide!, by decide!, by decide!⟩

/-- Five presses of `]` from the constructor value take the weight to `0.99f`. -/
theorem right_bracket_five :
    (fun x : ℚ => clamp (f32 (x + f32 (2 / 100))) 0 (f32 (99 / 100)))^[5] (f32 (90 / 100))
      = 4152361 / 4194304 := by
  decide!

/-- C24, as the code has it. In every reachable state `0 ≤ taaHistoryWeight ≤ 0.99f`, where
`0.99f = 4152361 / 2^22` is the binary32 number nearest to `0.99`; it is greater than `0.99`,
and the weight reaches it.  The constructor sets the weight to `0.90f = 7549747 / 2^23`; the
`[` handler sets it to `clamp(w - 0.02f, 0, 0.99f)` and the `]` handler to
`clamp(w + 0.02f, 0, 0.99f)`, the sum and the difference rounded to binary32, each with
`taaHistoryValid = false`; `processInput` changes it through these two handlers only, and
`render`, `initialize`, `destroyTaaTargets`, `ensureTaaTargets` and `renderTaaComposite` leave
it as it is. -/
theorem taaHistoryWeight_binary32_range (s : Init) (hs : Reachable s) :
    (0 ≤ s.taaHistoryWeight ∧ s.taaHistoryWeight ≤ f32 (99 / 100))
      ∧ (f32 (99 / 100) = 4152361 / 4194304 ∧ (99 / 100 : ℚ) < f32 (99 / 100))
      ∧ (∃ s2, Reachable s2 ∧ s2.taaHistoryWeight = f32 (99 / 100))
      ∧ (Init.ctor.taaHistoryWeight = f32 (90 / 100) ∧ f32 (90 / 100) = 7549747 / 8388608)
      ∧ f32 (2 / 100) = 5368709 / 268435456
      ∧ ((onLeftBracket s).taaHistoryWeight
          = clamp (f32 (s.taaHistoryWeight - f32 (2 / 100))) 0 (f32 (99 / 100))
        ∧ (onLeftBracket s).taaHistoryValid = false)
      ∧ ((onRightBracket s).taaHistoryWeight
          = clamp (f32 (s.taaHistoryWeight + f32 (2 / 100))) 0 (f32 (99 / 100))
        ∧ (onRightBracket s).taaHistoryValid = false)
      ∧ (∀ inp, (processInput inp s).taaHistoryWeight
          = (if risingEdge inp GLFW_KEY_RIGHT_BRACKET s then
              fun x : ℚ => clamp (f32 (x + f32 (2 / 100))) 0 (f32 (99 / 100))
            else id)
            ((if risingEdge inp GLFW_KEY_LEFT_BRACKET s then
              fun x : ℚ => clamp (f32 (x - f32 (2 / 100))) 0 (f32 (99 / 100))
            else id) s.taaHistoryWeight))
      ∧ (∀ env, ∃ s2, render env s = some s2
          ∧ s2.taaHistoryWeight = (processInput env.input s).taaHistoryWeight)
      ∧ (∀ l, ( Init.initialize l s).taaHistoryWeight = s.taaHistoryWeight)
      ∧ (destroyTaaTargets s).taaHistoryWeight = s.taaHistoryWeight
      ∧ (∀ gl w h, (ensureTaaTargets gl w h s).2.taaHistoryWeight = s.taaHistoryWeight)
      ∧ (∀ gl w h s2, renderTaaComposite gl w h s = some s2 →
          s2.taaHistoryWeight = s.taaHistoryWeight) := by
  obtain ⟨hidx, hweight, _⟩ := reachable_invariants s hs
  obtain ⟨c90, c2, c99, _⟩ := weight_constants
  refine ⟨hweight, ⟨c99, by rw [c99]; norm_num⟩,
    ⟨pressKeys GLFW_KEY_RIGHT_BRACKET 5 Init.ctor, reachable_pressKeys _ _ _ Reachable.ctor, ?_⟩,
    ⟨rfl, c90⟩, c2, ⟨rfl, rfl⟩, ⟨rfl, rfl⟩,
    fun inp => processInput_taaHistoryWeight inp s, fun env => ?_, fun _ => rfl, rfl,
    fun gl w h => ensureTaaTargets_keeps (fun s => s.taaHistoryWeight)
      (fun _ _ _ _ _ _ _ => rfl) gl w h s,
    fun gl w h s2 => renderTaaComposite_keeps (fun s => s.taaHistoryWeight)
      (fun _ _ _ => rfl) gl w h s s2⟩
  · rw [pressKeys_right_bracket]
    exact right_bracket_five.trans c99.symm
  · exact render_fields (fun s => s.taaHistoryWeight) (fun _ _ => rfl) (fun _ => rfl)
      (fun _ => rfl)
      (ensureTaaTargets_keeps (fun s => s.taaHistoryWeight) (fun _ _ _ _ _ _ _ => rfl))
      (renderTaaComposite_keeps (fun s => s.taaHistoryWeight) (fun _ _ _ => rfl)) env s hidx

theorem taaHistoryWeight_binary32_range_witness :
    (0 ≤ (pressKeys GLFW_KEY_RIGHT_BRACKET 1 Init.ctor).taaHistoryWeight
      ∧ (pressKeys GLFW_KEY_RIGHT_BRACKET 1 Init.ctor).taaHistoryWeight ≤ f32 (99 / 100))
      ∧ (pressKeys GLFW_KEY_RIGHT_BRACKET 1 Init.ctor).taaHistoryWeight = 7717519 / 8388608 :=
  ⟨(taaHistoryWeight_binary32_range (pressKeys GLFW_KEY_RIGHT_BRACKET 1 Init.ctor)
      (reachable_pressKeys _ _ _ Reachable.ctor)).1,
    by
      rw [pressKeys_right_bracket]
      show clamp (f32 (f32 (90 / 100) + f32 (2 / 100))) 0 (f32 (99 / 100)) = 7717519 / 8388608
      decide!⟩

/-- C24, counterexample. Five presses of `]` after construction leave
`taaHistoryWeight = 0.99f = 4152361 / 2^22`, which is greater than `0.99`; the constructor
value `0.90f = 7549747 / 2^23` is less than `0.9`. -/
theorem taaHistoryWeight_upper_counterexample :
    Reachable (pressKeys GLFW_KEY_RIGHT_BRACKET 5 Init.ctor)
      ∧ (pressKeys GLFW_KEY_RIGHT_BRACKET 5 Init.ctor).taaHistoryWeight = 4152361 / 4194304
      ∧ ¬ (pressKeys GLFW_KEY_RIGHT_BRACKET 5 Init.ctor).taaHistoryWeight ≤ 99 / 100
      ∧ Init.ctor.taaHistoryWeight = 7549747 / 8388608
      ∧ Init.ctor.taaHistoryWeight ≠ 90 / 100 := by
  have h5 : (pressKeys GLFW_KEY_RIGHT_BRACKET 5 Init.ctor).taaHistoryWeight
      = 4152361 / 4194304 := by
    rw [pressKeys_right_bracket]
    exact right_bracket_five
  have h0 : Init.ctor.taaHistoryWeight = 7549747 / 8388608 := weight_constants.1
  refine ⟨reachable_pressKeys _ _ _ Reachable.ctor, h5, ?_, h0, ?_⟩
  · rw [h5]
    norm_num
  · rw [h0]
    norm_num

/-- C25. In every reachable state `taaIndex` is `0` or `1`, so `taaColor[taaIndex]` and
`taaColor[1 - taaIndex]` are accesses inside the array, to two different slots, and `render`
returns.  The constructor and `destroyTaaTargets` (hence `initialize`) leave `0`;
`renderTaaComposite` replaces `i` by `1 - i` when the composite program is loaded and leaves it
otherwise; `ensureTaaTargets` leaves it or sets `0`; `processInput` does not write it. -/
theorem taaIndex_zero_or_one (s : Init) (hs : Reachable s) :
    (s.taaIndex = 0 ∨ s.taaIndex = 1)
      ∧ (∃ cur hist, s.taaColor s.taaIndex = some cur ∧ s.taaColor (1 - s.taaIndex) = some hist)
      ∧ s.taaIndex ≠ 1 - s.taaIndex
      ∧ Init.ctor.taaIndex = 0
      ∧ (destroyTaaTargets s).taaIndex = 0
      ∧ (∀ l, ( Init.initialize l s).taaIndex = 0)
      ∧ (∀ gl w h sh, s.taaShader = some sh → sh.ID ≠ 0 →
          ∃ s2, renderTaaComposite gl w h s = some s2 ∧ s2.taaIndex = 1 - s.taaIndex)
      ∧ (∀ gl w h, unusable s.taaShader = true → renderTaaComposite gl w h s = some s)
      ∧ (∀ gl w h, (ensureTaaTargets gl w h s).2.taaIndex = s.taaIndex
          ∨ (ensureTaaTargets gl w h s).2.taaIndex = 0)
      ∧ (∀ inp, (processInput inp s).taaIndex = s.taaIndex)
      ∧ (∀ env, ∃ s2, render env s = some s2 ∧ (s2.taaIndex = 0 ∨ s2.taaIndex = 1)) := by
  obtain ⟨hidx, _, _⟩ := reachable_invariants s hs
  obtain ⟨cur, hist, hcur, hhist, _⟩ := taaColor_of_index s hidx
  refine ⟨hidx, ⟨cur, hist, hcur, hhist⟩, by omega, rfl, rfl, fun _ => rfl, ?_, ?_,
    fun gl w h => ensureTaaTargets_taaIndex gl w h s, fun inp => processInput_taaIndex inp s,
    fun env => ?_⟩
  · intro gl w h sh hsh hid
    exact ⟨_, renderTaaComposite_loaded gl w h s sh cur hist hsh hid hcur hhist, rfl⟩
  · intro gl w h hmiss
    unfold renderTaaComposite
    rcases Option.eq_none_or_eq_some s.taaShader with hsh | ⟨sh, hsh⟩
    · simp only [hsh]
    · rw [hsh] at hmiss
      have hid : sh.ID = 0 := by simpa [unusable] using hmiss
      simp only [hsh, if_pos hid]
  · obtain ⟨s2, hrun, _⟩ := render_fields (fun _ => ()) (fun _ _ => rfl) (fun _ => rfl)
      (fun _ => rfl) (fun _ _ _ _ => rfl) (fun _ _ _ _ _ _ => rfl) env s hidx
    exact ⟨s2, hrun, (reachable_invariants s2 (Reachable.render env hs hrun)).1⟩

theorem taaIndex_zero_or_one_witness :
    ((destroyTaaTargets (processInput (keyInput GLFW_KEY_T) Init.ctor)).taaIndex = 0
      ∨ (destroyTaaTargets (processInput (keyInput GLFW_KEY_T) Init.ctor)).taaIndex = 1)
      ∧ ∃ s2, render sampleEnv (destroyTaaTargets (processInput (keyInput GLFW_KEY_T)
          Init.ctor)) = some s2 ∧ (s2.taaIndex = 0 ∨ s2.taaIndex = 1) :=
  ⟨(taaIndex_zero_or_one _
      (Reachable.destroyTaaTargets (Reachable.processInput _ Reachable.ctor))).1,
    (taaIndex_zero_or_one _
      (Reachable.destroyTaaTargets (Reachable.processInput _ Reachable.ctor))).2.2.2.2.2.2.2.2.2.2
      sampleEnv⟩

/-- Keypad `-` pressed 43 times after construction: the heights are `(0, 500)`. -/
theorem kp_subtract_forty_three :
    (fun p : ℚ × ℚ => (max 0 (f32 (p.1 - 200)),
        max (f32 (max 0 (f32 (p.1 - 200)) + 500)) (f32 (p.2 - 200))))^[43] (1500, 9000)
      = (0, 500) := by
  decide!

/-- The heights after 43 presses of keypad `-` and then 335542 presses of keypad `+`. -/
theorem pressKeys_gap :
    (pressKeys GLFW_KEY_KP_SUBTRACT 43 Init.ctor).cloudBottom = 0
      ∧ (pressKeys GLFW_KEY_KP_SUBTRACT 43 Init.ctor).cloudTop = 500
      ∧ (pressKeys GLFW_KEY_KP_ADD 335542
          (pressKeys GLFW_KEY_KP_SUBTRACT 43 Init.ctor)).cloudBottom = 67108400
      ∧ (pressKeys GLFW_KEY_KP_ADD 335542
          (pressKeys GLFW_KEY_KP_SUBTRACT 43 Init.ctor)).cloudTop = 67108896 := by
  obtain ⟨hb, ht⟩ := pressKeys_kp_subtract 43 Init.ctor
  have hc : (Init.ctor.cloudBottom, Init.ctor.cloudTop) = (1500, 9000) := rfl
  rw [hc, kp_subtract_forty_three] at hb ht
  obtain ⟨eb, et⟩ := pressKeys_kp_add_exact (pressKeys GLFW_KEY_KP_SUBTRACT 43 Init.ctor) hb ht
    335541 le_rfl
  obtain ⟨hb2, ht2⟩ :=
    pressKeys_kp_add_succ 335541 (pressKeys GLFW_KEY_KP_SUBTRACT 43 Init.ctor)
  have e1 : f32 (200 * ((335541 : Nat) : ℚ) + 200) = 67108400 := by decide!
  have e2 : f32 (500 + 200 * ((335541 : Nat) : ℚ) + 200) = 67108896 := by decide!
  rw [eb, e1] at hb2
  rw [et, e2] at ht2
  simp only [Nat.reduceAdd] at hb2 ht2
  exact ⟨hb, ht, hb2, ht2⟩

/-- C29, as the code has it. In every reachable state `cloudBottom ≥ 0` and
`cloudTop ≥ cloudBottom`, both heights are integers, and `cloudTop ≥ cloudBottom + 500` holds
as long as `cloudTop < 2^24`, the range in which no addition rounds.  The constructor sets
`(1500, 9000)`; the keypad `+` handler adds `200` to both in binary32; the keypad `-` handler
sets `cloudBottom` to `max(0, cloudBottom - 200)` and then `cloudTop` to
`max(cloudBottom + 500, cloudTop - 200)` with the new `cloudBottom`, the sums and differences
rounded to binary32; `processInput` changes the two values through these handlers only and
`render` and `initialize` leave them as they are. -/
theorem cloud_layer_binary32_ordered (s : Init) (hs : Reachable s) :
    (0 ≤ s.cloudBottom ∧ s.cloudBottom ≤ s.cloudTop)
      ∧ ((∃ k : Int, s.cloudBottom = k) ∧ (∃ k : Int, s.cloudTop = k))
      ∧ (s.cloudTop < 2 ^ 24 → s.cloudBottom + 500 ≤ s.cloudTop)
      ∧ (Init.ctor.cloudBottom = 1500 ∧ Init.ctor.cloudTop = 9000)
      ∧ ((onKpAdd s).cloudBottom = f32 (s.cloudBottom + 200)
        ∧ (onKpAdd s).cloudTop = f32 (s.cloudTop + 200))
      ∧ ((onKpSubtract s).cloudBottom = max 0 (f32 (s.cloudBottom - 200))
        ∧ (onKpSubtract s).cloudTop
            = max (f32 ((onKpSubtract s).cloudBottom + 500)) (f32 (s.cloudTop - 200)))
      ∧ (∀ inp, ((processInput inp s).cloudBottom, (processInput inp s).cloudTop)
          = (if risingEdge inp GLFW_KEY_KP_SUBTRACT s then
              fun p : ℚ × ℚ =>
                (max 0 (f32 (p.1 - 200)),
                  max (f32 (max 0 (f32 (p.1 - 200)) + 500)) (f32 (p.2 - 200)))
            else id)
            ((if risingEdge inp GLFW_KEY_KP_ADD s then
              fun p : ℚ × ℚ => (f32 (p.1 + 200), f32 (p.2 + 200))
            else id) (s.cloudBottom, s.cloudTop)))
      ∧ (∀ env, ∃ s2, render env s = some s2
          ∧ (s2.cloudBottom, s2.cloudTop)
            = ((processInput env.input s).cloudBottom, (processInput env.input s).cloudTop))
      ∧ (∀ l, (( Init.initialize l s).cloudBottom, ( Init.initialize l s).cloudTop)
          = (s.cloudBottom, s.cloudTop)) := by
  obtain ⟨hidx, _, h0, hle, hib, hit, hgap⟩ := reachable_invariants s hs
  refine ⟨⟨h0, hle⟩, ⟨hib, hit⟩, fun hlt => hgap (by norm_num at hlt ⊢; exact hlt), ⟨rfl, rfl⟩,
    ⟨rfl, rfl⟩, ⟨rfl, rfl⟩, fun inp => processInput_clouds inp s, fun env => ?_, fun _ => rfl⟩
  exact render_fields (fun s => (s.cloudBottom, s.cloudTop)) (fun _ _ => rfl) (fun _ => rfl)
    (fun _ => rfl)
    (ensureTaaTargets_keeps (fun s => (s.cloudBottom, s.cloudTop)) (fun _ _ _ _ _ _ _ => rfl))
    (renderTaaComposite_keeps (fun s => (s.cloudBottom, s.cloudTop)) (fun _ _ _ => rfl))
    env s hidx

theorem cloud_layer_binary32_ordered_witness :
    (0 ≤ (pressKeys GLFW_KEY_KP_SUBTRACT 43 Init.ctor).cloudBottom
      ∧ (pressKeys GLFW_KEY_KP_SUBTRACT 43 Init.ctor).cloudBottom
          ≤ (pressKeys GLFW_KEY_KP_SUBTRACT 43 Init.ctor).cloudTop)
      ∧ ((pressKeys GLFW_KEY_KP_SUBTRACT 43 Init.ctor).cloudTop < 2 ^ 24 →
          (pressKeys GLFW_KEY_KP_SUBTRACT 43 Init.ctor).cloudBottom + 500
            ≤ (pressKeys GLFW_KEY_KP_SUBTRACT 43 Init.ctor).cloudTop)
      ∧ ((pressKeys GLFW_KEY_KP_SUBTRACT 43 Init.ctor).cloudBottom,
          (pressKeys GLFW_KEY_KP_SUBTRACT 43 Init.ctor).cloudTop) = (0, 500) :=
  ⟨(cloud_layer_binary32_ordered (pressKeys GLFW_KEY_KP_SUBTRACT 43 Init.ctor)
      (reachable_pressKeys _ _ _ Reachable.ctor)).1,
    (cloud_layer_binary32_ordered (pressKeys GLFW_KEY_KP_SUBTRACT 43 Init.ctor)
      (reachable_pressKeys _ _ _ Reachable.ctor)).2.2.1,
    by rw [pressKeys_gap.1, pressKeys_gap.2.1]⟩

/-- C29, counterexample. After construction, 43 presses of keypad `-` leave the heights
`(0, 500)`; 335542 presses of keypad `+` then leave `cloudBottom = 67108400` and
`cloudTop = 67108896`: the sum `67108700 + 200` is not a binary32 number and rounds to
`67108896`, so `cloudTop = cloudBottom + 496`. -/
theorem cloud_layer_gap_counterexample :
    Reachable (pressKeys GLFW_KEY_KP_ADD 335542 (pressKeys GLFW_KEY_KP_SUBTRACT 43 Init.ctor))
      ∧ (pressKeys GLFW_KEY_KP_ADD 335542
          (pressKeys GLFW_KEY_KP_SUBTRACT 43 Init.ctor)).cloudBottom = 67108400
      ∧ (pressKeys GLFW_KEY_KP_ADD 335542
          (pressKeys GLFW_KEY_KP_SUBTRACT 43 Init.ctor)).cloudTop = 67108896
      ∧ ¬ ((pressKeys GLFW_KEY_KP_ADD 335542
            (pressKeys GLFW_KEY_KP_SUBTRACT 43 Init.ctor)).cloudBottom + 500
          ≤ (pressKeys GLFW_KEY_KP_ADD 335542
            (pressKeys GLFW_KEY_KP_SUBTRACT 43 Init.ctor)).cloudTop)
      ∧ f32 (67108700 + 200) = 67108896 := by
  obtain ⟨_, _, hb, ht⟩ := pressKeys_gap
  refine ⟨reachable_pressKeys _ _ _ (reachable_pressKeys _ _ _ Reachable.ctor), hb, ht, ?_,
    by decide!⟩
  rw [hb, ht]
  norm_num

/-! ### What invalidates the history -/

/-- The composite stage leaves a valid history valid. -/
theorem renderTaaComposite_keeps_valid (gl : Driver) (w h : Int) (s s2 : Init)
    (hrun : renderTaaComposite gl w h s = some s2) (hv : s.taaHistoryValid = true) :
    s2.taaHistoryValid = true := by
  rcases renderTaaComposite_state gl w h s s2 hrun with e | ⟨_, e⟩
  · rw [e]; exact hv
  · rw [e]

/-- `ensureTaaTargets` leaves the history flag as it is or clears it, and it clears a set flag
only off the no-op path. -/
theorem ensureTaaTargets_history (gl : Driver) (w h : Int) (s : Init) :
    ((s.taaW = w ∧ s.taaH = h ∧ s.taaFbo ≠ 0 ∧ s.taaColor0 ≠ 0 ∧ s.taaColor1 ≠ 0) →
        (ensureTaaTargets gl w h s).2 = s)
      ∧ (¬ (s.taaW = w ∧ s.taaH = h ∧ s.taaFbo ≠ 0 ∧ s.taaColor0 ≠ 0 ∧ s.taaColor1 ≠ 0) →
        (ensureTaaTargets gl w h s).2.taaHistoryValid = false) := by
  constructor
  · intro hpath
    rw [ensureTaaTargets_noop gl w h s hpath]
  · intro hpath
    by_cases hok : gl.glCheckFramebufferStatus = GL_FRAMEBUFFER_COMPLETE
    · rw [ensureTaaTargets_created gl w h s hok hpath]
    · rw [ensureTaaTargets_thrown gl w h s hok hpath]

/-- The direct mode leaves a valid history valid when temporal mode is off or the render
targets are current. -/
theorem renderDirect_keeps_history (gl : Driver) (w h : Int) (t : ℚ) (s s2 : Init)
    (hidx : s.taaIndex = 0 ∨ s.taaIndex = 1)
    (hrun : renderDirect gl w h t s = some s2) (hv : s.taaHistoryValid = true)
    (hpath : s.taaEnabled = true →
      (s.taaW = w ∧ s.taaH = h ∧ s.taaFbo ≠ 0 ∧ s.taaColor0 ≠ 0 ∧ s.taaColor1 ≠ 0)) :
    s2.taaHistoryValid = true := by
  cases hsh : selectedShader s with
  | none =>
    rw [renderDirect_missing gl w h t s (Or.inl hsh)] at hrun
    cases hrun
    exact hv
  | some sh =>
    by_cases hid : sh.ID = 0
    · rw [renderDirect_missing gl w h t s (Or.inr (Or.inl ⟨sh, hsh, hid⟩))] at hrun
      cases hrun
      exact hv
    cases hq : s.quad with
    | none =>
      rw [renderDirect_missing gl w h t s (Or.inr (Or.inr hq))] at hrun
      cases hrun
      exact hv
    | some q =>
      have hqs : s.quad.isSome = true := by rw [hq]; rfl
      cases htaa : s.taaEnabled with
      | false =>
        rw [renderDirect_off gl w h t s sh hsh hid hqs htaa] at hrun
        cases hrun
        exact hv
      | true =>
        have hret := ensureTaaTargets_noop gl w h s (hpath htaa)
        obtain ⟨tex, _, htex, _⟩ := taaColor_of_index s hidx
        obtain ⟨j, _, hrd⟩ := renderDirect_taa gl w h t s s sh tex hsh hid hqs htaa hret htex
        rw [hrd] at hrun
        cases hc : renderTaaComposite gl w h ((incrementFrameCounter s).emit
            ([GLCall.bindFramebuffer s.taaFbo, GLCall.framebufferTexture2D tex,
                GLCall.bindFramebuffer 0] ++ sceneCalls gl s.taaFbo sh w h t j s)) with
        | none => rw [hc] at hrun; cases hrun
        | some s4 =>
          rw [hc] at hrun
          cases hrun
          exact renderTaaComposite_keeps_valid gl w h _ s4 hc hv

/-- The same for the combined mode. -/
theorem renderCombined_keeps_history (gl : Driver) (w h : Int) (t : ℚ) (s s2 : Init)
    (hidx : s.taaIndex = 0 ∨ s.taaIndex = 1)
    (hrun : renderCombined gl w h t s = some s2) (hv : s.taaHistoryValid = true)
    (hpath : s.taaEnabled = true →
      (s.taaW = w ∧ s.taaH = h ∧ s.taaFbo ≠ 0 ∧ s.taaColor0 ≠ 0 ∧ s.taaColor1 ≠ 0)) :
    s2.taaHistoryValid = true := by
  cases hws : s.watersky with
  | none =>
    rw [renderCombined_missing gl w h t s (Or.inl hws)] at hrun
    cases hrun
    exact hv
  | some ws =>
    by_cases hw0 : ws.ID = 0
    · rw [renderCombined_missing gl w h t s (Or.inr (Or.inl ⟨ws, hws, hw0⟩))] at hrun
      cases hrun
      exact hv
    cases hco : s.cloudsOver with
    | none =>
      rw [renderCombined_missing gl w h t s (Or.inr (Or.inr (Or.inl hco)))] at hrun
      cases hrun
      exact hv
    | some co =>
      by_cases hc0 : co.ID = 0
      · rw [renderCombined_missing gl w h t s
          (Or.inr (Or.inr (Or.inr (Or.inl ⟨co, hco, hc0⟩))))] at hrun
        cases hrun
        exact hv
      cases hq : s.quad with
      | none =>
        rw [renderCombined_missing gl w h t s (Or.inr (Or.inr (Or.inr (Or.inr hq))))] at hrun
        cases hrun
        exact hv
      | some q =>
        have hqs : s.quad.isSome = true := by rw [hq]; rfl
        cases htaa : s.taaEnabled with
        | false =>
          rw [renderCombined_off gl w h t s ws co hws hco hw0 hc0 hqs htaa] at hrun
          cases hrun
          exact hv
        | true =>
          have hret := ensureTaaTargets_noop gl w h (incrementFrameCounter s) (hpath htaa)
          obtain ⟨tex, _, htex, _⟩ := taaColor_of_index (incrementFrameCounter s) hidx
          obtain ⟨j, _, hrd⟩ := renderCombined_taa gl w h t s _ ws co tex hws hco hw0 hc0 hqs
            htaa hret htex
          rw [hrd] at hrun
          cases hc : renderTaaComposite gl w h ((incrementFrameCounter s).emit
              ([GLCall.bindFramebuffer (incrementFrameCounter s).taaFbo,
                GLCall.framebufferTexture2D tex, GLCall.viewport 0 0 w h] ++ disableAllCalls
                ++ ClearColorOnly ++ combinedCalls gl ws co w h t j (incrementFrameCounter s)
                ++ [GLCall.bindFramebuffer 0])) with
          | none => rw [hc] at hrun; cases hrun
          | some s4 =>
            rw [hc] at hrun
            cases hrun
            exact renderTaaComposite_keeps_valid gl w h _ s4 hc hv

theorem processInput_targets (inp : Input) (s : Init) :
    ((processInput inp s).taaW, (processInput inp s).taaH, (processInput inp s).taaFbo,
        (processInput inp s).taaColor0, (processInput inp s).taaColor1)
      = (s.taaW, s.taaH, s.taaFbo, s.taaColor0, s.taaColor1) :=
  processInput_apply (fun s => (s.taaW, s.taaH, s.taaFbo, s.taaColor0, s.taaColor1))
    (fun _ _ => rfl) (fun _ _ => rfl)
    (fun _ _ _ => rfl) (fun _ _ => rfl) (fun _ _ => rfl) (fun _ => rfl) (fun _ => rfl)
    (fun _ => rfl) (fun _ => rfl) (fun _ => rfl) inp s

/-- A call of `render` leaves a valid history valid unless `T`, `[` or `]` is pressed or, with
temporal mode on, the render targets are not current for the size of the surface. -/
theorem render_keeps_history (env : FrameEnv) (s s2 : Init)
    (hidx : s.taaIndex = 0 ∨ s.taaIndex = 1)
    (hrun : render env s = some s2) (hv : s.taaHistoryValid = true)
    (hT : risingEdge env.input GLFW_KEY_T s = false)
    (hleft : risingEdge env.input GLFW_KEY_LEFT_BRACKET s = false)
    (hright : risingEdge env.input GLFW_KEY_RIGHT_BRACKET s = false)
    (hpath : (processInput env.input s).taaEnabled = true →
      (s.taaW = env.framebufferSize.1 ∧ s.taaH = env.framebufferSize.2 ∧ s.taaFbo ≠ 0
        ∧ s.taaColor0 ≠ 0 ∧ s.taaColor1 ≠ 0)) :
    s2.taaHistoryValid = true := by
  have hv1 : (processInput env.input s).taaHistoryValid = true := by
    rw [processInput_taaHistoryValid, hT, hleft, hright]
    simpa using hv
  have hidx1 : (processInput env.input s).taaIndex = 0 ∨ (processInput env.input s).taaIndex = 1 := by
    rw [processInput_taaIndex]; exact hidx
  have htg := processInput_targets env.input s
  simp only [Prod.mk.injEq] at htg
  obtain ⟨e1, e2, e3, e4, e5⟩ := htg
  have hpath1 : (processInput env.input s).taaEnabled = true →
      ((processInput env.input s).taaW = env.framebufferSize.1
        ∧ (processInput env.input s).taaH = env.framebufferSize.2
        ∧ (processInput env.input s).taaFbo ≠ 0 ∧ (processInput env.input s).taaColor0 ≠ 0
        ∧ (processInput env.input s).taaColor1 ≠ 0) := by
    intro h
    rw [e1, e2, e3, e4, e5]
    exact hpath h
  rw [render_eq] at hrun
  by_cases hsize : env.framebufferSize.1 ≤ 0 ∨ env.framebufferSize.2 ≤ 0
  · rw [if_pos hsize] at hrun
    cases hrun
    exact hv1
  · rw [if_neg hsize] at hrun
    by_cases hmode : (processInput env.input s).activeShader = 8
    · rw [if_pos hmode] at hrun
      exact renderCombined_keeps_history _ _ _ _ _ s2 hidx1 hrun hv1 hpath1
    · rw [if_neg hmode] at hrun
      exact renderDirect_keeps_history _ _ _ _ _ s2 hidx1 hrun hv1 hpath1

/-- C17, as the code has it. The keypad `+` and keypad `-` handlers write `cloudBottom` and
`cloudTop` only.  A call of `processInput` in which none of `T`, `[` and `]` is pressed leaves
`taaHistoryValid` and `taaHistoryWeight` as they were, whatever the keypad keys do to the cloud
layer; with a valid history the composite stage then still writes the configured weight as
blend factor.  A valid history becomes invalid only as follows: in `processInput` by a press
of `T`, `[` or `]`; in `render` by such a press or, with temporal mode on, when the render
targets are not current for the size of the surface, so that `ensureTaaTargets` recreates them
or throws into the `catch` block; in `ensureTaaTargets` off its no-op path; in `initialize`, in
`destroyTaaTargets` and in the `catch` block of `render`, which always clear the flag.
`renderTaaComposite`, `swapBuffersAndPollEvents` and the mouse callbacks never clear it. -/
theorem processInput_cloud_keys_keep_history (inp : Input) (s : Init) (gl : Driver) (w h : Int)
    (hT : risingEdge inp GLFW_KEY_T s = false)
    (hleft : risingEdge inp GLFW_KEY_LEFT_BRACKET s = false)
    (hright : risingEdge inp GLFW_KEY_RIGHT_BRACKET s = false) :
    (onKpAdd s).taaHistoryValid = s.taaHistoryValid
      ∧ (onKpSubtract s).taaHistoryValid = s.taaHistoryValid
      ∧ (processInput inp s).taaHistoryValid = s.taaHistoryValid
      ∧ (processInput inp s).taaHistoryWeight = s.taaHistoryWeight
      ∧ ((processInput inp s).cloudBottom, (processInput inp s).cloudTop)
          = (if risingEdge inp GLFW_KEY_KP_SUBTRACT s then
              fun p : ℚ × ℚ =>
                (max 0 (f32 (p.1 - 200)),
                  max (f32 (max 0 (f32 (p.1 - 200)) + 500)) (f32 (p.2 - 200)))
            else id)
            ((if risingEdge inp GLFW_KEY_KP_ADD s then
              fun p : ℚ × ℚ => (f32 (p.1 + 200), f32 (p.2 + 200))
            else id) (s.cloudBottom, s.cloudTop))
      ∧ (s.taaHistoryValid = true → ∀ s4 calls,
          renderTaaComposite gl w h (processInput inp s) = some s4 →
          s4.glLog = (processInput inp s).glLog ++ calls →
          ∀ loc v, GLCall.uniform1f loc v ∈ calls → v = s.taaHistoryWeight)
      ∧ (∀ inp2, s.taaHistoryValid = true → (processInput inp2 s).taaHistoryValid = false →
          risingEdge inp2 GLFW_KEY_T s = true ∨ risingEdge inp2 GLFW_KEY_LEFT_BRACKET s = true
            ∨ risingEdge inp2 GLFW_KEY_RIGHT_BRACKET s = true)
      ∧ (∀ env s2, (s.taaIndex = 0 ∨ s.taaIndex = 1) → render env s = some s2 →
          s.taaHistoryValid = true → s2.taaHistoryValid = false →
          risingEdge env.input GLFW_KEY_T s = true
            ∨ risingEdge env.input GLFW_KEY_LEFT_BRACKET s = true
            ∨ risingEdge env.input GLFW_KEY_RIGHT_BRACKET s = true
            ∨ ((processInput env.input s).taaEnabled = true
              ∧ ¬ (s.taaW = env.framebufferSize.1 ∧ s.taaH = env.framebufferSize.2
                ∧ s.taaFbo ≠ 0 ∧ s.taaColor0 ≠ 0 ∧ s.taaColor1 ≠ 0)))
      ∧ (∀ gl2 w2 h2,
          ((s.taaW = w2 ∧ s.taaH = h2 ∧ s.taaFbo ≠ 0 ∧ s.taaColor0 ≠ 0 ∧ s.taaColor1 ≠ 0) →
            (ensureTaaTargets gl2 w2 h2 s).2 = s)
          ∧ (¬ (s.taaW = w2 ∧ s.taaH = h2 ∧ s.taaFbo ≠ 0 ∧ s.taaColor0 ≠ 0 ∧ s.taaColor1 ≠ 0) →
            (ensureTaaTargets gl2 w2 h2 s).2.taaHistoryValid = false))
      ∧ (∀ gl2 w2 h2 s2, renderTaaComposite gl2 w2 h2 s = some s2 →
          s.taaHistoryValid = true → s2.taaHistoryValid = true)
      ∧ (∀ l, ( Init.initialize l s).taaHistoryValid = false)
      ∧ (destroyTaaTargets s).taaHistoryValid = false
      ∧ (disableTaa s).taaHistoryValid = false
      ∧ (swapBuffersAndPollEvents s).taaHistoryValid = s.taaHistoryValid
      ∧ (∀ c, ({ s with camera := c } : Init).taaHistoryValid = s.taaHistoryValid) := by
  have hvalid : (processInput inp s).taaHistoryValid = s.taaHistoryValid := by
    rw [processInput_taaHistoryValid, hT, hleft, hright]
    simp
  have hweight := processInput_taaHistoryWeight_of_no_bracket inp s hleft hright
  refine ⟨rfl, rfl, hvalid, hweight, processInput_clouds inp s, ?_, ?_, ?_,
    fun gl2 w2 h2 => ensureTaaTargets_history gl2 w2 h2 s,
    fun gl2 w2 h2 s2 hrun hv => renderTaaComposite_keeps_valid gl2 w2 h2 s s2 hrun hv,
    fun _ => rfl, rfl, rfl, rfl, fun _ => rfl⟩
  · intro hv s4 calls hrun hlog loc v hmem
    rw [← hweight]
    exact renderTaaComposite_alpha_of_valid gl w h _ s4 calls (hvalid.trans hv) hrun hlog loc v
      hmem
  · intro inp2 hv hinv
    rw [processInput_taaHistoryValid] at hinv
    by_cases h1 : risingEdge inp2 GLFW_KEY_T s = true
    · exact Or.inl h1
    by_cases h2 : risingEdge inp2 GLFW_KEY_LEFT_BRACKET s = true
    · exact Or.inr (Or.inl h2)
    by_cases h3 : risingEdge inp2 GLFW_KEY_RIGHT_BRACKET s = true
    · exact Or.inr (Or.inr h3)
    rw [if_neg h3, if_neg h2, if_neg h1, hv] at hinv
    cases hinv
  · intro env s2 hidx hrun hv hinv
    by_cases h1 : risingEdge env.input GLFW_KEY_T s = true
    · exact Or.inl h1
    by_cases h2 : risingEdge env.input GLFW_KEY_LEFT_BRACKET s = true
    · exact Or.inr (Or.inl h2)
    by_cases h3 : risingEdge env.input GLFW_KEY_RIGHT_BRACKET s = true
    · exact Or.inr (Or.inr (Or.inl h3))
    refine Or.inr (Or.inr (Or.inr ?_))
    by_contra hcon
    have hpath : (processInput env.input s).taaEnabled = true →
        (s.taaW = env.framebufferSize.1 ∧ s.taaH = env.framebufferSize.2 ∧ s.taaFbo ≠ 0
          ∧ s.taaColor0 ≠ 0 ∧ s.taaColor1 ≠ 0) := by
      intro hen
      by_contra hno
      exact hcon ⟨hen, hno⟩
    have := render_keeps_history env s s2 hidx hrun hv (by simpa using h1) (by simpa using h2)
      (by simpa using h3) hpath
    rw [hinv] at this
    cases this

theorem processInput_cloud_keys_keep_history_witness :
    (onKpAdd sampleStateValid).taaHistoryValid = sampleStateValid.taaHistoryValid
      ∧ (onKpSubtract sampleStateValid).taaHistoryValid = sampleStateValid.taaHistoryValid
      ∧ (processInput (keyInput GLFW_KEY_KP_SUBTRACT) sampleStateValid).taaHistoryValid
          = sampleStateValid.taaHistoryValid
      ∧ (processInput (keyInput GLFW_KEY_KP_SUBTRACT) sampleStateValid).taaHistoryWeight
          = sampleStateValid.taaHistoryWeight
      ∧ ((processInput (keyInput GLFW_KEY_KP_SUBTRACT) sampleStateValid).cloudBottom,
          (processInput (keyInput GLFW_KEY_KP_SUBTRACT) sampleStateValid).cloudTop)
          = (if risingEdge (keyInput GLFW_KEY_KP_SUBTRACT) GLFW_KEY_KP_SUBTRACT sampleStateValid
            then
              fun p : ℚ × ℚ =>
                (max 0 (f32 (p.1 - 200)),
                  max (f32 (max 0 (f32 (p.1 - 200)) + 500)) (f32 (p.2 - 200)))
            else id)
            ((if risingEdge (keyInput GLFW_KEY_KP_SUBTRACT) GLFW_KEY_KP_ADD sampleStateValid then
              fun p : ℚ × ℚ => (f32 (p.1 + 200), f32 (p.2 + 200))
            else id) (sampleStateValid.cloudBottom, sampleStateValid.cloudTop))
      ∧ (sampleStateValid.taaHistoryValid = true → ∀ s4 calls,
          renderTaaComposite sampleDriver 800 600
            (processInput (keyInput GLFW_KEY_KP_SUBTRACT) sampleStateValid) = some s4 →
          s4.glLog = (processInput (keyInput GLFW_KEY_KP_SUBTRACT) sampleStateValid).glLog
            ++ calls →
          ∀ loc v, GLCall.uniform1f loc v ∈ calls → v = sampleStateValid.taaHistoryWeight)
      ∧ (∀ env s2, (sampleStateValid.taaIndex = 0 ∨ sampleStateValid.taaIndex = 1) →
          render env sampleStateValid = some s2 →
          sampleStateValid.taaHistoryValid = true → s2.taaHistoryValid = false →
          risingEdge env.input GLFW_KEY_T sampleStateValid = true
            ∨ risingEdge env.input GLFW_KEY_LEFT_BRACKET sampleStateValid = true
            ∨ risingEdge env.input GLFW_KEY_RIGHT_BRACKET sampleStateValid = true
            ∨ ((processInput env.input sampleStateValid).taaEnabled = true
              ∧ ¬ (sampleStateValid.taaW = env.framebufferSize.1
                ∧ sampleStateValid.taaH = env.framebufferSize.2
                ∧ sampleStateValid.taaFbo ≠ 0 ∧ sampleStateValid.taaColor0 ≠ 0
                ∧ sampleStateValid.taaColor1 ≠ 0))) :=
  have h := processInput_cloud_keys_keep_history (keyInput GLFW_KEY_KP_SUBTRACT)
    sampleStateValid sampleDriver 800 600 rfl rfl rfl
  ⟨h.1, h.2.1, h.2.2.1, h.2.2.2.1, h.2.2.2.2.1, h.2.2.2.2.2.1, h.2.2.2.2.2.2.2.1⟩

/-- C17, counterexample. From a state with a valid history and weight `0.90f`, a press of
keypad `+` alone raises the cloud layer from `(1500, 9000)` to `(1700, 9200)` and leaves
`taaHistoryValid = true`; the composite stage that follows writes the blend factor `0.90f`,
not `0`. -/
theorem processInput_cloud_key_history_counterexample :
    sampleStateValid.taaHistoryValid = true
      ∧ risingEdge (keyInput GLFW_KEY_KP_ADD) GLFW_KEY_KP_ADD sampleStateValid = true
      ∧ (processInput (keyInput GLFW_KEY_KP_ADD) sampleStateValid).cloudBottom = 1700
      ∧ (processInput (keyInput GLFW_KEY_KP_ADD) sampleStateValid).cloudTop = 9200
      ∧ (processInput (keyInput GLFW_KEY_KP_ADD) sampleStateValid).taaHistoryValid = true
      ∧ (processInput (keyInput GLFW_KEY_KP_ADD) sampleStateValid).taaHistoryValid ≠ false
      ∧ ∃ s4 calls, renderTaaComposite sampleDriver 800 600
            (processInput (keyInput GLFW_KEY_KP_ADD) sampleStateValid) = some s4
          ∧ s4.glLog = (processInput (keyInput GLFW_KEY_KP_ADD) sampleStateValid).glLog ++ calls
          ∧ GLCall.uniform1f 3 (f32 (9 / 10)) ∈ calls
          ∧ f32 (9 / 10) = 7549747 / 8388608
          ∧ ¬ GLCall.uniform1f 3 0 ∈ calls := by
  have hT : risingEdge (keyInput GLFW_KEY_KP_ADD) GLFW_KEY_T sampleStateValid = false := rfl
  have hL : risingEdge (keyInput GLFW_KEY_KP_ADD) GLFW_KEY_LEFT_BRACKET sampleStateValid
      = false := rfl
  have hR : risingEdge (keyInput GLFW_KEY_KP_ADD) GLFW_KEY_RIGHT_BRACKET sampleStateValid
      = false := rfl
  have hA : risingEdge (keyInput GLFW_KEY_KP_ADD) GLFW_KEY_KP_ADD sampleStateValid = true := rfl
  have hS : risingEdge (keyInput GLFW_KEY_KP_ADD) GLFW_KEY_KP_SUBTRACT sampleStateValid
      = false := rfl
  have hvalid : (processInput (keyInput GLFW_KEY_KP_ADD) sampleStateValid).taaHistoryValid
      = true := by
    rw [processInput_taaHistoryValid, hT, hL, hR]
    rfl
  have h90 : f32 (9 / 10) = 7549747 / 8388608 := by decide!
  have hweight : (processInput (keyInput GLFW_KEY_KP_ADD) sampleStateValid).taaHistoryWeight
      = f32 (9 / 10) := by
    rw [processInput_taaHistoryWeight_of_no_bracket _ _ hL hR]
    show f32 (90 / 100) = f32 (9 / 10)
    norm_num
  have hclouds := processInput_clouds (keyInput GLFW_KEY_KP_ADD) sampleStateValid
  rw [hA, hS] at hclouds
  simp only [if_true, Bool.false_eq_true, if_false, id, Prod.mk.injEq] at hclouds
  have hb : (processInput (keyInput GLFW_KEY_KP_ADD) sampleStateValid).cloudBottom = 1700 := by
    rw [hclouds.1]
    show f32 (1500 + 200) = 1700
    decide!
  have ht : (processInput (keyInput GLFW_KEY_KP_ADD) sampleStateValid).cloudTop = 9200 := by
    rw [hclouds.2]
    show f32 (9000 + 200) = 9200
    decide!
  have hrun := renderTaaComposite_loaded sampleDriver 800 600
    (processInput (keyInput GLFW_KEY_KP_ADD) sampleStateValid) { ID := 5 } 8 9 rfl (by decide)
    rfl rfl
  have hmem := uniform1f_mem_compositeCalls sampleDriver 800 600
    (processInput (keyInput GLFW_KEY_KP_ADD) sampleStateValid) 5 8 9
  refine ⟨rfl, hA, hb, ht, hvalid, by rw [hvalid]; decide, _, _, hrun, rfl, ?_, h90, ?_⟩
  · rw [hmem]
    refine ⟨rfl, by decide, ?_⟩
    rw [hvalid, hweight]
    rfl
  · rw [hmem]
    rintro ⟨_, _, h0⟩
    rw [hvalid, hweight, h90] at h0
    norm_num at h0

/-! ### Texture units -/

theorem Bind2D_eq (gl : Driver) (tex : Texture) (sh : Shader) (names : List String)
    (unit : Int) (log : List GLCall) :
    Bind2D gl tex sh names unit log
      = log ++ (if GetLocAny gl sh.ID names ≠ -1 then
          [GLCall.useTexture tex.textureID (GetLocAny gl sh.ID names) unit] else []) := by
  unfold Bind2D
  by_cases hloc : GetLocAny gl sh.ID names = -1 <;> simp [hloc]

theorem Bind3D_eq (gl : Driver) (tex : Texture) (sh : Shader) (names : List String)
    (unit : Int) (log : List GLCall) :
    Bind3D gl tex sh names unit log
      = log ++ (if GetLocAny gl sh.ID names ≠ -1 then
          [GLCall.useTexture3D tex.textureID (GetLocAny gl sh.ID names) unit] else []) := by
  unfold Bind3D
  by_cases hloc : GetLocAny gl sh.ID names = -1 <;> simp [hloc]

set_option maxHeartbeats 1600000 in
theorem textureCalls_eq_expected (gl : Driver) (sh : Shader) (s : Init) :
    textureCalls gl sh s = expectedTextureCalls gl sh s := by
  unfold textureCalls expectedTextureCalls textureSlots presentBefore
  cases s.lowfreq3D <;> cases s.highfreq3D <;> cases s.weathermap2D <;>
    cases s.curlnoise2D <;> cases s.gradient_stratus <;> cases s.gradient_cumulus <;>
    cases s.gradient_cumulonimbus <;>
    simp [bindOptional, Bind2D_eq, Bind3D_eq, List.range_succ, List.flatMap]

/-- C27. `bindTextures` is a total function of the state, whatever textures are absent, and
the binds it issues after `glUseProgram` are those of `expectedTextureCalls`: the blocks are
taken in the order `lowfreq3D`, `highfreq3D`, `weathermap2D`, `curlnoise2D`,
`gradient_stratus`, `gradient_cumulus`, `gradient_cumulonimbus`, an absent texture gives no
command, and a present texture is bound on the unit equal to the number of present textures
before it, a number that does not depend on which sampler names the program resolves.  With
all seven textures absent no bind is issued. -/
theorem bindTextures_units (gl : Driver) (sh : Shader) (s : Init) :
    bindTextures gl sh s = s.emit (GLCall.useProgram sh.ID :: expectedTextureCalls gl sh s)
      ∧ textureCalls gl sh s = expectedTextureCalls gl sh s
      ∧ (textureSlots s).map Prod.fst
          = [s.lowfreq3D, s.highfreq3D, s.weathermap2D, s.curlnoise2D, s.gradient_stratus,
              s.gradient_cumulus, s.gradient_cumulonimbus]
      ∧ (∀ i, presentBefore (textureSlots s) i ≤ i ∧ presentBefore (textureSlots s) i ≤ 7)
      ∧ ((∀ e ∈ textureSlots s, e.1 = none) → textureCalls gl sh s = []) := by
  have heq := textureCalls_eq_expected gl sh s
  refine ⟨?_, heq, rfl, ?_, ?_⟩
  · unfold bindTextures
    rw [heq]
  · intro i
    unfold presentBefore
    constructor
    · exact (List.length_filter_le _ _).trans ((List.length_take_le _ _))
    · refine (List.length_filter_le _ _).trans ?_
      rw [List.length_take]
      exact (min_le_right _ _).trans (by simp [textureSlots])
  · intro hall
    simp only [textureSlots, List.forall_mem_cons] at hall
    obtain ⟨h1, h2, h3, h4, h5, h6, h7, _⟩ := hall
    unfold textureCalls
    rw [h1, h2, h3, h4, h5, h6, h7]
    rfl

/-- Two textures present, `weathermap2D` and `gradient_cumulus`: they get the units 0 and 1.
When the program resolves no sampler name of `weathermap2D`, `gradient_cumulus` is still bound
on unit 1. -/
theorem bindTextures_two_textures :
    textureCalls samplerDriver { ID := 11 } twoTextureState
        = [GLCall.useTexture 21 2 0, GLCall.useTexture 22 2 1]
      ∧ textureCalls cumulusDriver { ID := 11 } twoTextureState = [GLCall.useTexture 22 4 1]
      ∧ textureCalls samplerDriver { ID := 11 } Init.ctor = [] := by
  refine ⟨?_, ?_, rfl⟩
  · rfl
  · simp [textureCalls, bindOptional, Bind2D, Bind3D, GetLocAny, twoTextureState, Init.ctor,
      cumulusDriver]

/-! ### Re-creation of the render targets -/

theorem run_createCalls_attachment (gl : Driver) (w h : Int) (b : GLBindings) :
    (b.run (createCalls gl w h)).attachment gl.glGenFramebuffers = gl.glGenTextures.1 := by
  simp [createCalls, colorSlotCalls, GLBindings.run, GLBindings.step]

/-- C23. A call `ensureTaaTargets(w, h)` that does not take the no-op path and finds the
framebuffer complete returns.  Its commands are the deletes of `destroyTaaTargets`, one per
non-zero handle held before, followed by: the framebuffer object generated and bound; two
textures generated; each of them bound, allocated with `glTexImage2D` at `w x h`, and given
linear minification and magnification filters and clamp-to-edge wrapping in both directions;
slot 0 attached to the framebuffer object; the status checked; the default framebuffer bound.
Afterwards the recorded dimensions are `(w, h)`, the handles are the generated names,
`taaIndex = 0` and `taaHistoryValid = false`, every other field is as before; on the server
the handles held before are gone unless generated anew, and slot 0 is the colour attachment of
the framebuffer object. -/
theorem ensureTaaTargets_recreates (gl : Driver) (w h : Int) (s : Init)
    (hok : gl.glCheckFramebufferStatus = GL_FRAMEBUFFER_COMPLETE)
    (hpath : ¬ (s.taaW = w ∧ s.taaH = h ∧ s.taaFbo ≠ 0 ∧ s.taaColor0 ≠ 0 ∧ s.taaColor1 ≠ 0)) :
    ∃ s2, ensureTaaTargets gl w h s = (Outcome.returned, s2)
      ∧ s2 = { s with taaFbo := gl.glGenFramebuffers, taaColor0 := gl.glGenTextures.1,
                      taaColor1 := gl.glGenTextures.2, taaW := w, taaH := h,
                      taaHistoryValid := false, taaIndex := 0, glLog := s2.glLog }
      ∧ s2.glLog = s.glLog ++ (destroyCalls s
          ++ [GLCall.genFramebuffers gl.glGenFramebuffers,
              GLCall.bindFramebuffer gl.glGenFramebuffers,
              GLCall.genTextures gl.glGenTextures.1 gl.glGenTextures.2,
              GLCall.bindTexture gl.glGenTextures.1, GLCall.texImage2D w h,
              GLCall.texParameteri TexParam.minFilter TexValue.linear,
              GLCall.texParameteri TexParam.magFilter TexValue.linear,
              GLCall.texParameteri TexParam.wrapS TexValue.clampToEdge,
              GLCall.texParameteri TexParam.wrapT TexValue.clampToEdge,
              GLCall.bindTexture gl.glGenTextures.2, GLCall.texImage2D w h,
              GLCall.texParameteri TexParam.minFilter TexValue.linear,
              GLCall.texParameteri TexParam.magFilter TexValue.linear,
              GLCall.texParameteri TexParam.wrapS TexValue.clampToEdge,
              GLCall.texParameteri TexParam.wrapT TexValue.clampToEdge,
              GLCall.framebufferTexture2D gl.glGenTextures.1, GLCall.checkFramebufferStatus,
              GLCall.bindFramebuffer 0])
      ∧ (∀ c, c ∈ destroyCalls s ↔
          (c = GLCall.deleteFramebuffers s.taaFbo ∧ s.taaFbo ≠ 0)
            ∨ (c = GLCall.deleteTextures s.taaColor0 ∧ s.taaColor0 ≠ 0)
            ∨ (c = GLCall.deleteTextures s.taaColor1 ∧ s.taaColor1 ≠ 0))
      ∧ (s2.taaW = w ∧ s2.taaH = h ∧ s2.taaIndex = 0 ∧ s2.taaHistoryValid = false
          ∧ s2.taaColor 0 = some gl.glGenTextures.1 ∧ s2.taaColor 1 = some gl.glGenTextures.2)
      ∧ (∀ (o : GLObjects) (n : Nat),
          (n ∈ (o.run s2.glLog).framebuffers ↔
            (gl.glGenFramebuffers ≠ 0 ∧ n = gl.glGenFramebuffers)
              ∨ (n ∈ (o.run s.glLog).framebuffers ∧ ¬ (s.taaFbo ≠ 0 ∧ n = s.taaFbo)))
          ∧ (n ∈ (o.run s2.glLog).textures ↔
            (gl.glGenTextures.2 ≠ 0 ∧ n = gl.glGenTextures.2)
              ∨ (gl.glGenTextures.1 ≠ 0 ∧ n = gl.glGenTextures.1)
              ∨ (n ∈ (o.run s.glLog).textures ∧ ¬ (s.taaColor0 ≠ 0 ∧ n = s.taaColor0)
                  ∧ ¬ (s.taaColor1 ≠ 0 ∧ n = s.taaColor1))))
      ∧ (∀ b : GLBindings, (b.run s2.glLog).attachment s2.taaFbo = s2.taaColor0) := by
  refine ⟨_, ensureTaaTargets_created gl w h s hok hpath, rfl, ?_, mem_destroyCalls s,
    ⟨rfl, rfl, rfl, rfl, rfl, rfl⟩, ?_, ?_⟩
  · show s.glLog ++ (destroyCalls s ++ createCalls gl w h) = _
    rfl
  · intro o n
    show (n ∈ (o.run (s.glLog ++ (destroyCalls s ++ createCalls gl w h))).framebuffers ↔ _)
      ∧ (n ∈ (o.run (s.glLog ++ (destroyCalls s ++ createCalls gl w h))).textures ↔ _)
    rw [GLObjects_run_append, GLObjects_run_append, run_createCalls]
    constructor
    · rw [mem_insertName, mem_run_destroyCalls_framebuffers]
    · rw [mem_insertName, mem_insertName, mem_run_destroyCalls_textures]
  · intro b
    show (b.run (s.glLog ++ (destroyCalls s ++ createCalls gl w h))).attachment
      gl.glGenFramebuffers = gl.glGenTextures.1
    rw [GLBindings.run_append, GLBindings.run_append, run_createCalls_attachment]

theorem ensureTaaTargets_recreates_witness :
    ∃ s2, ensureTaaTargets sampleDriver 1024 768 sampleStateValid = (Outcome.returned, s2)
      ∧ s2.glLog = sampleStateValid.glLog
          ++ [GLCall.deleteFramebuffers 7, GLCall.deleteTextures 8, GLCall.deleteTextures 9,
              GLCall.genFramebuffers 7, GLCall.bindFramebuffer 7, GLCall.genTextures 8 9,
              GLCall.bindTexture 8, GLCall.texImage2D 1024 768,
              GLCall.texParameteri TexParam.minFilter TexValue.linear,
              GLCall.texParameteri TexParam.magFilter TexValue.linear,
              GLCall.texParameteri TexParam.wrapS TexValue.clampToEdge,
              GLCall.texParameteri TexParam.wrapT TexValue.clampToEdge,
              GLCall.bindTexture 9, GLCall.texImage2D 1024 768,
              GLCall.texParameteri TexParam.minFilter TexValue.linear,
              GLCall.texParameteri TexParam.magFilter TexValue.linear,
              GLCall.texParameteri TexParam.wrapS TexValue.clampToEdge,
              GLCall.texParameteri TexParam.wrapT TexValue.clampToEdge,
              GLCall.framebufferTexture2D 8, GLCall.checkFramebufferStatus,
              GLCall.bindFramebuffer 0]
      ∧ (s2.taaW = 1024 ∧ s2.taaH = 768 ∧ s2.taaIndex = 0 ∧ s2.taaHistoryValid = false
          ∧ s2.taaColor 0 = some 8 ∧ s2.taaColor 1 = some 9) := by
  obtain ⟨s2, hrun, _, hlog, _, hfields, _⟩ :=
    ensureTaaTargets_recreates sampleDriver 1024 768 sampleStateValid rfl (by decide)
  exact ⟨s2, hrun, hlog, hfields⟩

/-! ### The shape of a drawn frame -/

theorem ensureTaaTargets_incr (gl : Driver) (w h : Int) (s : Init) :
    ensureTaaTargets gl w h (incrementFrameCounter s)
      = ((ensureTaaTargets gl w h s).1, incrementFrameCounter (ensureTaaTargets gl w h s).2) := by
  by_cases hpath : s.taaW = w ∧ s.taaH = h ∧ s.taaFbo ≠ 0 ∧ s.taaColor0 ≠ 0 ∧ s.taaColor1 ≠ 0
  · rw [ensureTaaTargets_noop gl w h s hpath,
      ensureTaaTargets_noop gl w h (incrementFrameCounter s) hpath]
  · by_cases hok : gl.glCheckFramebufferStatus = GL_FRAMEBUFFER_COMPLETE
    · rw [ensureTaaTargets_created gl w h s hok hpath,
        ensureTaaTargets_created gl w h (incrementFrameCounter s) hok hpath]
      rfl
    · rw [ensureTaaTargets_thrown gl w h s hok hpath,
        ensureTaaTargets_thrown gl w h (incrementFrameCounter s) hok hpath]
      rfl

/-- The commands of a call of `ensureTaaTargets` that returns: none, or deletes followed by
the creation commands. -/
theorem ensureTaaTargets_returned_log (gl : Driver) (w h : Int) (s : Init)
    (hret : (ensureTaaTargets gl w h s).1 = Outcome.returned) :
    ∃ ecmds, (ensureTaaTargets gl w h s).2.glLog = s.glLog ++ ecmds
      ∧ (ecmds = [] ∨ ecmds = destroyCalls s ++ createCalls gl w h) := by
  by_cases hpath : s.taaW = w ∧ s.taaH = h ∧ s.taaFbo ≠ 0 ∧ s.taaColor0 ≠ 0 ∧ s.taaColor1 ≠ 0
  · rw [ensureTaaTargets_noop gl w h s hpath]
    exact ⟨[], (List.append_nil _).symm, Or.inl rfl⟩
  · by_cases hok : gl.glCheckFramebufferStatus = GL_FRAMEBUFFER_COMPLETE
    · rw [ensureTaaTargets_created gl w h s hok hpath]
      exact ⟨_, rfl, Or.inr rfl⟩
    · rw [ensureTaaTargets_thrown gl w h s hok hpath] at hret
      cases hret

theorem ensureTaaTargets_eq_of_returned (gl : Driver) (w h : Int) (s : Init)
    (hret : (ensureTaaTargets gl w h s).1 = Outcome.returned) :
    ensureTaaTargets gl w h s = (Outcome.returned, (ensureTaaTargets gl w h s).2) := by
  rcases ensureTaaTargets_cases gl w h s with e | ⟨what, e⟩
  · exact e
  · rw [e] at hret
    cases hret

/-- The composite stage as commands: from a state with `taaIndex` in `{0, 1}` it returns, and
it adds `compositeStageCalls` to the record. -/
theorem renderTaaComposite_log (gl : Driver) (w h : Int) (s : Init) (texCur texHist : Nat)
    (hcur : s.taaColor s.taaIndex = some texCur)
    (hhist : s.taaColor (1 - s.taaIndex) = some texHist) :
    ∃ s2, renderTaaComposite gl w h s = some s2
      ∧ s2.glLog = s.glLog ++ compositeStageCalls gl w h s texCur texHist
      ∧ s2.frameCounter = s.frameCounter := by
  unfold compositeStageCalls
  rcases Option.eq_none_or_eq_some s.taaShader with hsh | ⟨sh, hsh⟩
  · refine ⟨s, ?_, ?_, rfl⟩
    · unfold renderTaaComposite
      simp only [hsh]
    · simp only [hsh, List.append_nil]
  · by_cases hid : sh.ID = 0
    · refine ⟨s, ?_, ?_, rfl⟩
      · unfold renderTaaComposite
        simp only [hsh, if_pos hid]
      · simp only [hsh, if_pos hid, List.append_nil]
    · refine ⟨_, renderTaaComposite_loaded gl w h s sh texCur texHist hsh hid hcur hhist,
        ?_, rfl⟩
      simp only [hsh, if_neg hid]

theorem compositeStageCalls_incr_emit (gl : Driver) (w h : Int) (s : Init) (a : List GLCall)
    (texCur texHist : Nat) :
    compositeStageCalls gl w h ((incrementFrameCounter s).emit a) texCur texHist
      = compositeStageCalls gl w h s texCur texHist := rfl

theorem compositeStageCalls_emit (gl : Driver) (w h : Int) (s : Init) (a : List GLCall)
    (texCur texHist : Nat) :
    compositeStageCalls gl w h (s.emit a) texCur texHist
      = compositeStageCalls gl w h s texCur texHist := rfl

/-- A drawn temporal frame of the direct mode: after `ensureTaaTargets`, the fresh slot is
attached, the scene is rendered, the composite stage runs, the buffers are swapped. -/
theorem renderDirect_on (gl : Driver) (w h : Int) (t : ℚ) (s : Init) (sh : Shader)
    (hsh : selectedShader s = some sh) (hid : sh.ID ≠ 0) (hq : s.quad.isSome = true)
    (htaa : s.taaEnabled = true)
    (hret : (ensureTaaTargets gl w h s).1 = Outcome.returned)
    (hidx : s.taaIndex = 0 ∨ s.taaIndex = 1) :
    ∃ j fresh hist s2,
      F32.Halton2D (toInt32 ((s.frameCounter + 1) % 2 ^ 64)) = some j
      ∧ (ensureTaaTargets gl w h s).2.taaColor (ensureTaaTargets gl w h s).2.taaIndex
          = some fresh
      ∧ (ensureTaaTargets gl w h s).2.taaColor (1 - (ensureTaaTargets gl w h s).2.taaIndex)
          = some hist
      ∧ renderDirect gl w h t s = some s2
      ∧ s2.frameCounter = (s.frameCounter + 1) % 2 ^ 64
      ∧ s2.glLog = (ensureTaaTargets gl w h s).2.glLog
          ++ ([GLCall.bindFramebuffer (ensureTaaTargets gl w h s).2.taaFbo,
                GLCall.framebufferTexture2D fresh, GLCall.bindFramebuffer 0]
              ++ sceneCalls gl (ensureTaaTargets gl w h s).2.taaFbo sh w h t j
                  (ensureTaaTargets gl w h s).2
              ++ compositeStageCalls gl w h (ensureTaaTargets gl w h s).2 fresh hist
              ++ [GLCall.swapBuffers, GLCall.pollEvents]) := by
  have hE := ensureTaaTargets_eq_of_returned gl w h s hret
  have hfc : (ensureTaaTargets gl w h s).2.frameCounter = s.frameCounter :=
    ensureTaaTargets_keeps (fun s => s.frameCounter) (fun _ _ _ _ _ _ _ => rfl) gl w h s
  have hidxE : (ensureTaaTargets gl w h s).2.taaIndex = 0
      ∨ (ensureTaaTargets gl w h s).2.taaIndex = 1 := by
    rcases ensureTaaTargets_taaIndex gl w h s with e | e
    · rw [e]; exact hidx
    · exact Or.inl e
  generalize (ensureTaaTargets gl w h s).2 = E at hE hfc hidxE
  obtain ⟨fresh, hist, hcur, hhist, _⟩ := taaColor_of_index E hidxE
  obtain ⟨j, hj, hrd⟩ := renderDirect_taa gl w h t s E sh fresh hsh hid hq htaa hE hcur
  obtain ⟨s4, h4, hlog4, hfc4⟩ := renderTaaComposite_log gl w h
    ((incrementFrameCounter E).emit ([GLCall.bindFramebuffer E.taaFbo,
      GLCall.framebufferTexture2D fresh, GLCall.bindFramebuffer 0]
      ++ sceneCalls gl E.taaFbo sh w h t j E)) fresh hist hcur hhist
  rw [h4] at hrd
  have hj2 : F32.Halton2D (toInt32 ((s.frameCounter + 1) % 2 ^ 64)) = some j := by
    rw [← hfc]
    exact hj
  refine ⟨j, fresh, hist, swapBuffersAndPollEvents s4, hj2, hcur, hhist, hrd, ?_, ?_⟩
  · show s4.frameCounter = _
    rw [hfc4, ← hfc]
    rfl
  · show s4.glLog ++ [GLCall.swapBuffers, GLCall.pollEvents] = _
    rw [hlog4, compositeStageCalls_incr_emit]
    simp only [emit_glLog, List.append_assoc]
    rfl

/-- A drawn temporal frame of the combined mode. -/
theorem renderCombined_on (gl : Driver) (w h : Int) (t : ℚ) (s : Init) (ws co : Shader)
    (hws : s.watersky = some ws) (hco : s.cloudsOver = some co) (hw0 : ws.ID ≠ 0)
    (hc0 : co.ID ≠ 0) (hq : s.quad.isSome = true) (htaa : s.taaEnabled = true)
    (hret : (ensureTaaTargets gl w h s).1 = Outcome.returned)
    (hidx : s.taaIndex = 0 ∨ s.taaIndex = 1) :
    ∃ j fresh hist s2,
      F32.Halton2D (toInt32 ((s.frameCounter + 1) % 2 ^ 64)) = some j
      ∧ (ensureTaaTargets gl w h s).2.taaColor (ensureTaaTargets gl w h s).2.taaIndex
          = some fresh
      ∧ (ensureTaaTargets gl w h s).2.taaColor (1 - (ensureTaaTargets gl w h s).2.taaIndex)
          = some hist
      ∧ renderCombined gl w h t s = some s2
      ∧ s2.frameCounter = (s.frameCounter + 1) % 2 ^ 64
      ∧ s2.glLog = (ensureTaaTargets gl w h s).2.glLog
          ++ ([GLCall.bindFramebuffer (ensureTaaTargets gl w h s).2.taaFbo,
                GLCall.framebufferTexture2D fresh, GLCall.viewport 0 0 w h]
              ++ disableAllCalls ++ ClearColorOnly
              ++ combinedCalls gl ws co w h t j (ensureTaaTargets gl w h s).2
              ++ [GLCall.bindFramebuffer 0]
              ++ compositeStageCalls gl w h (ensureTaaTargets gl w h s).2 fresh hist
              ++ [GLCall.swapBuffers, GLCall.pollEvents]) := by
  have hE := ensureTaaTargets_eq_of_returned gl w h s hret
  have hfc : (ensureTaaTargets gl w h s).2.frameCounter = s.frameCounter :=
    ensureTaaTargets_keeps (fun s => s.frameCounter) (fun _ _ _ _ _ _ _ => rfl) gl w h s
  have hidxE : (ensureTaaTargets gl w h s).2.taaIndex = 0
      ∨ (ensureTaaTargets gl w h s).2.taaIndex = 1 := by
    rcases ensureTaaTargets_taaIndex gl w h s with e | e
    · rw [e]; exact hidx
    · exact Or.inl e
  have hEi : ensureTaaTargets gl w h (incrementFrameCounter s)
      = (Outcome.returned, incrementFrameCounter (ensureTaaTargets gl w h s).2) := by
    rw [ensureTaaTargets_incr, hret]
  generalize (ensureTaaTargets gl w h s).2 = E at hE hfc hidxE hEi
  obtain ⟨fresh, hist, hcur, hhist, _⟩ := taaColor_of_index E hidxE
  obtain ⟨j, hj, hrd⟩ := renderCombined_taa gl w h t s (incrementFrameCounter E) ws co fresh
    hws hco hw0 hc0 hq htaa hEi hcur
  obtain ⟨s4, h4, hlog4, hfc4⟩ := renderTaaComposite_log gl w h
    ((incrementFrameCounter E).emit ([GLCall.bindFramebuffer (incrementFrameCounter E).taaFbo,
      GLCall.framebufferTexture2D fresh, GLCall.viewport 0 0 w h] ++ disableAllCalls
      ++ ClearColorOnly ++ combinedCalls gl ws co w h t j (incrementFrameCounter E)
      ++ [GLCall.bindFramebuffer 0])) fresh hist hcur hhist
  rw [h4] at hrd
  have hj2 : F32.Halton2D (toInt32 ((s.frameCounter + 1) % 2 ^ 64)) = some j := by
    rw [← hfc]
    exact hj
  refine ⟨j, fresh, hist, swapBuffersAndPollEvents s4, hj2, hcur, hhist, hrd, ?_, ?_⟩
  · show s4.frameCounter = _
    rw [hfc4, ← hfc]
    rfl
  · show s4.glLog ++ [GLCall.swapBuffers, GLCall.pollEvents] = _
    rw [hlog4, compositeStageCalls_incr_emit]
    simp only [emit_glLog, List.append_assoc]
    rfl

/-! ### The draws of a drawn frame -/

theorem draws_nil_of_drawCount (l : List GLCall) (h0 : drawCount l = 0) (b : GLBindings) :
    b.draws l = [] := by
  apply List.eq_nil_of_length_eq_zero
  rw [GLBindings.draws_length, h0]

theorem ensureCmds_drawCount (gl : Driver) (w h : Int) (s : Init) (ecmds : List GLCall)
    (hec : ecmds = [] ∨ ecmds = destroyCalls s ++ createCalls gl w h) : drawCount ecmds = 0 := by
  rcases hec with e | e
  · rw [e]; rfl
  · rw [e, drawCount_append, (destroyCalls_counts s).2, (createCalls_counts gl w h).2]

theorem compositeStageCalls_draws (gl : Driver) (w h : Int) (s : Init) (texCur texHist : Nat)
    (hq : s.quad.isSome = true) (b : GLBindings) :
    b.draws (compositeStageCalls gl w h s texCur texHist) = compositeDraws s texCur texHist := by
  unfold compositeStageCalls compositeDraws
  rcases Option.eq_none_or_eq_some s.taaShader with hsh | ⟨sh, hsh⟩
  · simp only [hsh]
    rfl
  · simp only [hsh]
    by_cases hid : sh.ID = 0
    · simp only [if_pos hid]
      rfl
    · simp only [if_neg hid]
      rw [(compositeCalls_draws gl w h s sh.ID texCur texHist b).1, hq]
      rfl

/-- The draws of a frame drawn with temporal mode off are those of its passes, issued with the
default framebuffer bound. -/
theorem offFrame_draws (w h : Int) (body : List GLCall) (b : GLBindings) :
    b.draws (ResetFullscreenState w h ++ ClearColorOnly ++ body
        ++ [GLCall.swapBuffers, GLCall.pollEvents])
      = (b.run (ResetFullscreenState w h ++ ClearColorOnly)).draws body
      ∧ (b.run (ResetFullscreenState w h ++ ClearColorOnly)).framebuffer = 0 := by
  constructor
  · rw [GLBindings.draws_append, GLBindings.draws_append, draws_present, List.append_nil]
    have e1 : b.draws (ResetFullscreenState w h ++ ClearColorOnly) = [] := by
      simp [GLBindings.draws, ResetFullscreenState, ClearColorOnly]
    rw [e1, List.nil_append]
  · simp [GLBindings.run, GLBindings.step, ResetFullscreenState, ClearColorOnly]

/-- The draws of a temporal frame of the direct mode: the scene draw into the fresh texture,
then the draw of the composite stage. -/
theorem directOn_draws (gl : Driver) (fbo fresh hist : Nat) (sh : Shader) (w h : Int) (t : ℚ)
    (j : ℚ × ℚ) (E : Init) (ecmds : List GLCall) (hq : E.quad.isSome = true) (hfbo : fbo ≠ 0)
    (hec : drawCount ecmds = 0) (b : GLBindings) :
    ∃ d, b.draws (ecmds ++ ([GLCall.bindFramebuffer fbo, GLCall.framebufferTexture2D fresh,
            GLCall.bindFramebuffer 0] ++ sceneCalls gl fbo sh w h t j E
          ++ compositeStageCalls gl w h E fresh hist
          ++ [GLCall.swapBuffers, GLCall.pollEvents]))
        = [d] ++ compositeDraws E fresh hist
      ∧ d.program = sh.ID ∧ d.framebuffer = fbo ∧ d.colorTexture = fresh := by
  obtain ⟨d, hd, hp, hf, hc⟩ := sceneFrameCalls_draws gl fbo fresh sh w h t j E hq hfbo
    (b.run ecmds)
  refine ⟨d, ?_, hp, hf, hc⟩
  rw [GLBindings.draws_append, draws_nil_of_drawCount ecmds hec, List.nil_append,
    GLBindings.draws_append, GLBindings.draws_append, hd, draws_present, List.append_nil,
    compositeStageCalls_draws gl w h E fresh hist hq]

/-- The draws of a temporal frame of the combined mode: the two scene draws into the fresh
texture, then the draw of the composite stage. -/
theorem combinedOn_draws (gl : Driver) (fbo fresh hist : Nat) (ws co : Shader) (w h : Int)
    (t : ℚ) (j : ℚ × ℚ) (E : Init) (ecmds : List GLCall) (hq : E.quad.isSome = true)
    (hfbo : fbo ≠ 0) (hec : drawCount ecmds = 0) (b : GLBindings) :
    ∃ d1 d2, b.draws (ecmds ++ ([GLCall.bindFramebuffer fbo, GLCall.framebufferTexture2D fresh,
            GLCall.viewport 0 0 w h] ++ disableAllCalls ++ ClearColorOnly
          ++ combinedCalls gl ws co w h t j E ++ [GLCall.bindFramebuffer 0]
          ++ compositeStageCalls gl w h E fresh hist
          ++ [GLCall.swapBuffers, GLCall.pollEvents]))
        = [d1, d2] ++ compositeDraws E fresh hist
      ∧ d1.program = ws.ID ∧ d1.framebuffer = fbo ∧ d1.colorTexture = fresh
      ∧ d2.program = co.ID ∧ d2.framebuffer = fbo ∧ d2.colorTexture = fresh := by
  obtain ⟨⟨d1, d2, hd, hp1, hp2, hf1, hf2, hc1, hc2⟩, _, _⟩ :=
    combinedCalls_draws gl ws co w h t j E
      ((b.run ecmds).run ([GLCall.bindFramebuffer fbo, GLCall.framebufferTexture2D fresh,
        GLCall.viewport 0 0 w h] ++ disableAllCalls ++ ClearColorOnly))
  have hpre : ((b.run ecmds).run ([GLCall.bindFramebuffer fbo,
      GLCall.framebufferTexture2D fresh, GLCall.viewport 0 0 w h] ++ disableAllCalls
      ++ ClearColorOnly)).framebuffer = fbo := by
    simp [GLBindings.run, GLBindings.step, disableAllCalls, ClearColorOnly]
  have hcol : ((b.run ecmds).run ([GLCall.bindFramebuffer fbo,
      GLCall.framebufferTexture2D fresh, GLCall.viewport 0 0 w h] ++ disableAllCalls
      ++ ClearColorOnly)).draw.colorTexture = fresh := by
    simp [GLBindings.run, GLBindings.step, GLBindings.draw, disableAllCalls, ClearColorOnly,
      hfbo]
  have hpd : (b.run ecmds).draws ([GLCall.bindFramebuffer fbo,
      GLCall.framebufferTexture2D fresh, GLCall.viewport 0 0 w h] ++ disableAllCalls
      ++ ClearColorOnly) = [] := by
    simp [GLBindings.draws, disableAllCalls, ClearColorOnly]
  refine ⟨d1, d2, ?_, hp1, hf1.trans hpre, hc1.trans hcol, hp2, hf2.trans hpre,
    hc2.trans hcol⟩
  generalize ([GLCall.bindFramebuffer fbo, GLCall.framebufferTexture2D fresh,
    GLCall.viewport 0 0 w h] ++ disableAllCalls ++ ClearColorOnly) = pre at hd hpd ⊢
  simp only [GLBindings.draws_append, GLBindings.run_append]
  rw [draws_nil_of_drawCount ecmds hec, hpd, hd, draws_present,
    compositeStageCalls_draws gl w h E fresh hist hq]
  simp [GLBindings.draws]

theorem usable_iff (p : Option Shader) :
    unusable p = false ↔ ∃ sh, p = some sh ∧ sh.ID ≠ 0 := by
  cases p with
  | none => simp [unusable]
  | some sh => simp [unusable]

theorem compositeDraws_congr (a b : Init) (h : a.taaShader = b.taaShader)
    (texCur texHist : Nat) : compositeDraws a texCur texHist = compositeDraws b texCur texHist := by
  unfold compositeDraws
  rw [h]

/-- The draws of a drawn frame with temporal mode off, in both modes: one draw per scene
program, in order, each into the default framebuffer. -/
theorem draws_of_plain_frame (env : FrameEnv) (s : Init)
    (hsize : 0 < env.framebufferSize.1 ∧ 0 < env.framebufferSize.2)
    (hprog : activeProgramMissing (processInput env.input s) = false)
    (hquad : (processInput env.input s).quad.isSome = true)
    (hoff : (processInput env.input s).taaEnabled = false) :
    ∃ s2 cmds, render env s = some s2 ∧ s2.glLog = s.glLog ++ cmds
      ∧ ∀ b : GLBindings, ∃ scene, b.draws cmds = scene
          ∧ scene.map Draw.program
              = (scenePrograms (processInput env.input s)).map Shader.ID
          ∧ ∀ d ∈ scene, d.framebuffer = 0 ∧ d.colorTexture = 0 := by
  have hlog0 := processInput_glLog env.input s
  rw [render_eq, if_neg (by omega)]
  generalize processInput env.input s = p at *
  generalize env.framebufferSize.1 = w at *
  generalize env.framebufferSize.2 = h at *
  unfold activeProgramMissing at hprog
  by_cases hmode : p.activeShader = 8
  · rw [if_pos hmode] at hprog ⊢
    rw [Bool.or_eq_false_iff, usable_iff, usable_iff] at hprog
    obtain ⟨⟨ws, hws, hw0⟩, ⟨co, hco, hc0⟩⟩ := hprog
    have hprogs : (scenePrograms p).map Shader.ID = [ws.ID, co.ID] := by
      unfold scenePrograms
      rw [if_pos hmode, hws, hco]
      rfl
    refine ⟨_, ResetFullscreenState w h ++ ClearColorOnly
        ++ combinedCalls env.gl ws co w h env.time (0, 0) p
        ++ [GLCall.swapBuffers, GLCall.pollEvents],
      renderCombined_off env.gl w h env.time p ws co hws hco hw0 hc0 hquad hoff, ?_,
      fun b => ?_⟩
    · show p.glLog ++ (ResetFullscreenState w h ++ ClearColorOnly
        ++ combinedCalls env.gl ws co w h env.time (0, 0) p)
        ++ [GLCall.swapBuffers, GLCall.pollEvents] = s.glLog ++ _
      rw [hlog0, List.append_assoc]
    · obtain ⟨hdr, hfb⟩ := offFrame_draws w h
        (combinedCalls env.gl ws co w h env.time (0, 0) p) b
      obtain ⟨⟨d1, d2, hd, hp1, hp2, hf1, hf2, hc1, hc2⟩, _, _⟩ :=
        combinedCalls_draws env.gl ws co w h env.time (0, 0) p
          (b.run (ResetFullscreenState w h ++ ClearColorOnly))
      have hcol : (b.run (ResetFullscreenState w h ++ ClearColorOnly)).draw.colorTexture
          = 0 := by
        simp only [GLBindings.draw, hfb, if_true]
      refine ⟨[d1, d2], ?_, ?_, ?_⟩
      · rw [hdr, hd]
      · rw [hprogs]
        simp [hp1, hp2]
      · intro d hdm
        simp only [List.mem_cons, List.mem_singleton, List.not_mem_nil, or_false] at hdm
        rcases hdm with e | e
        · rw [e]; exact ⟨hf1.trans hfb, hc1.trans hcol⟩
        · rw [e]; exact ⟨hf2.trans hfb, hc2.trans hcol⟩
  · rw [if_neg hmode] at hprog ⊢
    rw [usable_iff] at hprog
    obtain ⟨sh, hsh, hid⟩ := hprog
    have hprogs : (scenePrograms p).map Shader.ID = [sh.ID] := by
      unfold scenePrograms
      rw [if_neg hmode, hsh]
      rfl
    refine ⟨_, ResetFullscreenState w h ++ ClearColorOnly
        ++ passCalls env.gl sh w h env.time (0, 0) p
        ++ [GLCall.swapBuffers, GLCall.pollEvents],
      renderDirect_off env.gl w h env.time p sh hsh hid hquad hoff, ?_, fun b => ?_⟩
    · show p.glLog ++ (ResetFullscreenState w h ++ ClearColorOnly
        ++ passCalls env.gl sh w h env.time (0, 0) p)
        ++ [GLCall.swapBuffers, GLCall.pollEvents] = s.glLog ++ _
      rw [hlog0, List.append_assoc]
    · obtain ⟨hdr, hfb⟩ := offFrame_draws w h (passCalls env.gl sh w h env.time (0, 0) p) b
      obtain ⟨⟨d, hd, hp, hf, hc⟩, _, _⟩ := passCalls_draws env.gl sh w h env.time (0, 0) p
        (b.run (ResetFullscreenState w h ++ ClearColorOnly))
      have hcol : (b.run (ResetFullscreenState w h ++ ClearColorOnly)).draw.colorTexture
          = 0 := by
        simp only [GLBindings.draw, hfb, if_true]
      refine ⟨[d], ?_, ?_, ?_⟩
      · rw [hdr, hd]
      · rw [hprogs]
        simp [hp]
      · intro d2 hdm
        rw [List.mem_singleton.mp hdm]
        exact ⟨hf.trans hfb, hc.trans hcol⟩

/-- The draws of a drawn frame with temporal mode on, in both modes: one draw per scene
program, in order, each into `taaFbo` with the fresh texture attached, then the draws of the
composite stage. -/
theorem draws_of_temporal_frame (env : FrameEnv) (s : Init)
    (hidx : s.taaIndex = 0 ∨ s.taaIndex = 1)
    (hsize : 0 < env.framebufferSize.1 ∧ 0 < env.framebufferSize.2)
    (hprog : activeProgramMissing (processInput env.input s) = false)
    (hquad : (processInput env.input s).quad.isSome = true)
    (hon : (processInput env.input s).taaEnabled = true)
    (hret : (ensureTaaTargets env.gl env.framebufferSize.1 env.framebufferSize.2
        (processInput env.input s)).1 = Outcome.returned)
    (hfbo : (ensureTaaTargets env.gl env.framebufferSize.1 env.framebufferSize.2
        (processInput env.input s)).2.taaFbo ≠ 0) :
    ∃ s2 cmds fresh hist, render env s = some s2 ∧ s2.glLog = s.glLog ++ cmds
      ∧ (ensureTaaTargets env.gl env.framebufferSize.1 env.framebufferSize.2
            (processInput env.input s)).2.taaColor
          (ensureTaaTargets env.gl env.framebufferSize.1 env.framebufferSize.2
            (processInput env.input s)).2.taaIndex = some fresh
      ∧ (ensureTaaTargets env.gl env.framebufferSize.1 env.framebufferSize.2
            (processInput env.input s)).2.taaColor
          (1 - (ensureTaaTargets env.gl env.framebufferSize.1 env.framebufferSize.2
            (processInput env.input s)).2.taaIndex) = some hist
      ∧ ∀ b : GLBindings, ∃ scene,
          b.draws cmds = scene ++ compositeDraws (processInput env.input s) fresh hist
          ∧ scene.map Draw.program
              = (scenePrograms (processInput env.input s)).map Shader.ID
          ∧ ∀ d ∈ scene,
              d.framebuffer = (ensureTaaTargets env.gl env.framebufferSize.1
                  env.framebufferSize.2 (processInput env.input s)).2.taaFbo
                ∧ d.colorTexture = fresh := by
  have hlog0 := processInput_glLog env.input s
  have hidxp : (processInput env.input s).taaIndex = 0
      ∨ (processInput env.input s).taaIndex = 1 := by
    rw [processInput_taaIndex]; exact hidx
  rw [render_eq, if_neg (by omega)]
  generalize processInput env.input s = p at *
  generalize env.framebufferSize.1 = w at *
  generalize env.framebufferSize.2 = h at *
  have hEq : (ensureTaaTargets env.gl w h p).2.quad = p.quad :=
    ensureTaaTargets_keeps (fun s => s.quad) (fun _ _ _ _ _ _ _ => rfl) env.gl w h p
  have hEsh : (ensureTaaTargets env.gl w h p).2.taaShader = p.taaShader :=
    ensureTaaTargets_keeps (fun s => s.taaShader) (fun _ _ _ _ _ _ _ => rfl) env.gl w h p
  obtain ⟨ecmds, helog, hec⟩ := ensureTaaTargets_returned_log env.gl w h p hret
  unfold activeProgramMissing at hprog
  by_cases hmode : p.activeShader = 8
  · rw [if_pos hmode] at hprog ⊢
    rw [Bool.or_eq_false_iff, usable_iff, usable_iff] at hprog
    obtain ⟨⟨ws, hws, hw0⟩, ⟨co, hco, hc0⟩⟩ := hprog
    have hprogs : (scenePrograms p).map Shader.ID = [ws.ID, co.ID] := by
      unfold scenePrograms
      rw [if_pos hmode, hws, hco]
      rfl
    obtain ⟨j, fresh, hist, s2, _, hcur, hhist, hrun, _, hlog⟩ :=
      renderCombined_on env.gl w h env.time p ws co hws hco hw0 hc0 hquad hon hret hidxp
    rw [helog, hlog0, List.append_assoc] at hlog
    refine ⟨s2, _, fresh, hist, hrun, hlog, hcur, hhist, fun b => ?_⟩
    obtain ⟨d1, d2, hd, hp1, hf1, hc1, hp2, hf2, hc2⟩ :=
      combinedOn_draws env.gl (ensureTaaTargets env.gl w h p).2.taaFbo fresh hist ws co w h
        env.time j (ensureTaaTargets env.gl w h p).2 ecmds (by rw [hEq]; exact hquad) hfbo
        (ensureCmds_drawCount env.gl w h p ecmds hec) b
    refine ⟨[d1, d2], ?_, ?_, ?_⟩
    · rw [hd, compositeDraws_congr _ p hEsh]
    · rw [hprogs]
      simp [hp1, hp2]
    · intro d hdm
      simp only [List.mem_cons, List.mem_singleton, List.not_mem_nil, or_false] at hdm
      rcases hdm with e | e
      · rw [e]; exact ⟨hf1, hc1⟩
      · rw [e]; exact ⟨hf2, hc2⟩
  · rw [if_neg hmode] at hprog ⊢
    rw [usable_iff] at hprog
    obtain ⟨sh, hsh, hid⟩ := hprog
    have hprogs : (scenePrograms p).map Shader.ID = [sh.ID] := by
      unfold scenePrograms
      rw [if_neg hmode, hsh]
      rfl
    obtain ⟨j, fresh, hist, s2, _, hcur, hhist, hrun, _, hlog⟩ :=
      renderDirect_on env.gl w h env.time p sh hsh hid hquad hon hret hidxp
    rw [helog, hlog0, List.append_assoc] at hlog
    refine ⟨s2, _, fresh, hist, hrun, hlog, hcur, hhist, fun b => ?_⟩
    obtain ⟨d, hd, hp, hf, hc⟩ :=
      directOn_draws env.gl (ensureTaaTargets env.gl w h p).2.taaFbo fresh hist sh w h
        env.time j (ensureTaaTargets env.gl w h p).2 ecmds (by rw [hEq]; exact hquad) hfbo
        (ensureCmds_drawCount env.gl w h p ecmds hec) b
    refine ⟨[d], ?_, ?_, ?_⟩
    · rw [hd, compositeDraws_congr _ p hEsh]
    · rw [hprogs]
      simp [hp]
    · intro d2 hdm
      rw [List.mem_singleton.mp hdm]
      exact ⟨hf, hc⟩

/-- C22. In every drawn frame (the surface has positive size, the active programs and the
quad are loaded, and with temporal mode on `ensureTaaTargets` returns with a framebuffer name
other than `0`) `render` returns and the draw calls of the frame are, in order: the scene
draws, one per program of `scenePrograms` (`watersky` then `cloudsOver` in combined mode, the
selected program alone in direct mode), followed by the composite draw exactly when temporal
mode is on and the composite program is loaded.  With temporal mode on every scene draw goes
to the framebuffer `taaFbo` with the texture `fresh = taaColor[taaIndex]` attached, and
`fresh` is the texture the composite draw of the same frame samples on unit 0, the history
`taaColor[1 - taaIndex]` being on unit 1; with temporal mode off the scene draws go to the
default framebuffer. -/
theorem render_draw_order (env : FrameEnv) (s : Init)
    (hidx : s.taaIndex = 0 ∨ s.taaIndex = 1)
    (hsize : 0 < env.framebufferSize.1 ∧ 0 < env.framebufferSize.2)
    (hprog : activeProgramMissing (processInput env.input s) = false)
    (hquad : (processInput env.input s).quad.isSome = true)
    (hens : (processInput env.input s).taaEnabled = true →
      (ensureTaaTargets env.gl env.framebufferSize.1 env.framebufferSize.2
          (processInput env.input s)).1 = Outcome.returned
        ∧ (ensureTaaTargets env.gl env.framebufferSize.1 env.framebufferSize.2
          (processInput env.input s)).2.taaFbo ≠ 0) :
    ∃ s2 cmds fresh hist, render env s = some s2 ∧ s2.glLog = s.glLog ++ cmds
      ∧ ((processInput env.input s).taaEnabled = true →
          (ensureTaaTargets env.gl env.framebufferSize.1 env.framebufferSize.2
              (processInput env.input s)).2.taaColor
            (ensureTaaTargets env.gl env.framebufferSize.1 env.framebufferSize.2
              (processInput env.input s)).2.taaIndex = some fresh
          ∧ (ensureTaaTargets env.gl env.framebufferSize.1 env.framebufferSize.2
              (processInput env.input s)).2.taaColor
            (1 - (ensureTaaTargets env.gl env.framebufferSize.1 env.framebufferSize.2
              (processInput env.input s)).2.taaIndex) = some hist)
      ∧ (∀ b : GLBindings, ∃ scene,
          b.draws cmds = scene
            ++ (if (processInput env.input s).taaEnabled = true then
                compositeDraws (processInput env.input s) fresh hist else [])
          ∧ scene.map Draw.program
              = (scenePrograms (processInput env.input s)).map Shader.ID
          ∧ ∀ d ∈ scene,
              if (processInput env.input s).taaEnabled = true then
                d.framebuffer = (ensureTaaTargets env.gl env.framebufferSize.1
                    env.framebufferSize.2 (processInput env.input s)).2.taaFbo
                  ∧ d.colorTexture = fresh
              else d.framebuffer = 0 ∧ d.colorTexture = 0)
      ∧ (compositeDraws (processInput env.input s) fresh hist ≠ [] ↔
          ∃ sh, (processInput env.input s).taaShader = some sh ∧ sh.ID ≠ 0)
      ∧ ∀ sh, (processInput env.input s).taaShader = some sh → sh.ID ≠ 0 →
          compositeDraws (processInput env.input s) fresh hist
            = [{ program := sh.ID, framebuffer := 0, colorTexture := 0, unit0 := fresh,
                 unit1 := hist }] := by
  have hcomp : ∀ fresh hist : Nat,
      (compositeDraws (processInput env.input s) fresh hist ≠ [] ↔
          ∃ sh, (processInput env.input s).taaShader = some sh ∧ sh.ID ≠ 0)
      ∧ ∀ sh, (processInput env.input s).taaShader = some sh → sh.ID ≠ 0 →
          compositeDraws (processInput env.input s) fresh hist
            = [{ program := sh.ID, framebuffer := 0, colorTexture := 0, unit0 := fresh,
                 unit1 := hist }] := by
    intro fresh hist
    unfold compositeDraws
    rcases Option.eq_none_or_eq_some (processInput env.input s).taaShader with
      hsh | ⟨sh, hsh⟩
    · simp [hsh]
    · by_cases hid : sh.ID = 0
      · simp [hsh, hid]
      · simp [hsh, hid, compositeDraw]
  cases htaa : (processInput env.input s).taaEnabled with
  | false =>
    obtain ⟨s2, cmds, hrun, hlog, hdraws⟩ :=
      draws_of_plain_frame env s hsize hprog hquad htaa
    refine ⟨s2, cmds, 0, 0, hrun, hlog, fun hx => absurd hx (by simp), fun b => ?_,
      hcomp 0 0⟩
    obtain ⟨scene, hd, hp, hall⟩ := hdraws b
    refine ⟨scene, ?_, hp, fun d hdm => ?_⟩
    · simp only [Bool.false_eq_true, if_false, List.append_nil]
      exact hd
    · simp only [Bool.false_eq_true, if_false]
      exact hall d hdm
  | true =>
    obtain ⟨hret, hfbo⟩ := hens htaa
    obtain ⟨s2, cmds, fresh, hist, hrun, hlog, hcur, hhist, hdraws⟩ :=
      draws_of_temporal_frame env s hidx hsize hprog hquad htaa hret hfbo
    refine ⟨s2, cmds, fresh, hist, hrun, hlog, fun _ => ⟨hcur, hhist⟩, fun b => ?_,
      hcomp fresh hist⟩
    obtain ⟨scene, hd, hp, hall⟩ := hdraws b
    refine ⟨scene, ?_, hp, fun d hdm => ?_⟩
    · simp only [if_true]
      exact hd
    · simp only [if_true]
      exact hall d hdm

theorem render_draw_order_witness :
    ∃ s2 cmds fresh hist, render sampleEnv combinedTaaState = some s2
      ∧ s2.glLog = combinedTaaState.glLog ++ cmds
      ∧ ((processInput sampleEnv.input combinedTaaState).taaEnabled = true →
          (ensureTaaTargets sampleEnv.gl sampleEnv.framebufferSize.1
              sampleEnv.framebufferSize.2
              (processInput sampleEnv.input combinedTaaState)).2.taaColor
            (ensureTaaTargets sampleEnv.gl sampleEnv.framebufferSize.1
              sampleEnv.framebufferSize.2
              (processInput sampleEnv.input combinedTaaState)).2.taaIndex = some fresh
          ∧ (ensureTaaTargets sampleEnv.gl sampleEnv.framebufferSize.1
              sampleEnv.framebufferSize.2
              (processInput sampleEnv.input combinedTaaState)).2.taaColor
            (1 - (ensureTaaTargets sampleEnv.gl sampleEnv.framebufferSize.1
              sampleEnv.framebufferSize.2
              (processInput sampleEnv.input combinedTaaState)).2.taaIndex) = some hist)
      ∧ (∀ b : GLBindings, ∃ scene,
          b.draws cmds = scene
            ++ (if (processInput sampleEnv.input combinedTaaState).taaEnabled = true then
                compositeDraws (processInput sampleEnv.input combinedTaaState) fresh hist
                else [])
          ∧ scene.map Draw.program
              = (scenePrograms (processInput sampleEnv.input combinedTaaState)).map Shader.ID
          ∧ ∀ d ∈ scene,
              if (processInput sampleEnv.input combinedTaaState).taaEnabled = true then
                d.framebuffer = (ensureTaaTargets sampleEnv.gl sampleEnv.framebufferSize.1
                    sampleEnv.framebufferSize.2
                    (processInput sampleEnv.input combinedTaaState)).2.taaFbo
                  ∧ d.colorTexture = fresh
              else d.framebuffer = 0 ∧ d.colorTexture = 0)
      ∧ (compositeDraws (processInput sampleEnv.input combinedTaaState) fresh hist ≠ [] ↔
          ∃ sh, (processInput sampleEnv.input combinedTaaState).taaShader = some sh
            ∧ sh.ID ≠ 0)
      ∧ ∀ sh, (processInput sampleEnv.input combinedTaaState).taaShader = some sh →
          sh.ID ≠ 0 →
          compositeDraws (processInput sampleEnv.input combinedTaaState) fresh hist
            = [{ program := sh.ID, framebuffer := 0, colorTexture := 0, unit0 := fresh,
                 unit1 := hist }] :=
  render_draw_order sampleEnv combinedTaaState (Or.inl rfl) (by decide) rfl rfl
    (fun _ => ⟨rfl, by decide⟩)

/-- The draws of the combined temporal frame on the sample inputs: `watersky` (program 11),
`cloudsOver` (program 12), both into framebuffer 7 with texture 8 attached, then the composite
program 5 into the default framebuffer, sampling texture 8 as the fresh input and texture 9
as the history. -/
theorem render_combined_temporal_draws :
    ∃ s2 cmds, render sampleEnv combinedTaaState = some s2
      ∧ s2.glLog = combinedTaaState.glLog ++ cmds
      ∧ ∀ b : GLBindings, ∃ d1 d2, b.draws cmds = [d1, d2, compositeDraw 5 8 9]
          ∧ d1.program = 11 ∧ d1.framebuffer = 7 ∧ d1.colorTexture = 8
          ∧ d2.program = 12 ∧ d2.framebuffer = 7 ∧ d2.colorTexture = 8 := by
  obtain ⟨s2, cmds, fresh, hist, hrun, hlog, hf, hh, hdraws⟩ :=
    draws_of_temporal_frame sampleEnv combinedTaaState (Or.inl rfl) (by decide) rfl rfl rfl
      rfl (by decide)
  have hf8 : fresh = 8 := (Option.some.inj hf).symm
  have hh9 : hist = 9 := (Option.some.inj hh).symm
  subst hf8 hh9
  refine ⟨s2, cmds, hrun, hlog, fun b => ?_⟩
  obtain ⟨scene, hd, hprog, hall⟩ := hdraws b
  have hlen : scene.length = 2 := by
    have := congrArg List.length hprog
    simpa using this
  match scene, hlen with
  | [d1, d2], _ =>
    have h1 := hall d1 (by simp)
    have h2 := hall d2 (by simp)
    have hp : [d1.program, d2.program] = [11, 12] := hprog
    simp only [List.cons.injEq, and_true] at hp
    exact ⟨d1, d2, hd, hp.1, h1.1, h1.2, hp.2, h2.1, h2.2⟩

/-! ### Two consecutive temporal frames, both modes -/

/-- The state a temporal frame of the combined mode leaves when the render targets are current
and the composite program is loaded. -/
theorem renderCombined_taa_fields (gl : Driver) (w h : Int) (t : ℚ) (s s2 : Init)
    (ws co tsh : Shader)
    (hws : s.watersky = some ws) (hco : s.cloudsOver = some co) (hw0 : ws.ID ≠ 0)
    (hc0 : co.ID ≠ 0) (hq : s.quad.isSome = true) (htaa : s.taaEnabled = true)
    (hnoop : s.taaW = w ∧ s.taaH = h ∧ s.taaFbo ≠ 0 ∧ s.taaColor0 ≠ 0 ∧ s.taaColor1 ≠ 0)
    (hidx : s.taaIndex = 0 ∨ s.taaIndex = 1)
    (hts : s.taaShader = some tsh) (htid : tsh.ID ≠ 0)
    (hrun : renderCombined gl w h t s = some s2) :
    s2 = { s with frameCounter := (s.frameCounter + 1) % 2 ^ 64, taaHistoryValid := true,
                  taaIndex := 1 - s.taaIndex, glLog := s2.glLog } := by
  obtain ⟨texCur, texHist, hcur, hhist, _⟩ := taaColor_of_index (incrementFrameCounter s) hidx
  have hens := ensureTaaTargets_noop gl w h (incrementFrameCounter s) hnoop
  obtain ⟨j, _, hrd⟩ := renderCombined_taa gl w h t s _ ws co texCur hws hco hw0 hc0 hq htaa
    hens hcur
  rw [renderTaaComposite_loaded gl w h ((incrementFrameCounter s).emit
    ([GLCall.bindFramebuffer (incrementFrameCounter s).taaFbo,
      GLCall.framebufferTexture2D texCur, GLCall.viewport 0 0 w h] ++ disableAllCalls
      ++ ClearColorOnly ++ combinedCalls gl ws co w h t j (incrementFrameCounter s)
      ++ [GLCall.bindFramebuffer 0]))
    tsh texCur texHist hts htid hcur hhist] at hrd
  rw [hrd] at hrun
  simp only [Option.some.injEq] at hrun
  subst hrun
  rfl

/-- The state a temporal frame leaves, in both modes, when the render targets are current and
the composite program is loaded: the counter is incremented, the history is valid, the index
is swapped, and commands are recorded. -/
theorem render_temporal_fields (env : FrameEnv) (s s2 : Init) (tsh : Shader)
    (hsize : 0 < env.framebufferSize.1 ∧ 0 < env.framebufferSize.2)
    (hprog : activeProgramMissing (processInput env.input s) = false)
    (hq : (processInput env.input s).quad.isSome = true)
    (htaa : (processInput env.input s).taaEnabled = true)
    (hnoop : (processInput env.input s).taaW = env.framebufferSize.1
      ∧ (processInput env.input s).taaH = env.framebufferSize.2
      ∧ (processInput env.input s).taaFbo ≠ 0 ∧ (processInput env.input s).taaColor0 ≠ 0
      ∧ (processInput env.input s).taaColor1 ≠ 0)
    (hidx : (processInput env.input s).taaIndex = 0 ∨ (processInput env.input s).taaIndex = 1)
    (hcomp : (processInput env.input s).taaShader = some tsh) (htid : tsh.ID ≠ 0)
    (hrun : render env s = some s2) :
    s2 = { processInput env.input s with
            frameCounter := ((processInput env.input s).frameCounter + 1) % 2 ^ 64,
            taaHistoryValid := true, taaIndex := 1 - (processInput env.input s).taaIndex,
            glLog := s2.glLog } := by
  rw [render_eq, if_neg (by omega)] at hrun
  generalize processInput env.input s = p at *
  unfold activeProgramMissing at hprog
  by_cases hmode : p.activeShader = 8
  · rw [if_pos hmode] at hprog hrun
    rw [Bool.or_eq_false_iff, usable_iff, usable_iff] at hprog
    obtain ⟨⟨ws, hws, hw0⟩, ⟨co, hco, hc0⟩⟩ := hprog
    exact renderCombined_taa_fields env.gl _ _ env.time p s2 ws co tsh hws hco hw0 hc0 hq htaa
      hnoop hidx hcomp htid hrun
  · rw [if_neg hmode] at hprog hrun
    rw [usable_iff] at hprog
    obtain ⟨sh, hsh, hid⟩ := hprog
    exact renderDirect_taa_fields env.gl _ _ env.time p s2 sh tsh hsh hid hq htaa hnoop hidx
      hcomp htid hrun

theorem activeProgramMissing_congr (a b : Init) (hact : a.activeShader = b.activeShader)
    (hptr : (a.shader, a.fragmentv2, a.rmarching, a.rmarching2, a.singlecloudfrag, a.water,
        a.watersky)
      = (b.shader, b.fragmentv2, b.rmarching, b.rmarching2, b.singlecloudfrag, b.water,
        b.watersky))
    (hco : a.cloudsOver = b.cloudsOver) :
    activeProgramMissing a = activeProgramMissing b
      ∧ scenePrograms a = scenePrograms b := by
  have hsel := selectedShader_congr a b hact hptr
  have hws : a.watersky = b.watersky := by
    simp only [Prod.mk.injEq] at hptr
    exact hptr.2.2.2.2.2.2
  unfold activeProgramMissing scenePrograms
  rw [hact, hsel, hws, hco]
  exact ⟨rfl, rfl⟩

/-- The last writer of a texture that the scene draws of a frame render into, after the
composite draw of that frame and the scene draws of the next frame, which write elsewhere. -/
theorem lastWriter_scene_list (scene1 scene2 : List Draw) (c : Draw) (tex : Nat)
    (h1 : ∀ d ∈ scene1, d.colorTexture = tex) (hc : c.colorTexture ≠ tex)
    (h2 : ∀ d ∈ scene2, d.colorTexture ≠ tex) :
    lastWriter (scene1 ++ [c] ++ scene2) tex = (scene1.map Draw.program).getLast? := by
  unfold lastWriter
  have e1 : scene1.filter (fun d => decide (d.colorTexture = tex)) = scene1 :=
    List.filter_eq_self.mpr (fun d hd => by simpa using h1 d hd)
  have e2 : scene2.filter (fun d => decide (d.colorTexture = tex)) = [] :=
    List.filter_eq_nil_iff.mpr (fun d hd => by simpa using h2 d hd)
  rw [List.filter_append, List.filter_append, e1, e2]
  simp [List.filter, hc, List.getLast?_map]

theorem compositeDraws_loaded (s : Init) (tsh : Shader) (hcomp : s.taaShader = some tsh)
    (htid : tsh.ID ≠ 0) (texCur texHist : Nat) :
    compositeDraws s texCur texHist = [compositeDraw tsh.ID texCur texHist] := by
  unfold compositeDraws
  simp only [hcomp, if_neg htid]

theorem scenePrograms_ne_nil (p : Init) (hprog : activeProgramMissing p = false) :
    (scenePrograms p).map Shader.ID ≠ [] := by
  unfold activeProgramMissing at hprog
  unfold scenePrograms
  by_cases hmode : p.activeShader = 8
  · rw [if_pos hmode] at hprog ⊢
    rw [Bool.or_eq_false_iff, usable_iff, usable_iff] at hprog
    obtain ⟨⟨ws, hws, _⟩, _⟩ := hprog
    rw [hws]
    simp
  · rw [if_neg hmode] at hprog ⊢
    rw [usable_iff] at hprog
    obtain ⟨sh, hsh, _⟩ := hprog
    rw [hsh]
    simp

/-- C20, as the code has it. Over two consecutive temporal frames, in direct and in combined
mode (active programs and quad loaded, render targets current for the surface, composite
program loaded, surface size unchanged, neither `T` nor a program key down in the second
frame), the history stays valid and the composite stage draws to the default framebuffer only,
with no colour texture of the ping-pong pair as its destination.  The scene passes of the
first frame render into the texture `tex`, those of the second frame into the other texture
`hist`, and the composite draw of the second frame reads `tex` as history: the last draw that
wrote `tex` is the last scene pass of the first frame.  The blended output of the first frame
is stored in neither texture. -/
theorem render_history_is_previous_scene (env env2 : FrameEnv) (s : Init) (tsh : Shader)
    (hsize : 0 < env.framebufferSize.1 ∧ 0 < env.framebufferSize.2)
    (hprog : activeProgramMissing (processInput env.input s) = false)
    (hq : (processInput env.input s).quad.isSome = true)
    (htaa : (processInput env.input s).taaEnabled = true)
    (hnoop : (processInput env.input s).taaW = env.framebufferSize.1
      ∧ (processInput env.input s).taaH = env.framebufferSize.2
      ∧ (processInput env.input s).taaFbo ≠ 0 ∧ (processInput env.input s).taaColor0 ≠ 0
      ∧ (processInput env.input s).taaColor1 ≠ 0)
    (hdistinct : (processInput env.input s).taaColor0 ≠ (processInput env.input s).taaColor1)
    (hidx : s.taaIndex = 0 ∨ s.taaIndex = 1)
    (hcomp : (processInput env.input s).taaShader = some tsh) (htid : tsh.ID ≠ 0)
    (h2size : env2.framebufferSize = env.framebufferSize)
    (h2T : env2.input.keyDown GLFW_KEY_T = false)
    (h2keys : ∀ k, GLFW_KEY_1 ≤ k → k ≤ GLFW_KEY_1 + 7 → env2.input.keyDown k = false) :
    ∃ s2 s3 cmds cmds2 tex hist,
      render env s = some s2 ∧ s2.glLog = s.glLog ++ cmds
      ∧ render env2 s2 = some s3 ∧ s3.glLog = s2.glLog ++ cmds2
      ∧ (processInput env.input s).taaColor (processInput env.input s).taaIndex = some tex
      ∧ (processInput env.input s).taaColor (1 - (processInput env.input s).taaIndex)
          = some hist
      ∧ s2.taaHistoryValid = true
      ∧ ((compositeDraw tsh.ID tex hist).framebuffer = 0
        ∧ (compositeDraw tsh.ID tex hist).colorTexture = 0
        ∧ (compositeDraw tsh.ID hist tex).framebuffer = 0
        ∧ (compositeDraw tsh.ID hist tex).colorTexture = 0
        ∧ (compositeDraw tsh.ID hist tex).unit1 = tex)
      ∧ ∀ b : GLBindings, ∃ scene1 scene2,
          b.draws (cmds ++ cmds2)
            = scene1 ++ [compositeDraw tsh.ID tex hist] ++ scene2
                ++ [compositeDraw tsh.ID hist tex]
          ∧ scene1.map Draw.program
              = (scenePrograms (processInput env.input s)).map Shader.ID
          ∧ scene2.map Draw.program
              = (scenePrograms (processInput env.input s)).map Shader.ID
          ∧ (scenePrograms (processInput env.input s)).map Shader.ID ≠ []
          ∧ (∀ d ∈ scene1, d.framebuffer = (processInput env.input s).taaFbo
              ∧ d.colorTexture = tex)
          ∧ (∀ d ∈ scene2, d.framebuffer = (processInput env.input s).taaFbo
              ∧ d.colorTexture = hist)
          ∧ lastWriter (scene1 ++ [compositeDraw tsh.ID tex hist] ++ scene2) tex
              = ((scenePrograms (processInput env.input s)).map Shader.ID).getLast? := by
  have hidxp : (processInput env.input s).taaIndex = 0
      ∨ (processInput env.input s).taaIndex = 1 := by
    rw [processInput_taaIndex]; exact hidx
  have hE := ensureTaaTargets_noop env.gl env.framebufferSize.1 env.framebufferSize.2
    (processInput env.input s) hnoop
  obtain ⟨s2, cmds, fresh, hist, hrun, hlog, hcur, hhist, hdraws⟩ :=
    draws_of_temporal_frame env s hidx hsize hprog hq htaa (by rw [hE]) (by rw [hE]; exact hnoop.2.2.1)
  rw [hE] at hcur hhist hdraws
  simp only at hcur hhist hdraws
  have hs2 := render_temporal_fields env s s2 tsh hsize hprog hq htaa hnoop hidxp hcomp htid hrun
  generalize processInput env.input s = p at *
  -- the textures are distinct and not the default one
  have htex : fresh ≠ 0 ∧ hist ≠ 0 ∧ fresh ≠ hist := by
    obtain ⟨a, c, ha, hc, hcase⟩ := taaColor_of_index p hidxp
    rw [hcur] at ha
    rw [hhist] at hc
    cases ha
    cases hc
    rcases hcase with ⟨_, e1, e2⟩ | ⟨_, e1, e2⟩
    · rw [e1, e2]
      exact ⟨hnoop.2.2.2.1, hnoop.2.2.2.2, hdistinct⟩
    · rw [e1, e2]
      exact ⟨hnoop.2.2.2.2, hnoop.2.2.2.1, fun e => hdistinct e.symm⟩
  -- the second frame starts from the state the first one left
  have hkeep : ∀ {α : Type} (g : Init → α),
      (∀ s p, g { s with prevKeys := p } = g s) → (∀ s c, g { s with camera := c } = g s) →
      (∀ s d l, g { s with deltaTime := d, lastFrame := l } = g s) →
      (∀ s b, g { s with shouldClose := b } = g s) → (∀ n s, g (onShaderKey n s) = g s) →
      (∀ s, g (onToggleTaa s) = g s) → (∀ s, g (onLeftBracket s) = g s) →
      (∀ s, g (onRightBracket s) = g s) → (∀ s, g (onKpAdd s) = g s) →
      (∀ s, g (onKpSubtract s) = g s) →
      g (processInput env2.input s2) = g s2 :=
    fun g h1 h2 h3 h4 h5 h6 h7 h8 h9 h10 =>
      processInput_apply g h1 h2 h3 h4 h5 h6 h7 h8 h9 h10 env2.input s2
  have kW : (processInput env2.input s2).taaW = p.taaW :=
    (hkeep (fun s => s.taaW) (fun _ _ => rfl) (fun _ _ => rfl) (fun _ _ _ => rfl)
      (fun _ _ => rfl) (fun _ _ => rfl) (fun _ => rfl) (fun _ => rfl) (fun _ => rfl)
      (fun _ => rfl) (fun _ => rfl)).trans (by rw [hs2] : s2.taaW = p.taaW)
  have kH : (processInput env2.input s2).taaH = p.taaH :=
    (hkeep (fun s => s.taaH) (fun _ _ => rfl) (fun _ _ => rfl) (fun _ _ _ => rfl)
      (fun _ _ => rfl) (fun _ _ => rfl) (fun _ => rfl) (fun _ => rfl) (fun _ => rfl)
      (fun _ => rfl) (fun _ => rfl)).trans (by rw [hs2] : s2.taaH = p.taaH)
  have kF : (processInput env2.input s2).taaFbo = p.taaFbo :=
    (hkeep (fun s => s.taaFbo) (fun _ _ => rfl) (fun _ _ => rfl) (fun _ _ _ => rfl)
      (fun _ _ => rfl) (fun _ _ => rfl) (fun _ => rfl) (fun _ => rfl) (fun _ => rfl)
      (fun _ => rfl) (fun _ => rfl)).trans (by rw [hs2] : s2.taaFbo = p.taaFbo)
  have k0 : (processInput env2.input s2).taaColor0 = p.taaColor0 :=
    (hkeep (fun s => s.taaColor0) (fun _ _ => rfl) (fun _ _ => rfl) (fun _ _ _ => rfl)
      (fun _ _ => rfl) (fun _ _ => rfl) (fun _ => rfl) (fun _ => rfl) (fun _ => rfl)
      (fun _ => rfl) (fun _ => rfl)).trans (by rw [hs2] : s2.taaColor0 = p.taaColor0)
  have k1 : (processInput env2.input s2).taaColor1 = p.taaColor1 :=
    (hkeep (fun s => s.taaColor1) (fun _ _ => rfl) (fun _ _ => rfl) (fun _ _ _ => rfl)
      (fun _ _ => rfl) (fun _ _ => rfl) (fun _ => rfl) (fun _ => rfl) (fun _ => rfl)
      (fun _ => rfl) (fun _ => rfl)).trans (by rw [hs2] : s2.taaColor1 = p.taaColor1)
  have kI : (processInput env2.input s2).taaIndex = 1 - p.taaIndex :=
    (hkeep (fun s => s.taaIndex) (fun _ _ => rfl) (fun _ _ => rfl) (fun _ _ _ => rfl)
      (fun _ _ => rfl) (fun _ _ => rfl) (fun _ => rfl) (fun _ => rfl) (fun _ => rfl)
      (fun _ => rfl) (fun _ => rfl)).trans (by rw [hs2] : s2.taaIndex = 1 - p.taaIndex)
  have kS : (processInput env2.input s2).taaShader = p.taaShader :=
    (hkeep (fun s => s.taaShader) (fun _ _ => rfl) (fun _ _ => rfl) (fun _ _ _ => rfl)
      (fun _ _ => rfl) (fun _ _ => rfl) (fun _ => rfl) (fun _ => rfl) (fun _ => rfl)
      (fun _ => rfl) (fun _ => rfl)).trans (by rw [hs2] : s2.taaShader = p.taaShader)
  have kQ : (processInput env2.input s2).quad = p.quad :=
    (hkeep (fun s => s.quad) (fun _ _ => rfl) (fun _ _ => rfl) (fun _ _ _ => rfl)
      (fun _ _ => rfl) (fun _ _ => rfl) (fun _ => rfl) (fun _ => rfl) (fun _ => rfl)
      (fun _ => rfl) (fun _ => rfl)).trans (by rw [hs2] : s2.quad = p.quad)
  have kC : ∀ i, (processInput env2.input s2).taaColor i = p.taaColor i := fun i =>
    (hkeep (fun s => s.taaColor i) (fun _ _ => rfl) (fun _ _ => rfl) (fun _ _ _ => rfl)
      (fun _ _ => rfl) (fun _ _ => rfl) (fun _ => rfl) (fun _ => rfl) (fun _ => rfl)
      (fun _ => rfl) (fun _ => rfl)).trans (by rw [hs2]; rfl : s2.taaColor i = p.taaColor i)
  have kP : ((processInput env2.input s2).shader, (processInput env2.input s2).fragmentv2,
        (processInput env2.input s2).rmarching, (processInput env2.input s2).rmarching2,
        (processInput env2.input s2).singlecloudfrag, (processInput env2.input s2).water,
        (processInput env2.input s2).watersky)
      = (p.shader, p.fragmentv2, p.rmarching, p.rmarching2, p.singlecloudfrag, p.water,
        p.watersky) :=
    (hkeep (fun s => (s.shader, s.fragmentv2, s.rmarching, s.rmarching2, s.singlecloudfrag,
        s.water, s.watersky)) (fun _ _ => rfl) (fun _ _ => rfl) (fun _ _ _ => rfl)
      (fun _ _ => rfl) (fun _ _ => rfl) (fun _ => rfl) (fun _ => rfl) (fun _ => rfl)
      (fun _ => rfl) (fun _ => rfl)).trans (by rw [hs2])
  have kO : (processInput env2.input s2).cloudsOver = p.cloudsOver :=
    (hkeep (fun s => s.cloudsOver) (fun _ _ => rfl) (fun _ _ => rfl) (fun _ _ _ => rfl)
      (fun _ _ => rfl) (fun _ _ => rfl) (fun _ => rfl) (fun _ => rfl) (fun _ => rfl)
      (fun _ => rfl) (fun _ => rfl)).trans (by rw [hs2] : s2.cloudsOver = p.cloudsOver)
  have kE : (processInput env2.input s2).taaEnabled = true := by
    rw [processInput_taaEnabled, risingEdge_of_released _ _ _ h2T]
    exact (by rw [hs2] : s2.taaEnabled = p.taaEnabled).trans htaa
  have kA : (processInput env2.input s2).activeShader = p.activeShader := by
    rw [processInput_activeShader_of_released _ _ h2keys, hs2]
  obtain ⟨kM, kProgs⟩ := activeProgramMissing_congr (processInput env2.input s2) p kA kP kO
  have hidx2 : s2.taaIndex = 0 ∨ s2.taaIndex = 1 := by
    have : s2.taaIndex = 1 - p.taaIndex := by rw [hs2]
    omega
  have hnoop2 : (processInput env2.input s2).taaW = env2.framebufferSize.1
      ∧ (processInput env2.input s2).taaH = env2.framebufferSize.2
      ∧ (processInput env2.input s2).taaFbo ≠ 0 ∧ (processInput env2.input s2).taaColor0 ≠ 0
      ∧ (processInput env2.input s2).taaColor1 ≠ 0 := by
    rw [kW, kH, kF, k0, k1, h2size]
    exact hnoop
  have hE2 := ensureTaaTargets_noop env2.gl env2.framebufferSize.1 env2.framebufferSize.2
    (processInput env2.input s2) hnoop2
  obtain ⟨s3, cmds2, fresh2, hist2, hrun2, hlog2, hcur2, hhist2, hdraws2⟩ :=
    draws_of_temporal_frame env2 s2 hidx2 (by rw [h2size]; exact hsize) (by rw [kM]; exact hprog)
      (by rw [kQ]; exact hq) kE (by rw [hE2]) (by rw [hE2]; exact hnoop2.2.2.1)
  rw [hE2] at hcur2 hhist2 hdraws2
  simp only at hcur2 hhist2 hdraws2
  rw [kC, kI, hhist] at hcur2
  rw [kC, kI, sub_sub_cancel, hcur] at hhist2
  cases hcur2
  cases hhist2
  have hvalid : s2.taaHistoryValid = true := by rw [hs2]
  refine ⟨s2, s3, cmds, cmds2, fresh, hist, hrun, hlog, hrun2, hlog2, hcur, hhist, hvalid,
    ⟨rfl, rfl, rfl, rfl, rfl⟩, fun b => ?_⟩
  obtain ⟨scene1, hd1, hp1, hw1⟩ := hdraws b
  obtain ⟨scene2, hd2, hp2, hw2⟩ := hdraws2 (b.run cmds)
  rw [compositeDraws_loaded p tsh hcomp htid] at hd1
  rw [compositeDraws_loaded _ tsh (kS.trans hcomp) htid] at hd2
  rw [kProgs] at hp2
  refine ⟨scene1, scene2, ?_, hp1, hp2, scenePrograms_ne_nil p hprog, hw1, ?_, ?_⟩
  · rw [GLBindings.draws_append, hd1, hd2]
    simp only [List.append_assoc]
  · intro d hd
    obtain ⟨hf, hc⟩ := hw2 d hd
    exact ⟨hf.trans kF, hc⟩
  · rw [lastWriter_scene_list scene1 scene2 _ fresh (fun d hd => (hw1 d hd).2)
      (fun e => htex.1 e.symm) (fun d hd => by rw [(hw2 d hd).2]; exact fun e => htex.2.2 e.symm),
      hp1]

theorem render_history_is_previous_scene_witness :
    ∃ s2 s3 cmds cmds2 tex hist,
      render sampleEnv combinedTaaState = some s2 ∧ s2.glLog = combinedTaaState.glLog ++ cmds
      ∧ render sampleEnv s2 = some s3 ∧ s3.glLog = s2.glLog ++ cmds2
      ∧ (processInput sampleEnv.input combinedTaaState).taaColor
          (processInput sampleEnv.input combinedTaaState).taaIndex = some tex
      ∧ (processInput sampleEnv.input combinedTaaState).taaColor
          (1 - (processInput sampleEnv.input combinedTaaState).taaIndex) = some hist
      ∧ s2.taaHistoryValid = true
      ∧ ((compositeDraw (Shader.mk 5).ID tex hist).framebuffer = 0
        ∧ (compositeDraw (Shader.mk 5).ID tex hist).colorTexture = 0
        ∧ (compositeDraw (Shader.mk 5).ID hist tex).framebuffer = 0
        ∧ (compositeDraw (Shader.mk 5).ID hist tex).colorTexture = 0
        ∧ (compositeDraw (Shader.mk 5).ID hist tex).unit1 = tex)
      ∧ ∀ b : GLBindings, ∃ scene1 scene2,
          b.draws (cmds ++ cmds2)
            = scene1 ++ [compositeDraw (Shader.mk 5).ID tex hist] ++ scene2
                ++ [compositeDraw (Shader.mk 5).ID hist tex]
          ∧ scene1.map Draw.program
              = (scenePrograms (processInput sampleEnv.input combinedTaaState)).map Shader.ID
          ∧ scene2.map Draw.program
              = (scenePrograms (processInput sampleEnv.input combinedTaaState)).map Shader.ID
          ∧ (scenePrograms (processInput sampleEnv.input combinedTaaState)).map Shader.ID ≠ []
          ∧ (∀ d ∈ scene1,
              d.framebuffer = (processInput sampleEnv.input combinedTaaState).taaFbo
              ∧ d.colorTexture = tex)
          ∧ (∀ d ∈ scene2,
              d.framebuffer = (processInput sampleEnv.input combinedTaaState).taaFbo
              ∧ d.colorTexture = hist)
          ∧ lastWriter (scene1 ++ [compositeDraw (Shader.mk 5).ID tex hist] ++ scene2) tex
              = ((scenePrograms (processInput sampleEnv.input combinedTaaState)).map
                  Shader.ID).getLast? :=
  render_history_is_previous_scene sampleEnv sampleEnv combinedTaaState (Shader.mk 5)
    (by decide) rfl rfl rfl ⟨rfl, rfl, by decide, by decide, by decide⟩ (by decide)
    (Or.inl rfl) rfl (by decide) rfl rfl (fun _ _ _ => rfl)

/-- The scene programs of the combined sample state: `watersky` (11), then `cloudsOver` (12). -/
theorem scenePrograms_combinedTaaState :
    (scenePrograms (processInput sampleEnv.input combinedTaaState)).map Shader.ID = [11, 12]
      ∧ Init.ctor.activeShader = 8 := ⟨rfl, rfl⟩

/-- C20, counterexample. Two consecutive temporal frames from the direct-mode state with
targets 8 and 9, scene program 11 and composite program 5.  The composite draw of the second
frame reads texture 8 as history.  Before that draw, texture 8 was last written by program 11,
the scene pass of the first frame, and not by the composite program 5, whose draw of the first
frame went to framebuffer 0 with no texture as destination. -/
theorem render_history_counter_counterexample :
    ∃ s2 s3 cmds cmds2 d1 d2,
      render sampleEnv directTaaState = some s2 ∧ s2.glLog = directTaaState.glLog ++ cmds
      ∧ render sampleEnv s2 = some s3 ∧ s3.glLog = s2.glLog ++ cmds2
      ∧ GLBindings.initial.draws (cmds ++ cmds2)
          = [d1, compositeDraw 5 8 9, d2, compositeDraw 5 9 8]
      ∧ (compositeDraw 5 9 8).unit1 = 8
      ∧ lastWriter [d1, compositeDraw 5 8 9, d2] 8 = some 11
      ∧ lastWriter [d1, compositeDraw 5 8 9, d2] 8 ≠ some 5
      ∧ (compositeDraw 5 8 9).framebuffer = 0
      ∧ (compositeDraw 5 8 9).colorTexture = 0 := by
  obtain ⟨s2, s3, cmds, cmds2, tex, hist, hr1, hl1, hr2, hl2, htex, hhist, hdraws⟩ :=
    render_two_temporal_frames sampleEnv sampleEnv directTaaState (Shader.mk 11)
      (Shader.mk 5) (by decide) (by decide) rfl (by decide) rfl rfl
      ⟨rfl, rfl, by decide, by decide, by decide⟩ (by decide) (Or.inl rfl) rfl (by decide) rfl
      rfl (fun _ _ _ => rfl)
  have e8 : (processInput sampleEnv.input directTaaState).taaColor
      (processInput sampleEnv.input directTaaState).taaIndex = some 8 := rfl
  have e9 : (processInput sampleEnv.input directTaaState).taaColor
      (1 - (processInput sampleEnv.input directTaaState).taaIndex) = some 9 := rfl
  rw [htex] at e8
  rw [hhist] at e9
  cases e8
  cases e9
  obtain ⟨d1, d2, hd, _, _, _, _, _, _, hlast⟩ := hdraws GLBindings.initial
  refine ⟨s2, s3, cmds, cmds2, d1, d2, hr1, hl1, hr2, hl2, hd, rfl, hlast, ?_, rfl, rfl⟩
  rw [hlast]
  decide

/-! ### The jitter a frame binds -/

theorem Set1fAny_forall (Q : GLCall → Prop) (gl : Driver) (p : Nat) (v : ℚ)
    (names : List String) (log : List GLCall) (hlog : ∀ c ∈ log, Q c)
    (hx : ∀ loc, Q (GLCall.uniform1f loc v)) : ∀ c ∈ Set1fAny gl p v names log, Q c :=
  forall_mem_ite_append _ _ _ _ hlog (hx _)

theorem Set2fAny_forall (Q : GLCall → Prop) (gl : Driver) (p : Nat) (x y : ℚ)
    (names : List String) (log : List GLCall) (hlog : ∀ c ∈ log, Q c)
    (hx : ∀ loc, Q (GLCall.uniform2f loc x y)) : ∀ c ∈ Set2fAny gl p x y names log, Q c :=
  forall_mem_ite_append _ _ _ _ hlog (hx _)

theorem Set3fAny_forall (Q : GLCall → Prop) (gl : Driver) (p : Nat) (v : Vec3)
    (names : List String) (log : List GLCall) (hlog : ∀ c ∈ log, Q c)
    (hx : ∀ loc, Q (GLCall.uniform3f loc v.x v.y v.z)) : ∀ c ∈ Set3fAny gl p v names log, Q c :=
  forall_mem_ite_append _ _ _ _ hlog (hx _)

theorem SetMat4Any_forall (Q : GLCall → Prop) (gl : Driver) (p : Nat) (m : Mat4)
    (names : List String) (log : List GLCall) (hlog : ∀ c ∈ log, Q c)
    (hx : ∀ loc, Q (GLCall.uniformMatrix4fv loc m)) : ∀ c ∈ SetMat4Any gl p m names log, Q c :=
  forall_mem_ite_append _ _ _ _ hlog (hx _)

/-- A property of commands that holds of every one-float, three-float and matrix uniform, of
the resolution and of the jitter value holds of every command of `bindCommonUniforms`. -/
theorem commonUniformCalls_forall (Q : GLCall → Prop) (gl : Driver) (p : Nat) (w h : Int)
    (t : ℚ) (j : ℚ × ℚ) (s : Init)
    (h1 : ∀ loc v, Q (GLCall.uniform1f loc v))
    (hres : ∀ loc, Q (GLCall.uniform2f loc (w : ℚ) (h : ℚ)))
    (hjit : ∀ loc, Q (GLCall.uniform2f loc j.1 j.2))
    (h3 : ∀ loc x y z, Q (GLCall.uniform3f loc x y z))
    (hm : ∀ loc m, Q (GLCall.uniformMatrix4fv loc m)) :
    ∀ c ∈ commonUniformCalls gl p w h t j s, Q c := by
  unfold commonUniformCalls
  repeat first
    | refine Set1fAny_forall Q gl _ _ _ _ ?_ (fun loc => h1 loc _)
    | refine Set2fAny_forall Q gl _ _ _ _ _ ?_ (fun loc => hres loc)
    | refine Set2fAny_forall Q gl _ _ _ _ _ ?_ (fun loc => hjit loc)
    | refine Set3fAny_forall Q gl _ _ _ _ ?_ (fun loc => h3 loc _ _ _)
    | refine SetMat4Any_forall Q gl _ _ _ _ ?_ (fun loc => hm loc _)
  intro c hc
  exact absurd hc (List.not_mem_nil c)

theorem Bind2D_forall (Q : GLCall → Prop) (gl : Driver) (tex : Texture) (sh : Shader)
    (names : List String) (unit : Int) (log : List GLCall) (hlog : ∀ c ∈ log, Q c)
    (hx : ∀ t loc u, Q (GLCall.useTexture t loc u)) :
    ∀ c ∈ Bind2D gl tex sh names unit log, Q c :=
  forall_mem_ite_append _ _ _ _ hlog (hx _ _ _)

theorem Bind3D_forall (Q : GLCall → Prop) (gl : Driver) (tex : Texture) (sh : Shader)
    (names : List String) (unit : Int) (log : List GLCall) (hlog : ∀ c ∈ log, Q c)
    (hx : ∀ t loc u, Q (GLCall.useTexture3D t loc u)) :
    ∀ c ∈ Bind3D gl tex sh names unit log, Q c :=
  forall_mem_ite_append _ _ _ _ hlog (hx _ _ _)

theorem bindOptional_forall (Q : GLCall → Prop)
    (bind : Texture → Int → List GLCall → List GLCall)
    (hbind : ∀ t u log, (∀ c ∈ log, Q c) → ∀ c ∈ bind t u log, Q c)
    (tex : Option Texture) (acc : List GLCall × Int) (hacc : ∀ c ∈ acc.1, Q c) :
    ∀ c ∈ (bindOptional bind tex acc).1, Q c := by
  unfold bindOptional
  cases tex with
  | none => exact hacc
  | some t => exact hbind t acc.2 acc.1 hacc

/-- Every command of `bindTextures` after `glUseProgram` is a texture bind. -/
theorem textureCalls_forall (Q : GLCall → Prop) (gl : Driver) (sh : Shader) (s : Init)
    (h2 : ∀ t loc u, Q (GLCall.useTexture t loc u))
    (h3 : ∀ t loc u, Q (GLCall.useTexture3D t loc u)) :
    ∀ c ∈ textureCalls gl sh s, Q c := by
  unfold textureCalls
  repeat first
    | apply bindOptional_forall Q _
        (fun t u log hlog => Bind2D_forall Q gl t sh _ u log hlog h2)
    | apply bindOptional_forall Q _
        (fun t u log hlog => Bind3D_forall Q gl t sh _ u log hlog h3)
  intro c hc
  exact absurd hc (List.not_mem_nil c)

theorem mem_SetMat4Any_of_mem (gl : Driver) (p : Nat) (m : Mat4) (names : List String)
    (log : List GLCall) (c : GLCall) (hc : c ∈ log) : c ∈ SetMat4Any gl p m names log := by
  unfold SetMat4Any
  simp only
  split
  · exact List.mem_append_left _ hc
  · exact hc

/-- When the program has one of the jitter uniforms, `bindCommonUniforms` writes the jitter
value to it. -/
theorem jitter_mem_commonUniformCalls (gl : Driver) (p : Nat) (w h : Int) (t : ℚ) (j : ℚ × ℚ)
    (s : Init) (hloc : GetLocAny gl p jitterNames ≠ -1) :
    GLCall.uniform2f (GetLocAny gl p jitterNames) j.1 j.2
      ∈ commonUniformCalls gl p w h t j s := by
  unfold commonUniformCalls
  apply mem_SetMat4Any_of_mem
  apply mem_SetMat4Any_of_mem
  apply mem_SetMat4Any_of_mem
  show _ ∈ Set2fAny gl p j.1 j.2 jitterNames _
  unfold Set2fAny
  simp only
  rw [if_pos hloc]
  exact List.mem_append_right _ (List.mem_singleton.mpr rfl)

theorem commonUniformCalls_congr (gl : Driver) (p : Nat) (w h : Int) (t : ℚ) (j : ℚ × ℚ)
    (a b : Init) (hcam : a.camera = b.camera) (hbot : a.cloudBottom = b.cloudBottom)
    (htop : a.cloudTop = b.cloudTop) :
    commonUniformCalls gl p w h t j a = commonUniformCalls gl p w h t j b := by
  unfold commonUniformCalls
  rw [hcam, hbot, htop]

theorem infix_append_left_of (a l b : List GLCall) (h : l <:+: b) : l <:+: a ++ b :=
  h.trans (List.suffix_append a b).isInfix

theorem infix_append_right_of (l a b : List GLCall) (h : l <:+: a) : l <:+: a ++ b :=
  h.trans (List.prefix_append a b).isInfix

theorem commonUniformCalls_infix_passCalls (gl : Driver) (sh : Shader) (w h : Int) (t : ℚ)
    (j : ℚ × ℚ) (s : Init) :
    commonUniformCalls gl sh.ID w h t j s <:+: passCalls gl sh w h t j s := by
  unfold passCalls
  apply infix_append_right_of
  apply infix_append_right_of
  apply infix_append_right_of
  apply infix_append_left_of
  exact List.infix_refl _

theorem commonUniformCalls_infix_sceneCalls (gl : Driver) (fbo : Nat) (sh : Shader) (w h : Int)
    (t : ℚ) (j : ℚ × ℚ) (s : Init) :
    commonUniformCalls gl sh.ID w h t j s <:+: sceneCalls gl fbo sh w h t j s := by
  unfold sceneCalls
  apply infix_append_right_of
  apply infix_append_right_of
  apply infix_append_right_of
  apply infix_append_right_of
  apply infix_append_left_of
  exact List.infix_refl _

theorem passCalls_infix_combinedCalls (gl : Driver) (ws co : Shader) (w h : Int) (t : ℚ)
    (j : ℚ × ℚ) (s : Init) :
    passCalls gl ws w h t j s <:+: combinedCalls gl ws co w h t j s
      ∧ passCalls gl co w h t j s <:+: combinedCalls gl ws co w h t j s := by
  unfold combinedCalls
  constructor
  · apply infix_append_right_of
    apply infix_append_right_of
    apply infix_append_right_of
    exact List.infix_refl _
  · apply infix_append_right_of
    apply infix_append_left_of
    exact List.infix_refl _

theorem resolutionOrJitter_commonUniformCalls (gl : Driver) (p : Nat) (w h : Int) (t : ℚ)
    (j : ℚ × ℚ) (s : Init) :
    ∀ c ∈ commonUniformCalls gl p w h t j s, resolutionOrJitter w h j c :=
  commonUniformCalls_forall (resolutionOrJitter w h j) gl p w h t j s
    (fun _ _ => trivial) (fun _ => Or.inl ⟨rfl, rfl⟩) (fun _ => Or.inr ⟨rfl, rfl⟩)
    (fun _ _ _ _ => trivial) (fun _ _ => trivial)

theorem resolutionOrJitter_textureCalls (gl : Driver) (sh : Shader) (w h : Int) (j : ℚ × ℚ)
    (s : Init) : ∀ c ∈ textureCalls gl sh s, resolutionOrJitter w h j c :=
  textureCalls_forall (resolutionOrJitter w h j) gl sh s (fun _ _ _ => trivial)
    (fun _ _ _ => trivial)

theorem resolutionOrJitter_passCalls (gl : Driver) (sh : Shader) (w h : Int) (t : ℚ)
    (j : ℚ × ℚ) (s : Init) :
    ∀ c ∈ passCalls gl sh w h t j s, resolutionOrJitter w h j c := by
  unfold passCalls
  simp only [List.forall_mem_append]
  refine ⟨⟨⟨⟨?_, resolutionOrJitter_commonUniformCalls gl sh.ID w h t j s⟩, ?_⟩,
    resolutionOrJitter_textureCalls gl sh w h j s⟩, ?_⟩
  all_goals simp [resolutionOrJitter]

theorem resolutionOrJitter_sceneCalls (gl : Driver) (fbo : Nat) (sh : Shader) (w h : Int)
    (t : ℚ) (j : ℚ × ℚ) (s : Init) :
    ∀ c ∈ sceneCalls gl fbo sh w h t j s, resolutionOrJitter w h j c := by
  unfold sceneCalls
  simp only [List.forall_mem_append]
  refine ⟨⟨⟨⟨⟨⟨⟨⟨?_, ?_⟩, ?_⟩, ?_⟩, resolutionOrJitter_commonUniformCalls gl sh.ID w h t j s⟩,
    ?_⟩, resolutionOrJitter_textureCalls gl sh w h j s⟩, ?_⟩, ?_⟩
  · simp [resolutionOrJitter]
  · simp [resolutionOrJitter, disableAllCalls]
  · simp [resolutionOrJitter, ClearColorOnly]
  · simp [resolutionOrJitter]
  · simp [resolutionOrJitter]
  · split <;> simp [resolutionOrJitter]
  · simp [resolutionOrJitter]

theorem resolutionOrJitter_combinedCalls (gl : Driver) (ws co : Shader) (w h : Int) (t : ℚ)
    (j : ℚ × ℚ) (s : Init) :
    ∀ c ∈ combinedCalls gl ws co w h t j s, resolutionOrJitter w h j c := by
  unfold combinedCalls
  simp only [List.forall_mem_append]
  refine ⟨⟨⟨resolutionOrJitter_passCalls gl ws w h t j s, ?_⟩,
    resolutionOrJitter_passCalls gl co w h t j s⟩, ?_⟩
  all_goals simp [resolutionOrJitter]

theorem resolutionOrJitter_reset (w h : Int) (j : ℚ × ℚ) :
    ∀ c ∈ ResetFullscreenState w h ++ ClearColorOnly, resolutionOrJitter w h j c := by
  simp [resolutionOrJitter, ResetFullscreenState, ClearColorOnly]

/-- The only two-float uniform of the composite stage is the resolution. -/
theorem resolutionOrJitter_compositeStageCalls (gl : Driver) (w h : Int) (j : ℚ × ℚ) (s : Init)
    (texCur texHist : Nat) :
    ∀ c ∈ compositeStageCalls gl w h s texCur texHist, resolutionOrJitter w h j c := by
  unfold compositeStageCalls
  rcases Option.eq_none_or_eq_some s.taaShader with hsh | ⟨sh, hsh⟩
  · simp [hsh]
  · by_cases hid : sh.ID = 0
    · simp [hsh, hid]
    · simp only [hsh, if_neg hid]
      unfold compositeCalls
      simp only [List.forall_mem_append]
      refine ⟨⟨⟨⟨⟨⟨⟨⟨?_, ?_⟩, ?_⟩, ?_⟩, ?_⟩, ?_⟩, ?_⟩, ?_⟩, ?_⟩
      · simp [resolutionOrJitter]
      · split <;> simp [resolutionOrJitter]
      · split <;> simp [resolutionOrJitter]
      · split <;> simp [resolutionOrJitter]
      · split <;> simp [resolutionOrJitter]
      · simp [resolutionOrJitter]
      · simp [resolutionOrJitter, ResetFullscreenState]
      · simp [resolutionOrJitter, ClearColorOnly]
      · split <;> simp [resolutionOrJitter]

/-- The commands of `ensureTaaTargets` write no uniform. -/
theorem resolutionOrJitter_ensure (gl : Driver) (w h : Int) (j : ℚ × ℚ) (s : Init)
    (ecmds : List GLCall) (hec : ecmds = [] ∨ ecmds = destroyCalls s ++ createCalls gl w h) :
    ∀ c ∈ ecmds, resolutionOrJitter w h j c := by
  rcases hec with e | e
  · rw [e]
    intro c hc
    exact absurd hc (List.not_mem_nil c)
  · rw [e]
    unfold destroyCalls createCalls colorSlotCalls
    simp only [List.forall_mem_append]
    refine ⟨⟨⟨?_, ?_⟩, ?_⟩, ⟨⟨?_, ⟨⟨?_, ?_⟩, ?_⟩⟩, ?_⟩⟩
    · split <;> simp [resolutionOrJitter]
    · split <;> simp [resolutionOrJitter]
    · split <;> simp [resolutionOrJitter]
    all_goals simp [resolutionOrJitter]

theorem toInt32_of_lt (n : Nat) (h : n < 2 ^ 31) : toInt32 n = (n : Int) := by
  have h1 : n % 2 ^ 32 = n := Nat.mod_eq_of_lt (by omega)
  unfold toInt32
  rw [h1, if_pos h]

theorem mem_scenePrograms_combined (p : Init) (ws co : Shader) (hmode : p.activeShader = 8)
    (hws : p.watersky = some ws) (hco : p.cloudsOver = some co) (P : Shader)
    (hP : P ∈ scenePrograms p) : P = ws ∨ P = co := by
  unfold scenePrograms at hP
  rw [if_pos hmode, hws, hco] at hP
  simpa using hP

theorem mem_scenePrograms_direct (p : Init) (sh : Shader) (hmode : ¬ p.activeShader = 8)
    (hsh : selectedShader p = some sh) (P : Shader) (hP : P ∈ scenePrograms p) : P = sh := by
  unfold scenePrograms at hP
  rw [if_neg hmode, hsh] at hP
  simpa using hP

/-- The counter and the jitter of every drawn frame, in the four cases of mode and temporal
state: the counter is incremented once, the jitter is `(0, 0)` with temporal mode off and
`Halton2D((int)frameCounter)` of the incremented counter with temporal mode on, every scene
pass binds its common uniforms with that jitter, and no other two-float value than the
resolution and the jitter is written to a uniform. -/
theorem render_drawn_frame_jitter (env : FrameEnv) (s : Init)
    (hidx : s.taaIndex = 0 ∨ s.taaIndex = 1)
    (hsize : 0 < env.framebufferSize.1 ∧ 0 < env.framebufferSize.2)
    (hprog : activeProgramMissing (processInput env.input s) = false)
    (hquad : (processInput env.input s).quad.isSome = true)
    (hens : (processInput env.input s).taaEnabled = true →
      (ensureTaaTargets env.gl env.framebufferSize.1 env.framebufferSize.2
          (processInput env.input s)).1 = Outcome.returned) :
    ∃ s2 cmds j, render env s = some s2 ∧ s2.glLog = s.glLog ++ cmds
      ∧ s2.frameCounter = ((processInput env.input s).frameCounter + 1) % 2 ^ 64
      ∧ (if (processInput env.input s).taaEnabled = true then
          F32.Halton2D (toInt32 s2.frameCounter) = some j else j = (0, 0))
      ∧ (∀ P ∈ scenePrograms (processInput env.input s),
          commonUniformCalls env.gl P.ID env.framebufferSize.1 env.framebufferSize.2 env.time j
            (processInput env.input s) <:+: cmds)
      ∧ ∀ c ∈ cmds, resolutionOrJitter env.framebufferSize.1 env.framebufferSize.2 j c := by
  have hlog0 := processInput_glLog env.input s
  have hidxp : (processInput env.input s).taaIndex = 0
      ∨ (processInput env.input s).taaIndex = 1 := by
    rw [processInput_taaIndex]; exact hidx
  rw [render_eq, if_neg (by omega)]
  generalize processInput env.input s = p at *
  generalize env.framebufferSize.1 = w at *
  generalize env.framebufferSize.2 = h at *
  have hcu : ∀ (P : Nat) (j : ℚ × ℚ),
      commonUniformCalls env.gl P w h env.time j (ensureTaaTargets env.gl w h p).2
        = commonUniformCalls env.gl P w h env.time j p := fun P j =>
    commonUniformCalls_congr env.gl P w h env.time j _ _
      (ensureTaaTargets_keeps (fun s => s.camera) (fun _ _ _ _ _ _ _ => rfl) env.gl w h p)
      (ensureTaaTargets_keeps (fun s => s.cloudBottom) (fun _ _ _ _ _ _ _ => rfl) env.gl w h p)
      (ensureTaaTargets_keeps (fun s => s.cloudTop) (fun _ _ _ _ _ _ _ => rfl) env.gl w h p)
  unfold activeProgramMissing at hprog
  by_cases hmode : p.activeShader = 8
  · rw [if_pos hmode] at hprog ⊢
    rw [Bool.or_eq_false_iff, usable_iff, usable_iff] at hprog
    obtain ⟨⟨ws, hws, hw0⟩, ⟨co, hco, hc0⟩⟩ := hprog
    have hmem := mem_scenePrograms_combined p ws co hmode hws hco
    cases htaa : p.taaEnabled with
    | false =>
      refine ⟨_, ResetFullscreenState w h ++ ClearColorOnly
          ++ combinedCalls env.gl ws co w h env.time (0, 0) p
          ++ [GLCall.swapBuffers, GLCall.pollEvents], (0, 0),
        renderCombined_off env.gl w h env.time p ws co hws hco hw0 hc0 hquad htaa, ?_,
        rfl, ?_, fun P hP => ?_, ?_⟩
      · show p.glLog ++ (ResetFullscreenState w h ++ ClearColorOnly
          ++ combinedCalls env.gl ws co w h env.time (0, 0) p)
          ++ [GLCall.swapBuffers, GLCall.pollEvents] = s.glLog ++ _
        rw [hlog0, List.append_assoc]
      · simp
      · apply infix_append_right_of
        apply infix_append_left_of
        rcases hmem P hP with e | e
        · rw [e]
          exact (commonUniformCalls_infix_passCalls _ _ _ _ _ _ _).trans
            (passCalls_infix_combinedCalls _ _ _ _ _ _ _ _).1
        · rw [e]
          exact (commonUniformCalls_infix_passCalls _ _ _ _ _ _ _).trans
            (passCalls_infix_combinedCalls _ _ _ _ _ _ _ _).2
      · simp only [List.forall_mem_append]
        refine ⟨⟨List.forall_mem_append.mp (resolutionOrJitter_reset w h (0, 0)),
          resolutionOrJitter_combinedCalls _ _ _ _ _ _ _ _⟩, ?_⟩
        simp [resolutionOrJitter]
    | true =>
      have hret := hens htaa
      obtain ⟨ecmds, helog, hec⟩ := ensureTaaTargets_returned_log env.gl w h p hret
      obtain ⟨j, fresh, hist, s2, hj, _, _, hrun, hfc, hlog⟩ :=
        renderCombined_on env.gl w h env.time p ws co hws hco hw0 hc0 hquad htaa hret hidxp
      rw [helog, hlog0, List.append_assoc] at hlog
      refine ⟨s2, _, j, hrun, hlog, hfc, ?_, fun P hP => ?_, ?_⟩
      · rw [if_pos rfl, hfc]
        exact hj
      · apply infix_append_left_of
        apply infix_append_right_of
        apply infix_append_right_of
        apply infix_append_right_of
        apply infix_append_left_of
        rw [← hcu]
        rcases hmem P hP with e | e
        · rw [e]
          exact (commonUniformCalls_infix_passCalls _ _ _ _ _ _ _).trans
            (passCalls_infix_combinedCalls _ _ _ _ _ _ _ _).1
        · rw [e]
          exact (commonUniformCalls_infix_passCalls _ _ _ _ _ _ _).trans
            (passCalls_infix_combinedCalls _ _ _ _ _ _ _ _).2
      · simp only [List.forall_mem_append]
        refine ⟨resolutionOrJitter_ensure env.gl w h j p ecmds hec,
          ⟨⟨⟨⟨⟨⟨?_, ?_⟩, ?_⟩, resolutionOrJitter_combinedCalls _ _ _ _ _ _ _ _⟩, ?_⟩,
            resolutionOrJitter_compositeStageCalls _ _ _ _ _ _ _⟩, ?_⟩⟩
        · simp [resolutionOrJitter]
        · simp [resolutionOrJitter, disableAllCalls]
        · simp [resolutionOrJitter, ClearColorOnly]
        · simp [resolutionOrJitter]
        · simp [resolutionOrJitter]
  · rw [if_neg hmode] at hprog ⊢
    rw [usable_iff] at hprog
    obtain ⟨sh, hsh, hid⟩ := hprog
    have hmem := mem_scenePrograms_direct p sh hmode hsh
    cases htaa : p.taaEnabled with
    | false =>
      refine ⟨_, ResetFullscreenState w h ++ ClearColorOnly
          ++ passCalls env.gl sh w h env.time (0, 0) p
          ++ [GLCall.swapBuffers, GLCall.pollEvents], (0, 0),
        renderDirect_off env.gl w h env.time p sh hsh hid hquad htaa, ?_,
        rfl, ?_, fun P hP => ?_, ?_⟩
      · show p.glLog ++ (ResetFullscreenState w h ++ ClearColorOnly
          ++ passCalls env.gl sh w h env.time (0, 0) p)
          ++ [GLCall.swapBuffers, GLCall.pollEvents] = s.glLog ++ _
        rw [hlog0, List.append_assoc]
      · simp
      · apply infix_append_right_of
        apply infix_append_left_of
        rw [hmem P hP]
        exact commonUniformCalls_infix_passCalls _ _ _ _ _ _ _
      · simp only [List.forall_mem_append]
        refine ⟨⟨List.forall_mem_append.mp (resolutionOrJitter_reset w h (0, 0)),
          resolutionOrJitter_passCalls _ _ _ _ _ _ _⟩, ?_⟩
        simp [resolutionOrJitter]
    | true =>
      have hret := hens htaa
      obtain ⟨ecmds, helog, hec⟩ := ensureTaaTargets_returned_log env.gl w h p hret
      obtain ⟨j, fresh, hist, s2, hj, _, _, hrun, hfc, hlog⟩ :=
        renderDirect_on env.gl w h env.time p sh hsh hid hquad htaa hret hidxp
      rw [helog, hlog0, List.append_assoc] at hlog
      refine ⟨s2, _, j, hrun, hlog, hfc, ?_, fun P hP => ?_, ?_⟩
      · rw [if_pos rfl, hfc]
        exact hj
      · apply infix_append_left_of
        apply infix_append_right_of
        apply infix_append_right_of
        apply infix_append_left_of
        rw [← hcu, hmem P hP]
        exact commonUniformCalls_infix_sceneCalls _ _ _ _ _ _ _ _
      · simp only [List.forall_mem_append]
        refine ⟨resolutionOrJitter_ensure env.gl w h j p ecmds hec,
          ⟨⟨⟨?_, resolutionOrJitter_sceneCalls _ _ _ _ _ _ _ _⟩,
            resolutionOrJitter_compositeStageCalls _ _ _ _ _ _ _⟩, ?_⟩⟩
        · simp [resolutionOrJitter]
        · simp [resolutionOrJitter]

theorem toInt32_two_pow_31 : toInt32 (2 ^ 31) = -2 ^ 31 := by
  decide

theorem resolutionOrJitter_uniform2f (w h : Int) (j : ℚ × ℚ) (cmds : List GLCall)
    (hall : ∀ c ∈ cmds, resolutionOrJitter w h j c) (loc : Int) (x y : ℚ)
    (hmem : GLCall.uniform2f loc x y ∈ cmds) :
    (x = (w : ℚ) ∧ y = (h : ℚ)) ∨ (x = j.1 ∧ y = j.2) :=
  hall _ hmem

theorem toInt32_range (n : Nat) : -(2 ^ 31) ≤ toInt32 n ∧ toInt32 n < 2 ^ 31 := by
  unfold toInt32
  have h := Nat.mod_lt n (by norm_num : 0 < 2 ^ 32)
  split <;> constructor <;> omega

/-- At a negative `int` argument the loop of `HaltonSequenceAt` does not run on either axis
and `Halton2D` returns `(-0.5, -0.5)`. -/
theorem binary32_Halton2D_negative (i : Int) (h0 : -(2 ^ 31) ≤ i) (h1 : i < 0) :
    F32.Halton2D i = some (-1 / 2, -1 / 2) := by
  have e : f32 (0 - 1 / 2) = -1 / 2 := by decide!
  unfold F32.Halton2D
  rw [wrapInt32_of_range (i + 1) (by omega) (by omega),
    binary32_HaltonSequenceAt_nonpos (i + 1) 2 (by omega),
    binary32_HaltonSequenceAt_nonpos (i + 1) 3 (by omega)]
  simp only [e]

/-- At `INT_MAX` the addition `frameIndex + 1` wraps to `INT_MIN`: `Halton2D` returns
`(-0.5, -0.5)`. -/
theorem binary32_Halton2D_int_max : F32.Halton2D (2 ^ 31 - 1) = some (-1 / 2, -1 / 2) := by
  decide!

/-- C21. In every drawn frame (the surface has positive size, the active programs and the quad
are loaded, and with temporal mode on `ensureTaaTargets` returns) `render` returns and has
incremented the 64-bit counter `frameCounter` once, after the reset to `0` that a press of `T`
in the same frame makes.  With temporal mode on, the jitter `j` of every scene pass, base and
overlay, is what `Halton2D` returns for the incremented counter `c`, which the call
`Halton2D((int)frameCounter)` passes as a 32-bit `int`: for `c < 2^31` the argument is `c`,
in the frame in which `T` switched temporal mode on it is `1`, and where the argument is
negative or `INT_MAX`, whose successor wraps, `j` is `(-0.5, -0.5)`.  With temporal mode off
`j` is `(0, 0)`.  The uniform writes of `bindCommonUniforms` with this `j` are part of the
commands of the frame for each scene program, the jitter uniform of a program that has one is
written with `j`, and every two-float uniform written in the frame carries the resolution or
`j`. -/
theorem render_jitter_of_counter (env : FrameEnv) (s : Init)
    (hidx : s.taaIndex = 0 ∨ s.taaIndex = 1)
    (hsize : 0 < env.framebufferSize.1 ∧ 0 < env.framebufferSize.2)
    (hprog : activeProgramMissing (processInput env.input s) = false)
    (hquad : (processInput env.input s).quad.isSome = true)
    (hens : (processInput env.input s).taaEnabled = true →
      (ensureTaaTargets env.gl env.framebufferSize.1 env.framebufferSize.2
          (processInput env.input s)).1 = Outcome.returned) :
    ∃ s2 cmds j, render env s = some s2 ∧ s2.glLog = s.glLog ++ cmds
      ∧ s2.frameCounter
          = ((if risingEdge env.input GLFW_KEY_T s then 0 else s.frameCounter) + 1) % 2 ^ 64
      ∧ (if (processInput env.input s).taaEnabled = true then
          F32.Halton2D (toInt32 s2.frameCounter) = some j else j = (0, 0))
      ∧ ((processInput env.input s).taaEnabled = true → s2.frameCounter < 2 ^ 31 →
          F32.Halton2D (s2.frameCounter : Int) = some j)
      ∧ (risingEdge env.input GLFW_KEY_T s = true →
          s2.frameCounter = 1
            ∧ ((processInput env.input s).taaEnabled = true → F32.Halton2D 1 = some j))
      ∧ ((processInput env.input s).taaEnabled = true →
          (toInt32 s2.frameCounter < 0 ∨ toInt32 s2.frameCounter = 2 ^ 31 - 1) →
          j = (-1 / 2, -1 / 2))
      ∧ (∀ P ∈ scenePrograms (processInput env.input s),
          commonUniformCalls env.gl P.ID env.framebufferSize.1 env.framebufferSize.2 env.time j
              (processInput env.input s) <:+: cmds
            ∧ (GetLocAny env.gl P.ID jitterNames ≠ -1 →
                GLCall.uniform2f (GetLocAny env.gl P.ID jitterNames) j.1 j.2 ∈ cmds))
      ∧ ∀ loc x y, GLCall.uniform2f loc x y ∈ cmds →
          (x = (env.framebufferSize.1 : ℚ) ∧ y = (env.framebufferSize.2 : ℚ))
            ∨ (x = j.1 ∧ y = j.2) := by
  obtain ⟨s2, cmds, j, hrun, hlog, hfc, hj, hinf, hall⟩ :=
    render_drawn_frame_jitter env s hidx hsize hprog hquad hens
  rw [processInput_frameCounter] at hfc
  have hsmall : (processInput env.input s).taaEnabled = true → s2.frameCounter < 2 ^ 31 →
      F32.Halton2D (s2.frameCounter : Int) = some j := by
    intro hon hlt
    rw [if_pos hon, toInt32_of_lt _ hlt] at hj
    exact hj
  refine ⟨s2, cmds, j, hrun, hlog, hfc, hj, hsmall, fun hedge => ?_, fun hon hcase => ?_,
    fun P hP => ?_, resolutionOrJitter_uniform2f _ _ _ cmds hall⟩
  · have h1 : s2.frameCounter = 1 := by
      rw [hfc, hedge]
      rfl
    refine ⟨h1, fun hon => ?_⟩
    have := hsmall hon (by rw [h1]; norm_num)
    rw [h1] at this
    exact_mod_cast this
  · rw [if_pos hon] at hj
    rcases hcase with hneg | hmax
    · rw [binary32_Halton2D_negative _ (toInt32_range _).1 hneg] at hj
      exact (Option.some.inj hj).symm
    · rw [hmax, binary32_Halton2D_int_max] at hj
      exact (Option.some.inj hj).symm
  · exact ⟨hinf P hP, fun hloc =>
      (hinf P hP).subset (jitter_mem_commonUniformCalls env.gl P.ID _ _ env.time j _ hloc)⟩

theorem render_jitter_of_counter_witness :
    ∃ s2 cmds j, render toggleEnv directOffState = some s2
      ∧ s2.glLog = directOffState.glLog ++ cmds
      ∧ s2.frameCounter
          = ((if risingEdge toggleEnv.input GLFW_KEY_T directOffState then 0
              else directOffState.frameCounter) + 1) % 2 ^ 64
      ∧ (if (processInput toggleEnv.input directOffState).taaEnabled = true then
          F32.Halton2D (toInt32 s2.frameCounter) = some j else j = (0, 0))
      ∧ ((processInput toggleEnv.input directOffState).taaEnabled = true →
          s2.frameCounter < 2 ^ 31 → F32.Halton2D (s2.frameCounter : Int) = some j)
      ∧ (risingEdge toggleEnv.input GLFW_KEY_T directOffState = true →
          s2.frameCounter = 1
            ∧ ((processInput toggleEnv.input directOffState).taaEnabled = true →
                F32.Halton2D 1 = some j))
      ∧ ((processInput toggleEnv.input directOffState).taaEnabled = true →
          (toInt32 s2.frameCounter < 0 ∨ toInt32 s2.frameCounter = 2 ^ 31 - 1) →
          j = (-1 / 2, -1 / 2))
      ∧ (∀ P ∈ scenePrograms (processInput toggleEnv.input directOffState),
          commonUniformCalls toggleEnv.gl P.ID toggleEnv.framebufferSize.1
              toggleEnv.framebufferSize.2 toggleEnv.time j
              (processInput toggleEnv.input directOffState) <:+: cmds
            ∧ (GetLocAny toggleEnv.gl P.ID jitterNames ≠ -1 →
                GLCall.uniform2f (GetLocAny toggleEnv.gl P.ID jitterNames) j.1 j.2 ∈ cmds))
      ∧ ∀ loc x y, GLCall.uniform2f loc x y ∈ cmds →
          (x = (toggleEnv.framebufferSize.1 : ℚ) ∧ y = (toggleEnv.framebufferSize.2 : ℚ))
            ∨ (x = j.1 ∧ y = j.2) :=
  render_jitter_of_counter toggleEnv directOffState (Or.inl rfl) (by decide) rfl rfl
    (fun _ => rfl)

/-- The frame in which `T` switches temporal mode on, on the sample inputs: the counter, 41
before the frame, is 1 after it, and the jitter uniform (location 6) is written with
`Halton2D(1) = (-1/4, 2796203 / 2^24)`, the second coordinate being the binary32 value of
`2/3 - 1/2`. -/
theorem render_toggle_frame_jitter :
    ∃ s2 cmds, render toggleEnv directOffState = some s2
      ∧ s2.glLog = directOffState.glLog ++ cmds
      ∧ s2.frameCounter = 1
      ∧ GLCall.uniform2f 6 (-1 / 4) (2796203 / 16777216) ∈ cmds
      ∧ ∀ loc x y, GLCall.uniform2f loc x y ∈ cmds →
          (x = 800 ∧ y = 600) ∨ (x = -1 / 4 ∧ y = 2796203 / 16777216) := by
  obtain ⟨s2, cmds, j, hrun, hlog, hfc, hj, hinf, hall⟩ :=
    render_drawn_frame_jitter toggleEnv directOffState (Or.inl rfl) (by decide) rfl rfl
      (fun _ => rfl)
  have hp : (processInput toggleEnv.input directOffState).frameCounter = 0 := rfl
  have hfc2 : s2.frameCounter = 1 := by
    rw [hfc, hp]
    rfl
  have hon : (processInput toggleEnv.input directOffState).taaEnabled = true := rfl
  have h1 : toInt32 1 = 1 := by decide
  rw [if_pos hon, hfc2, h1, binary32_Halton2D_one] at hj
  have hj2 : j = (-1 / 4, 2796203 / 16777216) := (Option.some.inj hj).symm
  subst hj2
  have hmem : ({ ID := 11 } : Shader) ∈ scenePrograms (processInput toggleEnv.input
      directOffState) := by
    have hs : scenePrograms (processInput toggleEnv.input directOffState) = [{ ID := 11 }] :=
      rfl
    rw [hs]
    exact List.mem_singleton.mpr rfl
  have hloc : GetLocAny jitterDriver 11 jitterNames = 6 := by decide
  have hwr := jitter_mem_commonUniformCalls jitterDriver 11 800 600 1
    (-1 / 4, 2796203 / 16777216)
    (processInput toggleEnv.input directOffState) (by rw [hloc]; decide)
  rw [hloc] at hwr
  refine ⟨s2, cmds, hrun, hlog, hfc2, (hinf _ hmem).subset hwr, fun loc x y hm => ?_⟩
  have := resolutionOrJitter_uniform2f _ _ _ cmds hall loc x y hm
  simpa using this

/-- The temporal frame that takes the counter to `INT_MAX = 2^31 - 1`, on the sample inputs:
`frameIndex + 1` wraps in `Halton2D`, and the jitter uniform (location 6) is written with
`(-1/2, -1/2)`. -/
theorem render_int_max_frame_jitter :
    ∃ s2 cmds, render jitterEnv intMaxFrameState = some s2
      ∧ s2.glLog = intMaxFrameState.glLog ++ cmds
      ∧ s2.frameCounter = 2 ^ 31 - 1
      ∧ GLCall.uniform2f 6 (-1 / 2) (-1 / 2) ∈ cmds
      ∧ ∀ loc x y, GLCall.uniform2f loc x y ∈ cmds →
          (x = 800 ∧ y = 600) ∨ (x = -1 / 2 ∧ y = -1 / 2) := by
  obtain ⟨s2, cmds, j, hrun, hlog, hfc, hj, hinf, hall⟩ :=
    render_drawn_frame_jitter jitterEnv intMaxFrameState (Or.inl rfl) (by decide) rfl rfl
      (fun _ => rfl)
  have hp : (processInput jitterEnv.input intMaxFrameState).frameCounter = 2 ^ 31 - 2 := rfl
  have hfc2 : s2.frameCounter = 2 ^ 31 - 1 := by
    rw [hfc, hp]
    norm_num
  have hon : (processInput jitterEnv.input intMaxFrameState).taaEnabled = true := rfl
  have h1 : toInt32 (2 ^ 31 - 1) = 2 ^ 31 - 1 := by decide
  rw [if_pos hon, hfc2, h1, binary32_Halton2D_int_max] at hj
  have hj2 : j = (-1 / 2, -1 / 2) := (Option.some.inj hj).symm
  subst hj2
  have hmem : ({ ID := 11 } : Shader) ∈ scenePrograms (processInput jitterEnv.input
      intMaxFrameState) := by
    have hs : scenePrograms (processInput jitterEnv.input intMaxFrameState) = [{ ID := 11 }] :=
      rfl
    rw [hs]
    exact List.mem_singleton.mpr rfl
  have hloc : GetLocAny jitterDriver 11 jitterNames = 6 := by decide
  have hwr := jitter_mem_commonUniformCalls jitterDriver 11 800 600 1 (-1 / 2, -1 / 2)
    (processInput jitterEnv.input intMaxFrameState) (by rw [hloc]; decide)
  rw [hloc] at hwr
  refine ⟨s2, cmds, hrun, hlog, hfc2, (hinf _ hmem).subset hwr, fun loc x y hm => ?_⟩
  have := resolutionOrJitter_uniform2f _ _ _ cmds hall loc x y hm
  simpa using this

end VolumetricClouds
